import Mathlib

/-! # tbd: the command-line driver and the dyld shared-cache driver

A shallow embedding of `src/main.cc` (argument handling, `create_tbd_file`,
the per-input processing loop) and of `src/parse_dsc_for_main.c` (selection
and extraction of the images of a dyld shared cache).

Conventions of the embedding.

* Machine words (`uint64_t` option words, bitsets, the `pad` word) are
  natural numbers, tested and combined with `&&&` and `|||`.
* Functions of the repository that are declared outside `src/` (the mach-o
  reader, the tbd writer, the recursion helper, the file system) are fields
  of an environment record; a call to one of them is also recorded as an
  event, so that what the program does to the outside is a list of events.
* A piece of `main` that leaves through `exit(1)` or `return n` is
  `outcome.exit n`; a loop that never ends is `outcome.hang` or `none`.
-/

namespace Tbd

/-! ## `src/main.cc`: data -/

/-- Results of `macho::utils::tbd::create_from_macho_library`, the members
named by the two switches of `create_tbd_file`. -/
inductive creation_result where
  | ok
  | invalid_subtype
  | invalid_cputype
  | invalid_load_command
  | invalid_segment
  | failed_to_iterate_load_commands
  | failed_to_iterate_symbols
  | contradictary_load_command_information
  | empty_installation_name
  | uuid_is_not_unique
  | platform_not_found
  | platform_not_supported
  | unrecognized_platform
  | multiple_platforms
  | not_a_library
  | has_no_uuid
  | contradictary_container_information
  | no_provided_architectures
  | failed_to_allocate_memory
  | no_symbols_or_reexports
  deriving DecidableEq, Repr

/-- Values of `enum macho::utils::tbd::platform`; `platform::none` is the
value that `string_to_platform` gives for a string naming no platform. -/
abbrev platform := Nat

/-- The member `macho::utils::tbd::platform::none`. -/
def platform_none : platform := 0

/-- Values of `enum macho::utils::tbd::version`; the value `0` is the one the
code writes `(enum macho::utils::tbd::version)0` and uses for "not given". -/
abbrev version := Nat

/-- The member `macho::utils::tbd::version::v1`. -/
def version_v1 : version := 1

/-- The member `macho::utils::tbd::version::v2`. -/
def version_v2 : version := 2

/-- The `FILE *` a tbd is written to: the process's standard output, or a
stream obtained from `fopen(path, "w")`. -/
inductive output_stream where
  | stdout
  | file (path : String)
  deriving DecidableEq, Repr

/-- The arguments of one call of `create_from_macho_library` after the
`macho::file`: stream, options, platform, version and the two bitsets. -/
structure creation_args where
  tbd_file : output_stream
  options : Nat
  platform : platform
  version : version
  architectures : Nat
  architecture_overrides : Nat
  deriving DecidableEq, Repr

/-- What `main.cc` does to the outside world, in program order. -/
inductive event where
  | stdout (text : String)
  | stderr (text : String)
  | create_from_macho_library (file : String) (args : creation_args)
  | fopen (path : String) (opened : Bool)
  | fclose (path : String)
  | create_directories (path : String) (index : Nat) (create_last_as_directory : Bool)
  | remove_directories (path : String)
  | open_library (path : String)
  deriving DecidableEq, Repr

/-- The functions `create_tbd_file` and `print_platforms` call that are
declared in `mach-o/utils/tbd/tbd.h`, outside `src/`. `platform_names` lists
what `platform_to_string` returns for the platform numbers 1, 2, ... up to
the first number for which it returns a null pointer. A `macho::file` is
named by the path it was opened from. -/
structure tbd_env where
  string_to_platform : String → platform
  platform_names : List String
  create_from_macho_library : String → creation_args → creation_result

/-- The enumerators of `enum creation_handling`. -/
def creation_handling_print_paths : Nat := 1 <<< 0

/-- Second enumerator of `enum creation_handling`. -/
def creation_handling_ignore_no_provided_architectures : Nat := 1 <<< 1

/-- Third enumerator of `enum creation_handling`. -/
def creation_handling_dont_print_warnings : Nat := 1 <<< 2

/-- The C test `if (word & mask)`. -/
def has_flag (word mask : Nat) : Bool := word &&& mask != 0

/-! ## `src/main.cc`: `print_platforms` and `create_tbd_file` -/

/-- `print_platforms` (main.cc 286-304): the first platform name, then every
further name after a comma, then a newline. -/
def print_platforms (env : tbd_env) : List event :=
  match env.platform_names with
  | [] => [event.stdout "\n"]
  | first :: rest =>
    event.stdout first :: (rest.map (fun name => event.stdout (", " ++ name)))
      ++ [event.stdout "\n"]

/-- The message the first switch of `create_tbd_file` prints for a
recoverable platform result (main.cc 315-354). -/
def platform_failure_message (result : creation_result) (print_paths : Bool)
    (macho_file_path : String) : List event :=
  match result with
  | creation_result.platform_not_found =>
    if print_paths then
      [event.stdout ("Failed to find platform in mach-o library (at path " ++ macho_file_path ++ "). ")]
    else [event.stdout "Failed to find platform in provided mach-o library. "]
  | creation_result.platform_not_supported =>
    if print_paths then
      [event.stdout ("Platform in mach-o library (at path " ++ macho_file_path ++ ") is unsupported. ")]
    else [event.stdout "Platform in provided mach-o library is unsupported. "]
  | creation_result.unrecognized_platform =>
    if print_paths then
      [event.stdout ("Platform in mach-o library (at path " ++ macho_file_path ++ ") is unrecognized. ")]
    else [event.stdout "Platform in provided mach-o library is unrecognized. "]
  | creation_result.multiple_platforms =>
    if print_paths then
      [event.stdout ("Multiple platforms found in mach-o library (at path " ++ macho_file_path ++ "). ")]
    else [event.stdout "Multiple platforms found in provided mach-o library. "]
  | _ => []

/-- The prompt written at the head of every round of the do-while loop. -/
def platform_prompt : event :=
  event.stdout
    "Please provide a replacement platform (Input --list-platform to see a list of platforms): "

/-- The do-while loop of `create_tbd_file` (main.cc 359-368), over the lines
still to be read from standard input. Each round prints the prompt and reads
one line; the line `--list-platform` prints the platforms, any other line is
given to `string_to_platform`; the loop ends once that is not
`platform::none`. It returns the platform read, the lines left and the
output; when the lines run out before a platform is named no round can end
the loop, which is `none`. -/
def read_replacement_platform (env : tbd_env) :
    List String → Option (platform × List String × List event)
  | [] => none
  | platform_string :: rest =>
    if platform_string = "--list-platform" then
      match read_replacement_platform env rest with
      | none => none
      | some (new_platform, left, out) =>
        some (new_platform, left, platform_prompt :: print_platforms env ++ out)
    else
      let new_platform := env.string_to_platform platform_string
      if new_platform = platform_none then
        match read_replacement_platform env rest with
        | none => none
        | some (later, left, out) => some (later, left, platform_prompt :: out)
      else some (new_platform, rest, [platform_prompt])

/-- Whether `result` is one of the four results the first `if` of
`create_tbd_file` tests for (main.cc 314). -/
def is_platform_failure (result : creation_result) : Bool :=
  result = creation_result.platform_not_found
    || result = creation_result.platform_not_supported
    || result = creation_result.unrecognized_platform
    || result = creation_result.multiple_platforms

/-- The second switch of `create_tbd_file` (main.cc 374-512), entered when
warnings are printed: `none` for `ok` (the function returns true there),
otherwise the messages written to standard error before `return false`. -/
def creation_failure_message (result : creation_result) (creation_handling_options : Nat)
    (macho_file_path : String) : Option (List event) :=
  let print_paths := has_flag creation_handling_options creation_handling_print_paths
  let say (with_path without_path : String) : Option (List event) :=
    some [event.stderr (if print_paths then with_path else without_path)]
  match result with
  | creation_result.ok => none
  | creation_result.invalid_subtype | creation_result.invalid_cputype =>
    say ("Mach-o file (at path " ++ macho_file_path ++ "), or one of its architectures, is for an unrecognized machine\n")
      "Provided mach-o file, or one of its architectures, is for an unrecognized machine\n"
  | creation_result.invalid_load_command =>
    say ("Mach-o file (at path " ++ macho_file_path ++ "), or one of its architectures, has an invalid load-command\n")
      "Provided mach-o file, or one of its architectures, has an invalid load-command\n"
  | creation_result.invalid_segment =>
    say ("Mach-o file (at path " ++ macho_file_path ++ "), or one of its architectures, has an invalid segment\n")
      "Provided mach-o file, or one of its architectures, has an invalid segment\n"
  | creation_result.failed_to_iterate_load_commands =>
    say ("Failed to iterate through mach-o file (at path " ++ macho_file_path ++ "), or one of its architecture's load-commands\n")
      "Failed to iterate through provided mach-o file, or one of its architecture's load-commands\n"
  | creation_result.failed_to_iterate_symbols =>
    say ("Failed to iterate through mach-o file (at path " ++ macho_file_path ++ "), or one of its architecture's symbols\n")
      "Failed to iterate through provided mach-o file, or one of its architecture's symbols\n"
  | creation_result.contradictary_load_command_information =>
    say ("Mach-o file (at path " ++ macho_file_path ++ "), or one of its architectures, has multiple load-commands of the same type with contradictory information\n")
      "Provided mach-o file, or one of its architectures, has multiple load-commands of the same type with contradictory information\n"
  | creation_result.empty_installation_name =>
    say ("Mach-o file (at path " ++ macho_file_path ++ "), or one of its architectures, has an empty installation-name\n")
      "Provided mach-o file, or one of its architectures, has an empty installation-name\n"
  | creation_result.uuid_is_not_unique =>
    say ("One of mach-o file (at path " ++ macho_file_path ++ ")'s architectures has a uuid that is not unique from other architectures\n")
      "One of provided mach-o file's architectures has a uuid that is not unique from other architectures\n"
  | creation_result.platform_not_found | creation_result.platform_not_supported
  | creation_result.unrecognized_platform | creation_result.multiple_platforms => some []
  | creation_result.not_a_library =>
    say ("Mach-o file (at path " ++ macho_file_path ++ "), or one of its architectures, is not a mach-o library\n")
      "Provided mach-o file, or one of its architectures, is not a mach-o library\n"
  | creation_result.has_no_uuid =>
    say ("Mach-o file (at path " ++ macho_file_path ++ "), or one of its architectures, does not have a uuid\n")
      "Provided mach-o file, or one of its architectures, does not have a uuid\n"
  | creation_result.contradictary_container_information =>
    say ("Mach-o file (at path " ++ macho_file_path ++ ") has information in architectures contradicting the same information in other architectures\n")
      "Provided mach-o file has information in architectures contradicting the same information in other architectures\n"
  | creation_result.no_provided_architectures =>
    if has_flag creation_handling_options creation_handling_ignore_no_provided_architectures then
      some []
    else
      say ("Mach-o file (at path " ++ macho_file_path ++ ") does not have architectures provided to output tbd from\n")
        "Provided mach-o file does not have architectures provided to output tbd from\n"
  | creation_result.failed_to_allocate_memory =>
    say ("Failed to allocate memory necessary for operating on mach-o file (at path " ++ macho_file_path ++ ")\n")
      "Failed to allocate memory necessary for operating on mach-o file at provided path\n"
  | creation_result.no_symbols_or_reexports =>
    say ("Mach-o file (at path " ++ macho_file_path ++ ") does not have any symbols or reexports to be outputted\n")
      "Provided mach-o file does not have any symbols or reexports to be outputted\n"

/-- What one run of `create_tbd_file` yields: the value returned, the lines
of standard input it left unread, and its events. -/
structure creation_outcome where
  returned : Bool
  input : List String
  events : List event
  deriving DecidableEq, Repr

/-- `create_tbd_file` (main.cc 312-518). `file` names the `macho::file`;
`input` holds the lines standard input still has. The first call of
`create_from_macho_library` is made with the arguments received; on one of
the four platform results the message is printed, a replacement platform is
read, and `create_from_macho_library` is called again with the arguments
written at main.cc 370. The result is then turned into the returned flag:
true at once when warnings are not printed, else true only for `ok`. `none`
when the prompt loop never ends. -/
def create_tbd_file (env : tbd_env) (macho_file_path : String) (file : String)
    (tbd_file : output_stream) (options : Nat) (platform : platform) (version : version)
    (architectures architecture_overrides creation_handling_options : Nat)
    (input : List String) : Option creation_outcome :=
  let args : creation_args :=
    ⟨tbd_file, options, platform, version, architectures, architecture_overrides⟩
  let first := env.create_from_macho_library file args
  let first_call := event.create_from_macho_library file args
  let finish (result : creation_result) (left : List String) (events : List event) :
      creation_outcome :=
    if !(has_flag creation_handling_options creation_handling_dont_print_warnings) then
      match creation_failure_message result creation_handling_options macho_file_path with
      | none => ⟨true, left, events⟩
      | some messages => ⟨false, left, events ++ messages⟩
    else ⟨true, left, events⟩
  if is_platform_failure first then
    match read_replacement_platform env input with
    | none => none
    | some (_new_platform, left, prompts) =>
      let retry := env.create_from_macho_library file args
      some (finish retry left
        (first_call
          :: platform_failure_message first
              (has_flag creation_handling_options creation_handling_print_paths) macho_file_path
          ++ prompts ++ [event.create_from_macho_library file args]))
  else some (finish first input [first_call])

/-! ## `src/main.cc`: `main`, the argument loop -/

/-- How a piece of `main` ends: it goes on with a value, it leaves the
program with an exit status (`return n` in `main`, `exit(n)` elsewhere), or
it never ends. -/
inductive outcome (α : Type) where
  | value (a : α)
  | exit (code : Nat)
  | hang
  deriving DecidableEq, Repr

/-- Sequencing of two pieces of `main`. -/
def outcome.bind {α β : Type} (x : outcome α) (f : α → outcome β) : outcome β :=
  match x with
  | outcome.value a => f a
  | outcome.exit code => outcome.exit code
  | outcome.hang => outcome.hang

instance : Monad outcome where
  pure := outcome.value
  bind := outcome.bind

/-- What `stat` reports of a path, as far as `main` looks: `S_ISDIR`,
`S_ISREG`, or neither. -/
inductive file_kind where
  | directory
  | regular
  | other
  deriving DecidableEq, Repr

/-- Members of `macho::file::open_result` named by the switches of `main`. -/
inductive open_result where
  | ok
  | failed_to_open_stream
  | failed_to_allocate_memory
  | stream_seek_error
  | stream_read_error
  | zero_architectures
  | invalid_container
  | not_a_macho
  | not_a_library
  deriving DecidableEq, Repr

/-- Members of `recurse::operation_result` named by the switches of `main`. -/
inductive operation_result where
  | ok
  | failed_to_open_directory
  deriving DecidableEq, Repr

/-- How a call of `recursively_create_directories_from_file_path` ends: it
returns, it leaves through `exit(1)` after a failed `mkdir`, or its
slash-skipping loop never ends. -/
inductive directories_result where
  | created
  | mkdir_failed
  | never_returns
  deriving DecidableEq, Repr

/-- Everything `main` uses that is declared outside `src/`: the tbd library
(`tbd_env`), the working directory (`none` when `getcwd` fails), the file
system, the architecture table, the mach-o reader, the recursion helper, the
path helpers and the values of the `symbol_options` and `recurse::options`
enumerators. `create_directories` and `remove_directories` tell how the calls
of `recursively_create_directories_from_file_path` and
`recursively_remove_directories_from_file_path` end on the file system at
hand; the latter is false when a `remove` fails and the function leaves
through `exit(1)`. -/
structure main_env extends tbd_env where
  current_directory : Option String
  stat : String → Option file_kind
  architecture_info_from_name : String → Option Nat
  string_to_version : String → version
  macho_file_open : String → open_result
  has_unknown_architecture : String → Bool
  open_from_library : String → open_result
  fopen : String → Bool
  create_directories : String → Nat → Bool → directories_result
  remove_directories : String → Bool
  macho_library_paths : String → Nat → operation_result
  macho_libraries : String → Nat → List String × operation_result
  path_compare : String → String → Int
  find_last_slash : String → Nat
  allow_all_private_symbols : Nat
  allow_private_normal_symbols : Nat
  allow_private_weak_symbols : Nat
  allow_private_objc_symbols : Nat
  allow_private_objc_classes : Nat
  allow_private_objc_ivars : Nat
  recurse_print_warnings : Nat
  recurse_recurse_subdirectories : Nat

/-- The enumerators of `enum misc_options` (main.cc 577-582). -/
def recurse_directories : Nat := 1 <<< 8

/-- Second enumerator of `enum misc_options`. -/
def recurse_subdirectories : Nat := 1 <<< 9

/-- Third enumerator of `enum misc_options`. -/
def maintain_directories : Nat := 1 <<< 10

/-- Fourth enumerator of `enum misc_options`. -/
def dont_print_warnings : Nat := 1 <<< 11

/-- The C expression `word & ~mask` on 64-bit words. -/
def clear_flag (word mask : Nat) : Nat := word &&& (2 ^ 64 - 1 - mask % 2 ^ 64)

/-- The local `struct tbd_file` of `main` (main.cc 584-595). -/
structure tbd_file where
  path : String
  output_path : String
  architectures : Nat
  architecture_overrides : Nat
  platform : platform
  version : version
  options : Nat
  deriving DecidableEq, Repr

/-- The variables of `main` the argument loop reads and writes
(main.cc 597-605). -/
structure main_state where
  architectures : Nat
  architecture_overrides : Nat
  tbds : List tbd_file
  output_paths_index : Nat
  options : Nat
  platform : platform
  version : version
  deriving DecidableEq, Repr

/-- The values the variables of `main` are declared with. -/
def main_state.initial : main_state :=
  ⟨0, 0, [], 0, 0, platform_none, version_v2⟩

/-- The character `string[0]` of a C string, the terminator when it is
empty. -/
def string_front (s : String) : Char := s.data.headD (Char.ofNat 0)

/-- The character `path.back()`. -/
def string_back (s : String) : Char := s.data.getLastD (Char.ofNat 0)

/-- The test `ch != '/' && ch != '\\'` negated: a forward or backward slash. -/
def is_path_slash (ch : Char) : Bool := ch = '/' || ch = Char.ofNat 92

/-- The argument `argv[i]`, the empty string when there is none. -/
def argument_at (argv : List String) (i : Nat) : String := argv.getD i ""

/-- An argument that starts with `-`, read as an option: `&argument[1]`,
advanced once more when that starts with `-` too; `none` when nothing
follows the first character (`main` then returns 1). -/
def option_text (argument : String) : Option String :=
  match argument.data.drop 1 with
  | [] => none
  | '-' :: rest => some (String.mk rest)
  | rest => some (String.mk rest)

/-- `retrieve_current_directory` (main.cc 22-61), with `exit(1)` when the
directory cannot be had. -/
def retrieve_current_directory (env : main_env) : outcome String :=
  match env.current_directory with
  | some directory => outcome.value directory
  | none => outcome.exit 1

/-- The loop of `parse_architectures_list` (main.cc 64-108), `fuel` bounding
the rounds left. -/
def parse_architectures_list_loop (env : main_env) (argv : List String) :
    Nat → Nat → Nat → outcome (Nat × Nat)
  | 0, architectures, index => outcome.value (architectures, index)
  | fuel + 1, architectures, index =>
    if index < argv.length then
      let architecture_string := argument_at argv index
      let architecture_string_front := string_front architecture_string
      if architecture_string_front = '-' || is_path_slash architecture_string_front then
        if architectures = 0 then outcome.exit 1 else outcome.value (architectures, index)
      else
        match env.architecture_info_from_name architecture_string with
        | none =>
          if architectures = 0 then outcome.exit 1 else outcome.value (architectures, index)
        | some architecture_info_table_index =>
          parse_architectures_list_loop env argv fuel
            (architectures ||| (1 <<< architecture_info_table_index)) (index + 1)
    else outcome.value (architectures, index)

/-- `parse_architectures_list` of main.cc (63-115): the bitset and the index
after the final `index--`. -/
def parse_architectures_list (env : main_env) (argv : List String)
    (architectures index : Nat) : outcome (Nat × Nat) :=
  match parse_architectures_list_loop env argv (argv.length - index) architectures index with
  | outcome.value (found, last) => outcome.value (found, last - 1)
  | outcome.exit code => outcome.exit code
  | outcome.hang => outcome.hang

/-- The prefix of a user path that is not absolute: the working directory
is put in front unless the path starts with a slash. -/
def absolute_path (env : main_env) (path : String) : outcome String :=
  if is_path_slash (string_front path) then outcome.value path
  else (retrieve_current_directory env).bind (fun directory => outcome.value (directory ++ path))

/-- The text after the first `=` of an option (`strchr(option, '=') + 1`). -/
def recurse_type_string (option : String) : String :=
  String.mk ((option.data.dropWhile (fun ch => ch != '=')).drop 1)

/-- The test `strncmp(option, "r=", 2) == 0 || strncmp(option, "recurse=", 8) == 0`. -/
def is_recurse_with_type (option : String) : Bool :=
  option.data.take 2 = "r=".data || option.data.take 8 = "recurse=".data

/-- `path` with a slash appended unless it ends with one (main.cc 1083-1086). -/
def with_trailing_slash (path : String) : String :=
  if is_path_slash (string_back path) then path else path ++ "/"

/-- A call of `recursively_remove_directories_from_file_path` as the caller
sees it (main.cc 232-284). -/
def remove_directories_call (env : main_env) (path : String) : outcome Unit :=
  if env.remove_directories path then outcome.value () else outcome.exit 1

/-- A call of `recursively_create_directories_from_file_path` as the caller
sees it. -/
def create_directories_call (env : main_env) (path : String) (index : Nat)
    (create_last_as_directory : Bool) : outcome Unit :=
  match env.create_directories path index create_last_as_directory with
  | directories_result.created => outcome.value ()
  | directories_result.mkdir_failed => outcome.exit 1
  | directories_result.never_returns => outcome.hang

/-- The body of the `-o` loop once it has reached an argument that is not an
option (main.cc 1037-1118): the path is made absolute unless it is the word
`stdout`, the input at `output_paths_index` is looked up, the checks against
its options and against the file system are made, and the path is stored in
that input's `output_path`. -/
def assign_output_path (env : main_env) (st : main_state) (output_options : Nat)
    (argument : String) : outcome main_state :=
  (if argument ≠ "stdout" then absolute_path env argument
   else outcome.value argument).bind fun path =>
  match st.tbds[st.output_paths_index]? with
  | none => outcome.exit 1
  | some tbd =>
    (if has_flag output_options maintain_directories then
      if !(has_flag tbd.options recurse_directories) then outcome.exit 1
      else outcome.value (tbd.options ||| maintain_directories)
     else outcome.value tbd.options).bind fun tbd_options =>
    if path = "stdout" && has_flag tbd_options recurse_directories then outcome.exit 1
    else
      (match env.stat path with
       | some file_kind.directory =>
         if !(has_flag tbd_options recurse_directories) then outcome.exit 1
         else outcome.value (with_trailing_slash path)
       | some file_kind.regular =>
         if has_flag tbd_options recurse_directories then outcome.exit 1
         else outcome.value path
       | some file_kind.other => outcome.value path
       | none =>
         if has_flag tbd_options recurse_directories then
           (create_directories_call env (with_trailing_slash path) 0 true).bind fun _ =>
             outcome.value (with_trailing_slash path)
         else outcome.value path).bind fun stored =>
      outcome.value
        { st with tbds := st.tbds.set st.output_paths_index
                    { tbd with options := tbd_options, output_path := stored } }

/-- The inner loop of the `-o` option (main.cc 1010-1119): options of the
output are collected until a path is met; the result is the state, the index
`i` the loop stopped at and `provided_output_path`. -/
def output_option_loop (env : main_env) (argv : List String) :
    Nat → main_state → Nat → Nat → outcome (main_state × Nat × Bool)
  | 0, st, _, i => outcome.value (st, i, false)
  | fuel + 1, st, output_options, i =>
    if i < argv.length then
      let argument := argument_at argv i
      if string_front argument = '-' then
        match option_text argument with
        | none => outcome.exit 1
        | some option =>
          if option = "maintain-directories" then
            output_option_loop env argv fuel st (output_options ||| maintain_directories) (i + 1)
          else outcome.exit 1
      else
        (assign_output_path env st output_options argument).bind fun st1 =>
          outcome.value (st1, i, true)
    else outcome.value (st, i, false)

/-- The `-o` / `--output` option (main.cc 996-1129), entered with `i` at the
option itself. -/
def output_option (env : main_env) (argv : List String) (st : main_state) (i : Nat) :
    outcome (main_state × Nat) :=
  if i = argv.length - 1 then outcome.exit 1
  else
    (output_option_loop env argv (argv.length - (i + 1)) st 0 (i + 1)).bind fun r =>
      if !r.2.2 then outcome.exit 1
      else outcome.value ({ r.1 with output_paths_index := r.1.output_paths_index + 1 }, r.2.1)

/-- The local variables of the `-p` option (main.cc 1141-1146). -/
structure path_locals where
  local_architectures : Nat
  local_architecture_overrides : Nat
  local_options : Nat
  local_platform : platform
  local_tbd_version : version
  deriving DecidableEq, Repr

/-- The values the locals of `-p` are declared with and reset to. -/
def path_locals.cleared : path_locals := ⟨0, 0, 0, platform_none, 0⟩

/-- The body of the `-p` loop once it has reached an argument that is not an
option (main.cc 1256-1317): the checks on the path, then the new `tbd_file`
built from the locals. -/
def collect_path (env : main_env) (loc : path_locals) (argument : String) :
    outcome tbd_file :=
  (if argument = "stdin" then
    if has_flag loc.local_options recurse_directories then outcome.exit 1
    else outcome.value argument
   else
    (absolute_path env argument).bind fun path =>
      match env.stat path with
      | none => outcome.exit 1
      | some file_kind.directory =>
        if !(has_flag loc.local_options recurse_directories) then outcome.exit 1
        else outcome.value (with_trailing_slash path)
      | some file_kind.regular =>
        if has_flag loc.local_options recurse_directories then outcome.exit 1
        else outcome.value path
      | some file_kind.other => outcome.exit 1).bind fun path =>
  outcome.value
    { path := path, output_path := "",
      architectures := loc.local_architectures,
      architecture_overrides := loc.local_architecture_overrides,
      platform := loc.local_platform, version := loc.local_tbd_version,
      options := loc.local_options }

/-- One option met inside the `-p` loop (main.cc 1152-1253), `i` at the
option: the locals and the index after it. -/
def path_option_step (env : main_env) (argv : List String) (loc : path_locals)
    (option : String) (i : Nat) : outcome (path_locals × Nat) :=
  let is_last_argument : Bool := i = argv.length - 1
  if option = "a" || option = "arch" then
    if is_last_argument then outcome.exit 1
    else (parse_architectures_list env argv loc.local_architectures (i + 1)).bind fun r =>
      outcome.value ({ loc with local_architectures := r.1 }, r.2)
  else if option = "archs" then
    if is_last_argument then outcome.exit 1
    else (parse_architectures_list env argv loc.local_architecture_overrides (i + 1)).bind fun r =>
      outcome.value ({ loc with local_architecture_overrides := r.1 }, r.2)
  else if option = "allow-all-private-symbols" then
    outcome.value ({ loc with local_options := loc.local_options ||| env.allow_all_private_symbols }, i)
  else if option = "allow-private-normal-symbols" then
    outcome.value ({ loc with local_options := loc.local_options ||| env.allow_private_normal_symbols }, i)
  else if option = "allow-private-weak-symbols" then
    outcome.value ({ loc with local_options := loc.local_options ||| env.allow_private_weak_symbols }, i)
  else if option = "allow-private-objc-symbols" then
    outcome.value ({ loc with local_options := loc.local_options ||| env.allow_private_objc_symbols }, i)
  else if option = "allow-private-objc-classes" then
    outcome.value ({ loc with local_options := loc.local_options ||| env.allow_private_objc_classes }, i)
  else if option = "allow-private-objc-ivars" then
    outcome.value ({ loc with local_options := loc.local_options ||| env.allow_private_objc_ivars }, i)
  else if option = "dont-print-warnings" then
    outcome.value ({ loc with local_options := loc.local_options ||| dont_print_warnings }, i)
  else if option = "p" then outcome.exit 1
  else if option = "platform" then
    if is_last_argument then outcome.exit 1
    else
      let local_platform := env.string_to_platform (argument_at argv (i + 1))
      if local_platform = platform_none then outcome.exit 1
      else outcome.value ({ loc with local_platform := local_platform }, i + 1)
  else if option = "r" || option = "recurse" then
    outcome.value
      ({ loc with local_options := loc.local_options ||| recurse_directories ||| recurse_subdirectories }, i)
  else if is_recurse_with_type option then
    if recurse_type_string option = "" then outcome.exit 1
    else if recurse_type_string option = "all" then
      outcome.value
        ({ loc with local_options := loc.local_options ||| recurse_directories ||| recurse_subdirectories }, i)
    else if recurse_type_string option ≠ "once" then outcome.exit 1
    else outcome.value ({ loc with local_options := loc.local_options ||| recurse_directories }, i)
  else if option = "v" || option = "version" then
    if is_last_argument then outcome.exit 1
    else
      let local_tbd_version := env.string_to_version (argument_at argv (i + 1))
      if local_tbd_version = 0 then outcome.exit 1
      else outcome.value ({ loc with local_tbd_version := local_tbd_version }, i + 1)
  else outcome.exit 1

/-- The inner loop of the `-p` option (main.cc 1148-1330): the state, the
locals and the index the loop stopped at. -/
def path_option_loop (env : main_env) (argv : List String) :
    Nat → main_state → path_locals → Nat → outcome (main_state × path_locals × Nat)
  | 0, st, loc, i => outcome.value (st, loc, i)
  | fuel + 1, st, loc, i =>
    if i < argv.length then
      let argument := argument_at argv i
      if string_front argument = '-' then
        match option_text argument with
        | none => outcome.exit 1
        | some option =>
          (path_option_step env argv loc option i).bind fun r =>
            path_option_loop env argv fuel st r.1 (r.2 + 1)
      else
        (collect_path env loc argument).bind fun tbd =>
          outcome.value ({ st with tbds := st.tbds ++ [tbd] }, path_locals.cleared, i)
    else outcome.value (st, loc, i)

/-- The `-p` / `--path` option (main.cc 1130-1339), entered with `i` at the
option itself. -/
def path_option (env : main_env) (argv : List String) (st : main_state) (i : Nat) :
    outcome (main_state × Nat) :=
  if i = argv.length - 1 then outcome.exit 1
  else
    (path_option_loop env argv (argv.length - (i + 1)) st path_locals.cleared (i + 1)).bind
      fun r =>
        let loc := r.2.1
        if loc.local_architectures ≠ 0 || loc.local_architecture_overrides ≠ 0
            || loc.local_platform ≠ platform_none || loc.local_options ≠ 0
            || loc.local_tbd_version ≠ 0 then outcome.exit 1
        else outcome.value (r.1, r.2.2)

/-- One option met inside the loop of `--list-macho-libraries`
(main.cc 782-821): the option word collected so far, with the new bits. -/
def list_libraries_option (options : Nat) (option : String) : outcome Nat :=
  if option = "dont-print-warnings" then outcome.value (options ||| dont_print_warnings)
  else if option = "r" || option = "recurse" then
    outcome.value (options ||| recurse_directories ||| recurse_subdirectories)
  else if is_recurse_with_type option then
    if recurse_type_string option = "" then outcome.exit 1
    else if recurse_type_string option = "all" then
      outcome.value (options ||| recurse_directories ||| recurse_subdirectories)
    else if recurse_type_string option ≠ "once" then outcome.exit 1
    else outcome.value (options ||| recurse_directories)
  else outcome.exit 1

/-- The loop of `--list-macho-libraries` that collects the paths and their
options (main.cc 778-842). -/
def list_libraries_collect (env : main_env) (argv : List String) :
    Nat → List (String × Nat) → Nat → Nat → outcome (List (String × Nat))
  | 0, paths, _, _ => outcome.value paths
  | fuel + 1, paths, options, i =>
    if i < argv.length then
      let argument := argument_at argv i
      if string_front argument = '-' then
        match option_text argument with
        | none => outcome.exit 1
        | some option =>
          (list_libraries_option options option).bind fun collected =>
            list_libraries_collect env argv fuel paths collected (i + 1)
      else
        (absolute_path env argument).bind fun path =>
          list_libraries_collect env argv fuel (paths ++ [(path, options)]) 0 (i + 1)
    else outcome.value paths

/-- The loop of `--list-macho-libraries` over the collected paths
(main.cc 850-936), as far as it decides the exit status. -/
def list_libraries_visit (env : main_env) : List (String × Nat) → outcome Unit
  | [] => outcome.value ()
  | (path, options) :: rest =>
    match env.stat path with
    | none => outcome.exit 1
    | some kind =>
      if has_flag options recurse_directories then
        if kind ≠ file_kind.directory then outcome.exit 1
        else list_libraries_visit env rest
      else if kind = file_kind.directory then outcome.exit 1
      else list_libraries_visit env rest

/-- The option `--list-macho-libraries` (main.cc 768-969): the exit status. -/
def list_macho_libraries (env : main_env) (argv : List String) (i : Nat) : outcome Unit :=
  if i ≠ 1 then outcome.exit 1
  else if i ≠ argv.length - 1 then
    (list_libraries_collect env argv (argv.length - (i + 1)) [] 0 (i + 1)).bind fun paths =>
      if paths.isEmpty then outcome.exit 1
      else (list_libraries_visit env paths).bind fun _ => outcome.exit 0
  else
    (retrieve_current_directory env).bind fun path =>
      match env.stat path with
      | none => outcome.exit 1
      | some _ =>
        match env.macho_library_paths path
            (env.recurse_print_warnings ||| env.recurse_recurse_subdirectories) with
        | operation_result.ok => outcome.exit 0
        | operation_result.failed_to_open_directory => outcome.exit 1

/-- The option `--list-architectures` (main.cc 671-765): the exit status. -/
def list_architectures (env : main_env) (argv : List String) (i : Nat) : outcome Unit :=
  if i ≠ 1 then outcome.exit 1
  else if i = argv.length - 1 then outcome.exit 0
  else if i + 1 + 2 ≤ argv.length then outcome.exit 1
  else
    (absolute_path env (argument_at argv (i + 1))).bind fun path =>
      match env.macho_file_open path with
      | open_result.ok | open_result.not_a_library =>
        if env.has_unknown_architecture path then outcome.exit 1 else outcome.exit 0
      | _ => outcome.exit 1

/-- The chain of comparisons of one round of the argument loop of `main`
(main.cc 632-1388), for the option text `option` of the argument at index
`i`: the state and the index after the option, before the `i++` of the loop. -/
def main_option (env : main_env) (argv : List String) (st : main_state) (i : Nat)
    (option : String) : outcome (main_state × Nat) :=
  if option = "a" || option = "arch" then
    if i = argv.length - 1 then outcome.exit 1
    else (parse_architectures_list env argv st.architectures (i + 1)).bind fun r =>
      outcome.value ({ st with architectures := r.1 }, r.2)
  else if option = "archs" then
    if i = argv.length - 1 then outcome.exit 1
    else (parse_architectures_list env argv st.architecture_overrides (i + 1)).bind fun r =>
      outcome.value ({ st with architecture_overrides := r.1 }, r.2)
  else if option = "h" || option = "help" then
    if i ≠ 1 || i ≠ argv.length - 1 then outcome.exit 1 else outcome.exit 0
  else if option = "allow-all-private-symbols" then
    outcome.value ({ st with options := st.options ||| env.allow_all_private_symbols }, i)
  else if option = "allow-private-normal-symbols" then
    outcome.value ({ st with options := st.options ||| env.allow_private_normal_symbols }, i)
  else if option = "allow-private-weak-symbols" then
    outcome.value ({ st with options := st.options ||| env.allow_private_weak_symbols }, i)
  else if option = "allow-private-objc-symbols" then
    outcome.value ({ st with options := st.options ||| env.allow_private_objc_symbols }, i)
  else if option = "allow-private-objc-classes" then
    outcome.value ({ st with options := st.options ||| env.allow_private_objc_classes }, i)
  else if option = "allow-private-objc-ivars" then
    outcome.value ({ st with options := st.options ||| env.allow_private_objc_ivars }, i)
  else if option = "list-architectures" then
    (list_architectures env argv i).bind fun _ => outcome.exit 0
  else if option = "dont-print-warnings" then
    outcome.value ({ st with options := st.options ||| dont_print_warnings }, i)
  else if option = "list-macho-libraries" then
    (list_macho_libraries env argv i).bind fun _ => outcome.exit 0
  else if option = "list-platform" || option = "list-recurse" || option = "list-versions" then
    if i ≠ 1 || i ≠ argv.length - 1 then outcome.exit 1 else outcome.exit 0
  else if option = "o" || option = "output" then output_option env argv st i
  else if option = "p" || option = "path" then path_option env argv st i
  else if option = "platform" then
    if i = argv.length - 1 then outcome.exit 1
    else if env.string_to_platform (argument_at argv (i + 1)) = platform_none then outcome.exit 1
    else outcome.value ({ st with platform := env.string_to_platform (argument_at argv (i + 1)) }, i + 1)
  else if option = "u" || option = "usage" then
    if i ≠ 1 || i ≠ argv.length - 1 then outcome.exit 1 else outcome.exit 0
  else if option = "v" || option = "version" then
    if i = argv.length - 1 then outcome.exit 1
    else if string_front (argument_at argv (i + 1)) = '-' then outcome.exit 1
    else if argument_at argv (i + 1) = "v1" then
      outcome.value ({ st with version := version_v1 }, i + 1)
    else if argument_at argv (i + 1) ≠ "v2" then outcome.exit 1
    else outcome.value (st, i + 1)
  else outcome.exit 1

/-- One round of the argument loop of `main` (main.cc 612-1388), entered
with `i` at the argument: the argument has to start with `-` and to go on
after it; what follows, less one more `-`, is the option. -/
def main_argument (env : main_env) (argv : List String) (st : main_state) (i : Nat) :
    outcome (main_state × Nat) :=
  if string_front (argument_at argv i) ≠ '-' then outcome.exit 1
  else
    match option_text (argument_at argv i) with
    | none => outcome.exit 1
    | some option => main_option env argv st i option

/-- The argument loop of `main` (main.cc 611-1389), from index `i`; every
round moves `i` forward, `fuel` bounds the rounds. -/
def main_arguments (env : main_env) (argv : List String) :
    Nat → main_state → Nat → outcome main_state
  | 0, st, _ => outcome.value st
  | fuel + 1, st, i =>
    if i < argv.length then
      (main_argument env argv st i).bind fun r =>
        main_arguments env argv fuel r.1 (r.2 + 1)
    else outcome.value st

/-- The whole of the argument handling of `main` (main.cc 572-1395): the
check of `argc`, the loop from index 1, and the check that an input was
given. -/
def parse_arguments (env : main_env) (argv : List String) : outcome main_state :=
  if argv.length < 2 then outcome.exit 1
  else
    (main_arguments env argv argv.length main_state.initial 1).bind fun st =>
      if st.tbds.isEmpty then outcome.exit 1 else outcome.value st

/-- Whether an argument is read by the argument loop of `main` as the option
`-o` or `--output` (main.cc 996): it starts with `-` and what follows, less
one more `-`, is `o` or `output`. -/
def is_output_option (argument : String) : Bool :=
  string_front argument = '-'
    && (option_text argument = some "o" || option_text argument = some "output")

/-- The rounds of the argument loop of `main` (main.cc 611-1389) from index
`i` on, in order: for every round the index it is entered with and the state
it is entered with. The rounds end with the arguments, or with the round that
leaves `main`. -/
def main_arguments_rounds (env : main_env) (argv : List String) :
    Nat → main_state → Nat → List (Nat × main_state)
  | 0, _, _ => []
  | fuel + 1, st, i =>
    if i < argv.length then
      (i, st) ::
        (match main_argument env argv st i with
         | outcome.value r => main_arguments_rounds env argv fuel r.1 (r.2 + 1)
         | outcome.exit _ => []
         | outcome.hang => [])
    else []

/-- The rounds of the argument loop of a run of `main` that are entered at an
`-o` or `--output` option, in order. -/
def output_option_rounds (env : main_env) (argv : List String) : List (Nat × main_state) :=
  (main_arguments_rounds env argv argv.length main_state.initial 1).filter
    (fun round => is_output_option (argument_at argv round.1))

/-- What the argument loop keeps from a state `a` to a later state `b`: the
inputs below `output_paths_index`, which have their output paths, stay as they
are, the inputs collected keep their places and their paths, and
`output_paths_index` does not go back nor beyond the inputs. -/
def keeps_outputs (a b : main_state) : Prop :=
  a.output_paths_index ≤ b.output_paths_index
    ∧ b.output_paths_index ≤ b.tbds.length
    ∧ (∀ m, m < a.output_paths_index → b.tbds[m]? = a.tbds[m]?)
    ∧ ∃ later, b.tbds.map (fun tbd => tbd.path) = a.tbds.map (fun tbd => tbd.path) ++ later

/-! ## `src/main.cc`: `main`, duplicate removal and the processing loop -/

/-- The inner loop of the duplicate removal (main.cc 1411-1436) for the
input `tbd`, over the inputs after it: what is left of them. An inner input
whose path differs takes the `continue` that does not advance the iterator,
so the loop never ends (`none`); one with the same path is kept when its
options, `recurse_subdirectories` apart, are not zero, and erased otherwise. -/
def remove_duplicates_inner (env : main_env) (tbd : tbd_file) :
    List tbd_file → Option (List tbd_file)
  | [] => some []
  | tbd_inner :: rest =>
    if env.path_compare tbd.path tbd_inner.path ≠ 0 then none
    else
      let tbd_inner_options :=
        if has_flag tbd_inner.options recurse_subdirectories then
          clear_flag tbd_inner.options recurse_subdirectories
        else tbd_inner.options
      match remove_duplicates_inner env tbd rest with
      | none => none
      | some kept => if tbd_inner_options ≠ 0 then some (tbd_inner :: kept) else some kept

/-- The outer loop of the duplicate removal (main.cc 1407-1437); `fuel`
bounds the inputs still to visit. -/
def remove_duplicates (env : main_env) : Nat → List tbd_file → Option (List tbd_file)
  | 0, tbds => some tbds
  | _ + 1, [] => some []
  | fuel + 1, tbd :: rest =>
    match remove_duplicates_inner env tbd rest with
    | none => none
    | some kept =>
      match remove_duplicates env fuel kept with
      | none => none
      | some later => some (tbd :: later)

/-- The options of an input after the global options have been added
(main.cc 1446-1472). -/
def merge_global_options (env : main_env) (options tbd_options : Nat) : Nat :=
  let symbols :=
    if has_flag options env.allow_all_private_symbols then
      tbd_options ||| env.allow_all_private_symbols
    else
      let normal :=
        if has_flag options env.allow_private_normal_symbols then
          tbd_options ||| env.allow_private_normal_symbols
        else tbd_options
      let weak :=
        if has_flag options env.allow_private_weak_symbols then
          normal ||| env.allow_private_weak_symbols
        else normal
      if has_flag options env.allow_private_objc_symbols then
        weak ||| env.allow_private_objc_symbols
      else
        let classes :=
          if has_flag options env.allow_private_objc_classes then
            weak ||| env.allow_private_objc_classes
          else weak
        if has_flag options env.allow_private_objc_ivars then
          classes ||| env.allow_private_objc_ivars
        else classes
  if has_flag options dont_print_warnings then symbols ||| dont_print_warnings else symbols

/-- The platform argument of both calls of `create_tbd_file` in `main`
(main.cc 1528 and 1691). -/
def creation_platform (st : main_state) (tbd : tbd_file) : platform :=
  if tbd.platform ≠ platform_none then tbd.platform else st.platform

/-- The version argument of both calls of `create_tbd_file` in `main`. -/
def creation_version (st : main_state) (tbd : tbd_file) : version :=
  if tbd.version ≠ 0 then tbd.version else st.version

/-- The architectures argument, `tbd.architectures ?: architectures`. -/
def creation_architectures (st : main_state) (tbd : tbd_file) : Nat :=
  if tbd.architectures ≠ 0 then tbd.architectures else st.architectures

/-- The overrides argument, `tbd.architecture_overrides ?: architecture_overrides`. -/
def creation_architecture_overrides (st : main_state) (tbd : tbd_file) : Nat :=
  if tbd.architecture_overrides ≠ 0 then tbd.architecture_overrides
  else st.architecture_overrides

/-- The platform, version and bitsets of a creation call are the ones `main`
computes for the input `tbd`. -/
def creation_arguments_of (st : main_state) (tbd : tbd_file) (args : creation_args) : Prop :=
  args.platform = creation_platform st tbd
    ∧ args.version = creation_version st tbd
    ∧ args.architectures = creation_architectures st tbd
    ∧ args.architecture_overrides = creation_architecture_overrides st tbd

/-- What the processing of inputs has done so far: the lines standard input
still holds and the events, oldest first. -/
structure progress where
  input : List String
  events : List event
  deriving DecidableEq, Repr

/-- The path of the tbd written for a library found while recursing
(main.cc 1495-1510): the input's output path, then the library path from the
length of the input's path on when directories are maintained and from its
last slash on otherwise, then `.tbd`. -/
def recurse_output_path (env : main_env) (tbd : tbd_file) (tbd_options : Nat)
    (library_path : String) : String :=
  let output_path_front :=
    if has_flag tbd_options maintain_directories then tbd.path.length
    else env.find_last_slash library_path
  tbd.output_path ++ String.mk (library_path.data.drop output_path_front) ++ ".tbd"

/-- The creation-handling options of the recursing call (main.cc 1523-1526). -/
def recurse_creation_options (tbd_options : Nat) : Nat :=
  if has_flag tbd_options dont_print_warnings then
    creation_handling_print_paths ||| creation_handling_ignore_no_provided_architectures
      ||| creation_handling_dont_print_warnings
  else creation_handling_print_paths ||| creation_handling_ignore_no_provided_architectures

/-- The creation-handling options of the single-file call (main.cc 1686-1689). -/
def single_creation_options (tbd_options : Nat) : Nat :=
  if has_flag tbd_options dont_print_warnings then
    creation_handling_print_paths ||| creation_handling_dont_print_warnings
  else creation_handling_print_paths

/-- The callback `main` gives to `recurse::macho_libraries`
(main.cc 1494-1535), for one library found. `tbd_options` are the input's
options after `merge_global_options`. -/
def recurse_callback (env : main_env) (st : main_state) (tbd : tbd_file) (tbd_options : Nat)
    (library_path : String) (p : progress) : outcome progress :=
  let output_path := recurse_output_path env tbd tbd_options library_path
  (create_directories_call env output_path tbd.output_path.length false).bind fun _ =>
  let created := event.create_directories output_path tbd.output_path.length false
  if !(env.fopen output_path) then
    outcome.value { p with events := p.events ++ [created, event.fopen output_path false] }
  else
    match create_tbd_file env.totbd_env library_path library_path (output_stream.file output_path)
        (tbd_options &&& 0xff) (creation_platform st tbd) (creation_version st tbd)
        (creation_architectures st tbd) (creation_architecture_overrides st tbd)
        (recurse_creation_options tbd_options) p.input with
    | none => outcome.hang
    | some made =>
      (if !made.returned then remove_directories_call env output_path
       else outcome.value ()).bind fun _ =>
      outcome.value
        { input := made.input,
          events := p.events ++ [created, event.fopen output_path true] ++ made.events
            ++ (if !made.returned then [event.remove_directories output_path] else [])
            ++ [event.fclose output_path] }

/-- The calls of the callback for the libraries `recurse::macho_libraries`
finds, in the order it finds them. -/
def recurse_callbacks (env : main_env) (st : main_state) (tbd : tbd_file) (tbd_options : Nat) :
    List String → progress → outcome progress
  | [], p => outcome.value p
  | library_path :: rest, p =>
    (recurse_callback env st tbd tbd_options library_path p).bind fun p1 =>
      recurse_callbacks env st tbd tbd_options rest p1

/-- The stream a non-recursing input is written to (main.cc 1668-1684):
standard output when the output path is empty, else the file opened at the
output path after its directories have been created; `none` for the stream
when `fopen` fails. With it, the events of getting it. -/
def choose_output_file (env : main_env) (tbd : tbd_file) :
    outcome (List event × Option output_stream) :=
  if !tbd.output_path.isEmpty then
    (create_directories_call env tbd.output_path 0 false).bind fun _ =>
      outcome.value
        ([event.create_directories tbd.output_path 0 false,
          event.fopen tbd.output_path (env.fopen tbd.output_path)],
         if env.fopen tbd.output_path then some (output_stream.file tbd.output_path)
         else none)
  else outcome.value ([], some output_stream.stdout)

/-- The recursion options `main` passes to `recurse::macho_libraries`
(main.cc 1484-1492). -/
def recurse_options (env : main_env) (tbd_options : Nat) : Nat :=
  (if !(has_flag tbd_options dont_print_warnings) then env.recurse_print_warnings else 0)
    ||| (if has_flag tbd_options recurse_subdirectories then
          env.recurse_recurse_subdirectories else 0)

/-- The part of a round of the processing loop for an input that is not
recursed (main.cc 1554-1700). -/
def process_single (env : main_env) (st : main_state) (tbd : tbd_file) (tbd_options : Nat)
    (p : progress) : outcome progress :=
  let opened := event.open_library tbd.path
  if env.open_from_library tbd.path ≠ open_result.ok then
    outcome.value { p with events := p.events ++ [opened] }
  else
    (choose_output_file env tbd).bind fun chosen =>
    match chosen.2 with
    | none => outcome.value { p with events := p.events ++ [opened] ++ chosen.1 }
    | some output_file =>
      match create_tbd_file env.totbd_env tbd.path tbd.path output_file
          (tbd_options &&& 0xff) (creation_platform st tbd) (creation_version st tbd)
          (creation_architectures st tbd) (creation_architecture_overrides st tbd)
          (single_creation_options tbd_options) p.input with
      | none => outcome.hang
      | some made =>
        (if !tbd.output_path.isEmpty && !made.returned then
          remove_directories_call env tbd.output_path
         else outcome.value ()).bind fun _ =>
        outcome.value
          { input := made.input,
            events := p.events ++ [opened] ++ chosen.1 ++ made.events
              ++ (if !tbd.output_path.isEmpty then
                    (if !made.returned then [event.remove_directories tbd.output_path]
                     else []) ++ [event.fclose tbd.output_path]
                  else []) }

/-- One round of the processing loop of `main` (main.cc 1440-1701), for the
input `tbd`. `outcome.exit 1` is the `return 1` for a recursing input that has
no output path; an input that cannot be opened, or whose output file cannot
be opened, takes `continue`. -/
def process_tbd (env : main_env) (st : main_state) (tbd : tbd_file) (p : progress) :
    outcome progress :=
  let tbd_options := merge_global_options env st.options tbd.options
  if has_flag tbd_options recurse_directories then
    if tbd.output_path.isEmpty then outcome.exit 1
    else
      recurse_callbacks env st tbd tbd_options
        (env.macho_libraries tbd.path (recurse_options env tbd_options)).1 p
  else process_single env st tbd tbd_options p

/-- The processing loop of `main` (main.cc 1440-1703) over the inputs left
after duplicate removal; it ends with the exit status of `main` and the
events, or never ends. -/
def process_tbds (env : main_env) (st : main_state) :
    List tbd_file → progress → Option (Nat × List event)
  | [], p => some (0, p.events)
  | tbd :: rest, p =>
    match process_tbd env st tbd p with
    | outcome.value p1 => process_tbds env st rest p1
    | outcome.exit code => some (code, p.events)
    | outcome.hang => none

/-- The function `main` (main.cc 571-1704) for the argument vector `argv`
(the program name first) and the lines of standard input: the exit status and
the events of the processing loop, or `none` when it never ends. Of what
`main` itself prints only the exit status is kept. -/
def main (env : main_env) (argv : List String) (input : List String) :
    Option (Nat × List event) :=
  match parse_arguments env argv with
  | outcome.exit code => some (code, [])
  | outcome.hang => none
  | outcome.value st =>
    match (if st.tbds.length < 2 then some st.tbds
           else remove_duplicates env st.tbds.length st.tbds) with
    | none => none
    | some tbds => process_tbds env st tbds ⟨input, []⟩

/-- Whether a line of standard input ends the prompt loop of `create_tbd_file`
(main.cc 359-368): it is not `--list-platform` and `string_to_platform` gives
a platform for it. -/
def names_platform (env : tbd_env) (line : String) : Bool :=
  line ≠ "--list-platform" && env.string_to_platform line ≠ platform_none

/-- The number of lines of standard input that name a platform. -/
def platform_answers (env : tbd_env) (input : List String) : Nat :=
  (input.filter (names_platform env)).length

/-- The number of libraries the processing loop of `main` has to convert: one
for an input that is not recursed, and one for every library that
`recurse::macho_libraries` finds for an input that is. -/
def creation_calls (env : main_env) (st : main_state) (tbds : List tbd_file) : Nat :=
  (tbds.map (fun tbd =>
    if has_flag (merge_global_options env st.options tbd.options) recurse_directories then
      (env.macho_libraries tbd.path
        (recurse_options env (merge_global_options env st.options tbd.options))).1.length
    else 1)).sum

/-! ## `src/parse_dsc_for_main.c`: data -/

/-- The record `struct dyld_cache_image_info` of the images table. -/
structure dyld_cache_image_info where
  address : Nat
  modTime : Nat
  inode : Nat
  pathFileOffset : Nat
  pad : Nat
  deriving DecidableEq, Repr

/-- The enumerator of `enum dyld_cache_image_info_pad`
(parse_dsc_for_main.c 51-53). -/
def E_DYLD_CACHE_IMAGE_INFO_PAD_ALREADY_EXTRACTED : Nat := 1 <<< 0

/-- The parts of `struct dyld_shared_cache_info` this file reads: the mapped
cache file `map`, and the images table `images`, which holds `images_count`
records. -/
structure dyld_shared_cache_info where
  map : List Char
  images : List dyld_cache_image_info
  deriving DecidableEq, Repr

/-- The field `images_count`, the number of records of the images table. -/
def dyld_shared_cache_info.images_count (info : dyld_shared_cache_info) : Nat :=
  info.images.length

/-- The C string that starts at `map + offset`: the bytes up to the first
terminator. -/
def c_string_at (map : List Char) (offset : Nat) : String :=
  String.mk ((map.drop offset).takeWhile (fun ch => ch != Char.ofNat 0))

/-- The two bits of the `flags` word of a filter or of an exact path that
this file tests, sets and clears: `F_TBD_FOR_MAIN_DSC_IMAGE_CURRENTLY_PARSING`
and `F_TBD_FOR_MAIN_DSC_IMAGE_FOUND_ONE`. Their numeric values are declared
outside `src/`; each bit is kept as a truth value. -/
structure dsc_image_flags where
  currently_parsing : Bool
  found_one : Bool
  deriving DecidableEq, Repr

/-- The two members of the filter type enumeration. -/
inductive dsc_image_filter_type where
  | directory
  | file
  deriving DecidableEq, Repr

/-- The record `struct tbd_for_main_dsc_image_filter`; `tmp_ptr` is kept as
an offset into the image path last matched. -/
structure tbd_for_main_dsc_image_filter where
  string : String
  length : Nat
  type : dsc_image_filter_type
  flags : dsc_image_flags
  tmp_ptr : Nat
  deriving DecidableEq, Repr

/-- The record `struct tbd_for_main_dsc_image_path`. -/
structure tbd_for_main_dsc_image_path where
  string : String
  length : Nat
  flags : dsc_image_flags
  deriving DecidableEq, Repr

/-- The bits of `tbd->flags` this file tests and sets:
`F_TBD_FOR_MAIN_IGNORE_WARNINGS`, `F_TBD_FOR_MAIN_RECURSE_DIRECTORIES` and
`F_TBD_FOR_MAIN_DSC_WRITE_PATH_IS_FILE`, each as a truth value. -/
structure tbd_for_main_flags where
  ignore_warnings : Bool
  recurse_directories : Bool
  dsc_write_path_is_file : Bool
  deriving DecidableEq, Repr

/-- The record `struct tbd_create_info`, declared outside `src/`: its
fields, as one list of words. -/
structure tbd_create_info where
  fields : List Nat
  deriving DecidableEq, Repr

/-- The parts of `struct tbd_for_main` this file uses. `write_path` is
`none` for a null pointer. -/
structure tbd_for_main where
  flags : tbd_for_main_flags
  info : tbd_create_info
  macho_options : Nat
  dsc_options : Nat
  dsc_image_filters : List tbd_for_main_dsc_image_filter
  dsc_image_numbers : List Nat
  dsc_image_paths : List tbd_for_main_dsc_image_path
  write_path : Option String
  write_path_length : Nat
  parse_path : String
  deriving DecidableEq, Repr

/-- Results of `dsc_image_parse`: success, `E_DSC_IMAGE_PARSE_NO_EXPORTS`,
and the other members by number. -/
inductive dsc_image_parse_result where
  | ok
  | no_exports
  | other (code : Nat)
  deriving DecidableEq, Repr

/-- The members of `enum tbd_for_main_write_to_path_result`. -/
inductive tbd_for_main_write_to_path_result where
  | ok
  | already_exists
  | write_fail
  deriving DecidableEq, Repr

/-- Results of `dyld_shared_cache_parse_from_file`: the three members this
file names, and the others by number. -/
inductive dyld_shared_cache_parse_result where
  | ok
  | not_a_cache
  | read_fail
  | other (code : Nat)
  deriving DecidableEq, Repr

/-- What `parse_dsc_for_main` returns: one of the three members of
`enum parse_dsc_for_main_result` it names, or the integer a `return true` or
`return false` converts to. -/
inductive parse_dsc_for_main_result where
  | ok
  | not_a_shared_cache
  | other_error
  | of_bool (value : Bool)
  deriving DecidableEq, Repr

/-- What `read(fd, buffer, size)` returns: a count of bytes, or a negative
value with `errno` being `EOVERFLOW` or not. -/
inductive read_return where
  | delivered (count : Nat)
  | failed (eoverflow : Bool)
  deriving DecidableEq, Repr

/-- What `stat` tells `verify_write_path`: no such object (`ENOENT`),
another error, a regular file, or something else. -/
inductive write_path_stat where
  | missing
  | error
  | regular
  | other
  deriving DecidableEq, Repr

/-- What `parse_dsc_for_main.c` does to the outside, in program order: lines
it writes to standard error itself, and its calls of functions declared
outside `src/`. The event `dsc_image_parse` also records the path
`actually_parse_image` was called with. -/
inductive dsc_event where
  | stderr (text : String)
  | dsc_image_parse (index : Nat) (image : dyld_cache_image_info) (image_path : String)
  | print_dsc_image_parse_error (image_path : String) (result : dsc_image_parse_result)
  | write_to_stdout (dsc_path image_path : String)
  | write_to_path (write_path : String)
  | handle_dsc_file_parse_result (result : dyld_shared_cache_parse_result)
  deriving DecidableEq, Repr

/-- The functions `parse_dsc_for_main.c` calls that are declared outside
`src/`. `path_has_filename` and `path_has_dir_component` give `some offset`
when they return true, `offset` being what they store through `tmp_ptr`.
`handle_dsc_image_parse_result` gives the flag it returns and the word it
leaves in `retained_info`. Of a `tbd_for_main` the outside functions are
given the create-info. -/
structure dsc_env where
  read : Nat → read_return
  dyld_shared_cache_parse_from_file : Nat → dyld_shared_cache_parse_result × dyld_shared_cache_info
  stat : String → write_path_stat
  dsc_image_parse : tbd_create_info → dyld_shared_cache_info → dyld_cache_image_info →
    Nat → Nat → dsc_image_parse_result × tbd_create_info
  handle_dsc_image_parse_result : Nat → tbd_create_info → String → dsc_image_parse_result →
    Bool × Nat
  path_has_filename : String → Nat → String → Nat → Option Nat
  path_has_dir_component : String → String → Nat → Option Nat
  tbd_for_main_create_dsc_image_write_path : Option String → Nat → String → Nat → String
  tbd_for_main_create_dsc_folder_path : String → Nat → String → Nat → String
  tbd_for_main_write_to_path : tbd_create_info → String → Nat →
    tbd_for_main_write_to_path_result
  O_MACHO_FILE_PARSE_IGNORE_INVALID_FIELDS : Nat
  O_DYLD_SHARED_CACHE_PARSE_ZERO_IMAGE_PADS : Nat

/-- The record `struct dsc_iterate_images_callback_info`
(parse_dsc_for_main.c 31-49). The pointers `dsc_info` and `tbd` are kept as
the records they point to; `trace` collects the events. -/
structure dsc_iterate_images_callback_info where
  dsc_info : dyld_shared_cache_info
  dsc_dir_path : String
  dsc_name : String
  write_path : Option String
  write_path_length : Nat
  tbd : tbd_for_main
  retained_info : Nat
  print_paths : Bool
  parse_all_images : Bool
  did_print_messages_header : Bool
  trace : List dsc_event
  deriving DecidableEq, Repr

/-- The callback info with `events` appended to its trace. -/
def dsc_iterate_images_callback_info.log (info : dsc_iterate_images_callback_info)
    (events : List dsc_event) : dsc_iterate_images_callback_info :=
  { info with trace := info.trace ++ events }

/-! ## `src/parse_dsc_for_main.c`: printing and writing -/

/-- The header line `print_messages_header` writes. -/
def messages_header (print_paths : Bool) (dsc_dir_path dsc_name : String) : dsc_event :=
  if print_paths then
    dsc_event.stderr
      ("Parsing dyld_shared_cache file (at path " ++ dsc_dir_path ++ "/" ++ dsc_name
        ++ ") resulted in the following warnings and errors:\n")
  else
    dsc_event.stderr
      "Parsing the provided dyld_shared_cache file resulted in the following warnings and errors:\n"

/-- `print_messages_header` (parse_dsc_for_main.c 63-82). -/
def print_messages_header (callback_info : dsc_iterate_images_callback_info) :
    dsc_iterate_images_callback_info :=
  if !callback_info.did_print_messages_header then
    { callback_info.log
        [messages_header callback_info.print_paths callback_info.dsc_dir_path
          callback_info.dsc_name] with did_print_messages_header := true }
  else callback_info

/-- `print_image_error` (parse_dsc_for_main.c 84-107). -/
def print_image_error (callback_info : dsc_iterate_images_callback_info)
    (image_path : String) (result : dsc_image_parse_result) :
    dsc_iterate_images_callback_info :=
  if result = dsc_image_parse_result.no_exports && callback_info.tbd.flags.ignore_warnings
      && callback_info.tbd.flags.recurse_directories then callback_info
  else
    (print_messages_header callback_info).log
      [dsc_event.stderr "\t", dsc_event.print_dsc_image_parse_error image_path result]

/-- `print_write_to_path_result` (parse_dsc_for_main.c 109-139). -/
def print_write_to_path_result (tbd : tbd_for_main) (image_path : String)
    (result : tbd_for_main_write_to_path_result) : List dsc_event :=
  match result with
  | tbd_for_main_write_to_path_result.ok => []
  | tbd_for_main_write_to_path_result.already_exists =>
    if tbd.flags.ignore_warnings then []
    else
      [dsc_event.stderr
        ("Image (with path " ++ image_path ++ ") already has an existing file at "
          ++ "(one of) its write-paths that could not be overwritten. Skipping\n")]
  | tbd_for_main_write_to_path_result.write_fail =>
    [dsc_event.stderr
      ("Image (with path " ++ image_path ++ ") could not be parsed and written out "
        ++ "due to a write fail\n")]

/-- `print_write_error` (parse_dsc_for_main.c 141-151). -/
def print_write_error (callback_info : dsc_iterate_images_callback_info)
    (image_path : String) (result : tbd_for_main_write_to_path_result) :
    dsc_iterate_images_callback_info :=
  (print_messages_header callback_info).log
    (dsc_event.stderr "\t" :: print_write_to_path_result callback_info.tbd image_path result)

/-- The write path and its length that one call of
`tbd_for_main_create_dsc_image_write_path` makes for `component`, followed by
the call of `tbd_for_main_write_to_path` on it: the event and the result. -/
def write_to_created_path (env : dsc_env) (tbd : tbd_for_main) (write_path : Option String)
    (write_path_length : Nat) (component : String) (component_length : Nat) :
    dsc_event × tbd_for_main_write_to_path_result :=
  let created :=
    env.tbd_for_main_create_dsc_image_write_path write_path write_path_length component
      component_length
  (dsc_event.write_to_path created,
   env.tbd_for_main_write_to_path tbd.info created created.length)

/-- `write_out_tbd_info_for_single_filter` with its two helpers
(parse_dsc_for_main.c 153-243): a directory filter writes under the part of
the image path that starts at `tmp_ptr`, a file-name filter under the
`length` bytes at `tmp_ptr`. -/
def write_out_tbd_info_for_single_filter (env : dsc_env)
    (filter : tbd_for_main_dsc_image_filter) (tbd : tbd_for_main) (image_path : String)
    (image_path_length : Nat) : dsc_event × tbd_for_main_write_to_path_result :=
  match filter.type with
  | dsc_image_filter_type.directory =>
    write_to_created_path env tbd tbd.write_path tbd.write_path_length
      (String.mk (image_path.data.drop filter.tmp_ptr)) (image_path_length - filter.tmp_ptr)
  | dsc_image_filter_type.file =>
    write_to_created_path env tbd tbd.write_path tbd.write_path_length
      (String.mk ((image_path.data.drop filter.tmp_ptr).take filter.length)) filter.length

/-- `write_out_tbd_info_for_image_path` (parse_dsc_for_main.c 281-310). -/
def write_out_tbd_info_for_image_path (env : dsc_env)
    (callback_info : dsc_iterate_images_callback_info) (image_path : String)
    (image_path_length : Nat) : dsc_event × tbd_for_main_write_to_path_result :=
  write_to_created_path env callback_info.tbd callback_info.write_path
    callback_info.write_path_length image_path image_path_length

/-- The loop of `write_out_tbd_info_for_filters`
(parse_dsc_for_main.c 257-278) over the filters still to visit: the filters
as it leaves them, and the callback info with what was printed. -/
def write_out_tbd_info_for_filters_loop (env : dsc_env) (image_path : String) (length : Nat) :
    List tbd_for_main_dsc_image_filter → dsc_iterate_images_callback_info →
    List tbd_for_main_dsc_image_filter × dsc_iterate_images_callback_info
  | [], info => ([], info)
  | filter :: rest, info =>
    if !filter.flags.currently_parsing then
      let later := write_out_tbd_info_for_filters_loop env image_path length rest info
      (filter :: later.1, later.2)
    else
      let marked :=
        { filter with flags := { filter.flags with currently_parsing := false, found_one := true } }
      let written := write_out_tbd_info_for_single_filter env marked info.tbd image_path length
      let info1 := info.log [written.1]
      let info2 :=
        if written.2 ≠ tbd_for_main_write_to_path_result.ok then
          print_write_error info1 image_path written.2
        else info1
      let later := write_out_tbd_info_for_filters_loop env image_path length rest info2
      (marked :: later.1, later.2)

/-- `write_out_tbd_info_for_filters` (parse_dsc_for_main.c 245-279). -/
def write_out_tbd_info_for_filters (env : dsc_env) (info : dsc_iterate_images_callback_info)
    (image_path : String) (length : Nat) : dsc_iterate_images_callback_info :=
  let done :=
    write_out_tbd_info_for_filters_loop env image_path length info.tbd.dsc_image_filters info
  { done.2 with tbd := { done.2.tbd with dsc_image_filters := done.1 } }

/-- The loop of `write_out_tbd_info_for_paths` (parse_dsc_for_main.c 324-342). -/
def write_out_tbd_info_for_paths_loop (env : dsc_env) (image_path : String) (length : Nat) :
    List tbd_for_main_dsc_image_path → dsc_iterate_images_callback_info →
    List tbd_for_main_dsc_image_path × dsc_iterate_images_callback_info
  | [], info => ([], info)
  | path :: rest, info =>
    if !path.flags.currently_parsing then
      let later := write_out_tbd_info_for_paths_loop env image_path length rest info
      (path :: later.1, later.2)
    else
      let marked :=
        { path with flags := { path.flags with currently_parsing := false, found_one := true } }
      let written := write_out_tbd_info_for_image_path env info image_path length
      let info1 := info.log [written.1]
      let info2 :=
        if written.2 ≠ tbd_for_main_write_to_path_result.ok then
          print_write_error info1 image_path written.2
        else info1
      let later := write_out_tbd_info_for_paths_loop env image_path length rest info2
      (marked :: later.1, later.2)

/-- `write_out_tbd_info_for_paths` (parse_dsc_for_main.c 312-343). -/
def write_out_tbd_info_for_paths (env : dsc_env) (info : dsc_iterate_images_callback_info)
    (image_path : String) (length : Nat) : dsc_iterate_images_callback_info :=
  let done :=
    write_out_tbd_info_for_paths_loop env image_path length info.tbd.dsc_image_paths info
  { done.2 with tbd := { done.2.tbd with dsc_image_paths := done.1 } }

/-- `mark_found_for_paths` (parse_dsc_for_main.c 345-352). -/
def mark_found_for_paths (paths : List tbd_for_main_dsc_image_path) :
    List tbd_for_main_dsc_image_path :=
  paths.map (fun path => { path with flags := { path.flags with found_one := true } })

/-- `write_out_tbd_info` (parse_dsc_for_main.c 354-390). -/
def write_out_tbd_info (env : dsc_env) (info : dsc_iterate_images_callback_info)
    (path : String) (path_length : Nat) : dsc_iterate_images_callback_info :=
  match info.write_path with
  | none =>
    { info.log [dsc_event.write_to_stdout info.dsc_dir_path path] with
      tbd := { info.tbd with dsc_image_paths := mark_found_for_paths info.tbd.dsc_image_paths } }
  | some write_path =>
    if info.tbd.flags.dsc_write_path_is_file then
      { info.log [dsc_event.write_to_path write_path] with
        tbd := { info.tbd with dsc_image_paths := mark_found_for_paths info.tbd.dsc_image_paths } }
    else if info.parse_all_images then
      info.log [(write_out_tbd_info_for_image_path env info path path_length).1]
    else
      write_out_tbd_info_for_paths env (write_out_tbd_info_for_filters env info path path_length)
        path path_length

/-- `actually_parse_image` (parse_dsc_for_main.c 392-443) for the record
`image`, which is record number `index` of the images table: the value
returned, the length left in `*image_path_length_in`, and the callback info. -/
def actually_parse_image (env : dsc_env) (image_path_length_in : Nat) (index : Nat)
    (image : dyld_cache_image_info) (image_path : String)
    (callback_info : dsc_iterate_images_callback_info) :
    Nat × Nat × dsc_iterate_images_callback_info :=
  let original_info := callback_info.tbd.info
  let macho_options := env.O_MACHO_FILE_PARSE_IGNORE_INVALID_FIELDS ||| callback_info.tbd.macho_options
  let parsed :=
    env.dsc_image_parse original_info callback_info.dsc_info image macho_options
      callback_info.tbd.dsc_options
  let handled :=
    env.handle_dsc_image_parse_result callback_info.retained_info parsed.2 image_path parsed.1
  let info1 : dsc_iterate_images_callback_info :=
    { callback_info.log [dsc_event.dsc_image_parse index image image_path] with
      tbd := { callback_info.tbd with info := parsed.2 }, retained_info := handled.2 }
  if !handled.1 then
    let cleared := { info1 with tbd := { info1.tbd with info := original_info } }
    (1, image_path_length_in, print_image_error cleared image_path parsed.1)
  else
    let image_path_length :=
      if image_path_length_in = 0 then image_path.length else image_path_length_in
    let written := write_out_tbd_info env info1 image_path image_path_length
    (0, image_path_length, { written with tbd := { written.tbd with info := original_info } })

/-! ## `src/parse_dsc_for_main.c`: selection -/

/-- `path_passes_through_filter` (parse_dsc_for_main.c 445-480): `some
offset` when the filter passes, `offset` being the new `tmp_ptr`; together
with the length left in `*path_length_in`. -/
def path_passes_through_filter (env : dsc_env) (path_length_in : Nat) (path : String)
    (filter : tbd_for_main_dsc_image_filter) : Option Nat × Nat :=
  match filter.type with
  | dsc_image_filter_type.file =>
    let path_length := if path_length_in = 0 then path.length else path_length_in
    (env.path_has_filename path path_length filter.string filter.length, path_length)
  | dsc_image_filter_type.directory =>
    (env.path_has_dir_component path filter.string filter.length, path_length_in)

/-- The comparison `memcmp(a, b, count) != 0` negated, on two C strings: the
first `count` bytes of the two buffers, terminators included, agree. -/
def memcmp_equal (a b : String) (count : Nat) : Bool :=
  (a.data ++ [Char.ofNat 0]).take count = (b.data ++ [Char.ofNat 0]).take count

/-- The loop of `should_parse_image` over the exact paths
(parse_dsc_for_main.c 499-519): the paths as it leaves them, and whether one
of them set `should_parse`. -/
def should_parse_image_paths (path : String) (path_length : Nat) :
    List tbd_for_main_dsc_image_path → List tbd_for_main_dsc_image_path × Bool
  | [] => ([], false)
  | image_path :: rest =>
    let later := should_parse_image_paths path path_length rest
    if image_path.flags.found_one then (image_path :: later.1, later.2)
    else if image_path.length ≠ path_length then (image_path :: later.1, later.2)
    else if !(memcmp_equal image_path.string path path_length) then
      (image_path :: later.1, later.2)
    else
      ({ image_path with flags := { image_path.flags with currently_parsing := true } }
        :: later.1, true)

/-- The loop of `should_parse_image` over the filters
(parse_dsc_for_main.c 526-543), entered with the `should_parse` and the path
length reached so far: the filters as it leaves them, `should_parse`, and
the path length. -/
def should_parse_image_filters (env : dsc_env) (path : String) :
    List tbd_for_main_dsc_image_filter → Bool → Nat →
    List tbd_for_main_dsc_image_filter × Bool × Nat
  | [], should_parse, path_length => ([], should_parse, path_length)
  | filter :: rest, should_parse, path_length =>
    if filter.flags.found_one && should_parse then
      let later := should_parse_image_filters env path rest should_parse path_length
      (filter :: later.1, later.2)
    else
      let passed := path_passes_through_filter env path_length path filter
      match passed.1 with
      | some offset =>
        let later := should_parse_image_filters env path rest true passed.2
        ({ filter with tmp_ptr := offset,
                       flags := { filter.flags with currently_parsing := true } } :: later.1,
         later.2)
      | none =>
        let later := should_parse_image_filters env path rest should_parse passed.2
        (filter :: later.1, later.2)

/-- What `should_parse_image` leaves behind: the value returned, the length in
`*path_length_in`, and the two arrays. -/
structure should_parse_result where
  should_parse : Bool
  path_length : Nat
  filters : List tbd_for_main_dsc_image_filter
  paths : List tbd_for_main_dsc_image_path
  deriving DecidableEq, Repr

/-- `should_parse_image` (parse_dsc_for_main.c 482-546). -/
def should_parse_image (env : dsc_env) (path_length_in : Nat)
    (filters : List tbd_for_main_dsc_image_filter)
    (paths : List tbd_for_main_dsc_image_path) (path : String) : should_parse_result :=
  let path_length :=
    if !paths.isEmpty then (if path_length_in = 0 then path.length else path_length_in)
    else path_length_in
  let by_path :=
    if !paths.isEmpty then should_parse_image_paths path path_length paths else (paths, false)
  let by_filter := should_parse_image_filters env path filters by_path.2 path_length
  { should_parse := by_filter.2.1, path_length := by_filter.2.2,
    filters := by_filter.1, paths := by_path.1 }

/-- `unmark_currently_parsing_conds` (parse_dsc_for_main.c 548-577). -/
def unmark_currently_parsing_conds (tbd : tbd_for_main) : tbd_for_main :=
  { tbd with
    dsc_image_paths :=
      tbd.dsc_image_paths.map (fun image_path =>
        if !image_path.flags.currently_parsing then image_path
        else { image_path with flags := { image_path.flags with currently_parsing := false } }),
    dsc_image_filters :=
      tbd.dsc_image_filters.map (fun filter =>
        if !filter.flags.currently_parsing then filter
        else { filter with flags := { filter.flags with currently_parsing := false } }) }

/-- The selection step of `dsc_iterate_images_callback`
(parse_dsc_for_main.c 610-615): `should_parse_image` with a length of 0 when
not all images are parsed; otherwise nothing is asked and nothing changes. -/
def select_image (env : dsc_env) (callback_info : dsc_iterate_images_callback_info)
    (image_path : String) : should_parse_result :=
  if !callback_info.parse_all_images then
    should_parse_image env 0 callback_info.tbd.dsc_image_filters
      callback_info.tbd.dsc_image_paths image_path
  else ⟨true, 0, callback_info.tbd.dsc_image_filters, callback_info.tbd.dsc_image_paths⟩

/-- The end of `dsc_iterate_images_callback` (parse_dsc_for_main.c 617-623):
the image is parsed; when that fails the conditions are unmarked, when it
succeeds the already-extracted bit is set in the pad word of record `index`. -/
def parse_selected_image (env : dsc_env) (length index : Nat) (image : dyld_cache_image_info)
    (image_path : String) (callback_info : dsc_iterate_images_callback_info) :
    Bool × dsc_iterate_images_callback_info :=
  let parsed := actually_parse_image env length index image image_path callback_info
  if parsed.1 ≠ 0 then
    (true, { parsed.2.2 with tbd := unmark_currently_parsing_conds parsed.2.2.tbd })
  else
    (true,
     { parsed.2.2 with
       dsc_info :=
         { parsed.2.2.dsc_info with
           images := parsed.2.2.dsc_info.images.set index
             { image with pad := image.pad ||| E_DYLD_CACHE_IMAGE_INFO_PAD_ALREADY_EXTRACTED } } })

/-- `dsc_iterate_images_callback` (parse_dsc_for_main.c 579-624), called for
record number `index` of the images table, which is `image`, and its path:
the flag returned and the callback info. -/
def dsc_iterate_images_callback (env : dsc_env) (index : Nat) (image : dyld_cache_image_info)
    (image_path : String) (callback_info : dsc_iterate_images_callback_info) :
    Bool × dsc_iterate_images_callback_info :=
  if image.pad &&& E_DYLD_CACHE_IMAGE_INFO_PAD_ALREADY_EXTRACTED ≠ 0 then (true, callback_info)
  else if image_path.data.headD (Char.ofNat 0) = Char.ofNat 0 then (true, callback_info)
  else
    let selected := select_image env callback_info image_path
    let selecting : dsc_iterate_images_callback_info :=
      { callback_info with
        tbd := { callback_info.tbd with dsc_image_filters := selected.filters,
                                        dsc_image_paths := selected.paths } }
    if !callback_info.parse_all_images && !selected.should_parse then (true, selecting)
    else parse_selected_image env selected.path_length index image image_path selecting

/-! ## `src/parse_dsc_for_main.c`: warnings -/

/-- `found_at_least_one_image` (parse_dsc_for_main.c 626-639). -/
def found_at_least_one_image : List tbd_for_main_dsc_image_filter → Bool
  | [] => true
  | filter :: rest => if filter.flags.found_one then found_at_least_one_image rest else false

/-- `found_all_paths` (parse_dsc_for_main.c 641-654). -/
def found_all_paths : List tbd_for_main_dsc_image_path → Bool
  | [] => true
  | path :: rest => if path.flags.found_one then found_all_paths rest else false

/-- The line `print_missing_filters` writes for one filter. -/
def missing_filter_line (filter : tbd_for_main_dsc_image_filter) : dsc_event :=
  match filter.type with
  | dsc_image_filter_type.directory =>
    dsc_event.stderr
      ("\tNo images were found that passed the provided filter (a directory with name: "
        ++ filter.string ++ ")\n")
  | dsc_image_filter_type.file =>
    dsc_event.stderr
      ("\tNo images were found that passed the provided filter (with file-name: "
        ++ filter.string ++ ")\n")

/-- `print_missing_filters` (parse_dsc_for_main.c 665-693). -/
def print_missing_filters : List tbd_for_main_dsc_image_filter → List dsc_event
  | [] => []
  | filter :: rest =>
    if filter.flags.found_one then print_missing_filters rest
    else missing_filter_line filter :: print_missing_filters rest

/-- The line `print_missing_paths` writes for one exact path. -/
def missing_path_line (path : tbd_for_main_dsc_image_path) : dsc_event :=
  dsc_event.stderr ("\tNo image was found with path: " ++ path.string ++ "\n")

/-- `print_missing_paths` (parse_dsc_for_main.c 704-715). -/
def print_missing_paths : List tbd_for_main_dsc_image_path → List dsc_event
  | [] => []
  | path :: rest =>
    if path.flags.found_one then print_missing_paths rest
    else missing_path_line path :: print_missing_paths rest

/-- `print_dsc_warnings` (parse_dsc_for_main.c 722-736). -/
def print_dsc_warnings (callback_info : dsc_iterate_images_callback_info)
    (filters : List tbd_for_main_dsc_image_filter)
    (paths : List tbd_for_main_dsc_image_path) : dsc_iterate_images_callback_info :=
  if found_at_least_one_image filters && found_all_paths paths then callback_info
  else
    (print_messages_header callback_info).log
      (print_missing_filters filters ++ print_missing_paths paths)

/-! ## `src/parse_dsc_for_main.c`: `parse_dsc_for_main` -/

/-- The members of `enum read_magic_result`. -/
inductive read_magic_result where
  | ok
  | read_failed
  | not_large_enough
  deriving DecidableEq, Repr

/-- `read_magic` (parse_dsc_for_main.c 745-766): the result and the value
left in `*magic_in_size_in`. -/
def read_magic (env : dsc_env) (magic_in_size : Nat) : read_magic_result × Nat :=
  if magic_in_size ≥ 16 then (read_magic_result.ok, magic_in_size)
  else
    match env.read (16 - magic_in_size) with
    | read_return.failed true => (read_magic_result.not_large_enough, magic_in_size)
    | read_return.failed false => (read_magic_result.read_failed, magic_in_size)
    | read_return.delivered _ => (read_magic_result.ok, 16)

/-- `verify_write_path` (parse_dsc_for_main.c 768-868): the `tbd` as it
leaves it, or `none` when it leaves through `exit(1)`. -/
def verify_write_path (env : dsc_env) (tbd : tbd_for_main) : Option tbd_for_main :=
  match tbd.write_path with
  | none =>
    if tbd.dsc_image_filters.isEmpty
        && ((tbd.dsc_image_numbers.isEmpty && tbd.dsc_image_paths.length = 1)
          || (tbd.dsc_image_paths.isEmpty && tbd.dsc_image_numbers.length = 1)) then some tbd
    else none
  | some write_path =>
    match env.stat write_path with
    | write_path_stat.missing => some tbd
    | write_path_stat.error => none
    | write_path_stat.regular =>
      if tbd.dsc_image_filters.isEmpty
          && ((tbd.dsc_image_numbers.length = 1 && tbd.dsc_image_paths.length = 0)
            || (tbd.dsc_image_numbers.length = 0 && tbd.dsc_image_paths.length = 1)) then
        some { tbd with flags := { tbd.flags with dsc_write_path_is_file := true } }
      else none
    | write_path_stat.other => some tbd

/-- The warning `parse_dsc_for_main` writes for an image number beyond
`images_count` (parse_dsc_for_main.c 957-973). -/
def image_number_warning (number images_count : Nat) (print_paths : Bool)
    (dsc_dir_path dsc_name : String) : dsc_event :=
  if print_paths then
    dsc_event.stderr
      ("An image-number of " ++ toString number ++ " goes beyond the images-count of "
        ++ toString images_count ++ " the dyld_shared_cache (at path " ++ dsc_dir_path ++ "/"
        ++ dsc_name ++ ") has\n")
  else
    dsc_event.stderr
      ("An image-number of " ++ toString number ++ " goes beyond the images-count of "
        ++ toString images_count ++ " the dyld_shared_cache at the provided path has\n")

/-- The loop over the image numbers (parse_dsc_for_main.c 954-996 and
1145-1187). A number beyond `images_count` gets the warning and the loop goes
on; any other number `n` selects the record at index `n - 1`, computed in 32
bits, reads its path at `map + pathFileOffset` and calls
`actually_parse_image`. `none` when that index lies outside the images table
(the number 0), where the record read is not one of the table. -/
def parse_image_numbers (env : dsc_env) (print_paths : Bool) (dsc_dir_path dsc_name : String) :
    List Nat → dsc_iterate_images_callback_info → Option dsc_iterate_images_callback_info
  | [], callback_info => some callback_info
  | number :: rest, callback_info =>
    if number > callback_info.dsc_info.images_count then
      parse_image_numbers env print_paths dsc_dir_path dsc_name rest
        (callback_info.log
          [image_number_warning number callback_info.dsc_info.images_count print_paths
            dsc_dir_path dsc_name])
    else
      let index := (number + 2 ^ 32 - 1) % 2 ^ 32
      match callback_info.dsc_info.images[index]? with
      | none => none
      | some image =>
        let image_path := c_string_at callback_info.dsc_info.map image.pathFileOffset
        parse_image_numbers env print_paths dsc_dir_path dsc_name rest
          (actually_parse_image env 0 index image image_path callback_info).2.2

/-- Modelled from the spec: `dyld_shared_cache_iterate_images_with_callback`,
declared outside `src/`. The spec's DSC Image Iterator visits each image of
the images table: the records are visited in table order from record number
`index` on, each with the path read at its `pathFileOffset`, and the visit
stops when the callback returns false. -/
def iterate_images_from (env : dsc_env) :
    Nat → Nat → dsc_iterate_images_callback_info → dsc_iterate_images_callback_info
  | 0, _, callback_info => callback_info
  | remaining + 1, index, callback_info =>
    match callback_info.dsc_info.images[index]? with
    | none => callback_info
    | some image =>
      let called :=
        dsc_iterate_images_callback env index image
          (c_string_at callback_info.dsc_info.map image.pathFileOffset) callback_info
      if called.1 then iterate_images_from env remaining (index + 1) called.2 else called.2

/-- Modelled from the spec: `dyld_shared_cache_iterate_images_with_callback`
over the whole images table, with `dsc_iterate_images_callback`. -/
def dyld_shared_cache_iterate_images_with_callback (env : dsc_env)
    (callback_info : dsc_iterate_images_callback_info) : dsc_iterate_images_callback_info :=
  iterate_images_from env callback_info.dsc_info.images_count 0 callback_info

/-- The fields of `struct parse_dsc_for_main_args` the two entry points read. -/
structure parse_dsc_for_main_args where
  magic_in_size : Nat
  dsc_dir_path : String
  dsc_dir_path_length : Nat
  dsc_name : String
  dsc_name_length : Nat
  tbd : tbd_for_main
  retained_info : Nat
  print_paths : Bool
  ignore_non_cache_error : Bool
  verify_write_path : Bool
  deriving DecidableEq, Repr

/-- How a run of `parse_dsc_for_main` ends: it returns a result, with the
events and the `tbd` it leaves; it leaves through `exit(1)`; or it reads a
record outside the images table. -/
inductive dsc_outcome where
  | returned (result : parse_dsc_for_main_result) (trace : List dsc_event) (tbd : tbd_for_main)
  | exited (code : Nat)
  | outside_images_table
  deriving DecidableEq, Repr

/-- The end of both entry points (parse_dsc_for_main.c 1007-1010 and
1036-1039): the warnings are printed and `E_PARSE_DSC_FOR_MAIN_OK` is
returned. -/
def finish_dsc_images (callback_info : dsc_iterate_images_callback_info) : dsc_outcome :=
  dsc_outcome.returned parse_dsc_for_main_result.ok
    (print_dsc_warnings callback_info callback_info.tbd.dsc_image_filters
      callback_info.tbd.dsc_image_paths).trace
    (print_dsc_warnings callback_info callback_info.tbd.dsc_image_filters
      callback_info.tbd.dsc_image_paths).tbd

/-- The part the two entry points share once the cache is parsed
(parse_dsc_for_main.c 941-1039 and 1132-1234): the numbers, then, unless only
numbers were given, the iteration over the images table, then the warnings. -/
def parse_dsc_images (env : dsc_env) (args : parse_dsc_for_main_args)
    (callback_info : dsc_iterate_images_callback_info) : dsc_outcome :=
  if !callback_info.tbd.dsc_image_numbers.isEmpty then
    match parse_image_numbers env args.print_paths args.dsc_dir_path args.dsc_name
        callback_info.tbd.dsc_image_numbers callback_info with
    | none => dsc_outcome.outside_images_table
    | some numbered =>
      if callback_info.tbd.dsc_image_filters.isEmpty
          && callback_info.tbd.dsc_image_paths.isEmpty then finish_dsc_images numbered
      else
        finish_dsc_images (dyld_shared_cache_iterate_images_with_callback env
          { numbered with parse_all_images := false })
  else if !callback_info.tbd.dsc_image_filters.isEmpty
      || !callback_info.tbd.dsc_image_paths.isEmpty then
    finish_dsc_images (dyld_shared_cache_iterate_images_with_callback env
      { callback_info with parse_all_images := false })
  else finish_dsc_images (dyld_shared_cache_iterate_images_with_callback env callback_info)

/-- The cache `dyld_shared_cache_parse_from_file` hands back for the options
of `args` (parse_dsc_for_main.c 896-904). -/
def parsed_cache (env : dsc_env) (args : parse_dsc_for_main_args) : dyld_shared_cache_info :=
  (env.dyld_shared_cache_parse_from_file
    (env.O_DYLD_SHARED_CACHE_PARSE_ZERO_IMAGE_PADS ||| args.tbd.dsc_options)).2

/-- The result `dyld_shared_cache_parse_from_file` returns for the options of
`args`. -/
def parsed_cache_result (env : dsc_env) (args : parse_dsc_for_main_args) :
    dyld_shared_cache_parse_result :=
  (env.dyld_shared_cache_parse_from_file
    (env.O_DYLD_SHARED_CACHE_PARSE_ZERO_IMAGE_PADS ||| args.tbd.dsc_options)).1

/-- The callback info both entry points start from (parse_dsc_for_main.c
928-939 and 1119-1130). -/
def initial_callback_info (env : dsc_env) (args : parse_dsc_for_main_args) (tbd : tbd_for_main)
    (write_path : Option String) (write_path_length : Nat) :
    dsc_iterate_images_callback_info :=
  { dsc_info := parsed_cache env args, dsc_dir_path := args.dsc_dir_path,
    dsc_name := args.dsc_name, write_path := write_path,
    write_path_length := write_path_length, tbd := tbd, retained_info := args.retained_info,
    print_paths := args.print_paths, parse_all_images := true,
    did_print_messages_header := false, trace := [] }

/-- The head of both entry points (parse_dsc_for_main.c 872-922 and
1044-1098): the magic is read and the cache parsed; `none` when both succeed,
otherwise what the function returns at once. -/
def open_cache (env : dsc_env) (args : parse_dsc_for_main_args) : Option dsc_outcome :=
  match (read_magic env args.magic_in_size).1 with
  | read_magic_result.read_failed =>
    some (dsc_outcome.returned (parse_dsc_for_main_result.of_bool true)
      [dsc_event.handle_dsc_file_parse_result dyld_shared_cache_parse_result.read_fail] args.tbd)
  | read_magic_result.not_large_enough =>
    some (dsc_outcome.returned (parse_dsc_for_main_result.of_bool false) [] args.tbd)
  | read_magic_result.ok =>
    if parsed_cache_result env args = dyld_shared_cache_parse_result.not_a_cache then
      some (dsc_outcome.returned parse_dsc_for_main_result.not_a_shared_cache
        (if !args.ignore_non_cache_error then
          [dsc_event.handle_dsc_file_parse_result (parsed_cache_result env args)] else [])
        args.tbd)
    else if parsed_cache_result env args ≠ dyld_shared_cache_parse_result.ok then
      some (dsc_outcome.returned parse_dsc_for_main_result.other_error
        [dsc_event.handle_dsc_file_parse_result (parsed_cache_result env args)] args.tbd)
    else none

/-- `parse_dsc_for_main` (parse_dsc_for_main.c 870-1040). -/
def parse_dsc_for_main (env : dsc_env) (args : parse_dsc_for_main_args) : dsc_outcome :=
  match open_cache env args with
  | some early => early
  | none =>
    match (if args.verify_write_path then verify_write_path env args.tbd
           else some args.tbd) with
    | none => dsc_outcome.exited 1
    | some tbd =>
      parse_dsc_images env args
        (initial_callback_info env args tbd tbd.write_path tbd.write_path_length)

/-- `parse_dsc_for_main_while_recursing` (parse_dsc_for_main.c 1042-1235);
the write path is the folder made from the directory and the name of the
cache. -/
def parse_dsc_for_main_while_recursing (env : dsc_env) (args : parse_dsc_for_main_args) :
    dsc_outcome :=
  match open_cache env args with
  | some early => early
  | none =>
    parse_dsc_images env args
      (initial_callback_info env args args.tbd
        (some (env.tbd_for_main_create_dsc_folder_path args.dsc_dir_path
          args.dsc_dir_path_length args.dsc_name args.dsc_name_length))
        (env.tbd_for_main_create_dsc_folder_path args.dsc_dir_path
          args.dsc_dir_path_length args.dsc_name args.dsc_name_length).length)

/-! ## `src/parse_dsc_for_main.c`: relations between callback infos -/

/-- Whether an event is a call of `dsc_image_parse`. -/
def dsc_event.is_image_parse : dsc_event → Bool
  | dsc_event.dsc_image_parse _ _ _ => true
  | _ => false

/-- The callback info `b` comes from `a` by printing: events none of which
is a call of `dsc_image_parse` are appended to the trace, the header flag may
change, and nothing else does. -/
def only_printed (a b : dsc_iterate_images_callback_info) : Prop :=
  ∃ later flag,
    b = { a with trace := a.trace ++ later, did_print_messages_header := flag }
      ∧ ∀ e ∈ later, e.is_image_parse = false

/-- The callback info `b` comes from `a` by appending events none of which is
a call of `dsc_image_parse`, with the cache and `parse_all_images` left as
they were. -/
def quiet_step (a b : dsc_iterate_images_callback_info) : Prop :=
  b.dsc_info = a.dsc_info ∧ b.parse_all_images = a.parse_all_images
    ∧ ∃ later, b.trace = a.trace ++ later ∧ ∀ e ∈ later, e.is_image_parse = false

/-- What `should_parse_image` reads of a filter: its string, length and type. -/
def filter_key (filter : tbd_for_main_dsc_image_filter) : String × Nat × dsc_image_filter_type :=
  (filter.string, filter.length, filter.type)

/-- What `should_parse_image` compares of an exact path: its string and length. -/
def path_key (path : tbd_for_main_dsc_image_path) : String × Nat := (path.string, path.length)

/-- The filters and exact paths of `b` are those of `a`, flags and `tmp_ptr` apart. -/
def same_conditions (a b : tbd_for_main) : Prop :=
  b.dsc_image_filters.map filter_key = a.dsc_image_filters.map filter_key
    ∧ b.dsc_image_paths.map path_key = a.dsc_image_paths.map path_key

/-- Whether an image path equals one of the exact paths, in length and in
bytes (the comparisons of parse_dsc_for_main.c 509-515), or passes one of the
filters (`path_passes_through_filter`). -/
def image_path_matches (env : dsc_env) (filters : List tbd_for_main_dsc_image_filter)
    (paths : List tbd_for_main_dsc_image_path) (image_path : String) : Bool :=
  paths.any (fun path =>
      decide (path.length = image_path.length)
        && memcmp_equal path.string image_path image_path.length)
    || filters.any (fun filter => (path_passes_through_filter env 0 image_path filter).1.isSome)

/-! ## `src/main.cc`: two loops, a round at a time -/

/-- The character `string[i]` of a C string, the terminator from its end on. -/
def character_at (s : String) (i : Nat) : Char := s.data.getD i (Char.ofNat 0)

/-- The `while` loop at the head of
`recursively_create_directories_from_file_path` (main.cc 169-171), a round at
a time, `fuel` bounding the rounds. `begin` is `&path[index]` throughout; a
round tests `begin[1]` and, when that is a slash, advances `path`, kept as
the count `moved` of its advances. The count when the loop ends, `none` when
the rounds run out. -/
def leading_slashes_loop (path : String) (index : Nat) : Nat → Nat → Option Nat
  | 0, _ => none
  | fuel + 1, moved =>
    if character_at path (index + 1) = '/' || character_at path (index + 1) = Char.ofNat 92 then
      leading_slashes_loop path index fuel (moved + 1)
    else some moved

/-- The head of `recursively_create_directories_from_file_path`
(main.cc 166-172): the loop is entered when `*begin` is a slash. -/
def skip_leading_slashes (path : String) (index : Nat) (fuel : Nat) : Option Nat :=
  if character_at path index = '/' then leading_slashes_loop path index fuel 0 else some 0

/-- The inner loop of the duplicate removal (main.cc 1411-1436), a round at a
time, `fuel` bounding the rounds; the list holds the inputs from
`tbd_inner_iter` on. The `continue` taken for a differing path starts the
next round with `tbd_inner_iter` where it was. What is left of the inputs
when the loop ends, `none` when the rounds run out. -/
def remove_duplicates_inner_rounds (env : main_env) (tbd : tbd_file) :
    Nat → List tbd_file → Option (List tbd_file)
  | 0, _ => none
  | _ + 1, [] => some []
  | fuel + 1, tbd_inner :: rest =>
    if env.path_compare tbd.path tbd_inner.path ≠ 0 then
      remove_duplicates_inner_rounds env tbd fuel (tbd_inner :: rest)
    else
      let tbd_inner_options :=
        if has_flag tbd_inner.options recurse_subdirectories then
          clear_flag tbd_inner.options recurse_subdirectories
        else tbd_inner.options
      match remove_duplicates_inner_rounds env tbd fuel rest with
      | none => none
      | some kept => if tbd_inner_options ≠ 0 then some (tbd_inner :: kept) else some kept

/-! ## `src/parse_or_list_fields.c` -/

namespace parse_or_list_fields

/-- Modelled from the spec: `arch_info_for_name`, declared outside `src/`, on
the table `arch_info_get_list` returns, the table being given by the names of
its entries in order. The spec's Architecture Registry is looked up linearly
by name: the position of the first entry with the name, `none` for the null
pointer. -/
def arch_info_for_name : List String → String → Option Nat
  | [], _ => none
  | entry :: rest, name =>
    if entry = name then some 0
    else (arch_info_for_name rest name).map (fun index => index + 1)

/-- What `parse_architectures_list` leaves when it returns: the bitset
returned, `*count_out` and `*index_in`. -/
structure architectures_list where
  archs : Nat
  count : Nat
  index : Int
  deriving DecidableEq, Repr

/-- The `do ... while (true)` loop of `parse_architectures_list`
(parse_or_list_fields.c 37-83) at `argv[index]`, the arguments from there on
being the list; the empty list is `index == argc`, where the loop breaks.
`archs` is a 64-bit word. -/
def parse_architectures_list_loop (arch_info_list : List String) :
    List String → Nat → Nat → Nat → outcome architectures_list
  | [], archs, count, index => outcome.value ⟨archs, count, (index : Int) - 1⟩
  | arch :: rest, archs, count, index =>
    let arch_front := string_front arch
    if arch_front = '-' || arch_front = '/' then
      if archs = 0 then outcome.exit 1 else outcome.value ⟨archs, count, (index : Int) - 1⟩
    else
      match arch_info_for_name arch_info_list arch with
      | none =>
        if archs = 0 then outcome.exit 1 else outcome.value ⟨archs, count, (index : Int) - 1⟩
      | some arch_info_index =>
        let arch_info_mask := (1 <<< arch_info_index) % 2 ^ 64
        parse_architectures_list_loop arch_info_list rest (archs ||| arch_info_mask)
          (count + 1) (index + 1)

/-- `parse_architectures_list` (parse_or_list_fields.c 25-95) for the table
`arch_info_list`, the argument vector `argv` (`argc` is its length) and the
index in `*index_in`. The loop reads `argv[index]` before any test: `none`
when the start index is not below `argc`, where that is the null pointer. -/
def parse_architectures_list (arch_info_list : List String) (argv : List String)
    (index_in : Nat) : Option (outcome architectures_list) :=
  if index_in < argv.length then
    some (parse_architectures_list_loop arch_info_list (argv.drop index_in) 0 0 index_in)
  else none

/-- The two bits of the flags word `parse_flags_list` tests and sets,
`TBD_FLAG_FLAT_NAMESPACE` and `TBD_FLAG_NOT_APP_EXTENSION_SAFE`. Their values
are declared outside `src/`; each bit is kept as a truth value, and the word
is 0 when both are false. -/
structure tbd_flags where
  flat_namespace : Bool
  not_app_extension_safe : Bool
  deriving DecidableEq, Repr

/-- What `parse_flags_list` leaves when it returns: the flags returned,
`*index_in`, and the notes written to standard output. -/
structure flags_list where
  flags : tbd_flags
  index : Int
  notes : List String
  deriving DecidableEq, Repr

/-- The `for` loop of `parse_flags_list` (parse_or_list_fields.c 105-136) at
`argv[index]`, the arguments from there on being the list; the empty list is
`index == argc`. -/
def parse_flags_list_loop :
    List String → tbd_flags → Nat → List String → outcome flags_list
  | [], flags, index, notes => outcome.value ⟨flags, (index : Int) - 1, notes⟩
  | arg :: rest, flags, index, notes =>
    if arg = "flat_namespace" then
      if flags.flat_namespace then
        parse_flags_list_loop rest flags (index + 1)
          (notes ++ ["Note: tbd-flag flat_namespace was provided twice\n"])
      else parse_flags_list_loop rest { flags with flat_namespace := true } (index + 1) notes
    else if arg = "not_app_extension_safe" then
      if flags.not_app_extension_safe then
        parse_flags_list_loop rest flags (index + 1)
          (notes ++ ["Note: tbd-flag not_app_extension_safe was provided twice\n"])
      else
        parse_flags_list_loop rest { flags with not_app_extension_safe := true } (index + 1)
          notes
    else if flags.flat_namespace || flags.not_app_extension_safe then
      outcome.value ⟨flags, (index : Int) - 1, notes⟩
    else outcome.exit 1

/-- `parse_flags_list` (parse_or_list_fields.c 97-145). The loop runs while
`index != argc`: `none` when the start index is beyond `argc`, where it reads
past the argument vector. -/
def parse_flags_list (argv : List String) (index_in : Nat) : Option (outcome flags_list) :=
  if index_in ≤ argv.length then
    some (parse_flags_list_loop (argv.drop index_in) ⟨false, false⟩ index_in [])
  else none

/-- The members of `enum tbd_platform` that `parse_platform` returns. -/
inductive tbd_platform where
  | none
  | macos
  | ios
  | watchos
  | tvos
  | bridgeos
  | iosmac
  | zippered
  deriving DecidableEq, Repr

/-- `parse_platform` (parse_or_list_fields.c 197-215); `strcmp(a, b) == 0` is
equality of the strings. -/
def parse_platform (platform : String) : tbd_platform :=
  if platform = "macosx" then tbd_platform.macos
  else if platform = "ios" then tbd_platform.ios
  else if platform = "watchos" then tbd_platform.watchos
  else if platform = "tvos" then tbd_platform.tvos
  else if platform = "bridgeos" then tbd_platform.bridgeos
  else if platform = "iosmac" then tbd_platform.iosmac
  else if platform = "zippered" then tbd_platform.zippered
  else tbd_platform.none

/-- The members of `enum tbd_version` that `parse_tbd_version` returns. -/
inductive tbd_version where
  | none
  | v1
  | v2
  | v3
  deriving DecidableEq, Repr

/-- `parse_tbd_version` (parse_or_list_fields.c 217-227). -/
def parse_tbd_version (version : String) : tbd_version :=
  if version = "v1" then tbd_version.v1
  else if version = "v2" then tbd_version.v2
  else if version = "v3" then tbd_version.v3
  else tbd_version.none

/-- The text `print_platform_list` writes to standard output
(parse_or_list_fields.c 245-254). -/
def print_platform_list : String :=
  "macosx\n"
    ++ "ios\n"
    ++ "watchos\n"
    ++ "tvos\n"
    ++ "bridgeos\n"
    ++ "iosmac (Not yet found in mach-o binaries, but supported)\n"
    ++ "zippered (Not yet found in mach-o binaries, but supported)\n"

/-- The text `print_tbd_flags_list` writes to standard output
(parse_or_list_fields.c 256-260). -/
def print_tbd_flags_list : String :=
  "flat_namespace\n"
    ++ "not_app_extension_safe\n"

/-- The text `print_tbd_version_list` writes to standard output
(parse_or_list_fields.c 262-267). -/
def print_tbd_version_list : String :=
  "v1\n"
    ++ "v2\n"
    ++ "v3\n"

/-- The lines of a text, each without its line feed; `current` holds the
characters of the line being read. -/
def lines_of : List Char → List Char → List String
  | [], current => if current = [] then [] else [String.mk current]
  | ch :: rest, current =>
    if ch = Char.ofNat 10 then String.mk current :: lines_of rest []
    else lines_of rest (current ++ [ch])

/-- The start of a line up to its first blank. -/
def first_word (line : String) : String :=
  String.mk (line.data.takeWhile (fun ch => ch != ' '))

/-- The name at the start of each line of a text. -/
def line_names (text : String) : List String :=
  (lines_of text.data []).map first_word

/-- The `for` loop of `parse_swift_version` (parse_or_list_fields.c 172-188)
over the characters still to read, `version` being a 32-bit word: the version
when the string ends, `none` for a `return 0` inside the loop. -/
def parse_swift_version_loop : List Char → Nat → Option Nat
  | [], version => some version
  | ch :: rest, version =>
    if !ch.isDigit then none
    else
      let new_version := (version * 10 + (ch.toNat &&& 0xf)) % 2 ^ 32
      if new_version < version then none else parse_swift_version_loop rest new_version

/-- `parse_swift_version` (parse_or_list_fields.c 164-195); the value returned
is a 32-bit word. -/
def parse_swift_version (arg : String) : Nat :=
  if arg = "1.2" then 2
  else
    match parse_swift_version_loop arg.data 0 with
    | none => 0
    | some version => if version > 1 then (version + 1) % 2 ^ 32 else version

end parse_or_list_fields

/-! ## `src/path.c` -/

/-- `path_is_slash_ch` (path.c 52-54). -/
def path_is_slash_ch (ch : Char) : Bool := ch = '/'

/-- The bytes a C string occupies: its characters, then the terminator. -/
def c_string_bytes (s : String) : List Char := s.data ++ [Char.ofNat 0]

/-- The `count` bytes at offset `offset` of a C string, as `memcpy` reads
them; `none` when the read goes past the terminator. -/
def read_bytes (s : String) (offset count : Nat) : Option (List Char) :=
  if offset + count ≤ (c_string_bytes s).length then
    some (((c_string_bytes s).drop offset).take count)
  else none

/-- The buffer after `bytes` are written at its offset `offset`; `none` when
the write goes past the end of the buffer. -/
def write_bytes (buffer : List Char) (offset : Nat) (bytes : List Char) : Option (List Char) :=
  if offset + bytes.length ≤ buffer.length then
    some (buffer.take offset ++ bytes ++ buffer.drop (offset + bytes.length))
  else none

/-- What `path_append_component_with_len` and
`path_append_component_and_extension_with_len` return: the null pointer, or a
buffer they allocated, given by its bytes; `fault` stands for a read outside
a string or a write outside the buffer. `calloc` and `strdup` are taken to
succeed. -/
inductive path_result where
  | null
  | allocated (bytes : List Char)
  | fault
  deriving DecidableEq, Repr

/-- The C string at the pointer returned. -/
def path_result.string : path_result → Option String
  | path_result.allocated bytes => some (c_string_at bytes 0)
  | path_result.null => none
  | path_result.fault => none

/-- The `do ... while` loop of `path_get_end_of_row_of_slashes`
(path.c 60-65) over the bytes from `iter + 1` on: the offset at which it
returns, `none` for `NULL`. -/
def path_get_end_of_row_of_slashes_loop : List Char → Nat → Option Nat
  | [], _ => none
  | ch :: rest, iter =>
    if ch = Char.ofNat 0 then none
    else if path_is_slash_ch ch then path_get_end_of_row_of_slashes_loop rest (iter + 1)
    else some (iter + 1)

/-- `path_get_end_of_row_of_slashes` (path.c 56-68): the offset of the
pointer returned, `none` for `NULL`. The first byte is stepped over unread;
the callers pass a string that starts with a slash. -/
def path_get_end_of_row_of_slashes (path : String) : Option Nat :=
  path_get_end_of_row_of_slashes_loop ((c_string_bytes path).drop 1) 0

/-- The writes both functions make into the zeroed buffer `combined`
(path.c 205-212 and 315-322): the slash at `combined + path_length` when one
is needed, then `path_length` bytes of `path` at the start, then
`component_copy_length` bytes of `component_iter` after the slash. `none`
when a read or a write goes outside. -/
def write_path_and_component (combined : List Char) (path : String) (path_length : Nat)
    (needs_back_slash : Bool) (component : String)
    (component_iter component_copy_length : Nat) : Option (List Char) :=
  (if needs_back_slash then write_bytes combined path_length ['/'] else some combined).bind
    fun slashed =>
      (read_bytes path 0 path_length).bind fun path_bytes =>
        (write_bytes slashed 0 path_bytes).bind fun with_path =>
          (read_bytes component component_iter component_copy_length).bind
            fun component_bytes =>
              write_bytes with_path (path_length + (if needs_back_slash then 1 else 0))
                component_bytes

/-- The writes for the extension (path.c 324-338): nothing for a null
extension; otherwise the dot at `combined_extension_iter` when one is needed,
then `extension_length` bytes of the extension. -/
def write_extension (combined : List Char) (combined_extension_iter : Nat)
    (needs_extension_dot : Bool) (extension : Option String) (extension_length : Nat) :
    Option (List Char) :=
  match extension with
  | none => some combined
  | some extension =>
    (if needs_extension_dot then write_bytes combined combined_extension_iter ['.']
     else some combined).bind fun dotted =>
      (read_bytes extension 0 extension_length).bind fun extension_bytes =>
        write_bytes dotted (combined_extension_iter + (if needs_extension_dot then 1 else 0))
          extension_bytes

/-- `path_append_component_with_len` (path.c 125-215); a null pointer is
`none`. -/
def path_append_component_with_len (path : Option String) (path_length : Nat)
    (component : Option String) (component_length : Nat) : path_result :=
  match path, component with
  | none, none => path_result.null
  | none, some component => path_result.allocated (c_string_bytes component)
  | some path, none => path_result.allocated (c_string_bytes path)
  | some path, some component =>
    if path_length = 0 then path_result.fault
    else
      match (c_string_bytes path)[path_length - 1]? with
      | none => path_result.fault
      | some path_back =>
        let needs_back_slash := !path_is_slash_ch path_back
        let component_front := string_front component
        match (if path_is_slash_ch component_front then path_get_end_of_row_of_slashes component
               else some 0) with
        | none => path_result.allocated (c_string_bytes path)
        | some component_iter =>
          if component_length < component_iter then path_result.fault
          else
            let component_copy_length := component_length - component_iter
            let combined_length :=
              path_length + component_length + (if needs_back_slash then 1 else 0)
            let combined := List.replicate (combined_length + 1) (Char.ofNat 0)
            match write_path_and_component combined path path_length needs_back_slash component
                component_iter component_copy_length with
            | none => path_result.fault
            | some written => path_result.allocated written

/-- `path_append_component_and_extension_with_len` (path.c 217-341); a null
pointer is `none`. -/
def path_append_component_and_extension_with_len (path : Option String) (path_length : Nat)
    (component : Option String) (component_length : Nat) (extension : Option String)
    (extension_length : Nat) : path_result :=
  match path, component with
  | none, none => path_result.null
  | none, some component => path_result.allocated (c_string_bytes component)
  | some path, none => path_result.allocated (c_string_bytes path)
  | some path, some component =>
    if path_length = 0 then path_result.fault
    else
      match (c_string_bytes path)[path_length - 1]? with
      | none => path_result.fault
      | some path_back =>
        let needs_back_slash := !path_is_slash_ch path_back
        let component_front := string_front component
        match (if path_is_slash_ch component_front then path_get_end_of_row_of_slashes component
               else some 0) with
        | none => path_result.allocated (c_string_bytes path)
        | some component_iter =>
          if component_length < component_iter then path_result.fault
          else
            let component_copy_length := component_length - component_iter
            let needs_extension_dot :=
              match extension with
              | some extension => string_front extension != '.'
              | none => false
            let combined_length :=
              path_length + component_length + extension_length
                + (if needs_back_slash then 1 else 0) + (if needs_extension_dot then 1 else 0)
            let combined := List.replicate (combined_length + 1) (Char.ofNat 0)
            let combined_component_iter := path_length + (if needs_back_slash then 1 else 0)
            match (write_path_and_component combined path path_length needs_back_slash component
                component_iter component_copy_length).bind (fun with_component =>
                  write_extension with_component
                    (combined_component_iter + component_copy_length) needs_extension_dot
                    extension extension_length) with
            | none => path_result.fault
            | some written => path_result.allocated written

/-! ## Concrete environments used to evaluate the embedding -/

/-- A tbd library that knows the platforms `macosx` (1) and `ios` (2) and
whose `create_from_macho_library` finds no platform in the file: it fails
with `platform_not_found` unless the caller supplies a platform. -/
def sample_tbd_env : tbd_env where
  string_to_platform := fun s => if s = "macosx" then 1 else if s = "ios" then 2 else 0
  platform_names := ["macosx", "ios"]
  create_from_macho_library := fun _ args =>
    if args.platform = platform_none then creation_result.platform_not_found
    else creation_result.ok

/-- A machine with the working directory `/work/`, on which
`/usr/lib/libfoo.dylib` and `/usr/lib/libbar.dylib` are mach-o libraries from
which a tbd is created with result `ok`, `/notes.txt` is a regular file that
is not a mach-o file, and nothing else exists; every `fopen` for writing
succeeds. -/
def sample_main_env : main_env where
  string_to_platform := fun s => if s = "macosx" then 1 else if s = "ios" then 2 else 0
  platform_names := ["macosx", "ios"]
  create_from_macho_library := fun _ _ => creation_result.ok
  current_directory := some "/work/"
  stat := fun path =>
    if path = "/usr/lib/libfoo.dylib" || path = "/usr/lib/libbar.dylib" || path = "/notes.txt"
    then some file_kind.regular else none
  architecture_info_from_name := fun s =>
    if s = "x86_64" then some 0 else if s = "arm64" then some 1 else none
  string_to_version := fun s => if s = "v1" then 1 else if s = "v2" then 2 else 0
  macho_file_open := fun _ => open_result.ok
  has_unknown_architecture := fun _ => false
  open_from_library := fun path =>
    if path = "/notes.txt" then open_result.not_a_macho else open_result.ok
  fopen := fun _ => true
  create_directories := fun _ _ _ => directories_result.created
  remove_directories := fun _ => true
  macho_library_paths := fun _ _ => operation_result.ok
  macho_libraries := fun _ _ => ([], operation_result.ok)
  path_compare := fun a b => if a = b then 0 else 1
  find_last_slash := fun _ => 0
  allow_all_private_symbols := 1
  allow_private_normal_symbols := 2
  allow_private_weak_symbols := 4
  allow_private_objc_symbols := 8
  allow_private_objc_classes := 16
  allow_private_objc_ivars := 32
  recurse_print_warnings := 1
  recurse_recurse_subdirectories := 2

/-- A cache file with two images, `/usr/lib/libfoo.dylib` and
`/usr/lib/libbar.dylib`, whose paths lie at offsets 0 and 22 of the file. -/
def sample_cache : dyld_shared_cache_info where
  map := "/usr/lib/libfoo.dylib".data ++ [Char.ofNat 0] ++ "/usr/lib/libbar.dylib".data
    ++ [Char.ofNat 0]
  images := [⟨4096, 0, 0, 0, 0⟩, ⟨8192, 0, 0, 22, 0⟩]

/-- A machine on which the cache file is `sample_cache`, every image parses
and every tbd is written; a file-name filter passes a path of `/usr/lib/`
with that file name, and no directory filter passes. -/
def sample_dsc_env : dsc_env where
  read := fun _ => read_return.delivered 16
  dyld_shared_cache_parse_from_file := fun _ => (dyld_shared_cache_parse_result.ok, sample_cache)
  stat := fun _ => write_path_stat.missing
  dsc_image_parse := fun info _ image _ _ =>
    (dsc_image_parse_result.ok, ⟨image.address :: info.fields⟩)
  handle_dsc_image_parse_result := fun retained _ _ result =>
    (result = dsc_image_parse_result.ok, retained)
  path_has_filename := fun path _ string _ => if path = "/usr/lib/" ++ string then some 9 else none
  path_has_dir_component := fun _ _ _ => none
  tbd_for_main_create_dsc_image_write_path := fun write_path _ component _ =>
    write_path.getD "" ++ component ++ ".tbd"
  tbd_for_main_create_dsc_folder_path := fun directory _ name _ =>
    directory ++ "/" ++ name ++ ".tbds"
  tbd_for_main_write_to_path := fun _ _ _ => tbd_for_main_write_to_path_result.ok
  O_MACHO_FILE_PARSE_IGNORE_INVALID_FIELDS := 1
  O_DYLD_SHARED_CACHE_PARSE_ZERO_IMAGE_PADS := 1

/-- A `tbd_for_main` that writes under `/out`, with the given numbers and
exact paths and no filter. -/
def sample_tbd_for_main (numbers : List Nat) (paths : List tbd_for_main_dsc_image_path) :
    tbd_for_main where
  flags := ⟨false, false, false⟩
  info := ⟨[]⟩
  macho_options := 0
  dsc_options := 0
  dsc_image_filters := []
  dsc_image_numbers := numbers
  dsc_image_paths := paths
  write_path := some "/out"
  write_path_length := 4
  parse_path := "/caches/dyld_shared_cache_arm64"

/-- The arguments of `parse_dsc_for_main` for the cache
`/caches/dyld_shared_cache_arm64` and the given numbers and exact paths. -/
def sample_dsc_args (numbers : List Nat) (paths : List tbd_for_main_dsc_image_path) :
    parse_dsc_for_main_args where
  magic_in_size := 16
  dsc_dir_path := "/caches"
  dsc_dir_path_length := 7
  dsc_name := "dyld_shared_cache_arm64"
  dsc_name_length := 23
  tbd := sample_tbd_for_main numbers paths
  retained_info := 0
  print_paths := false
  ignore_non_cache_error := false
  verify_write_path := true

/-- A cache file whose images table holds two records for the same path,
`/usr/lib/libfoo.dylib`, at offset 0 of the file. -/
def twin_cache : dyld_shared_cache_info where
  map := "/usr/lib/libfoo.dylib".data ++ [Char.ofNat 0]
  images := [⟨4096, 0, 0, 0, 0⟩, ⟨8192, 0, 0, 0, 0⟩]

/-- The machine of `sample_dsc_env` with `twin_cache` as the cache file. -/
def twin_dsc_env : dsc_env :=
  { sample_dsc_env with
    dyld_shared_cache_parse_from_file := fun _ => (dyld_shared_cache_parse_result.ok, twin_cache) }

/-- The machine of `sample_dsc_env` on which no image parses:
`dsc_image_parse` fails and `handle_dsc_image_parse_result` returns false. -/
def failing_dsc_env : dsc_env :=
  { sample_dsc_env with
    dsc_image_parse := fun info _ _ _ _ => (dsc_image_parse_result.other 1, info) }

/-- The exact path `/usr/lib/libfoo.dylib`, with the given found flag. -/
def libfoo_path (found_one : Bool) : tbd_for_main_dsc_image_path where
  string := "/usr/lib/libfoo.dylib"
  length := 21
  flags := { currently_parsing := false, found_one := found_one }

/-- The callback info of a run on `twin_cache` with the given exact paths in
force. -/
def sample_callback_info (paths : List tbd_for_main_dsc_image_path) :
    dsc_iterate_images_callback_info :=
  { initial_callback_info twin_dsc_env (sample_dsc_args [] paths) (sample_tbd_for_main [] paths)
      (some "/out") 4 with parse_all_images := false }


/-- The exact path `/usr/lib/libbar.dylib`, with the given found flag. -/
def libbar_path (found_one : Bool) : tbd_for_main_dsc_image_path where
  string := "/usr/lib/libbar.dylib"
  length := 21
  flags := { currently_parsing := false, found_one := found_one }

/-- The machine of `sample_main_env` on which every creation fails with
`invalid_segment`. -/
def unreadable_main_env : main_env :=
  { sample_main_env with
    create_from_macho_library := fun _ _ => creation_result.invalid_segment }

/-- The machine of `sample_main_env` with a tbd library that finds no platform
in a file: a creation fails with `platform_not_found` unless the caller
supplies a platform. -/
def platformless_main_env : main_env :=
  { sample_main_env with
    create_from_macho_library := fun _ args =>
      if args.platform = platform_none then creation_result.platform_not_found
      else creation_result.ok }

/-- The machine of `sample_dsc_env` on which the cache file holds 4 bytes:
every `read` delivers 4 bytes. -/
def short_read_dsc_env : dsc_env :=
  { sample_dsc_env with read := fun _ => read_return.delivered 4 }

/-! ## Theorems -/

/-! ### `src/main.cc` -/

/-- C1 (the code departs from the claim). `create_tbd_file` is run on a
library in which no platform is found, with no platform given, and the user
answers the prompt with `macosx`. The second call of
`create_from_macho_library` is made with the platform argument of the first
call (`platform::none`), not with the platform the user named, so it fails
again and `create_tbd_file` returns false. -/
theorem create_tbd_file_retries_with_old_platform :
    create_tbd_file sample_tbd_env "/lib.dylib" "/lib.dylib" output_stream.stdout 0
        platform_none version_v2 0 0 creation_handling_print_paths ["macosx"]
      = some
          { returned := false
            input := []
            events :=
              [ event.create_from_macho_library "/lib.dylib"
                  ⟨output_stream.stdout, 0, platform_none, version_v2, 0, 0⟩,
                event.stdout "Failed to find platform in mach-o library (at path /lib.dylib). ",
                platform_prompt,
                event.create_from_macho_library "/lib.dylib"
                  ⟨output_stream.stdout, 0, platform_none, version_v2, 0, 0⟩ ] } := by
  decide

/-- C2 (the code departs from the claim). `main` is run as
`tbd -p /usr/lib/libfoo.dylib -o stdout` on a non-recursing input. The word
`stdout` is stored as the input's output path; the processing loop finds the
output path not empty, so it opens a file named `stdout` for writing and has
the tbd written to that file, not to the standard output stream. -/
theorem main_output_stdout_opens_a_file :
    main sample_main_env ["tbd", "-p", "/usr/lib/libfoo.dylib", "-o", "stdout"] []
      = some (0,
          [ event.open_library "/usr/lib/libfoo.dylib",
            event.create_directories "stdout" 0 false,
            event.fopen "stdout" true,
            event.create_from_macho_library "/usr/lib/libfoo.dylib"
              ⟨output_stream.file "stdout", 0, platform_none, version_v2, 0, 0⟩,
            event.fclose "stdout" ]) := by
  decide

/-- C3, counterexample. `main` is run as `tbd -p /notes.txt`, where
`/notes.txt` does not open as a mach-o library: `main` still returns 0. -/
theorem main_returns_zero_after_failed_open :
    sample_main_env.open_from_library "/notes.txt" ≠ open_result.ok
      ∧ main sample_main_env ["tbd", "-p", "/notes.txt"] []
          = some (0, [event.open_library "/notes.txt"]) := by
  decide

/-- C4, counterexample. On the command line
`tbd -p /usr/lib/libfoo.dylib -p /usr/lib/libbar.dylib -o /out.tbd` the `-p`
that most recently precedes `-o` is the one of `libbar`, yet the output path
is stored in the first input, `libfoo`, and `libbar` is left without one. -/
theorem output_path_goes_to_first_input :
    parse_arguments sample_main_env
        ["tbd", "-p", "/usr/lib/libfoo.dylib", "-p", "/usr/lib/libbar.dylib",
          "-o", "/out.tbd"]
      = outcome.value
          { architectures := 0
            architecture_overrides := 0
            tbds :=
              [ { path := "/usr/lib/libfoo.dylib", output_path := "/out.tbd",
                  architectures := 0, architecture_overrides := 0,
                  platform := platform_none, version := 0, options := 0 },
                { path := "/usr/lib/libbar.dylib", output_path := "",
                  architectures := 0, architecture_overrides := 0,
                  platform := platform_none, version := 0, options := 0 } ]
            output_paths_index := 1
            options := 0
            platform := platform_none
            version := version_v2 } := by
  decide

/-- Everything `print_platforms` does is a write to standard output. -/
theorem print_platforms_stdout (env : tbd_env) :
    ∀ e ∈ print_platforms env, ∃ text, e = event.stdout text := by
  intro e he
  unfold print_platforms at he
  split at he
  · simp only [List.mem_singleton] at he; exact ⟨_, he⟩
  · simp only [List.cons_append, List.mem_cons, List.mem_append, List.mem_map,
      List.mem_singleton, List.not_mem_nil, or_false] at he
    rcases he with h | ⟨n, _, h⟩ | h
    · exact ⟨_, h⟩
    · exact ⟨_, h.symm⟩
    · exact ⟨_, h⟩

/-- Everything the prompt loop does is a write to standard output. -/
theorem read_replacement_platform_stdout (env : tbd_env) :
    ∀ (input : List String) (new_platform : platform) (left : List String) (out : List event),
      read_replacement_platform env input = some (new_platform, left, out) →
      ∀ e ∈ out, ∃ text, e = event.stdout text := by
  intro input
  induction input with
  | nil => intro p l o h; simp [read_replacement_platform] at h
  | cons line rest ih =>
    intro p l o h e he
    unfold read_replacement_platform at h
    split at h
    · split at h
      · simp at h
      · rename_i np lf ot heq
        simp only [Option.some.injEq, Prod.mk.injEq] at h
        obtain ⟨_, _, rfl⟩ := h
        simp only [List.mem_cons, List.mem_append] at he
        rcases he with (h1 | h1) | h1
        · exact ⟨_, h1⟩
        · exact print_platforms_stdout env e h1
        · exact ih _ _ _ heq e h1
    · simp only at h
      split at h
      · split at h
        · simp at h
        · rename_i np lf ot heq
          simp only [Option.some.injEq, Prod.mk.injEq] at h
          obtain ⟨_, _, rfl⟩ := h
          simp only [List.mem_cons] at he
          rcases he with h1 | h1
          · exact ⟨_, h1⟩
          · exact ih _ _ _ heq e h1
      · simp only [Option.some.injEq, Prod.mk.injEq] at h
        obtain ⟨_, _, rfl⟩ := h
        simp only [List.mem_singleton] at he
        exact ⟨_, he⟩

/-- The platform message is a write to standard output. -/
theorem platform_failure_message_stdout (result : creation_result) (print_paths : Bool)
    (path : String) : ∀ e ∈ platform_failure_message result print_paths path,
      ∃ text, e = event.stdout text := by
  intro e he
  unfold platform_failure_message at he
  split at he <;> (try split at he) <;> simp at he <;> exact ⟨_, he⟩

/-- The failure messages are writes to standard error. -/
theorem creation_failure_message_stderr (result : creation_result) (options : Nat)
    (path : String) (messages : List event)
    (h : creation_failure_message result options path = some messages) :
    ∀ e ∈ messages, ∃ text, e = event.stderr text := by
  intro e he
  unfold creation_failure_message at h
  cases result <;> simp only [] at h <;> (try split at h) <;>
    simp only [Option.some.injEq, reduceCtorEq] at h <;> subst h <;> simp at he <;>
    exact ⟨_, he⟩

/-- Every call of `create_from_macho_library` that `create_tbd_file` makes is for the file and with the arguments it was given. -/
theorem create_tbd_file_calls (env : tbd_env) (macho_file_path file : String)
    (tbd_file : output_stream) (options : Nat) (platform : platform) (version : version)
    (architectures architecture_overrides creation_handling_options : Nat)
    (input : List String) (made : creation_outcome)
    (h : create_tbd_file env macho_file_path file tbd_file options platform version
          architectures architecture_overrides creation_handling_options input = some made)
    (f : String) (args : creation_args)
    (hmem : event.create_from_macho_library f args ∈ made.events) :
    f = file ∧ args = ⟨tbd_file, options, platform, version, architectures,
      architecture_overrides⟩ := by
  unfold create_tbd_file at h
  simp only at h
  have key : ∀ (result : creation_result) (left : List String) (events : List event),
      (∀ f args, event.create_from_macho_library f args ∈ events →
        f = file ∧ args = ⟨tbd_file, options, platform, version, architectures,
          architecture_overrides⟩) →
      ∀ f args, event.create_from_macho_library f args ∈
        (if (!has_flag creation_handling_options creation_handling_dont_print_warnings) = true then
          match creation_failure_message result creation_handling_options macho_file_path with
          | none => (⟨true, left, events⟩ : creation_outcome)
          | some messages => ⟨false, left, events ++ messages⟩
        else ⟨true, left, events⟩).events →
        f = file ∧ args = ⟨tbd_file, options, platform, version, architectures,
          architecture_overrides⟩ := by
    intro result left events hev f args hm
    split at hm
    · split at hm
      · exact hev f args hm
      · rename_i messages hmsg
        simp only [List.mem_append] at hm
        rcases hm with hm | hm
        · exact hev f args hm
        · obtain ⟨t, ht⟩ := creation_failure_message_stderr _ _ _ _ hmsg _ hm
          cases ht
    · exact hev f args hm
  split at h
  · split at h
    · simp at h
    · rename_i np left prompts hread
      simp only [Option.some.injEq] at h
      subst h
      refine key _ _ _ ?_ f args hmem
      intro f args hm
      simp only [List.mem_append, List.mem_cons, List.mem_singleton, List.not_mem_nil,
        or_false] at hm
      rcases hm with ((hm | hm) | hm) | hm
      · cases hm; exact ⟨rfl, rfl⟩
      · obtain ⟨t, ht⟩ := platform_failure_message_stdout _ _ _ _ hm
        cases ht
      · obtain ⟨t, ht⟩ := read_replacement_platform_stdout env _ _ _ _ hread _ hm
        cases ht
      · cases hm; exact ⟨rfl, rfl⟩
  · simp only [Option.some.injEq] at h
    subst h
    refine key _ _ _ ?_ f args hmem
    intro f args hm
    simp only [List.mem_singleton] at hm
    cases hm; exact ⟨rfl, rfl⟩

/-- `create_tbd_file` returns when the first creation does not fail on the platform. -/
theorem create_tbd_file_returns (env : tbd_env) (macho_file_path file : String)
    (tbd_file : output_stream) (options : Nat) (platform : platform) (version : version)
    (architectures architecture_overrides creation_handling_options : Nat)
    (input : List String)
    (h : is_platform_failure (env.create_from_macho_library file
          ⟨tbd_file, options, platform, version, architectures, architecture_overrides⟩) = false) :
    ∃ made, create_tbd_file env macho_file_path file tbd_file options platform version
          architectures architecture_overrides creation_handling_options input = some made := by
  unfold create_tbd_file
  simp only [h]
  exact ⟨_, rfl⟩

/-- Sequencing after a value. -/
theorem outcome.bind_value {α β : Type} (a : α) (f : α → outcome β) :
    (outcome.value a).bind f = f a := rfl

/-- Sequencing after an exit. -/
theorem outcome.bind_exit {α β : Type} (code : Nat) (f : α → outcome β) :
    (outcome.exit code : outcome α).bind f = outcome.exit code := rfl

/-- Sequencing after a run that never ends. -/
theorem outcome.bind_hang {α β : Type} (f : α → outcome β) :
    (outcome.hang : outcome α).bind f = outcome.hang := rfl

/-- A sequence ends with a value only when both parts do. -/
theorem outcome.bind_eq_value {α β : Type} (x : outcome α) (f : α → outcome β) (b : β)
    (h : x.bind f = outcome.value b) : ∃ a, x = outcome.value a ∧ f a = outcome.value b := by
  cases x with
  | value a => exact ⟨a, rfl, h⟩
  | exit code => simp [outcome.bind] at h
  | hang => simp [outcome.bind] at h

/-- A creation call made by the recursion callback is for the library found, with the arguments computed for the input. -/
theorem recurse_callback_calls (env : main_env) (st : main_state) (tbd : tbd_file)
    (tbd_options : Nat) (library_path : String) (p p1 : progress)
    (h : recurse_callback env st tbd tbd_options library_path p = outcome.value p1)
    (f : String) (args : creation_args)
    (hmem : event.create_from_macho_library f args ∈ p1.events) :
    event.create_from_macho_library f args ∈ p.events
      ∨ (f = library_path ∧ creation_arguments_of st tbd args) := by
  unfold recurse_callback at h
  simp only at h
  generalize recurse_output_path env tbd tbd_options library_path = output_path at h
  obtain ⟨_, _, h⟩ := outcome.bind_eq_value _ _ _ h
  by_cases hopen : env.fopen output_path = true
  · simp only [hopen, Bool.not_true, Bool.false_eq_true, if_false] at h
    cases hmade : create_tbd_file env.totbd_env library_path library_path
        (output_stream.file output_path) (tbd_options &&& 0xff) (creation_platform st tbd)
        (creation_version st tbd) (creation_architectures st tbd)
        (creation_architecture_overrides st tbd) (recurse_creation_options tbd_options)
        p.input with
    | none => simp [hmade] at h
    | some made =>
      simp only [hmade] at h
      obtain ⟨_, _, h⟩ := outcome.bind_eq_value _ _ _ h
      simp only [outcome.value.injEq] at h
      subst h
      rcases List.mem_append.1 hmem with h1 | h5
      · rcases List.mem_append.1 h1 with h2 | h4
        · rcases List.mem_append.1 h2 with h3 | hm
          · rcases List.mem_append.1 h3 with hp | hco
            · exact Or.inl hp
            · simp at hco
          · obtain ⟨rfl, rfl⟩ := create_tbd_file_calls _ _ _ _ _ _ _ _ _ _ _ _ hmade f args hm
            exact Or.inr ⟨rfl, rfl, rfl, rfl, rfl⟩
        · split at h4 <;> simp at h4
      · simp at h5
  · simp only [hopen, Bool.not_false, if_true] at h
    simp only [outcome.value.injEq] at h
    subst h
    simp only [List.mem_append, List.mem_cons, List.mem_singleton, List.not_mem_nil,
      or_false, reduceCtorEq] at hmem
    exact Or.inl hmem

/-- The same for all the calls of the recursion callback. -/
theorem recurse_callbacks_calls (env : main_env) (st : main_state) (tbd : tbd_file)
    (tbd_options : Nat) :
    ∀ (libraries : List String) (p p1 : progress),
      recurse_callbacks env st tbd tbd_options libraries p = outcome.value p1 →
      ∀ (f : String) (args : creation_args),
        event.create_from_macho_library f args ∈ p1.events →
        event.create_from_macho_library f args ∈ p.events
          ∨ (f ∈ libraries ∧ creation_arguments_of st tbd args) := by
  intro libraries
  induction libraries with
  | nil =>
    intro p p1 h f args hmem
    simp only [recurse_callbacks, outcome.value.injEq] at h
    subst h
    exact Or.inl hmem
  | cons library_path rest ih =>
    intro p p1 h f args hmem
    simp only [recurse_callbacks] at h
    obtain ⟨p2, h2, h⟩ := outcome.bind_eq_value _ _ _ h
    rcases ih p2 p1 h f args hmem with hm | ⟨hm, hr⟩
    · rcases recurse_callback_calls env st tbd tbd_options library_path p p2 h2 f args hm with
        hm | ⟨hm, hr⟩
      · exact Or.inl hm
      · exact Or.inr ⟨by simp [hm], hr⟩
    · exact Or.inr ⟨by simp [hm], hr⟩

/-- A creation call made for an input that is not recursed is for the input's path, with the arguments computed for the input. -/
theorem process_single_calls (env : main_env) (st : main_state) (tbd : tbd_file)
    (tbd_options : Nat) (p p1 : progress)
    (h : process_single env st tbd tbd_options p = outcome.value p1)
    (f : String) (args : creation_args)
    (hmem : event.create_from_macho_library f args ∈ p1.events) :
    event.create_from_macho_library f args ∈ p.events
      ∨ (f = tbd.path ∧ creation_arguments_of st tbd args) := by
  unfold process_single at h
  simp only at h
  by_cases hopen : env.open_from_library tbd.path = open_result.ok
  · simp only [hopen, ne_eq, not_true_eq_false, if_false] at h
    obtain ⟨chosen, hchosen, h⟩ := outcome.bind_eq_value _ _ _ h
    have hchosen_events : ∀ e ∈ chosen.1, ∀ f args, e ≠ event.create_from_macho_library f args := by
      unfold choose_output_file at hchosen
      split at hchosen
      · obtain ⟨_, _, hc⟩ := outcome.bind_eq_value _ _ _ hchosen
        simp only [outcome.value.injEq] at hc
        subst hc
        intro e he
        simp only [List.mem_cons, List.mem_singleton, List.not_mem_nil, or_false] at he
        rcases he with he | he <;> subst he <;> intro f args hne <;> cases hne
      · simp only [outcome.value.injEq] at hchosen
        subst hchosen
        intro e he
        cases he
    cases hstream : chosen.2 with
    | none =>
      simp only [hstream, outcome.value.injEq] at h
      subst h
      rcases List.mem_append.1 hmem with h1 | hch
      · rcases List.mem_append.1 h1 with hp | hopn
        · exact Or.inl hp
        · simp at hopn
      · exact absurd rfl (hchosen_events _ hch f args)
    | some output_file =>
      simp only [hstream] at h
      cases hmade : create_tbd_file env.totbd_env tbd.path tbd.path output_file
          (tbd_options &&& 0xff) (creation_platform st tbd) (creation_version st tbd)
          (creation_architectures st tbd) (creation_architecture_overrides st tbd)
          (single_creation_options tbd_options) p.input with
      | none => simp [hmade] at h
      | some made =>
        simp only [hmade] at h
        obtain ⟨_, _, h⟩ := outcome.bind_eq_value _ _ _ h
        simp only [outcome.value.injEq] at h
        subst h
        rcases List.mem_append.1 hmem with h1 | h4
        · rcases List.mem_append.1 h1 with h2 | hm
          · rcases List.mem_append.1 h2 with h3 | hch
            · rcases List.mem_append.1 h3 with hp | hopn
              · exact Or.inl hp
              · simp at hopn
            · exact absurd rfl (hchosen_events _ hch f args)
          · obtain ⟨rfl, rfl⟩ := create_tbd_file_calls _ _ _ _ _ _ _ _ _ _ _ _ hmade f args hm
            exact Or.inr ⟨rfl, rfl, rfl, rfl, rfl⟩
        · split at h4
          · rcases List.mem_append.1 h4 with h5 | h6
            · split at h5 <;> simp at h5
            · simp at h6
          · simp at h4
  · simp only [ne_eq, hopen, not_false_eq_true, if_true, outcome.value.injEq] at h
    subst h
    simp only [List.mem_append, List.mem_cons, List.mem_singleton, List.not_mem_nil,
      or_false, reduceCtorEq] at hmem
    exact Or.inl hmem

/-- A creation call made in one round of the processing loop belongs to the input of that round. -/
theorem process_tbd_calls (env : main_env) (st : main_state) (tbd : tbd_file)
    (p p1 : progress) (h : process_tbd env st tbd p = outcome.value p1)
    (f : String) (args : creation_args)
    (hmem : event.create_from_macho_library f args ∈ p1.events) :
    event.create_from_macho_library f args ∈ p.events
      ∨ ((f = tbd.path ∨ ∃ options, f ∈ (env.macho_libraries tbd.path options).1)
          ∧ creation_arguments_of st tbd args) := by
  unfold process_tbd at h
  simp only at h
  split at h
  · split at h
    · cases h
    · rcases recurse_callbacks_calls env st tbd _ _ p p1 h f args hmem with hm | ⟨hm, hr⟩
      · exact Or.inl hm
      · exact Or.inr ⟨Or.inr ⟨_, hm⟩, hr⟩
  · rcases process_single_calls env st tbd _ p p1 h f args hmem with hm | ⟨hm, hr⟩
    · exact Or.inl hm
    · exact Or.inr ⟨Or.inl hm, hr⟩

/-- A creation call made in the processing loop belongs to one of the inputs processed. -/
theorem process_tbds_calls (env : main_env) (st : main_state) :
    ∀ (tbds : List tbd_file) (p : progress) (code : Nat) (events : List event),
      process_tbds env st tbds p = some (code, events) →
      ∀ (f : String) (args : creation_args),
        event.create_from_macho_library f args ∈ events →
        event.create_from_macho_library f args ∈ p.events
          ∨ ∃ tbd ∈ tbds,
              (f = tbd.path ∨ ∃ options, f ∈ (env.macho_libraries tbd.path options).1)
                ∧ creation_arguments_of st tbd args := by
  intro tbds
  induction tbds with
  | nil =>
    intro p code events h f args hmem
    simp only [process_tbds, Option.some.injEq, Prod.mk.injEq] at h
    obtain ⟨_, rfl⟩ := h
    exact Or.inl hmem
  | cons tbd rest ih =>
    intro p code events h f args hmem
    simp only [process_tbds] at h
    cases hstep : process_tbd env st tbd p with
    | value p1 =>
      simp only [hstep] at h
      rcases ih p1 code events h f args hmem with hm | ⟨t, ht, hr⟩
      · rcases process_tbd_calls env st tbd p p1 hstep f args hm with hm | hr
        · exact Or.inl hm
        · exact Or.inr ⟨tbd, by simp, hr⟩
      · exact Or.inr ⟨t, by simp [ht], hr⟩
    | exit c =>
      simp only [hstep, Option.some.injEq, Prod.mk.injEq] at h
      obtain ⟨_, rfl⟩ := h
      exact Or.inl hmem
    | hang => simp [hstep] at h

/-- The inner loop of the duplicate removal keeps only inputs it was given. -/
theorem remove_duplicates_inner_subset (env : main_env) (tbd : tbd_file) :
    ∀ (tbds kept : List tbd_file), remove_duplicates_inner env tbd tbds = some kept →
      ∀ t ∈ kept, t ∈ tbds := by
  intro tbds
  induction tbds with
  | nil =>
    intro kept h t ht
    simp only [remove_duplicates_inner, Option.some.injEq] at h
    subst h
    exact ht
  | cons tbd_inner rest ih =>
    intro kept h t ht
    simp only [remove_duplicates_inner] at h
    split at h
    · cases h
    · cases hrest : remove_duplicates_inner env tbd rest with
      | none => simp [hrest] at h
      | some later =>
        simp only [hrest] at h
        split_ifs at h <;> simp only [Option.some.injEq] at h <;> subst h
        all_goals first
          | exact List.mem_cons.2 (Or.inr (ih _ hrest t ht))
          | (rcases List.mem_cons.1 ht with h1 | h1
             · exact List.mem_cons.2 (Or.inl h1)
             · exact List.mem_cons.2 (Or.inr (ih _ hrest t h1)))

/-- The duplicate removal keeps only inputs it was given. -/
theorem remove_duplicates_subset (env : main_env) :
    ∀ (fuel : Nat) (tbds kept : List tbd_file), remove_duplicates env fuel tbds = some kept →
      ∀ t ∈ kept, t ∈ tbds := by
  intro fuel
  induction fuel with
  | zero =>
    intro tbds kept h t ht
    simp only [remove_duplicates, Option.some.injEq] at h
    subst h
    exact ht
  | succ fuel ih =>
    intro tbds kept h t ht
    cases tbds with
    | nil =>
      simp only [remove_duplicates, Option.some.injEq] at h
      subst h
      exact ht
    | cons tbd rest =>
      simp only [remove_duplicates] at h
      cases hin : remove_duplicates_inner env tbd rest with
      | none => simp [hin] at h
      | some inner =>
        simp only [hin] at h
        cases hout : remove_duplicates env fuel inner with
        | none => simp [hout] at h
        | some later =>
          simp only [hout, Option.some.injEq] at h
          subst h
          rcases List.mem_cons.1 ht with h1 | h1
          · exact List.mem_cons.2 (Or.inl h1)
          · exact List.mem_cons.2
              (Or.inr (remove_duplicates_inner_subset env tbd rest inner hin t
                (ih inner later hout t h1)))

/-- C5. Every call of `create_from_macho_library` that a run of `main` makes
belongs to an input collected from a `-p` option (it is for that input's
path, or for a library found while recursing it), and its platform, tbd
version, architecture bitset and architecture-override bitset are the input's
own value when one was set (platform not `none`, version not 0, bitset not 0)
and the global value otherwise. -/
theorem main_creation_arguments (env : main_env) (argv input : List String)
    (st : main_state) (code : Nat) (events : List event)
    (hparse : parse_arguments env argv = outcome.value st)
    (hmain : main env argv input = some (code, events))
    (file : String) (args : creation_args)
    (hmem : event.create_from_macho_library file args ∈ events) :
    ∃ tbd ∈ st.tbds,
      (file = tbd.path ∨ ∃ options, file ∈ (env.macho_libraries tbd.path options).1)
      ∧ args.platform = (if tbd.platform ≠ platform_none then tbd.platform else st.platform)
      ∧ args.version = (if tbd.version ≠ 0 then tbd.version else st.version)
      ∧ args.architectures
          = (if tbd.architectures ≠ 0 then tbd.architectures else st.architectures)
      ∧ args.architecture_overrides
          = (if tbd.architecture_overrides ≠ 0 then tbd.architecture_overrides
             else st.architecture_overrides) := by
  unfold main at hmain
  simp only [hparse] at hmain
  cases hkept : (if st.tbds.length < 2 then some st.tbds
      else remove_duplicates env st.tbds.length st.tbds) with
  | none => simp [hkept] at hmain
  | some tbds =>
    simp only [hkept] at hmain
    have hsub : ∀ t ∈ tbds, t ∈ st.tbds := by
      split at hkept
      · simp only [Option.some.injEq] at hkept
        subst hkept
        exact fun t ht => ht
      · exact remove_duplicates_subset env _ _ _ hkept
    rcases process_tbds_calls env st tbds ⟨input, []⟩ code events hmain file args hmem with
      hm | ⟨t, ht, hf, hr⟩
    · simp at hm
    · exact ⟨t, hsub t ht, hf, by simpa [creation_arguments_of, creation_platform,
        creation_version, creation_architectures, creation_architecture_overrides] using hr⟩

/-- C5, witness: the run `tbd -p --platform ios -a arm64 /usr/lib/libfoo.dylib
--platform macosx -v v1`, whose only creation call uses the input's own
platform and architectures and the global version. -/
theorem main_creation_arguments_witness :
    parse_arguments sample_main_env
        ["tbd", "-p", "--platform", "ios", "-a", "arm64", "/usr/lib/libfoo.dylib",
          "--platform", "macosx", "-v", "v1"]
      = outcome.value
          ⟨0, 0, [⟨"/usr/lib/libfoo.dylib", "", 2, 0, 2, 0, 0⟩], 0, 0, 1, version_v1⟩
    ∧ ∃ tbd ∈ [(⟨"/usr/lib/libfoo.dylib", "", 2, 0, 2, 0, 0⟩ : tbd_file)],
        ("/usr/lib/libfoo.dylib" = tbd.path
          ∨ ∃ options, "/usr/lib/libfoo.dylib"
              ∈ (sample_main_env.macho_libraries tbd.path options).1)
        ∧ (2 : Nat) = (if tbd.platform ≠ platform_none then tbd.platform else 1)
        ∧ (1 : Nat) = (if tbd.version ≠ 0 then tbd.version else version_v1)
        ∧ (2 : Nat) = (if tbd.architectures ≠ 0 then tbd.architectures else 0)
        ∧ (0 : Nat) = (if tbd.architecture_overrides ≠ 0 then tbd.architecture_overrides else 0) :=
  ⟨by decide,
   main_creation_arguments sample_main_env
    ["tbd", "-p", "--platform", "ios", "-a", "arm64", "/usr/lib/libfoo.dylib",
      "--platform", "macosx", "-v", "v1"] []
    ⟨0, 0, [⟨"/usr/lib/libfoo.dylib", "", 2, 0, 2, 0, 0⟩], 0, 0, 1, version_v1⟩ 0
    [event.open_library "/usr/lib/libfoo.dylib",
     event.create_from_macho_library "/usr/lib/libfoo.dylib"
       ⟨output_stream.stdout, 0, 2, 1, 2, 0⟩]
    (by decide) (by decide) "/usr/lib/libfoo.dylib" ⟨output_stream.stdout, 0, 2, 1, 2, 0⟩
    (by decide)⟩

/-- The recursion callback returns when no directory call fails and no creation fails on the platform. -/
theorem recurse_callback_returns (env : main_env) (st : main_state) (tbd : tbd_file)
    (tbd_options : Nat) (library_path : String) (p : progress)
    (hcreate : ∀ path index last, env.create_directories path index last
      = directories_result.created)
    (hremove : ∀ path, env.remove_directories path = true)
    (hplatform : ∀ file args,
      is_platform_failure (env.create_from_macho_library file args) = false) :
    ∃ p1, recurse_callback env st tbd tbd_options library_path p = outcome.value p1 := by
  have hrem : ∀ (c : Bool) (path : String),
      (if c = true then remove_directories_call env path else outcome.value ())
        = outcome.value () := by
    intro c path
    simp [remove_directories_call, hremove]
  unfold recurse_callback
  simp only [create_directories_call, hcreate, outcome.bind_value, hrem]
  obtain ⟨made, hmade⟩ := create_tbd_file_returns env.totbd_env library_path library_path
    (output_stream.file (recurse_output_path env tbd tbd_options library_path))
    (tbd_options &&& 0xff) (creation_platform st tbd) (creation_version st tbd)
    (creation_architectures st tbd) (creation_architecture_overrides st tbd)
    (recurse_creation_options tbd_options) p.input (hplatform _ _)
  rw [hmade]
  split
  · exact ⟨_, rfl⟩
  · exact ⟨_, rfl⟩

/-- The same for all the calls of the recursion callback. -/
theorem recurse_callbacks_returns (env : main_env) (st : main_state) (tbd : tbd_file)
    (tbd_options : Nat)
    (hcreate : ∀ path index last, env.create_directories path index last
      = directories_result.created)
    (hremove : ∀ path, env.remove_directories path = true)
    (hplatform : ∀ file args,
      is_platform_failure (env.create_from_macho_library file args) = false) :
    ∀ (libraries : List String) (p : progress),
      ∃ p1, recurse_callbacks env st tbd tbd_options libraries p = outcome.value p1 := by
  intro libraries
  induction libraries with
  | nil => intro p; exact ⟨p, rfl⟩
  | cons library_path rest ih =>
    intro p
    obtain ⟨p1, h1⟩ :=
      recurse_callback_returns env st tbd tbd_options library_path p hcreate hremove hplatform
    obtain ⟨p2, h2⟩ := ih p1
    exact ⟨p2, by simp only [recurse_callbacks, h1, outcome.bind, h2]⟩

/-- The round for an input that is not recursed goes on to the next input under the same conditions. -/
theorem process_single_returns (env : main_env) (st : main_state) (tbd : tbd_file)
    (tbd_options : Nat) (p : progress)
    (hcreate : ∀ path index last, env.create_directories path index last
      = directories_result.created)
    (hremove : ∀ path, env.remove_directories path = true)
    (hplatform : ∀ file args,
      is_platform_failure (env.create_from_macho_library file args) = false) :
    ∃ p1, process_single env st tbd tbd_options p = outcome.value p1 := by
  have hrem : ∀ (c : Bool) (path : String),
      (if c = true then remove_directories_call env path else outcome.value ())
        = outcome.value () := by
    intro c path
    simp [remove_directories_call, hremove]
  have hmade : ∀ output_file, ∃ made, create_tbd_file env.totbd_env tbd.path tbd.path
        output_file (tbd_options &&& 0xff) (creation_platform st tbd) (creation_version st tbd)
        (creation_architectures st tbd) (creation_architecture_overrides st tbd)
        (single_creation_options tbd_options) p.input = some made :=
    fun output_file => create_tbd_file_returns _ _ _ _ _ _ _ _ _ _ _ (hplatform _ _)
  unfold process_single
  simp only [choose_output_file, create_directories_call, hcreate, hrem]
  by_cases hopen : env.open_from_library tbd.path = open_result.ok
  · simp only [hopen, ne_eq, not_true_eq_false, if_false]
    by_cases hempty : tbd.output_path.isEmpty = true
    · obtain ⟨made, hm⟩ := hmade output_stream.stdout
      simp only [hempty, Bool.not_true, Bool.false_eq_true, if_false, outcome.bind_value, hm]
      exact ⟨_, rfl⟩
    · simp only [hempty, Bool.not_false, if_true, outcome.bind_value]
      by_cases hfopen : env.fopen tbd.output_path = true
      · obtain ⟨made, hm⟩ := hmade (output_stream.file tbd.output_path)
        simp only [hfopen, if_true, hm]
        exact ⟨_, rfl⟩
      · simp only [hfopen, if_false]
        exact ⟨_, rfl⟩
  · simp only [ne_eq, hopen, not_false_eq_true, if_true]
    exact ⟨_, rfl⟩

/-- The processing loop ends with status 0 when no recursing input lacks an output path, no directory call fails and no creation fails on the platform. -/
theorem process_tbds_returns_zero (env : main_env) (st : main_state)
    (hcreate : ∀ path index last, env.create_directories path index last
      = directories_result.created)
    (hremove : ∀ path, env.remove_directories path = true)
    (hplatform : ∀ file args,
      is_platform_failure (env.create_from_macho_library file args) = false) :
    ∀ (tbds : List tbd_file) (p : progress),
      (∀ tbd ∈ tbds,
        has_flag (merge_global_options env st.options tbd.options) recurse_directories = true →
        tbd.output_path.isEmpty = false) →
      ∃ events, process_tbds env st tbds p = some (0, events) := by
  intro tbds
  induction tbds with
  | nil => intro p _; exact ⟨p.events, rfl⟩
  | cons tbd rest ih =>
    intro p hout
    have hstep : ∃ p1, process_tbd env st tbd p = outcome.value p1 := by
      unfold process_tbd
      simp only
      by_cases hrec :
          has_flag (merge_global_options env st.options tbd.options) recurse_directories = true
      · simp only [hrec, if_true, hout tbd (by simp) hrec, Bool.false_eq_true, if_false]
        exact recurse_callbacks_returns env st tbd _ hcreate hremove hplatform _ p
      · simp only [hrec, if_false]
        exact process_single_returns env st tbd _ p hcreate hremove hplatform
    obtain ⟨p1, h1⟩ := hstep
    obtain ⟨events, h2⟩ := ih p1 (fun t ht => hout t (by simp [ht]))
    exact ⟨events, by simp only [process_tbds, h1, h2]⟩

/-- The prompt loop ends when a line naming a platform is left on standard input, and uses up one such line. -/
theorem read_replacement_platform_answered (env : tbd_env) :
    ∀ (input : List String), 1 ≤ platform_answers env input →
      ∃ new_platform left out,
        read_replacement_platform env input = some (new_platform, left, out)
          ∧ platform_answers env left + 1 = platform_answers env input := by
  intro input
  induction input with
  | nil => intro h; simp [platform_answers] at h
  | cons line rest ih =>
    intro h
    by_cases hlist : line = "--list-platform"
    · have hrest : platform_answers env (line :: rest) = platform_answers env rest := by
        simp [platform_answers, names_platform, hlist]
      rw [hrest] at h ⊢
      obtain ⟨p, left, out, heq, hcount⟩ := ih h
      refine ⟨p, left, platform_prompt :: print_platforms env ++ out, ?_, hcount⟩
      simp only [read_replacement_platform, hlist, if_true, heq]
    · by_cases hnone : env.string_to_platform line = platform_none
      · have hrest : platform_answers env (line :: rest) = platform_answers env rest := by
          simp [platform_answers, names_platform, hnone]
        rw [hrest] at h ⊢
        obtain ⟨p, left, out, heq, hcount⟩ := ih h
        refine ⟨p, left, platform_prompt :: out, ?_, hcount⟩
        simp only [read_replacement_platform, hlist, if_false, hnone, if_true, heq]
      · refine ⟨env.string_to_platform line, rest, [platform_prompt], ?_, ?_⟩
        · simp only [read_replacement_platform, hlist, if_false, hnone]
        · simp [platform_answers, names_platform, hlist, hnone]

/-- `create_tbd_file` returns when a line naming a platform is left on standard input, and uses up at most one such line. -/
theorem create_tbd_file_answered (env : tbd_env) (macho_file_path file : String)
    (tbd_file : output_stream) (options : Nat) (platform : platform) (version : version)
    (architectures architecture_overrides creation_handling_options : Nat)
    (input : List String) (h : 1 ≤ platform_answers env input) :
    ∃ made, create_tbd_file env macho_file_path file tbd_file options platform version
          architectures architecture_overrides creation_handling_options input = some made
      ∧ platform_answers env input ≤ platform_answers env made.input + 1 := by
  obtain ⟨p, left, out, heq, hcount⟩ := read_replacement_platform_answered env input h
  unfold create_tbd_file
  simp only [heq]
  split
  · refine ⟨_, rfl, ?_⟩
    split
    · split <;> simp only <;> omega
    · simp only; omega
  · refine ⟨_, rfl, ?_⟩
    split
    · split <;> simp only <;> omega
    · simp only; omega

/-- The recursion callback returns when no directory call fails and a line naming a platform is left on standard input, and uses up at most one such line. -/
theorem recurse_callback_answered (env : main_env) (st : main_state) (tbd : tbd_file)
    (tbd_options : Nat) (library_path : String) (p : progress)
    (hcreate : ∀ path index last, env.create_directories path index last
      = directories_result.created)
    (hremove : ∀ path, env.remove_directories path = true)
    (h : 1 ≤ platform_answers env.totbd_env p.input) :
    ∃ p1, recurse_callback env st tbd tbd_options library_path p = outcome.value p1
      ∧ platform_answers env.totbd_env p.input
          ≤ platform_answers env.totbd_env p1.input + 1 := by
  have hrem : ∀ (c : Bool) (path : String),
      (if c = true then remove_directories_call env path else outcome.value ())
        = outcome.value () := by
    intro c path
    simp [remove_directories_call, hremove]
  unfold recurse_callback
  simp only [create_directories_call, hcreate, outcome.bind_value, hrem]
  obtain ⟨made, hmade, hcount⟩ := create_tbd_file_answered env.totbd_env library_path
    library_path (output_stream.file (recurse_output_path env tbd tbd_options library_path))
    (tbd_options &&& 0xff) (creation_platform st tbd) (creation_version st tbd)
    (creation_architectures st tbd) (creation_architecture_overrides st tbd)
    (recurse_creation_options tbd_options) p.input h
  rw [hmade]
  split
  · exact ⟨_, rfl, by simp only; omega⟩
  · exact ⟨_, rfl, hcount⟩

/-- The same for all the calls of the recursion callback: one line for every library found is enough. -/
theorem recurse_callbacks_answered (env : main_env) (st : main_state) (tbd : tbd_file)
    (tbd_options : Nat)
    (hcreate : ∀ path index last, env.create_directories path index last
      = directories_result.created)
    (hremove : ∀ path, env.remove_directories path = true) :
    ∀ (libraries : List String) (p : progress),
      libraries.length ≤ platform_answers env.totbd_env p.input →
      ∃ p1, recurse_callbacks env st tbd tbd_options libraries p = outcome.value p1
        ∧ platform_answers env.totbd_env p.input
            ≤ platform_answers env.totbd_env p1.input + libraries.length := by
  intro libraries
  induction libraries with
  | nil => intro p _; exact ⟨p, rfl, Nat.le_refl _⟩
  | cons library_path rest ih =>
    intro p h
    simp only [List.length_cons] at h
    obtain ⟨p1, h1, hc1⟩ :=
      recurse_callback_answered env st tbd tbd_options library_path p hcreate hremove (by omega)
    obtain ⟨p2, h2, hc2⟩ := ih p1 (by omega)
    refine ⟨p2, by simp only [recurse_callbacks, h1, outcome.bind, h2], ?_⟩
    simp only [List.length_cons]
    omega

/-- The round for an input that is not recursed goes on to the next input when no directory call fails and a line naming a platform is left, and uses up at most one such line. -/
theorem process_single_answered (env : main_env) (st : main_state) (tbd : tbd_file)
    (tbd_options : Nat) (p : progress)
    (hcreate : ∀ path index last, env.create_directories path index last
      = directories_result.created)
    (hremove : ∀ path, env.remove_directories path = true)
    (h : 1 ≤ platform_answers env.totbd_env p.input) :
    ∃ p1, process_single env st tbd tbd_options p = outcome.value p1
      ∧ platform_answers env.totbd_env p.input
          ≤ platform_answers env.totbd_env p1.input + 1 := by
  have hrem : ∀ (c : Bool) (path : String),
      (if c = true then remove_directories_call env path else outcome.value ())
        = outcome.value () := by
    intro c path
    simp [remove_directories_call, hremove]
  have hmade : ∀ output_file, ∃ made, create_tbd_file env.totbd_env tbd.path tbd.path
        output_file (tbd_options &&& 0xff) (creation_platform st tbd) (creation_version st tbd)
        (creation_architectures st tbd) (creation_architecture_overrides st tbd)
        (single_creation_options tbd_options) p.input = some made
        ∧ platform_answers env.totbd_env p.input
            ≤ platform_answers env.totbd_env made.input + 1 :=
    fun output_file => create_tbd_file_answered _ _ _ _ _ _ _ _ _ _ _ h
  unfold process_single
  simp only [choose_output_file, create_directories_call, hcreate, hrem]
  by_cases hopen : env.open_from_library tbd.path = open_result.ok
  · simp only [hopen, ne_eq, not_true_eq_false, if_false]
    by_cases hempty : tbd.output_path.isEmpty = true
    · obtain ⟨made, hm, hc⟩ := hmade output_stream.stdout
      simp only [hempty, Bool.not_true, Bool.false_eq_true, if_false, outcome.bind_value, hm]
      exact ⟨_, rfl, hc⟩
    · simp only [hempty, Bool.not_false, if_true, outcome.bind_value]
      by_cases hfopen : env.fopen tbd.output_path = true
      · obtain ⟨made, hm, hc⟩ := hmade (output_stream.file tbd.output_path)
        simp only [hfopen, if_true, hm]
        exact ⟨_, rfl, hc⟩
      · simp only [hfopen, if_false]
        exact ⟨_, rfl, by simp only; omega⟩
  · simp only [ne_eq, hopen, not_false_eq_true, if_true]
    exact ⟨_, rfl, by simp only; omega⟩

/-- The processing loop ends with status 0 when no recursing input lacks an output path, no directory call fails and standard input holds a line naming a platform for every library to convert. -/
theorem process_tbds_answered (env : main_env) (st : main_state)
    (hcreate : ∀ path index last, env.create_directories path index last
      = directories_result.created)
    (hremove : ∀ path, env.remove_directories path = true) :
    ∀ (tbds : List tbd_file) (p : progress),
      (∀ tbd ∈ tbds,
        has_flag (merge_global_options env st.options tbd.options) recurse_directories = true →
        tbd.output_path.isEmpty = false) →
      creation_calls env st tbds ≤ platform_answers env.totbd_env p.input →
      ∃ events, process_tbds env st tbds p = some (0, events) := by
  intro tbds
  induction tbds with
  | nil => intro p _ _; exact ⟨p.events, rfl⟩
  | cons tbd rest ih =>
    intro p hout hcalls
    have hsum : creation_calls env st (tbd :: rest)
        = (if has_flag (merge_global_options env st.options tbd.options) recurse_directories
            then (env.macho_libraries tbd.path
              (recurse_options env (merge_global_options env st.options tbd.options))).1.length
            else 1) + creation_calls env st rest := by
      simp [creation_calls]
    rw [hsum] at hcalls
    have hstep : ∃ p1, process_tbd env st tbd p = outcome.value p1
        ∧ creation_calls env st rest ≤ platform_answers env.totbd_env p1.input := by
      unfold process_tbd
      simp only
      by_cases hrec :
          has_flag (merge_global_options env st.options tbd.options) recurse_directories = true
      · rw [if_pos hrec] at hcalls
        simp only [hrec, if_true, hout tbd (by simp) hrec, Bool.false_eq_true, if_false]
        obtain ⟨p1, h1, hc1⟩ := recurse_callbacks_answered env st tbd _ hcreate hremove
          (env.macho_libraries tbd.path
            (recurse_options env (merge_global_options env st.options tbd.options))).1 p
          (by omega)
        exact ⟨p1, h1, by omega⟩
      · rw [if_neg hrec] at hcalls
        simp only [hrec, if_false]
        obtain ⟨p1, h1, hc1⟩ := process_single_answered env st tbd _ p hcreate hremove
          (by omega)
        exact ⟨p1, h1, by omega⟩
    obtain ⟨p1, h1, hc1⟩ := hstep
    obtain ⟨events, h2⟩ := ih p1 (fun t ht => hout t (by simp [ht])) hc1
    exact ⟨events, by simp only [process_tbds, h1, h2]⟩

/-- C3, amended. An input that fails to open as a mach-o library, an output
file that cannot be opened, and a tbd creation that does not end with `ok` do
not change the exit status: `main` returns 0 once the command line has been
accepted, the duplicate removal has ended, no recursing input lacks an output
path, every creation and removal of a directory succeeds and, if a creation
can end with one of the four platform results, standard input holds at least
as many lines naming a platform as there are libraries to convert. -/
theorem main_returns_zero_whatever_fails (env : main_env) (argv input : List String)
    (st : main_state) (tbds : List tbd_file)
    (hparse : parse_arguments env argv = outcome.value st)
    (hkept : (if st.tbds.length < 2 then some st.tbds
              else remove_duplicates env st.tbds.length st.tbds) = some tbds)
    (hout : ∀ tbd ∈ tbds,
      has_flag (merge_global_options env st.options tbd.options) recurse_directories = true →
      tbd.output_path.isEmpty = false)
    (hcreate : ∀ path index last, env.create_directories path index last
      = directories_result.created)
    (hremove : ∀ path, env.remove_directories path = true)
    (hanswers : (∃ file args,
        is_platform_failure (env.create_from_macho_library file args) = true) →
      creation_calls env st tbds ≤ platform_answers env.totbd_env input) :
    ∃ events, main env argv input = some (0, events) := by
  unfold main
  simp only [hparse, hkept]
  by_cases hfails : ∃ file args,
      is_platform_failure (env.create_from_macho_library file args) = true
  · exact process_tbds_answered env st hcreate hremove tbds _ hout (hanswers hfails)
  · refine process_tbds_returns_zero env st hcreate hremove ?_ tbds _ hout
    intro file args
    cases hf : is_platform_failure (env.create_from_macho_library file args) with
    | false => rfl
    | true => exact absurd ⟨file, args, hf⟩ hfails

/-- C3, witness: the run `tbd -p /usr/lib/libfoo.dylib` on a machine whose tbd
library finds no platform in the file, with the line `ios` on standard input.
The creation ends with `platform_not_found`, the prompt is answered, the
second creation ends with `platform_not_found` again, and `main` returns 0. -/
theorem main_returns_zero_whatever_fails_witness :
    platformless_main_env.create_from_macho_library "/usr/lib/libfoo.dylib"
        ⟨output_stream.stdout, 0, platform_none, version_v2, 0, 0⟩
        = creation_result.platform_not_found
      ∧ main platformless_main_env ["tbd", "-p", "/usr/lib/libfoo.dylib"] ["ios"]
        = some (0,
            [ event.open_library "/usr/lib/libfoo.dylib",
              event.create_from_macho_library "/usr/lib/libfoo.dylib"
                ⟨output_stream.stdout, 0, platform_none, version_v2, 0, 0⟩,
              event.stdout
                "Failed to find platform in mach-o library (at path /usr/lib/libfoo.dylib). ",
              platform_prompt,
              event.create_from_macho_library "/usr/lib/libfoo.dylib"
                ⟨output_stream.stdout, 0, platform_none, version_v2, 0, 0⟩ ])
      ∧ ∃ events, main platformless_main_env ["tbd", "-p", "/usr/lib/libfoo.dylib"] ["ios"]
          = some (0, events) :=
  ⟨by decide, by decide,
   main_returns_zero_whatever_fails platformless_main_env
    ["tbd", "-p", "/usr/lib/libfoo.dylib"] ["ios"]
    ⟨0, 0, [⟨"/usr/lib/libfoo.dylib", "", 0, 0, platform_none, 0, 0⟩], 0, 0, platform_none,
      version_v2⟩
    [⟨"/usr/lib/libfoo.dylib", "", 0, 0, platform_none, 0, 0⟩]
    (by decide) (by decide)
    (by intro tbd htbd; simp only [List.mem_singleton] at htbd; subst htbd; decide)
    (fun _ _ _ => rfl) (fun _ => rfl) (fun _ => by decide)⟩

/-- What storing an output path changes: the input at `output_paths_index` and nothing else. -/
theorem assign_output_path_spec (env : main_env) (st st1 : main_state) (output_options : Nat)
    (argument : String)
    (h : assign_output_path env st output_options argument = outcome.value st1) :
    st1.output_paths_index = st.output_paths_index
      ∧ st.output_paths_index < st.tbds.length
      ∧ st1.tbds.length = st.tbds.length
      ∧ (∀ k, k ≠ st.output_paths_index → st1.tbds[k]? = st.tbds[k]?)
      ∧ ∃ tbd tbd1 given,
          st.tbds[st.output_paths_index]? = some tbd
          ∧ st1.tbds[st.output_paths_index]? = some tbd1
          ∧ tbd1.path = tbd.path
          ∧ ((argument = "stdout" ∧ given = "stdout")
              ∨ (argument ≠ "stdout" ∧ absolute_path env argument = outcome.value given))
          ∧ (tbd1.output_path = given ∨ tbd1.output_path = with_trailing_slash given) := by
  unfold assign_output_path at h
  obtain ⟨path, hpath, h1⟩ := outcome.bind_eq_value _ _ _ h
  clear h
  rcases hget : st.tbds[st.output_paths_index]? with _ | tbd
  · simp [hget] at h1
  · simp only [hget] at h1
    obtain ⟨tbd_options, _, h2⟩ := outcome.bind_eq_value _ _ _ h1
    clear h1
    split at h2
    · cases h2
    · obtain ⟨stored, hstored, h3⟩ := outcome.bind_eq_value _ _ _ h2
      clear h2
      simp only [outcome.value.injEq] at h3
      subst h3
      have hlt : st.output_paths_index < st.tbds.length := by
        rcases Nat.lt_or_ge st.output_paths_index st.tbds.length with h1 | h1
        · exact h1
        · rw [List.getElem?_eq_none h1] at hget
          cases hget
      refine ⟨rfl, hlt, by simp, ?_, tbd,
        { tbd with options := tbd_options, output_path := stored }, path, rfl, ?_, rfl, ?_, ?_⟩
      · intro k hk
        simp [List.getElem?_set, Ne.symm hk]
      · simp [List.getElem?_set, hlt]
      · by_cases harg : argument = "stdout"
        · left
          simp only [harg, ne_eq, not_true_eq_false, if_false, outcome.value.injEq] at hpath
          exact ⟨harg, hpath.symm⟩
        · right
          simp only [ne_eq, harg, not_false_eq_true, if_true] at hpath
          exact ⟨harg, hpath⟩
      · simp only
        split at hstored
        · split at hstored
          · cases hstored
          · simp only [outcome.value.injEq] at hstored
            exact Or.inr hstored.symm
        · split at hstored
          · cases hstored
          · simp only [outcome.value.injEq] at hstored
            exact Or.inl hstored.symm
        · simp only [outcome.value.injEq] at hstored
          exact Or.inl hstored.symm
        · split at hstored
          · obtain ⟨_, _, hs⟩ := outcome.bind_eq_value _ _ _ hstored
            simp only [outcome.value.injEq] at hs
            exact Or.inr hs.symm
          · simp only [outcome.value.injEq] at hstored
            exact Or.inl hstored.symm


/-- The `-o` loop either provides no path and leaves the state alone, or stores the path it stopped at. -/
theorem output_option_loop_spec (env : main_env) (argv : List String) :
    ∀ (fuel : Nat) (st : main_state) (output_options i : Nat) (st1 : main_state) (j : Nat)
      (provided : Bool),
      output_option_loop env argv fuel st output_options i = outcome.value (st1, j, provided) →
      (provided = false ∧ st1 = st)
        ∨ (provided = true ∧ ∃ collected,
            assign_output_path env st collected (argument_at argv j) = outcome.value st1) := by
  intro fuel
  induction fuel with
  | zero =>
    intro st oo i st1 j provided h
    simp only [output_option_loop, outcome.value.injEq, Prod.mk.injEq] at h
    exact Or.inl ⟨h.2.2.symm, h.1.symm⟩
  | succ fuel ih =>
    intro st oo i st1 j provided h
    simp only [output_option_loop] at h
    split at h
    · split at h
      · split at h
        · cases h
        · split at h
          · exact ih _ _ _ _ _ _ h
          · cases h
      · obtain ⟨st2, hassign, h⟩ := outcome.bind_eq_value _ _ _ h
        simp only [outcome.value.injEq, Prod.mk.injEq] at h
        obtain ⟨rfl, rfl, rfl⟩ := h
        exact Or.inr ⟨rfl, oo, hassign⟩
    · simp only [outcome.value.injEq, Prod.mk.injEq] at h
      exact Or.inl ⟨h.2.2.symm, h.1.symm⟩

/-- An input collected by `-p` has an empty output path. -/
theorem collect_path_spec (env : main_env) (loc : path_locals) (argument : String)
    (tbd : tbd_file) (h : collect_path env loc argument = outcome.value tbd) :
    tbd.output_path = "" := by
  unfold collect_path at h
  obtain ⟨path, _, h⟩ := outcome.bind_eq_value _ _ _ h
  simp only [outcome.value.injEq] at h
  subst h
  rfl

/-- The `-p` loop leaves `output_paths_index` alone and only appends inputs without an output path. -/
theorem path_option_loop_spec (env : main_env) (argv : List String) :
    ∀ (fuel : Nat) (st : main_state) (loc : path_locals) (i : Nat) (st1 : main_state)
      (loc1 : path_locals) (j : Nat),
      path_option_loop env argv fuel st loc i = outcome.value (st1, loc1, j) →
      st1.output_paths_index = st.output_paths_index
        ∧ ∃ added, st1.tbds = st.tbds ++ added ∧ ∀ t ∈ added, t.output_path = "" := by
  intro fuel
  induction fuel with
  | zero =>
    intro st loc i st1 loc1 j h
    simp only [path_option_loop, outcome.value.injEq, Prod.mk.injEq] at h
    obtain ⟨rfl, _, _⟩ := h
    exact ⟨rfl, [], by simp, by simp⟩
  | succ fuel ih =>
    intro st loc i st1 loc1 j h
    simp only [path_option_loop] at h
    split at h
    · split at h
      · split at h
        · cases h
        · obtain ⟨r, _, h⟩ := outcome.bind_eq_value _ _ _ h
          exact ih _ _ _ _ _ _ h
      · obtain ⟨tbd, htbd, h⟩ := outcome.bind_eq_value _ _ _ h
        simp only [outcome.value.injEq, Prod.mk.injEq] at h
        obtain ⟨rfl, _, _⟩ := h
        refine ⟨rfl, [tbd], rfl, ?_⟩
        intro t ht
        simp only [List.mem_singleton] at ht
        subst ht
        exact collect_path_spec env loc _ _ htbd
    · simp only [outcome.value.injEq, Prod.mk.injEq] at h
      obtain ⟨rfl, _, _⟩ := h
      exact ⟨rfl, [], by simp, by simp⟩


/-- The `-o` option stores the path in the input at `output_paths_index` and moves the index on by one. -/
theorem output_option_spec (env : main_env) (argv : List String) (st st1 : main_state)
    (i j : Nat) (h : output_option env argv st i = outcome.value (st1, j)) :
    st.output_paths_index < st.tbds.length
      ∧ st1.output_paths_index = st.output_paths_index + 1
      ∧ st1.tbds.length = st.tbds.length
      ∧ (∀ k, k ≠ st.output_paths_index → st1.tbds[k]? = st.tbds[k]?)
      ∧ ∃ tbd tbd1 given,
          st.tbds[st.output_paths_index]? = some tbd
          ∧ st1.tbds[st.output_paths_index]? = some tbd1
          ∧ tbd1.path = tbd.path
          ∧ ((argument_at argv j = "stdout" ∧ given = "stdout")
              ∨ (argument_at argv j ≠ "stdout"
                  ∧ absolute_path env (argument_at argv j) = outcome.value given))
          ∧ (tbd1.output_path = given ∨ tbd1.output_path = with_trailing_slash given) := by
  unfold output_option at h
  split at h
  · cases h
  · obtain ⟨r, hloop, h⟩ := outcome.bind_eq_value _ _ _ h
    obtain ⟨st2, j2, provided⟩ := r
    simp only at h
    split at h
    · cases h
    · rename_i hprovided
      simp only [outcome.value.injEq, Prod.mk.injEq] at h
      obtain ⟨rfl, rfl⟩ := h
      rcases output_option_loop_spec env argv _ _ _ _ _ _ _ hloop with ⟨hp, _⟩ | ⟨_, oo, hassign⟩
      · simp [hp] at hprovided
      · obtain ⟨h1, h2, h3, h4, h5⟩ := assign_output_path_spec env st st2 oo _ hassign
        exact ⟨h2, by simp [h1], h3, h4, h5⟩

/-- The `-p` option leaves `output_paths_index` alone and only appends inputs without an output path. -/
theorem path_option_spec (env : main_env) (argv : List String) (st st1 : main_state)
    (i j : Nat) (h : path_option env argv st i = outcome.value (st1, j)) :
    st1.output_paths_index = st.output_paths_index
      ∧ ∃ added, st1.tbds = st.tbds ++ added ∧ ∀ t ∈ added, t.output_path = "" := by
  unfold path_option at h
  split at h
  · cases h
  · obtain ⟨r, hloop, h⟩ := outcome.bind_eq_value _ _ _ h
    obtain ⟨st2, loc2, j2⟩ := r
    simp only at h
    split at h
    · cases h
    · simp only [outcome.value.injEq, Prod.mk.injEq] at h
      obtain ⟨rfl, rfl⟩ := h
      exact path_option_loop_spec env argv _ _ _ _ _ _ _ hloop

/-- An option other than `-o` leaves `output_paths_index` and the inputs collected so far alone. -/
theorem main_option_other (env : main_env) (argv : List String) (st st1 : main_state)
    (i j : Nat) (option : String) (ho : ¬(option = "o" ∨ option = "output"))
    (h : main_option env argv st i option = outcome.value (st1, j)) :
    st1.output_paths_index = st.output_paths_index
      ∧ ∃ added, st1.tbds = st.tbds ++ added ∧ ∀ t ∈ added, t.output_path = "" := by
  unfold main_option at h
  by_cases c0 : (option = "a" || option = "arch") = true
  · rw [if_pos c0] at h
    split at h
    · cases h
    · obtain ⟨r, _, h2⟩ := outcome.bind_eq_value _ _ _ h
      simp only [outcome.value.injEq, Prod.mk.injEq] at h2
      obtain ⟨rfl, _⟩ := h2
      exact ⟨rfl, [], by simp, by simp⟩
  · rw [if_neg c0] at h
    by_cases c1 : option = "archs"
    · rw [if_pos c1] at h
      split at h
      · cases h
      · obtain ⟨r, _, h2⟩ := outcome.bind_eq_value _ _ _ h
        simp only [outcome.value.injEq, Prod.mk.injEq] at h2
        obtain ⟨rfl, _⟩ := h2
        exact ⟨rfl, [], by simp, by simp⟩
    · rw [if_neg c1] at h
      by_cases c2 : (option = "h" || option = "help") = true
      · rw [if_pos c2] at h
        split at h <;> cases h
      · rw [if_neg c2] at h
        by_cases c3 : option = "allow-all-private-symbols"
        · rw [if_pos c3] at h
          simp only [outcome.value.injEq, Prod.mk.injEq] at h
          obtain ⟨rfl, _⟩ := h
          exact ⟨rfl, [], by simp, by simp⟩
        · rw [if_neg c3] at h
          by_cases c4 : option = "allow-private-normal-symbols"
          · rw [if_pos c4] at h
            simp only [outcome.value.injEq, Prod.mk.injEq] at h
            obtain ⟨rfl, _⟩ := h
            exact ⟨rfl, [], by simp, by simp⟩
          · rw [if_neg c4] at h
            by_cases c5 : option = "allow-private-weak-symbols"
            · rw [if_pos c5] at h
              simp only [outcome.value.injEq, Prod.mk.injEq] at h
              obtain ⟨rfl, _⟩ := h
              exact ⟨rfl, [], by simp, by simp⟩
            · rw [if_neg c5] at h
              by_cases c6 : option = "allow-private-objc-symbols"
              · rw [if_pos c6] at h
                simp only [outcome.value.injEq, Prod.mk.injEq] at h
                obtain ⟨rfl, _⟩ := h
                exact ⟨rfl, [], by simp, by simp⟩
              · rw [if_neg c6] at h
                by_cases c7 : option = "allow-private-objc-classes"
                · rw [if_pos c7] at h
                  simp only [outcome.value.injEq, Prod.mk.injEq] at h
                  obtain ⟨rfl, _⟩ := h
                  exact ⟨rfl, [], by simp, by simp⟩
                · rw [if_neg c7] at h
                  by_cases c8 : option = "allow-private-objc-ivars"
                  · rw [if_pos c8] at h
                    simp only [outcome.value.injEq, Prod.mk.injEq] at h
                    obtain ⟨rfl, _⟩ := h
                    exact ⟨rfl, [], by simp, by simp⟩
                  · rw [if_neg c8] at h
                    by_cases c9 : option = "list-architectures"
                    · rw [if_pos c9] at h
                      obtain ⟨r, _, h2⟩ := outcome.bind_eq_value _ _ _ h
                      cases h2
                    · rw [if_neg c9] at h
                      by_cases c10 : option = "dont-print-warnings"
                      · rw [if_pos c10] at h
                        simp only [outcome.value.injEq, Prod.mk.injEq] at h
                        obtain ⟨rfl, _⟩ := h
                        exact ⟨rfl, [], by simp, by simp⟩
                      · rw [if_neg c10] at h
                        by_cases c11 : option = "list-macho-libraries"
                        · rw [if_pos c11] at h
                          obtain ⟨r, _, h2⟩ := outcome.bind_eq_value _ _ _ h
                          cases h2
                        · rw [if_neg c11] at h
                          by_cases c12 : (option = "list-platform" || option = "list-recurse" || option = "list-versions") = true
                          · rw [if_pos c12] at h
                            split at h <;> cases h
                          · rw [if_neg c12] at h
                            by_cases c13 : (option = "o" || option = "output") = true
                            · rw [if_pos c13] at h
                              exact absurd (by simpa using c13) ho
                            · rw [if_neg c13] at h
                              by_cases c14 : (option = "p" || option = "path") = true
                              · rw [if_pos c14] at h
                                exact path_option_spec env argv st st1 i j h
                              · rw [if_neg c14] at h
                                by_cases c15 : option = "platform"
                                · rw [if_pos c15] at h
                                  split at h
                                  · cases h
                                  · split at h
                                    · cases h
                                    · simp only [outcome.value.injEq, Prod.mk.injEq] at h
                                      obtain ⟨rfl, _⟩ := h
                                      exact ⟨rfl, [], by simp, by simp⟩
                                · rw [if_neg c15] at h
                                  by_cases c16 : (option = "u" || option = "usage") = true
                                  · rw [if_pos c16] at h
                                    split at h <;> cases h
                                  · rw [if_neg c16] at h
                                    by_cases c17 : (option = "v" || option = "version") = true
                                    · rw [if_pos c17] at h
                                      split at h
                                      · cases h
                                      · split at h
                                        · cases h
                                        · split at h
                                          · simp only [outcome.value.injEq, Prod.mk.injEq] at h
                                            obtain ⟨rfl, _⟩ := h
                                            exact ⟨rfl, [], by simp, by simp⟩
                                          · split at h
                                            · cases h
                                            · simp only [outcome.value.injEq, Prod.mk.injEq] at h
                                              obtain ⟨rfl, _⟩ := h
                                              exact ⟨rfl, [], by simp, by simp⟩
                                    · rw [if_neg c17] at h
                                      cases h

/-- One round of the argument loop of `main`, when it goes on: for an `-o`
(or `--output`) option the path argument it stops at is stored, made absolute
unless it is the word `stdout` and possibly with a slash appended, in the
input at position `output_paths_index`, no other input changes, and
`output_paths_index` grows by one; any other option leaves
`output_paths_index` and the inputs collected so far as they are and only
appends inputs without an output path. -/
theorem main_argument_output_paths (env : main_env) (argv : List String) (st st1 : main_state)
    (i j : Nat) (h : main_argument env argv st i = outcome.value (st1, j)) :
    ((option_text (argument_at argv i) = some "o" ∨ option_text (argument_at argv i) = some "output") →
      st.output_paths_index < st.tbds.length
        ∧ st1.output_paths_index = st.output_paths_index + 1
        ∧ st1.tbds.length = st.tbds.length
        ∧ (∀ k, k ≠ st.output_paths_index → st1.tbds[k]? = st.tbds[k]?)
        ∧ ∃ tbd tbd1 given,
            st.tbds[st.output_paths_index]? = some tbd
            ∧ st1.tbds[st.output_paths_index]? = some tbd1
            ∧ tbd1.path = tbd.path
            ∧ ((argument_at argv j = "stdout" ∧ given = "stdout")
                ∨ (argument_at argv j ≠ "stdout"
                    ∧ absolute_path env (argument_at argv j) = outcome.value given))
            ∧ (tbd1.output_path = given ∨ tbd1.output_path = with_trailing_slash given))
    ∧ (¬(option_text (argument_at argv i) = some "o" ∨ option_text (argument_at argv i) = some "output") →
      st1.output_paths_index = st.output_paths_index
        ∧ ∃ added, st1.tbds = st.tbds ++ added ∧ ∀ t ∈ added, t.output_path = "") := by
  unfold main_argument at h
  split at h
  · cases h
  · cases hopt : option_text (argument_at argv i) with
    | none => rw [hopt] at h; cases h
    | some option =>
      rw [hopt] at h
      simp only at h
      constructor
      · intro ho
        have ho2 : option = "o" ∨ option = "output" := by
          rcases ho with ho | ho <;> simp only [Option.some.injEq] at ho
          · exact Or.inl ho
          · exact Or.inr ho
        have hout : output_option env argv st i = outcome.value (st1, j) := by
          rcases ho2 with rfl | rfl <;> simpa [main_option] using h
        exact output_option_spec env argv st st1 i j hout
      · intro ho
        refine main_option_other env argv st st1 i j option ?_ h
        intro hc
        rcases hc with hc | hc
        · exact ho (Or.inl (by rw [hc]))
        · exact ho (Or.inr (by rw [hc]))

/-- The round for `-o /out.tbd` after two `-p` options: the path goes to the
first input. -/
theorem main_argument_output_paths_witness :
    main_argument sample_main_env
        ["tbd", "-p", "/usr/lib/libfoo.dylib", "-p", "/usr/lib/libbar.dylib", "-o", "/out.tbd"]
        ⟨0, 0, [⟨"/usr/lib/libfoo.dylib", "", 0, 0, 0, 0, 0⟩,
                ⟨"/usr/lib/libbar.dylib", "", 0, 0, 0, 0, 0⟩], 0, 0, 0, version_v2⟩ 5
      = outcome.value
          (⟨0, 0, [⟨"/usr/lib/libfoo.dylib", "/out.tbd", 0, 0, 0, 0, 0⟩,
                   ⟨"/usr/lib/libbar.dylib", "", 0, 0, 0, 0, 0⟩], 1, 0, 0, version_v2⟩, 6)
    ∧ (1 : Nat) = 0 + 1 :=
  ⟨by decide,
   ((main_argument_output_paths sample_main_env
      ["tbd", "-p", "/usr/lib/libfoo.dylib", "-p", "/usr/lib/libbar.dylib", "-o", "/out.tbd"]
      ⟨0, 0, [⟨"/usr/lib/libfoo.dylib", "", 0, 0, 0, 0, 0⟩,
              ⟨"/usr/lib/libbar.dylib", "", 0, 0, 0, 0, 0⟩], 0, 0, 0, version_v2⟩
      ⟨0, 0, [⟨"/usr/lib/libfoo.dylib", "/out.tbd", 0, 0, 0, 0, 0⟩,
              ⟨"/usr/lib/libbar.dylib", "", 0, 0, 0, 0, 0⟩], 1, 0, 0, version_v2⟩
      5 6 (by decide)).1 (Or.inl (by decide))).2.1⟩

/-- A state keeps its own outputs. -/
theorem keeps_outputs_refl (a : main_state) (h : a.output_paths_index ≤ a.tbds.length) :
    keeps_outputs a a :=
  ⟨Nat.le_refl _, h, fun _ _ => rfl, [], by simp⟩

/-- Keeping the outputs twice keeps them. -/
theorem keeps_outputs_trans {a b c : main_state} (h1 : keeps_outputs a b)
    (h2 : keeps_outputs b c) : keeps_outputs a c := by
  obtain ⟨h11, _, h13, l1, h14⟩ := h1
  obtain ⟨h21, h22, h23, l2, h24⟩ := h2
  refine ⟨Nat.le_trans h11 h21, h22, ?_, l1 ++ l2, ?_⟩
  · intro m hm
    rw [h23 m (by omega), h13 m hm]
  · rw [h24, h14, List.append_assoc]

/-- A round of the argument loop that goes on is entered at an argument that starts with `-`. -/
theorem main_argument_front (env : main_env) (argv : List String) (st : main_state)
    (i : Nat) (r : main_state × Nat) (h : main_argument env argv st i = outcome.value r) :
    string_front (argument_at argv i) = '-' := by
  unfold main_argument at h
  by_cases hf : string_front (argument_at argv i) = '-'
  · exact hf
  · rw [if_pos hf] at h
    cases h

/-- A round of the argument loop that goes on keeps the outputs assigned so far. -/
theorem main_argument_keeps (env : main_env) (argv : List String) (a b : main_state)
    (i j : Nat) (hinv : a.output_paths_index ≤ a.tbds.length)
    (h : main_argument env argv a i = outcome.value (b, j)) :
    keeps_outputs a b
      ∧ b.output_paths_index
          = a.output_paths_index + (if is_output_option (argument_at argv i) then 1 else 0) := by
  have hfront := main_argument_front env argv a i _ h
  obtain ⟨hout, hother⟩ := main_argument_output_paths env argv a b i j h
  by_cases ho : option_text (argument_at argv i) = some "o"
      ∨ option_text (argument_at argv i) = some "output"
  · obtain ⟨hlt, hidx, hlen, hsame, tbd, tbd1, given, hget, hget1, hpath, _, _⟩ := hout ho
    have his : is_output_option (argument_at argv i) = true := by
      rcases ho with ho | ho <;> simp [is_output_option, hfront, ho]
    refine ⟨⟨by omega, by omega, fun m hm => hsame m (by omega), [], ?_⟩, by simp [his, hidx]⟩
    rw [List.append_nil]
    apply List.ext_getElem?
    intro m
    rw [List.getElem?_map, List.getElem?_map]
    by_cases hm : m = a.output_paths_index
    · rw [hm, hget, hget1]
      simp [hpath]
    · rw [hsame m hm]
  · obtain ⟨hidx, added, htbds, _⟩ := hother ho
    have his : is_output_option (argument_at argv i) = false := by
      simp only [is_output_option, Bool.and_eq_false_imp, Bool.or_eq_false_iff,
        decide_eq_false_iff_not]
      intro _
      exact ⟨fun h1 => ho (Or.inl h1), fun h1 => ho (Or.inr h1)⟩
    refine ⟨⟨by omega, ?_, ?_, added.map (fun tbd => tbd.path), ?_⟩, by simp [his, hidx]⟩
    · rw [hidx, htbds, List.length_append]
      omega
    · intro m hm
      rw [htbds, List.getElem?_append_left (by omega)]
    · rw [htbds, List.map_append]

/-- The argument loop keeps the outputs assigned before it. -/
theorem main_arguments_keeps (env : main_env) (argv : List String) :
    ∀ (fuel : Nat) (a : main_state) (i : Nat) (c : main_state),
      a.output_paths_index ≤ a.tbds.length →
      main_arguments env argv fuel a i = outcome.value c → keeps_outputs a c := by
  intro fuel
  induction fuel with
  | zero =>
    intro a i c hinv h
    simp only [main_arguments, outcome.value.injEq] at h
    subst h
    exact keeps_outputs_refl a hinv
  | succ fuel ih =>
    intro a i c hinv h
    simp only [main_arguments] at h
    split at h
    · obtain ⟨r, hr, h2⟩ := outcome.bind_eq_value _ _ _ h
      obtain ⟨hk, _⟩ := main_argument_keeps env argv a r.1 i r.2 hinv hr
      exact keeps_outputs_trans hk (ih r.1 (r.2 + 1) c hk.2.1 h2)
    · simp only [outcome.value.injEq] at h
      subst h
      exact keeps_outputs_refl a hinv

/-- The rounds of the argument loop entered at an `-o` option, counted from a state of the loop: the round number `k` is entered with `output_paths_index` moved on by `k`, with the inputs collected before it in their places, and, when the loop ends, it has gone on and the outputs it leaves are kept to the end. -/
theorem main_arguments_rounds_spec (env : main_env) (argv : List String) :
    ∀ (fuel : Nat) (a : main_state) (i : Nat),
      a.output_paths_index ≤ a.tbds.length →
      ∀ (k i1 : Nat) (a1 : main_state),
        ((main_arguments_rounds env argv fuel a i).filter
            (fun round => is_output_option (argument_at argv round.1)))[k]? = some (i1, a1) →
        a1.output_paths_index = a.output_paths_index + k
          ∧ is_output_option (argument_at argv i1) = true
          ∧ ∀ c, main_arguments env argv fuel a i = outcome.value c →
              ∃ b j, main_argument env argv a1 i1 = outcome.value (b, j) ∧ keeps_outputs b c
                ∧ keeps_outputs a a1 := by
  intro fuel
  induction fuel with
  | zero =>
    intro a i _ k i1 a1 h
    simp [main_arguments_rounds] at h
  | succ fuel ih =>
    intro a i hinv k i1 a1 h
    simp only [main_arguments_rounds] at h
    by_cases hi : i < argv.length
    · rw [if_pos hi] at h
      have hlater : ∀ (k1 : Nat) (r : main_state × Nat),
          main_argument env argv a i = outcome.value r →
          ((main_arguments_rounds env argv fuel r.1 (r.2 + 1)).filter
            (fun round => is_output_option (argument_at argv round.1)))[k1]? = some (i1, a1) →
          a1.output_paths_index = r.1.output_paths_index + k1
            ∧ is_output_option (argument_at argv i1) = true
            ∧ ∀ c, main_arguments env argv (fuel + 1) a i = outcome.value c →
                ∃ b j, main_argument env argv a1 i1 = outcome.value (b, j) ∧ keeps_outputs b c
                  ∧ keeps_outputs a a1 := by
        intro k1 r hr hk1
        obtain ⟨hk, _⟩ := main_argument_keeps env argv a r.1 i r.2 hinv hr
        obtain ⟨h1, h2, h3⟩ := ih r.1 (r.2 + 1) hk.2.1 k1 i1 a1 hk1
        refine ⟨h1, h2, ?_⟩
        intro c hc
        simp only [main_arguments, if_pos hi, hr, outcome.bind_value] at hc
        obtain ⟨b, j, hb, hbc, hra⟩ := h3 c hc
        exact ⟨b, j, hb, hbc, keeps_outputs_trans hk hra⟩
      by_cases his : is_output_option (argument_at argv i) = true
      · rw [List.filter_cons_of_pos (by simpa using his)] at h
        cases k with
        | zero =>
          simp only [List.getElem?_cons_zero, Option.some.injEq, Prod.mk.injEq] at h
          obtain ⟨rfl, rfl⟩ := h
          refine ⟨rfl, his, ?_⟩
          intro c hc
          simp only [main_arguments, if_pos hi] at hc
          obtain ⟨r, hr, h2⟩ := outcome.bind_eq_value _ _ _ hc
          obtain ⟨hk, _⟩ := main_argument_keeps env argv a r.1 i r.2 hinv hr
          exact ⟨r.1, r.2, hr, main_arguments_keeps env argv fuel r.1 (r.2 + 1) c hk.2.1 h2,
            keeps_outputs_refl a hinv⟩
        | succ k1 =>
          simp only [List.getElem?_cons_succ] at h
          cases hr : main_argument env argv a i with
          | value r =>
            rw [hr] at h
            obtain ⟨hk, hidx⟩ := main_argument_keeps env argv a r.1 i r.2 hinv hr
            obtain ⟨h1, h2, h3⟩ := hlater k1 r hr h
            rw [his] at hidx
            exact ⟨by rw [h1, hidx]; simp; omega, h2, h3⟩
          | exit code => rw [hr] at h; simp at h
          | hang => rw [hr] at h; simp at h
      · rw [List.filter_cons_of_neg (by simpa using his)] at h
        cases hr : main_argument env argv a i with
        | value r =>
          rw [hr] at h
          obtain ⟨hk, hidx⟩ := main_argument_keeps env argv a r.1 i r.2 hinv hr
          obtain ⟨h1, h2, h3⟩ := hlater k r hr h
          simp only [Bool.not_eq_true] at his
          rw [his] at hidx
          exact ⟨by rw [h1, hidx]; simp, h2, h3⟩
        | exit code => rw [hr] at h; simp at h
        | hang => rw [hr] at h; simp at h
    · rw [if_neg hi] at h
      simp at h

/-- C4, amended. On a command line that `main` accepts, the round of the
argument loop entered at the `-o` (or `--output`) option number `k`, counted
from 0, is entered with `output_paths_index = k`, and the path argument it
stops at is stored, made absolute unless it is the word `stdout` and possibly
with a slash appended, in the input at position `k` of the inputs collected,
which keep the places in which the `-p` options collected them; that input
has its output path when the arguments have all been read. So the `-o` number
`k` gives its path to the input number `k`, whichever `-p` precedes it. -/
theorem parse_arguments_output_paths (env : main_env) (argv : List String) (st : main_state)
    (k i : Nat) (stk : main_state)
    (hparse : parse_arguments env argv = outcome.value st)
    (hround : (output_option_rounds env argv)[k]? = some (i, stk)) :
    stk.output_paths_index = k
      ∧ is_output_option (argument_at argv i) = true
      ∧ (∃ later, st.tbds.map (fun tbd => tbd.path)
          = stk.tbds.map (fun tbd => tbd.path) ++ later)
      ∧ ∃ st1 j tbd tbd1 given,
          main_argument env argv stk i = outcome.value (st1, j)
          ∧ stk.tbds[k]? = some tbd
          ∧ st.tbds[k]? = some tbd1
          ∧ tbd1.path = tbd.path
          ∧ ((argument_at argv j = "stdout" ∧ given = "stdout")
              ∨ (argument_at argv j ≠ "stdout"
                  ∧ absolute_path env (argument_at argv j) = outcome.value given))
          ∧ (tbd1.output_path = given ∨ tbd1.output_path = with_trailing_slash given) := by
  have hloop : main_arguments env argv argv.length main_state.initial 1 = outcome.value st := by
    unfold parse_arguments at hparse
    split at hparse
    · cases hparse
    · obtain ⟨st0, h0, h1⟩ := outcome.bind_eq_value _ _ _ hparse
      split at h1
      · cases h1
      · simp only [outcome.value.injEq] at h1
        rw [h0, h1]
  obtain ⟨hidx, his, hend⟩ := main_arguments_rounds_spec env argv argv.length
    main_state.initial 1 (Nat.le_refl _) k i stk hround
  obtain ⟨b, j, hb, hbst, _⟩ := hend st hloop
  have hidx0 : stk.output_paths_index = k := by
    rw [hidx]
    simp [main_state.initial]
  have ho : option_text (argument_at argv i) = some "o"
      ∨ option_text (argument_at argv i) = some "output" := by
    simp only [is_output_option, Bool.and_eq_true, Bool.or_eq_true, decide_eq_true_eq] at his
    exact his.2
  obtain ⟨hlt, hnext, _, _, tbd, tbd1, given, hget, hget1, hpath, hgiven, hstored⟩ :=
    (main_argument_output_paths env argv stk b i j hb).1 ho
  obtain ⟨hkeep, _⟩ := main_argument_keeps env argv stk b i j (by omega) hb
  obtain ⟨_, _, _, later, hlater⟩ := keeps_outputs_trans hkeep hbst
  rw [hidx0] at hget hget1
  refine ⟨hidx0, his, ⟨later, hlater⟩, b, j, tbd, tbd1, given, hb, hget, ?_, hpath, hgiven,
    hstored⟩
  rw [hbst.2.2.1 k (by omega), hget1]

/-- C4, witness: on
`tbd -p /usr/lib/libfoo.dylib -p /usr/lib/libbar.dylib -o /a.tbd -o /b.tbd`
the `-o` round number 1 is entered at index 7 with `output_paths_index = 1`,
and its path `/b.tbd` goes to the input number 1, `libbar`; the round number 0
has given `/a.tbd` to the input number 0, `libfoo`, although `-p libbar` is
the `-p` that most recently precedes both. -/
theorem parse_arguments_output_paths_witness :
    parse_arguments sample_main_env
        ["tbd", "-p", "/usr/lib/libfoo.dylib", "-p", "/usr/lib/libbar.dylib", "-o", "/a.tbd",
          "-o", "/b.tbd"]
      = outcome.value
          ⟨0, 0, [⟨"/usr/lib/libfoo.dylib", "/a.tbd", 0, 0, 0, 0, 0⟩,
                  ⟨"/usr/lib/libbar.dylib", "/b.tbd", 0, 0, 0, 0, 0⟩], 2, 0, 0, version_v2⟩
      ∧ (output_option_rounds sample_main_env
        ["tbd", "-p", "/usr/lib/libfoo.dylib", "-p", "/usr/lib/libbar.dylib", "-o", "/a.tbd",
          "-o", "/b.tbd"])[1]?
        = some (7, ⟨0, 0, [⟨"/usr/lib/libfoo.dylib", "/a.tbd", 0, 0, 0, 0, 0⟩,
                           ⟨"/usr/lib/libbar.dylib", "", 0, 0, 0, 0, 0⟩], 1, 0, 0, version_v2⟩)
      ∧ ∃ st1 j tbd tbd1 given,
          main_argument sample_main_env
              ["tbd", "-p", "/usr/lib/libfoo.dylib", "-p", "/usr/lib/libbar.dylib", "-o", "/a.tbd",
          "-o", "/b.tbd"]
              ⟨0, 0, [⟨"/usr/lib/libfoo.dylib", "/a.tbd", 0, 0, 0, 0, 0⟩,
                      ⟨"/usr/lib/libbar.dylib", "", 0, 0, 0, 0, 0⟩], 1, 0, 0, version_v2⟩ 7
            = outcome.value (st1, j)
          ∧ [(⟨"/usr/lib/libfoo.dylib", "/a.tbd", 0, 0, 0, 0, 0⟩ : tbd_file),
              ⟨"/usr/lib/libbar.dylib", "", 0, 0, 0, 0, 0⟩][1]? = some tbd
          ∧ [(⟨"/usr/lib/libfoo.dylib", "/a.tbd", 0, 0, 0, 0, 0⟩ : tbd_file),
              ⟨"/usr/lib/libbar.dylib", "/b.tbd", 0, 0, 0, 0, 0⟩][1]? = some tbd1
          ∧ tbd1.path = tbd.path
          ∧ ((argument_at
                ["tbd", "-p", "/usr/lib/libfoo.dylib", "-p", "/usr/lib/libbar.dylib", "-o", "/a.tbd",
          "-o", "/b.tbd"] j = "stdout" ∧ given = "stdout")
              ∨ (argument_at
                  ["tbd", "-p", "/usr/lib/libfoo.dylib", "-p", "/usr/lib/libbar.dylib", "-o", "/a.tbd",
          "-o", "/b.tbd"] j ≠ "stdout"
                  ∧ absolute_path sample_main_env
                      (argument_at
                        ["tbd", "-p", "/usr/lib/libfoo.dylib", "-p", "/usr/lib/libbar.dylib", "-o", "/a.tbd",
          "-o", "/b.tbd"] j) = outcome.value given))
          ∧ (tbd1.output_path = given ∨ tbd1.output_path = with_trailing_slash given) :=
  ⟨by decide, by decide,
   (parse_arguments_output_paths sample_main_env
      ["tbd", "-p", "/usr/lib/libfoo.dylib", "-p", "/usr/lib/libbar.dylib", "-o", "/a.tbd",
          "-o", "/b.tbd"]
      ⟨0, 0, [⟨"/usr/lib/libfoo.dylib", "/a.tbd", 0, 0, 0, 0, 0⟩,
              ⟨"/usr/lib/libbar.dylib", "/b.tbd", 0, 0, 0, 0, 0⟩], 2, 0, 0, version_v2⟩
      1 7
      ⟨0, 0, [⟨"/usr/lib/libfoo.dylib", "/a.tbd", 0, 0, 0, 0, 0⟩,
              ⟨"/usr/lib/libbar.dylib", "", 0, 0, 0, 0, 0⟩], 1, 0, 0, version_v2⟩
      (by decide) (by decide)).2.2.2⟩

/-! ### `src/parse_dsc_for_main.c` -/

/-- Printing nothing. -/
theorem only_printed_refl (a : dsc_iterate_images_callback_info) : only_printed a a :=
  ⟨[], a.did_print_messages_header, by simp, by simp⟩

/-- Printing twice is printing. -/
theorem only_printed_trans {a b c : dsc_iterate_images_callback_info}
    (h1 : only_printed a b) (h2 : only_printed b c) : only_printed a c := by
  obtain ⟨l1, f1, rfl, hq1⟩ := h1
  obtain ⟨l2, f2, rfl, hq2⟩ := h2
  refine ⟨l1 ++ l2, f2, by simp [List.append_assoc], ?_⟩
  intro e he
  rcases List.mem_append.1 he with h | h
  · exact hq1 e h
  · exact hq2 e h

/-- Logging events that are not parser calls is printing. -/
theorem only_printed_log (a : dsc_iterate_images_callback_info) (events : List dsc_event)
    (h : ∀ e ∈ events, e.is_image_parse = false) : only_printed a (a.log events) :=
  ⟨events, a.did_print_messages_header, rfl, h⟩

/-- Printing leaves the cache alone. -/
theorem only_printed_quiet {a b : dsc_iterate_images_callback_info} (h : only_printed a b) :
    quiet_step a b := by
  obtain ⟨l, f, rfl, hq⟩ := h
  exact ⟨rfl, rfl, l, rfl, hq⟩

/-- A step that does nothing. -/
theorem quiet_step_refl (a : dsc_iterate_images_callback_info) : quiet_step a a :=
  ⟨rfl, rfl, [], by simp, by simp⟩

/-- Two quiet steps make one. -/
theorem quiet_step_trans {a b c : dsc_iterate_images_callback_info}
    (h1 : quiet_step a b) (h2 : quiet_step b c) : quiet_step a c := by
  obtain ⟨hd1, hp1, l1, ht1, hq1⟩ := h1
  obtain ⟨hd2, hp2, l2, ht2, hq2⟩ := h2
  refine ⟨hd2.trans hd1, hp2.trans hp1, l1 ++ l2, by rw [ht2, ht1, List.append_assoc], ?_⟩
  intro e he
  rcases List.mem_append.1 he with h | h
  · exact hq1 e h
  · exact hq2 e h

/-- `print_messages_header` only prints. -/
theorem print_messages_header_printed (a : dsc_iterate_images_callback_info) :
    only_printed a (print_messages_header a) := by
  unfold print_messages_header
  split
  · refine ⟨[messages_header a.print_paths a.dsc_dir_path a.dsc_name], true, rfl, ?_⟩
    intro e he
    simp only [List.mem_singleton] at he
    subst he
    unfold messages_header
    split <;> rfl
  · exact only_printed_refl a

/-- `print_image_error` only prints. -/
theorem print_image_error_printed (a : dsc_iterate_images_callback_info) (image_path : String)
    (result : dsc_image_parse_result) :
    only_printed a (print_image_error a image_path result) := by
  unfold print_image_error
  split
  · exact only_printed_refl a
  · refine only_printed_trans (print_messages_header_printed a) (only_printed_log _ _ ?_)
    intro e he
    simp only [List.mem_cons, List.mem_singleton, List.not_mem_nil, or_false] at he
    rcases he with he | he <;> subst he <;> rfl

/-- `print_write_to_path_result` calls no parser. -/
theorem print_write_to_path_result_quiet (tbd : tbd_for_main) (image_path : String)
    (result : tbd_for_main_write_to_path_result) :
    ∀ e ∈ print_write_to_path_result tbd image_path result, e.is_image_parse = false := by
  intro e he
  unfold print_write_to_path_result at he
  split at he
  · cases he
  · split at he
    · cases he
    · simp only [List.mem_singleton] at he; subst he; rfl
  · simp only [List.mem_singleton] at he; subst he; rfl

/-- `print_write_error` only prints. -/
theorem print_write_error_printed (a : dsc_iterate_images_callback_info) (image_path : String)
    (result : tbd_for_main_write_to_path_result) :
    only_printed a (print_write_error a image_path result) := by
  unfold print_write_error
  refine only_printed_trans (print_messages_header_printed a) (only_printed_log _ _ ?_)
  intro e he
  rcases List.mem_cons.1 he with he | he
  · subst he; rfl
  · exact print_write_to_path_result_quiet _ _ _ e he

/-- The loop over the filters changes the callback info by printing only. -/
theorem write_out_tbd_info_for_filters_loop_printed (env : dsc_env) (image_path : String)
    (length : Nat) :
    ∀ (filters : List tbd_for_main_dsc_image_filter) (a : dsc_iterate_images_callback_info),
      only_printed a (write_out_tbd_info_for_filters_loop env image_path length filters a).2 := by
  intro filters
  induction filters with
  | nil => intro a; exact only_printed_refl a
  | cons filter rest ih =>
    intro a
    simp only [write_out_tbd_info_for_filters_loop]
    split
    · exact ih a
    · refine only_printed_trans ?_ (ih _)
      have hlog : only_printed a (a.log [(write_out_tbd_info_for_single_filter env
          { filter with flags := { filter.flags with currently_parsing := false,
                                                      found_one := true } }
          a.tbd image_path length).1]) := by
        refine only_printed_log _ _ ?_
        intro e he
        simp only [List.mem_singleton] at he
        subst he
        unfold write_out_tbd_info_for_single_filter
        split <;> rfl
      split
      · exact only_printed_trans hlog (print_write_error_printed _ _ _)
      · exact hlog

/-- The loop over the exact paths changes the callback info by printing only. -/
theorem write_out_tbd_info_for_paths_loop_printed (env : dsc_env) (image_path : String)
    (length : Nat) :
    ∀ (paths : List tbd_for_main_dsc_image_path) (a : dsc_iterate_images_callback_info),
      only_printed a (write_out_tbd_info_for_paths_loop env image_path length paths a).2 := by
  intro paths
  induction paths with
  | nil => intro a; exact only_printed_refl a
  | cons path rest ih =>
    intro a
    simp only [write_out_tbd_info_for_paths_loop]
    split
    · exact ih a
    · refine only_printed_trans ?_ (ih _)
      have hlog : only_printed a
          (a.log [(write_out_tbd_info_for_image_path env a image_path length).1]) :=
        only_printed_log _ _ (by
          intro e he
          simp only [List.mem_singleton] at he
          subst he
          rfl)
      split
      · exact only_printed_trans hlog (print_write_error_printed _ _ _)
      · exact hlog

/-- `write_out_tbd_info` calls no parser and leaves the cache alone. -/
theorem write_out_tbd_info_quiet (env : dsc_env) (a : dsc_iterate_images_callback_info)
    (path : String) (path_length : Nat) :
    quiet_step a (write_out_tbd_info env a path path_length) := by
  unfold write_out_tbd_info
  split
  · exact ⟨rfl, rfl, _, rfl, by intro e he; simp only [List.mem_singleton] at he; subst he; rfl⟩
  · split
    · exact ⟨rfl, rfl, _, rfl,
        by intro e he; simp only [List.mem_singleton] at he; subst he; rfl⟩
    · split
      · exact only_printed_quiet (only_printed_log _ _ (by
          intro e he
          simp only [List.mem_singleton] at he
          subst he
          rfl))
      · have h1 : quiet_step a (write_out_tbd_info_for_filters env a path path_length) := by
          obtain ⟨hd, hp, l, ht, hq⟩ := only_printed_quiet
            (write_out_tbd_info_for_filters_loop_printed env path path_length
              a.tbd.dsc_image_filters a)
          exact ⟨hd, hp, l, ht, hq⟩
        refine quiet_step_trans h1 ?_
        obtain ⟨hd, hp, l, ht, hq⟩ := only_printed_quiet
          (write_out_tbd_info_for_paths_loop_printed env path path_length
            (write_out_tbd_info_for_filters env a path path_length).tbd.dsc_image_paths
            (write_out_tbd_info_for_filters env a path path_length))
        exact ⟨hd, hp, l, ht, hq⟩

/-- `actually_parse_image` leaves the cache alone and appends one parser call, for the record and path it was given, followed by events that are not parser calls. -/
theorem actually_parse_image_trace (env : dsc_env) (image_path_length_in index : Nat)
    (image : dyld_cache_image_info) (image_path : String)
    (a : dsc_iterate_images_callback_info) :
    (actually_parse_image env image_path_length_in index image image_path a).2.2.dsc_info
        = a.dsc_info
      ∧ (actually_parse_image env image_path_length_in index image image_path a).2.2.parse_all_images
        = a.parse_all_images
      ∧ ∃ later,
          (actually_parse_image env image_path_length_in index image image_path a).2.2.trace
            = a.trace ++ dsc_event.dsc_image_parse index image image_path :: later
          ∧ ∀ e ∈ later, e.is_image_parse = false := by
  unfold actually_parse_image
  simp only
  split
  · obtain ⟨hd, hp, l, ht, hq⟩ := only_printed_quiet (print_image_error_printed
      { a.log [dsc_event.dsc_image_parse index image image_path] with
        tbd := { a.tbd with info := a.tbd.info },
        retained_info := (env.handle_dsc_image_parse_result a.retained_info
          (env.dsc_image_parse a.tbd.info a.dsc_info image
            (env.O_MACHO_FILE_PARSE_IGNORE_INVALID_FIELDS ||| a.tbd.macho_options)
            a.tbd.dsc_options).2 image_path
          (env.dsc_image_parse a.tbd.info a.dsc_info image
            (env.O_MACHO_FILE_PARSE_IGNORE_INVALID_FIELDS ||| a.tbd.macho_options)
            a.tbd.dsc_options).1).2 } image_path
      (env.dsc_image_parse a.tbd.info a.dsc_info image
            (env.O_MACHO_FILE_PARSE_IGNORE_INVALID_FIELDS ||| a.tbd.macho_options)
            a.tbd.dsc_options).1)
    refine ⟨hd, hp, l, ?_, hq⟩
    rw [ht]
    simp [dsc_iterate_images_callback_info.log]
  · obtain ⟨hd, hp, l, ht, hq⟩ := write_out_tbd_info_quiet env
      { a.log [dsc_event.dsc_image_parse index image image_path] with
        tbd := { a.tbd with info := (env.dsc_image_parse a.tbd.info a.dsc_info image
            (env.O_MACHO_FILE_PARSE_IGNORE_INVALID_FIELDS ||| a.tbd.macho_options)
            a.tbd.dsc_options).2 },
        retained_info := (env.handle_dsc_image_parse_result a.retained_info
          (env.dsc_image_parse a.tbd.info a.dsc_info image
            (env.O_MACHO_FILE_PARSE_IGNORE_INVALID_FIELDS ||| a.tbd.macho_options)
            a.tbd.dsc_options).2 image_path
          (env.dsc_image_parse a.tbd.info a.dsc_info image
            (env.O_MACHO_FILE_PARSE_IGNORE_INVALID_FIELDS ||| a.tbd.macho_options)
            a.tbd.dsc_options).1).2 } image_path
      (if image_path_length_in = 0 then image_path.length else image_path_length_in)
    refine ⟨hd, hp, l, ?_, hq⟩
    simp only
    rw [ht]
    simp [dsc_iterate_images_callback_info.log]


/-- For a number within the images table the 32-bit index is the number less one. -/
theorem image_index_in_range (n count : Nat) (h1 : 1 ≤ n) (h2 : n ≤ count)
    (h3 : count < 2 ^ 32) : (n + 2 ^ 32 - 1) % 2 ^ 32 = n - 1 := by
  have h4 : n + 2 ^ 32 - 1 = (n - 1) + 2 ^ 32 := by omega
  rw [h4, Nat.add_mod_right, Nat.mod_eq_of_lt]
  omega

/-- What the loop over the image numbers leaves in the trace when it ends. -/
theorem parse_image_numbers_spec (env : dsc_env) (print_paths : Bool)
    (dsc_dir_path dsc_name : String) :
    ∀ (numbers : List Nat) (a b : dsc_iterate_images_callback_info),
      parse_image_numbers env print_paths dsc_dir_path dsc_name numbers a = some b →
      a.dsc_info.images_count < 2 ^ 32 →
      b.dsc_info = a.dsc_info ∧ b.parse_all_images = a.parse_all_images
        ∧ ∃ later, b.trace = a.trace ++ later
          ∧ (∀ n ∈ numbers, n > a.dsc_info.images_count →
              image_number_warning n a.dsc_info.images_count print_paths dsc_dir_path dsc_name
                ∈ later)
          ∧ (∀ n ∈ numbers, 1 ≤ n → n ≤ a.dsc_info.images_count →
              ∃ image, a.dsc_info.images[n - 1]? = some image
                ∧ dsc_event.dsc_image_parse (n - 1) image
                    (c_string_at a.dsc_info.map image.pathFileOffset) ∈ later)
          ∧ (∀ index image path, dsc_event.dsc_image_parse index image path ∈ later →
              index < a.dsc_info.images_count) := by
  intro numbers
  induction numbers with
  | nil =>
    intro a b h _
    simp only [parse_image_numbers, Option.some.injEq] at h
    subst h
    exact ⟨rfl, rfl, [], by simp, by simp, by simp, by simp⟩
  | cons number rest ih =>
    intro a b h hcount
    simp only [parse_image_numbers] at h
    split at h
    · rename_i hbig
      obtain ⟨hd, hp, later, ht, hw, hin, hidx⟩ := ih _ b h (by simpa using hcount)
      simp only [dsc_iterate_images_callback_info.log] at hd hp ht hw hin hidx
      refine ⟨hd, hp, image_number_warning number a.dsc_info.images_count print_paths
        dsc_dir_path dsc_name :: later, by rw [ht]; simp, ?_, ?_, ?_⟩
      · intro n hn hgt
        rcases List.mem_cons.1 hn with rfl | hn
        · exact List.mem_cons.2 (Or.inl rfl)
        · exact List.mem_cons.2 (Or.inr (hw n hn hgt))
      · intro n hn h1 h2
        rcases List.mem_cons.1 hn with rfl | hn
        · omega
        · obtain ⟨image, hi, hm⟩ := hin n hn h1 h2
          exact ⟨image, hi, List.mem_cons.2 (Or.inr hm)⟩
      · intro index image path hm
        rcases List.mem_cons.1 hm with hm | hm
        · unfold image_number_warning at hm
          split at hm <;> cases hm
        · exact hidx index image path hm
    · rename_i hsmall
      split at h
      · cases h
      · rename_i image himage
        obtain ⟨hd0, hp0, l0, ht0, hq0⟩ := actually_parse_image_trace env 0
          ((number + 2 ^ 32 - 1) % 2 ^ 32) image
          (c_string_at a.dsc_info.map image.pathFileOffset) a
        obtain ⟨hd, hp, later, ht, hw, hin, hidx⟩ := ih _ b h (by rw [hd0]; exact hcount)
        rw [hd0] at hd hw hin hidx
        have hlt : (number + 2 ^ 32 - 1) % 2 ^ 32 < a.dsc_info.images_count := by
          have := (List.getElem?_eq_some_iff.1 himage).1
          exact this
        refine ⟨hd, hp.trans hp0,
          dsc_event.dsc_image_parse ((number + 2 ^ 32 - 1) % 2 ^ 32) image
            (c_string_at a.dsc_info.map image.pathFileOffset) :: (l0 ++ later),
          by rw [ht, ht0]; simp, ?_, ?_, ?_⟩
        · intro n hn hgt
          rcases List.mem_cons.1 hn with rfl | hn
          · exact absurd hgt hsmall
          · exact List.mem_cons.2 (Or.inr (List.mem_append.2 (Or.inr (hw n hn hgt))))
        · intro n hn h1 h2
          rcases List.mem_cons.1 hn with rfl | hn
          · rw [image_index_in_range n _ h1 h2 hcount] at himage
            refine ⟨image, himage, ?_⟩
            rw [image_index_in_range n _ h1 h2 hcount]
            exact List.mem_cons.2 (Or.inl rfl)
          · obtain ⟨image2, hi, hm⟩ := hin n hn h1 h2
            exact ⟨image2, hi, List.mem_cons.2 (Or.inr (List.mem_append.2 (Or.inr hm)))⟩
        · intro index image2 path hm
          rcases List.mem_cons.1 hm with hm | hm
          · simp only [dsc_event.dsc_image_parse.injEq] at hm
            rw [hm.1]
            exact hlt
          · rcases List.mem_append.1 hm with hm | hm
            · have := hq0 _ hm
              cases this
            · exact hidx index image2 path hm

/-- The loop over the image numbers ends when no number is 0. -/
theorem parse_image_numbers_returns (env : dsc_env) (print_paths : Bool)
    (dsc_dir_path dsc_name : String) :
    ∀ (numbers : List Nat) (a : dsc_iterate_images_callback_info),
      (∀ n ∈ numbers, n ≠ 0) → a.dsc_info.images_count < 2 ^ 32 →
      ∃ b, parse_image_numbers env print_paths dsc_dir_path dsc_name numbers a = some b := by
  intro numbers
  induction numbers with
  | nil => intro a _ _; exact ⟨a, rfl⟩
  | cons number rest ih =>
    intro a hpos hcount
    simp only [parse_image_numbers]
    split
    · exact ih _ (fun n hn => hpos n (List.mem_cons.2 (Or.inr hn))) (by simpa using hcount)
    · rename_i hsmall
      have h1 : 1 ≤ number := Nat.pos_of_ne_zero (hpos number (List.mem_cons.2 (Or.inl rfl)))
      have h2 : number ≤ a.dsc_info.images_count := Nat.le_of_not_gt hsmall
      rw [image_index_in_range number _ h1 h2 hcount]
      have hlt : number - 1 < a.dsc_info.images.length := by
        unfold dyld_shared_cache_info.images_count at h2
        omega
      rw [List.getElem?_eq_getElem hlt]
      simp only
      refine ih _ (fun n hn => hpos n (List.mem_cons.2 (Or.inr hn))) ?_
      rw [(actually_parse_image_trace env 0 _ _ _ a).1]
      exact hcount


/-- The callback keeps the mapped file and the size of the images table, and every parser call it adds is for the record it was called for. -/
theorem dsc_iterate_images_callback_trace (env : dsc_env) (index : Nat)
    (image : dyld_cache_image_info) (image_path : String)
    (a : dsc_iterate_images_callback_info) :
    (dsc_iterate_images_callback env index image image_path a).2.dsc_info.map = a.dsc_info.map
      ∧ (dsc_iterate_images_callback env index image image_path a).2.dsc_info.images.length
          = a.dsc_info.images.length
      ∧ (dsc_iterate_images_callback env index image image_path a).2.parse_all_images
          = a.parse_all_images
      ∧ ∃ later,
          (dsc_iterate_images_callback env index image image_path a).2.trace = a.trace ++ later
          ∧ ∀ idx img path, dsc_event.dsc_image_parse idx img path ∈ later → idx = index := by
  have hparse : ∀ (length : Nat) (a1 : dsc_iterate_images_callback_info),
      a1.dsc_info = a.dsc_info → a1.parse_all_images = a.parse_all_images →
      a1.trace = a.trace →
      (actually_parse_image env length index image image_path a1).2.2.dsc_info = a.dsc_info
      ∧ (actually_parse_image env length index image image_path a1).2.2.parse_all_images
          = a.parse_all_images
      ∧ ∃ later,
          (actually_parse_image env length index image image_path a1).2.2.trace
            = a.trace ++ later
          ∧ ∀ idx img path, dsc_event.dsc_image_parse idx img path ∈ later → idx = index := by
    intro length a1 hd hp ht
    obtain ⟨hd0, hp0, l0, ht0, hq0⟩ :=
      actually_parse_image_trace env length index image image_path a1
    refine ⟨hd0.trans hd, hp0.trans hp, _, by rw [ht0, ht], ?_⟩
    intro idx img path hm
    rcases List.mem_cons.1 hm with hm | hm
    · simp only [dsc_event.dsc_image_parse.injEq] at hm
      exact hm.1
    · have := hq0 _ hm
      cases this
  unfold dsc_iterate_images_callback
  simp only
  generalize select_image env a image_path = selected
  split
  · exact ⟨rfl, rfl, rfl, [], by simp, by simp⟩
  · split
    · exact ⟨rfl, rfl, rfl, [], by simp, by simp⟩
    · split
      · exact ⟨rfl, rfl, rfl, [], by simp, by simp⟩
      · unfold parse_selected_image
        simp only
        split
        · obtain ⟨hd, hp, later, ht, hq⟩ := hparse selected.path_length
            { a with tbd := { a.tbd with dsc_image_filters := selected.filters,
                                         dsc_image_paths := selected.paths } } rfl rfl rfl
          exact ⟨by simp only; rw [hd], by simp only; rw [hd], hp, later, ht, hq⟩
        · obtain ⟨hd, hp, later, ht, hq⟩ := hparse selected.path_length
            { a with tbd := { a.tbd with dsc_image_filters := selected.filters,
                                         dsc_image_paths := selected.paths } } rfl rfl rfl
          exact ⟨by simp only; rw [hd], by simp only [List.length_set]; rw [hd], hp, later,
            ht, hq⟩

/-- The iteration keeps the mapped file and the size of the images table, and every parser call it adds is for a record of the table. -/
theorem iterate_images_from_trace (env : dsc_env) :
    ∀ (remaining index : Nat) (a : dsc_iterate_images_callback_info),
      (iterate_images_from env remaining index a).dsc_info.map = a.dsc_info.map
        ∧ (iterate_images_from env remaining index a).dsc_info.images.length
            = a.dsc_info.images.length
        ∧ ∃ later, (iterate_images_from env remaining index a).trace = a.trace ++ later
            ∧ ∀ idx img path, dsc_event.dsc_image_parse idx img path ∈ later →
                idx < a.dsc_info.images.length := by
  intro remaining
  induction remaining with
  | zero => intro index a; exact ⟨rfl, rfl, [], by simp [iterate_images_from], by simp⟩
  | succ remaining ih =>
    intro index a
    simp only [iterate_images_from]
    split
    · exact ⟨rfl, rfl, [], by simp, by simp⟩
    · rename_i image himage
      have hlt : index < a.dsc_info.images.length := (List.getElem?_eq_some_iff.1 himage).1
      obtain ⟨hm1, hl1, _, l1, ht1, hq1⟩ := dsc_iterate_images_callback_trace env index image
        (c_string_at a.dsc_info.map image.pathFileOffset) a
      split
      · obtain ⟨hm2, hl2, l2, ht2, hq2⟩ := ih (index + 1)
          (dsc_iterate_images_callback env index image
            (c_string_at a.dsc_info.map image.pathFileOffset) a).2
        refine ⟨hm2.trans hm1, hl2.trans hl1, l1 ++ l2, by rw [ht2, ht1, List.append_assoc], ?_⟩
        intro idx img path hm
        rcases List.mem_append.1 hm with hm | hm
        · rw [hq1 idx img path hm]; exact hlt
        · rw [← hl1]; exact hq2 idx img path hm
      · refine ⟨hm1, hl1, l1, ht1, ?_⟩
        intro idx img path hm
        rw [hq1 idx img path hm]; exact hlt

/-- `print_missing_filters` calls no parser. -/
theorem print_missing_filters_quiet (filters : List tbd_for_main_dsc_image_filter) :
    ∀ e ∈ print_missing_filters filters, e.is_image_parse = false := by
  induction filters with
  | nil => intro e he; cases he
  | cons filter rest ih =>
    intro e he
    simp only [print_missing_filters] at he
    split at he
    · exact ih e he
    · rcases List.mem_cons.1 he with he | he
      · subst he
        unfold missing_filter_line
        split <;> rfl
      · exact ih e he

/-- `print_missing_paths` calls no parser. -/
theorem print_missing_paths_quiet (paths : List tbd_for_main_dsc_image_path) :
    ∀ e ∈ print_missing_paths paths, e.is_image_parse = false := by
  induction paths with
  | nil => intro e he; cases he
  | cons path rest ih =>
    intro e he
    simp only [print_missing_paths] at he
    split at he
    · exact ih e he
    · rcases List.mem_cons.1 he with he | he
      · subst he; rfl
      · exact ih e he

/-- `print_dsc_warnings` only prints. -/
theorem print_dsc_warnings_printed (a : dsc_iterate_images_callback_info)
    (filters : List tbd_for_main_dsc_image_filter) (paths : List tbd_for_main_dsc_image_path) :
    only_printed a (print_dsc_warnings a filters paths) := by
  unfold print_dsc_warnings
  split
  · exact only_printed_refl a
  · refine only_printed_trans (print_messages_header_printed a) (only_printed_log _ _ ?_)
    intro e he
    rcases List.mem_append.1 he with he | he
    · exact print_missing_filters_quiet _ e he
    · exact print_missing_paths_quiet _ e he


/-- The end of both entry points returns `E_PARSE_DSC_FOR_MAIN_OK` and adds no parser call. -/
theorem finish_dsc_images_spec (a : dsc_iterate_images_callback_info) :
    ∃ later tbd, finish_dsc_images a
        = dsc_outcome.returned parse_dsc_for_main_result.ok (a.trace ++ later) tbd
      ∧ ∀ e ∈ later, e.is_image_parse = false := by
  obtain ⟨_, _, later, ht, hq⟩ := only_printed_quiet
    (print_dsc_warnings_printed a a.tbd.dsc_image_filters a.tbd.dsc_image_paths)
  exact ⟨later, _, by unfold finish_dsc_images; rw [ht], hq⟩

/-- Iteration followed by the end returns `E_PARSE_DSC_FOR_MAIN_OK`, every parser call added being for a record of the table. -/
theorem iterate_then_finish_spec (env : dsc_env) (a : dsc_iterate_images_callback_info) :
    ∃ later tbd,
      finish_dsc_images (dyld_shared_cache_iterate_images_with_callback env a)
        = dsc_outcome.returned parse_dsc_for_main_result.ok (a.trace ++ later) tbd
      ∧ ∀ idx img path, dsc_event.dsc_image_parse idx img path ∈ later →
          idx < a.dsc_info.images_count := by
  obtain ⟨_, _, l1, ht1, hq1⟩ := iterate_images_from_trace env a.dsc_info.images_count 0 a
  obtain ⟨l2, tbd, h2, hq2⟩ :=
    finish_dsc_images_spec (dyld_shared_cache_iterate_images_with_callback env a)
  refine ⟨l1 ++ l2, tbd, ?_, ?_⟩
  · rw [h2]
    unfold dyld_shared_cache_iterate_images_with_callback
    rw [ht1, List.append_assoc]
  · intro idx img path hm
    rcases List.mem_append.1 hm with hm | hm
    · exact hq1 idx img path hm
    · have := hq2 _ hm
      cases this

/-- What the shared part of both entry points returns and leaves in the trace, unless a record outside the images table is read. -/
theorem parse_dsc_images_spec (env : dsc_env) (args : parse_dsc_for_main_args)
    (a : dsc_iterate_images_callback_info) (htrace : a.trace = [])
    (hcount : a.dsc_info.images_count < 2 ^ 32)
    (outcome : dsc_outcome) (hout : parse_dsc_images env args a = outcome)
    (hin : outcome ≠ dsc_outcome.outside_images_table) :
    ∃ trace tbd, outcome = dsc_outcome.returned parse_dsc_for_main_result.ok trace tbd
      ∧ (∀ n ∈ a.tbd.dsc_image_numbers, n > a.dsc_info.images_count →
          image_number_warning n a.dsc_info.images_count args.print_paths args.dsc_dir_path
            args.dsc_name ∈ trace)
      ∧ (∀ n ∈ a.tbd.dsc_image_numbers, 1 ≤ n → n ≤ a.dsc_info.images_count →
          ∃ image, a.dsc_info.images[n - 1]? = some image
            ∧ dsc_event.dsc_image_parse (n - 1) image
                (c_string_at a.dsc_info.map image.pathFileOffset) ∈ trace)
      ∧ (∀ index image path, dsc_event.dsc_image_parse index image path ∈ trace →
          index < a.dsc_info.images_count) := by
  unfold parse_dsc_images at hout
  by_cases hnum : a.tbd.dsc_image_numbers.isEmpty = true
  · have hnil : a.tbd.dsc_image_numbers = [] := List.isEmpty_iff.1 hnum
    simp only [hnum, Bool.not_true, Bool.false_eq_true, if_false] at hout
    have hiter : ∀ b : dsc_iterate_images_callback_info, b.trace = [] →
        b.dsc_info = a.dsc_info → b.tbd = a.tbd →
        finish_dsc_images (dyld_shared_cache_iterate_images_with_callback env b) = outcome →
        ∃ trace tbd, outcome = dsc_outcome.returned parse_dsc_for_main_result.ok trace tbd
          ∧ (∀ n ∈ a.tbd.dsc_image_numbers, n > a.dsc_info.images_count →
              image_number_warning n a.dsc_info.images_count args.print_paths args.dsc_dir_path
                args.dsc_name ∈ trace)
          ∧ (∀ n ∈ a.tbd.dsc_image_numbers, 1 ≤ n → n ≤ a.dsc_info.images_count →
              ∃ image, a.dsc_info.images[n - 1]? = some image
                ∧ dsc_event.dsc_image_parse (n - 1) image
                    (c_string_at a.dsc_info.map image.pathFileOffset) ∈ trace)
          ∧ (∀ index image path, dsc_event.dsc_image_parse index image path ∈ trace →
              index < a.dsc_info.images_count) := by
      intro b hb hd _ hfin
      obtain ⟨later, tbd, hf, hq⟩ := iterate_then_finish_spec env b
      rw [hf] at hfin
      refine ⟨_, _, hfin.symm, ?_, ?_, ?_⟩
      · intro n hn; rw [hnil] at hn; cases hn
      · intro n hn; rw [hnil] at hn; cases hn
      · intro index image path hm
        rw [hb, List.nil_append] at hm
        rw [← hd]
        exact hq index image path hm
    split at hout
    · exact hiter { a with parse_all_images := false } htrace rfl rfl hout
    · exact hiter a htrace rfl rfl hout
  · simp only [hnum, Bool.not_false, if_true] at hout
    cases hnumbered : parse_image_numbers env args.print_paths args.dsc_dir_path args.dsc_name
        a.tbd.dsc_image_numbers a with
    | none =>
      simp only [hnumbered] at hout
      exact absurd hout.symm hin
    | some numbered =>
      simp only [hnumbered] at hout
      obtain ⟨hd, hp, later, ht, hw, hpar, hidx⟩ :=
        parse_image_numbers_spec env _ _ _ _ a numbered hnumbered hcount
      rw [htrace, List.nil_append] at ht
      split at hout
      · obtain ⟨l2, tbd, hf, hq⟩ := finish_dsc_images_spec numbered
        rw [hf] at hout
        refine ⟨_, _, hout.symm, ?_, ?_, ?_⟩
        · intro n hn hgt
          rw [ht]
          exact List.mem_append.2 (Or.inl (hw n hn hgt))
        · intro n hn h1 h2
          obtain ⟨image, hi, hm⟩ := hpar n hn h1 h2
          exact ⟨image, hi, by rw [ht]; exact List.mem_append.2 (Or.inl hm)⟩
        · intro index image path hm
          rw [ht] at hm
          rcases List.mem_append.1 hm with hm | hm
          · exact hidx index image path hm
          · have := hq _ hm
            cases this
      · obtain ⟨l2, tbd, hf, hq⟩ :=
          iterate_then_finish_spec env { numbered with parse_all_images := false }
        rw [hf] at hout
        simp only at hout hq
        refine ⟨_, _, hout.symm, ?_, ?_, ?_⟩
        · intro n hn hgt
          rw [ht]
          exact List.mem_append.2 (Or.inl (hw n hn hgt))
        · intro n hn h1 h2
          obtain ⟨image, hi, hm⟩ := hpar n hn h1 h2
          exact ⟨image, hi, by rw [ht]; exact List.mem_append.2 (Or.inl hm)⟩
        · intro index image path hm
          rw [ht] at hm
          rcases List.mem_append.1 hm with hm | hm
          · exact hidx index image path hm
          · rw [← hd]
            exact hq index image path hm

/-- No record outside the images table is read when no number is 0. -/
theorem parse_dsc_images_inside (env : dsc_env) (args : parse_dsc_for_main_args)
    (a : dsc_iterate_images_callback_info) (hcount : a.dsc_info.images_count < 2 ^ 32)
    (hpos : ∀ n ∈ a.tbd.dsc_image_numbers, n ≠ 0) :
    parse_dsc_images env args a ≠ dsc_outcome.outside_images_table := by
  unfold parse_dsc_images
  obtain ⟨b, hb⟩ := parse_image_numbers_returns env args.print_paths args.dsc_dir_path
    args.dsc_name a.tbd.dsc_image_numbers a hpos hcount
  rw [hb]
  simp only [finish_dsc_images]
  split
  · split <;> simp
  · split <;> simp

/-- A filter gives the same answer whether the path length is still 0 or already known. -/
theorem path_passes_through_filter_length (env : dsc_env) (length : Nat) (path : String)
    (filter : tbd_for_main_dsc_image_filter) (h : length = 0 ∨ length = path.length) :
    (path_passes_through_filter env length path filter).1
        = (path_passes_through_filter env 0 path filter).1
      ∧ ((path_passes_through_filter env length path filter).2 = 0
          ∨ (path_passes_through_filter env length path filter).2 = path.length) := by
  unfold path_passes_through_filter
  cases filter.type with
  | file =>
    simp only
    rcases h with h | h
    · subst h
      simp
    · subst h
      by_cases hz : path.length = 0
      · simp [hz]
      · simp [hz]
  | directory =>
    simp only
    exact ⟨trivial, h⟩

/-- The loop over the filters ends with `should_parse` set when it was set before or some filter passes. -/
theorem should_parse_image_filters_passes (env : dsc_env) (path : String) :
    ∀ (filters : List tbd_for_main_dsc_image_filter) (should_parse : Bool) (length : Nat),
      (length = 0 ∨ length = path.length) →
      (should_parse = true
        ∨ ∃ f ∈ filters, (path_passes_through_filter env 0 path f).1.isSome = true) →
      (should_parse_image_filters env path filters should_parse length).2.1 = true := by
  intro filters
  induction filters with
  | nil =>
    intro sp length _ h
    rcases h with h | ⟨f, hf, _⟩
    · simpa [should_parse_image_filters] using h
    · cases hf
  | cons filter rest ih =>
    intro sp length hlen h
    obtain ⟨hsame, hnext⟩ := path_passes_through_filter_length env length path filter hlen
    simp only [should_parse_image_filters]
    split
    · rename_i hskip
      simp only [Bool.and_eq_true] at hskip
      exact ih sp length hlen (Or.inl hskip.2)
    · split
      · exact ih true _ hnext (Or.inl rfl)
      · rename_i hnone
        refine ih sp _ hnext ?_
        rcases h with h | ⟨f, hf, hpass⟩
        · exact Or.inl h
        · rcases List.mem_cons.1 hf with rfl | hf
          · rw [← hsame, hnone] at hpass
            cases hpass
          · exact Or.inr ⟨f, hf, hpass⟩

/-- The loop over the exact paths sets `should_parse` when an entry not yet found equals the path. -/
theorem should_parse_image_paths_matches (path : String) (path_length : Nat) :
    ∀ (paths : List tbd_for_main_dsc_image_path),
      (∃ p ∈ paths, p.flags.found_one = false ∧ p.length = path_length
        ∧ memcmp_equal p.string path path_length = true) →
      (should_parse_image_paths path path_length paths).2 = true := by
  intro paths
  induction paths with
  | nil => intro h; obtain ⟨p, hp, _⟩ := h; cases hp
  | cons image_path rest ih =>
    intro h
    obtain ⟨p, hp, hfound, hlen, hcmp⟩ := h
    simp only [should_parse_image_paths]
    rcases List.mem_cons.1 hp with rfl | hp
    · simp [hfound, hlen, hcmp]
    · have hrest := ih ⟨p, hp, hfound, hlen, hcmp⟩
      split
      · exact hrest
      · split
        · exact hrest
        · split
          · exact hrest
          · rfl

/-- `should_parse_image` returns true when an exact path not yet found equals the path or a filter passes. -/
theorem should_parse_image_selects (env : dsc_env) (filters : List tbd_for_main_dsc_image_filter)
    (paths : List tbd_for_main_dsc_image_path) (path : String)
    (h : (∃ p ∈ paths, p.flags.found_one = false ∧ p.length = path.length
            ∧ memcmp_equal p.string path path.length = true)
          ∨ ∃ f ∈ filters, (path_passes_through_filter env 0 path f).1.isSome = true) :
    (should_parse_image env 0 filters paths path).should_parse = true := by
  unfold should_parse_image
  simp only
  by_cases hempty : paths.isEmpty = true
  · have hnil : paths = [] := List.isEmpty_iff.1 hempty
    simp only [hempty, Bool.not_true, Bool.false_eq_true, if_false]
    refine should_parse_image_filters_passes env path filters false 0 (Or.inl rfl) ?_
    rcases h with ⟨p, hp, _⟩ | h
    · rw [hnil] at hp; cases hp
    · exact Or.inr h
  · simp only [hempty, Bool.not_false, if_true]
    refine should_parse_image_filters_passes env path filters _ path.length (Or.inr rfl) ?_
    rcases h with h | h
    · exact Or.inl (should_parse_image_paths_matches path path.length paths h)
    · exact Or.inr h

/-- `found_at_least_one_image` tells whether every filter has its found flag. -/
theorem found_at_least_one_image_eq (filters : List tbd_for_main_dsc_image_filter) :
    found_at_least_one_image filters = filters.all (fun filter => filter.flags.found_one) := by
  induction filters with
  | nil => rfl
  | cons filter rest ih =>
    simp only [found_at_least_one_image, List.all_cons, ih]
    cases filter.flags.found_one <;> simp

/-- `found_all_paths` tells whether every exact path has its found flag. -/
theorem found_all_paths_eq (paths : List tbd_for_main_dsc_image_path) :
    found_all_paths paths = paths.all (fun path => path.flags.found_one) := by
  induction paths with
  | nil => rfl
  | cons path rest ih =>
    simp only [found_all_paths, List.all_cons, ih]
    cases path.flags.found_one <;> simp

/-- `print_missing_filters` writes one line per filter without the found flag, in array order. -/
theorem print_missing_filters_eq (filters : List tbd_for_main_dsc_image_filter) :
    print_missing_filters filters
      = (filters.filter (fun filter => !filter.flags.found_one)).map missing_filter_line := by
  induction filters with
  | nil => rfl
  | cons filter rest ih =>
    simp only [print_missing_filters, List.filter_cons, ih]
    cases filter.flags.found_one <;> simp

/-- `print_missing_paths` writes one line per exact path without the found flag, in array order. -/
theorem print_missing_paths_eq (paths : List tbd_for_main_dsc_image_path) :
    print_missing_paths paths
      = (paths.filter (fun path => !path.flags.found_one)).map missing_path_line := by
  induction paths with
  | nil => rfl
  | cons path rest ih =>
    simp only [print_missing_paths, List.filter_cons, ih]
    cases path.flags.found_one <;> simp

/-- C10, amended. `print_dsc_warnings` prints nothing when every filter and
every exact path has the found flag set; otherwise it prints the messages
header, unless the header has been printed before
(`did_print_messages_header`), and then exactly one warning line for each
filter and each exact path whose found flag is clear, filters first, each in
array order. -/
theorem print_dsc_warnings_output (callback_info : dsc_iterate_images_callback_info)
    (filters : List tbd_for_main_dsc_image_filter) (paths : List tbd_for_main_dsc_image_path) :
    (print_dsc_warnings callback_info filters paths).trace
      = callback_info.trace ++
          (if filters.all (fun filter => filter.flags.found_one)
              && paths.all (fun path => path.flags.found_one) then []
           else
            (if callback_info.did_print_messages_header then []
             else [messages_header callback_info.print_paths callback_info.dsc_dir_path
                    callback_info.dsc_name])
            ++ (filters.filter (fun filter => !filter.flags.found_one)).map missing_filter_line
            ++ (paths.filter (fun path => !path.flags.found_one)).map missing_path_line) := by
  unfold print_dsc_warnings
  rw [found_at_least_one_image_eq, found_all_paths_eq, print_missing_filters_eq,
    print_missing_paths_eq]
  split
  · simp
  · unfold print_messages_header
    cases callback_info.did_print_messages_header <;>
      simp [dsc_iterate_images_callback_info.log, List.append_assoc]

/-- The head of both entry points never returns `E_PARSE_DSC_FOR_MAIN_OK`. -/
theorem open_cache_not_ok (env : dsc_env) (args : parse_dsc_for_main_args)
    (early : dsc_outcome) (h : open_cache env args = some early) :
    ∀ trace tbd, early ≠ dsc_outcome.returned parse_dsc_for_main_result.ok trace tbd := by
  intro trace tbd hc
  subst hc
  unfold open_cache at h
  split at h
  · cases h
  · cases h
  · split at h
    · cases h
    · split at h
      · cases h
      · cases h

/-- When the magic is read and the cache parsed, the head of both entry
points lets the function go on. -/
theorem open_cache_none (env : dsc_env) (args : parse_dsc_for_main_args)
    (hmagic : (read_magic env args.magic_in_size).1 = read_magic_result.ok)
    (hparsed : parsed_cache_result env args = dyld_shared_cache_parse_result.ok) :
    open_cache env args = none := by
  unfold open_cache
  rw [hmagic]
  simp [hparsed]

/-- `verify_write_path` leaves the image numbers alone. -/
theorem verify_write_path_numbers (env : dsc_env) (tbd checked : tbd_for_main)
    (h : verify_write_path env tbd = some checked) :
    checked.dsc_image_numbers = tbd.dsc_image_numbers := by
  unfold verify_write_path at h
  split at h
  · split at h
    · cases h; rfl
    · cases h
  · split at h
    · cases h; rfl
    · cases h
    · split at h
      · cases h; rfl
      · cases h
    · cases h; rfl

/-- C6. Whenever `parse_dsc_for_main` returns `E_PARSE_DSC_FOR_MAIN_OK`, for
every supplied image number `n` with `1 <= n <= images_count` the image parser
has been called on the record at position `n - 1` of the images table, with
the image path read at that record's `pathFileOffset`. -/
theorem parse_dsc_for_main_parses_numbered_image (env : dsc_env)
    (args : parse_dsc_for_main_args) (trace : List dsc_event) (tbd : tbd_for_main)
    (h : parse_dsc_for_main env args
      = dsc_outcome.returned parse_dsc_for_main_result.ok trace tbd)
    (hcount : (parsed_cache env args).images_count < 2 ^ 32)
    (n : Nat) (hn : n ∈ args.tbd.dsc_image_numbers) (h1 : 1 ≤ n)
    (h2 : n ≤ (parsed_cache env args).images_count) :
    ∃ image, (parsed_cache env args).images[n - 1]? = some image
      ∧ dsc_event.dsc_image_parse (n - 1) image
          (c_string_at (parsed_cache env args).map image.pathFileOffset) ∈ trace := by
  unfold parse_dsc_for_main at h
  cases hopen : open_cache env args with
  | some early =>
    simp only [hopen] at h
    exact absurd h (open_cache_not_ok env args early hopen trace tbd)
  | none =>
    simp only [hopen] at h
    cases hverify : (if args.verify_write_path = true then verify_write_path env args.tbd
        else some args.tbd) with
    | none => simp only [hverify] at h; cases h
    | some checked =>
      simp only [hverify] at h
      have hnumbers : checked.dsc_image_numbers = args.tbd.dsc_image_numbers := by
        split at hverify
        · exact verify_write_path_numbers env _ _ hverify
        · cases hverify; rfl
      obtain ⟨trace1, tbd1, heq, _, hpar, _⟩ := parse_dsc_images_spec env args
        (initial_callback_info env args checked checked.write_path checked.write_path_length)
        rfl hcount _ h (by simp)
      simp only [dsc_outcome.returned.injEq, true_and] at heq
      obtain ⟨rfl, rfl⟩ := heq
      exact hpar n (by simpa [initial_callback_info, hnumbers] using hn) h1 h2


/-- C6, witness: the numbers 3 and 2 on the sample cache of two images; for
the number 2 the parser is called on record 1, `/usr/lib/libbar.dylib`. -/
theorem parse_dsc_for_main_parses_numbered_image_witness :
    (2 : Nat) ∈ (sample_dsc_args [3, 2] []).tbd.dsc_image_numbers
      ∧ ∃ image, (parsed_cache sample_dsc_env (sample_dsc_args [3, 2] [])).images[2 - 1]?
            = some image
          ∧ dsc_event.dsc_image_parse (2 - 1) image
              (c_string_at (parsed_cache sample_dsc_env (sample_dsc_args [3, 2] [])).map
                image.pathFileOffset)
            ∈ [dsc_event.stderr
                ("An image-number of 3 goes beyond the images-count of 2 the "
                  ++ "dyld_shared_cache at the provided path has\n"),
               dsc_event.dsc_image_parse 1 ⟨8192, 0, 0, 22, 0⟩ "/usr/lib/libbar.dylib",
               dsc_event.write_to_path "/out/usr/lib/libbar.dylib.tbd"] :=
  ⟨by decide,
   parse_dsc_for_main_parses_numbered_image sample_dsc_env (sample_dsc_args [3, 2] [])
    _ (sample_tbd_for_main [3, 2] []) (by decide) (by decide) 2 (by decide) (by decide)
    (by decide)⟩

/-- C7 (the code departs from the claim). With the image number 0 in the
list, which is not greater than `images_count` and so is to be processed, the
record read lies outside the images table (index `0 - 1` in 32 bits), and
neither `parse_dsc_for_main` nor `parse_dsc_for_main_while_recursing` comes to
return `E_PARSE_DSC_FOR_MAIN_OK`. -/
theorem parse_dsc_for_main_number_zero :
    parse_dsc_for_main sample_dsc_env (sample_dsc_args [0] [])
        = dsc_outcome.outside_images_table
      ∧ parse_dsc_for_main_while_recursing sample_dsc_env (sample_dsc_args [0] [])
        = dsc_outcome.outside_images_table := by
  decide

/-- For every list of image numbers none of which is 0, once the cache file
has been read and parsed (and the write path accepted),
`parse_dsc_for_main` and `parse_dsc_for_main_while_recursing` return
`E_PARSE_DSC_FOR_MAIN_OK`; each number greater than `images_count` has
produced its warning, the parser has been called for every other number of
the list, and no parser call was made for a record outside the images
table. -/
theorem parse_dsc_for_main_image_numbers (env : dsc_env) (args : parse_dsc_for_main_args)
    (hmagic : (read_magic env args.magic_in_size).1 = read_magic_result.ok)
    (hparsed : parsed_cache_result env args = dyld_shared_cache_parse_result.ok)
    (hverify : args.verify_write_path = true → (verify_write_path env args.tbd).isSome = true)
    (hcount : (parsed_cache env args).images_count < 2 ^ 32)
    (hpos : ∀ n ∈ args.tbd.dsc_image_numbers, n ≠ 0) :
    ∀ run ∈ [parse_dsc_for_main env args, parse_dsc_for_main_while_recursing env args],
      ∃ trace tbd, run = dsc_outcome.returned parse_dsc_for_main_result.ok trace tbd
        ∧ (∀ n ∈ args.tbd.dsc_image_numbers, n > (parsed_cache env args).images_count →
            image_number_warning n (parsed_cache env args).images_count args.print_paths
              args.dsc_dir_path args.dsc_name ∈ trace)
        ∧ (∀ n ∈ args.tbd.dsc_image_numbers, n ≤ (parsed_cache env args).images_count →
            ∃ image, (parsed_cache env args).images[n - 1]? = some image
              ∧ dsc_event.dsc_image_parse (n - 1) image
                  (c_string_at (parsed_cache env args).map image.pathFileOffset) ∈ trace)
        ∧ (∀ index image path, dsc_event.dsc_image_parse index image path ∈ trace →
            index < (parsed_cache env args).images_count) := by
  have hopen := open_cache_none env args hmagic hparsed
  have key : ∀ (checked : tbd_for_main) (write_path : Option String) (length : Nat),
      checked.dsc_image_numbers = args.tbd.dsc_image_numbers →
      ∃ trace tbd,
        parse_dsc_images env args (initial_callback_info env args checked write_path length)
          = dsc_outcome.returned parse_dsc_for_main_result.ok trace tbd
        ∧ (∀ n ∈ args.tbd.dsc_image_numbers, n > (parsed_cache env args).images_count →
            image_number_warning n (parsed_cache env args).images_count args.print_paths
              args.dsc_dir_path args.dsc_name ∈ trace)
        ∧ (∀ n ∈ args.tbd.dsc_image_numbers, n ≤ (parsed_cache env args).images_count →
            ∃ image, (parsed_cache env args).images[n - 1]? = some image
              ∧ dsc_event.dsc_image_parse (n - 1) image
                  (c_string_at (parsed_cache env args).map image.pathFileOffset) ∈ trace)
        ∧ (∀ index image path, dsc_event.dsc_image_parse index image path ∈ trace →
            index < (parsed_cache env args).images_count) := by
    intro checked write_path length hnumbers
    have hpos1 : ∀ n ∈ (initial_callback_info env args checked write_path
        length).tbd.dsc_image_numbers, n ≠ 0 := by
      intro n hn
      exact hpos n (by simpa [initial_callback_info, hnumbers] using hn)
    obtain ⟨trace, tbd, heq, hw, hpar, hidx⟩ := parse_dsc_images_spec env args
      (initial_callback_info env args checked write_path length) rfl hcount _ rfl
      (parse_dsc_images_inside env args _ hcount hpos1)
    refine ⟨trace, tbd, heq, ?_, ?_, hidx⟩
    · intro n hn hgt
      exact hw n (by simpa [initial_callback_info, hnumbers] using hn) hgt
    · intro n hn hle
      exact hpar n (by simpa [initial_callback_info, hnumbers] using hn)
        (Nat.pos_of_ne_zero (hpos n hn)) hle
  intro run hrun
  simp only [List.mem_cons, List.mem_singleton, List.not_mem_nil, or_false] at hrun
  rcases hrun with rfl | rfl
  · unfold parse_dsc_for_main
    simp only [hopen]
    by_cases hv : args.verify_write_path = true
    · cases hchecked : verify_write_path env args.tbd with
      | none =>
        have := hverify hv
        rw [hchecked] at this
        cases this
      | some checked =>
        simp only [hv, if_true, hchecked]
        exact key checked _ _ (verify_write_path_numbers env _ _ hchecked)
    · simp only [hv, if_false]
      exact key args.tbd _ _ rfl
  · unfold parse_dsc_for_main_while_recursing
    simp only [hopen]
    exact key args.tbd _ _ rfl

/-- The numbers 3 and 2 on the sample cache of two images. -/
theorem parse_dsc_for_main_image_numbers_witness :
    (∀ n ∈ (sample_dsc_args [3, 2] []).tbd.dsc_image_numbers, n ≠ 0)
      ∧ ∀ run ∈ [parse_dsc_for_main sample_dsc_env (sample_dsc_args [3, 2] []),
            parse_dsc_for_main_while_recursing sample_dsc_env (sample_dsc_args [3, 2] [])],
          ∃ trace tbd, run = dsc_outcome.returned parse_dsc_for_main_result.ok trace tbd
            ∧ (∀ n ∈ (sample_dsc_args [3, 2] []).tbd.dsc_image_numbers,
                n > (parsed_cache sample_dsc_env (sample_dsc_args [3, 2] [])).images_count →
                image_number_warning n
                  (parsed_cache sample_dsc_env (sample_dsc_args [3, 2] [])).images_count
                  (sample_dsc_args [3, 2] []).print_paths (sample_dsc_args [3, 2] []).dsc_dir_path
                  (sample_dsc_args [3, 2] []).dsc_name ∈ trace)
            ∧ (∀ n ∈ (sample_dsc_args [3, 2] []).tbd.dsc_image_numbers,
                n ≤ (parsed_cache sample_dsc_env (sample_dsc_args [3, 2] [])).images_count →
                ∃ image,
                  (parsed_cache sample_dsc_env (sample_dsc_args [3, 2] [])).images[n - 1]?
                    = some image
                  ∧ dsc_event.dsc_image_parse (n - 1) image
                      (c_string_at (parsed_cache sample_dsc_env (sample_dsc_args [3, 2] [])).map
                        image.pathFileOffset) ∈ trace)
            ∧ (∀ index image path, dsc_event.dsc_image_parse index image path ∈ trace →
                index < (parsed_cache sample_dsc_env (sample_dsc_args [3, 2] [])).images_count) :=
  ⟨by decide,
   parse_dsc_for_main_image_numbers sample_dsc_env (sample_dsc_args [3, 2] [])
    (by decide) (by decide) (by decide) (by decide) (by decide)⟩

/-- C8, counterexample. The second record of `twin_cache` has a non-empty
path, is not flagged already-extracted, and its path equals the supplied
exact path `/usr/lib/libfoo.dylib` in length and bytes; the exact path
already has its found flag, from the first record, and
`dsc_iterate_images_callback` does not hand the image to the parser. The
whole run on `twin_cache` calls the parser for the first record only. -/
theorem dsc_iterate_images_callback_skips_found_path :
    (8192 : Nat) &&& E_DYLD_CACHE_IMAGE_INFO_PAD_ALREADY_EXTRACTED = 0
      ∧ (sample_callback_info [libfoo_path true]).parse_all_images = false
      ∧ (libfoo_path true).length = "/usr/lib/libfoo.dylib".length
      ∧ memcmp_equal (libfoo_path true).string "/usr/lib/libfoo.dylib" 21 = true
      ∧ dsc_iterate_images_callback twin_dsc_env 1 ⟨8192, 0, 0, 0, 0⟩ "/usr/lib/libfoo.dylib"
            (sample_callback_info [libfoo_path true])
          = (true, sample_callback_info [libfoo_path true])
      ∧ (sample_callback_info [libfoo_path true]).trace = []
      ∧ parse_dsc_for_main twin_dsc_env (sample_dsc_args [] [libfoo_path false])
          = dsc_outcome.returned parse_dsc_for_main_result.ok
              [dsc_event.dsc_image_parse 0 ⟨4096, 0, 0, 0, 0⟩ "/usr/lib/libfoo.dylib",
               dsc_event.write_to_path "/out/usr/lib/libfoo.dylib.tbd"]
              (sample_tbd_for_main [] [libfoo_path true]) := by
  decide

/-- C8, amended. For every image with a non-empty path that is not flagged
already-extracted, when `parse_all_images` is false,
`dsc_iterate_images_callback` hands the image to the parser (for the record
and the path it was called with) if its path equals, in length and bytes, one
of the supplied exact paths whose found flag is still clear, or passes at
least one supplied directory or file-name filter. -/
theorem dsc_iterate_images_callback_parses_selected (env : dsc_env) (index : Nat)
    (image : dyld_cache_image_info) (image_path : String)
    (callback_info : dsc_iterate_images_callback_info)
    (hpad : image.pad &&& E_DYLD_CACHE_IMAGE_INFO_PAD_ALREADY_EXTRACTED = 0)
    (hpath : image_path.data.headD (Char.ofNat 0) ≠ Char.ofNat 0)
    (hall : callback_info.parse_all_images = false)
    (h : (∃ p ∈ callback_info.tbd.dsc_image_paths, p.flags.found_one = false
            ∧ p.length = image_path.length
            ∧ memcmp_equal p.string image_path image_path.length = true)
          ∨ ∃ f ∈ callback_info.tbd.dsc_image_filters,
              (path_passes_through_filter env 0 image_path f).1.isSome = true) :
    ∃ later,
      (dsc_iterate_images_callback env index image image_path callback_info).2.trace
        = callback_info.trace ++ dsc_event.dsc_image_parse index image image_path :: later
      ∧ ∀ e ∈ later, e.is_image_parse = false := by
  have hselect : (select_image env callback_info image_path).should_parse = true := by
    unfold select_image
    rw [hall]
    simp only [Bool.not_false, if_true]
    exact should_parse_image_selects env _ _ image_path h
  unfold dsc_iterate_images_callback
  rw [if_neg (by rw [hpad]; simp), if_neg hpath]
  simp only [hselect, hall, Bool.not_true, Bool.and_false, Bool.false_eq_true, if_false]
  generalize select_image env callback_info image_path = selected
  obtain ⟨_, _, later, ht, hq⟩ := actually_parse_image_trace env selected.path_length index image
    image_path
    { callback_info with
      tbd := { callback_info.tbd with dsc_image_filters := selected.filters,
                                      dsc_image_paths := selected.paths } }
  refine ⟨later, ?_, hq⟩
  unfold parse_selected_image
  simp only
  simp only [hall] at ht
  split
  · simp only
    exact ht
  · simp only
    exact ht


/-- C8, witness: the first record of `twin_cache` with the exact path
`/usr/lib/libfoo.dylib` not yet found. -/
theorem dsc_iterate_images_callback_parses_selected_witness :
    (sample_callback_info [libfoo_path false]).parse_all_images = false
      ∧ ∃ later,
          (dsc_iterate_images_callback twin_dsc_env 0 ⟨4096, 0, 0, 0, 0⟩ "/usr/lib/libfoo.dylib"
              (sample_callback_info [libfoo_path false])).2.trace
            = (sample_callback_info [libfoo_path false]).trace
                ++ dsc_event.dsc_image_parse 0 ⟨4096, 0, 0, 0, 0⟩ "/usr/lib/libfoo.dylib" :: later
          ∧ ∀ e ∈ later, e.is_image_parse = false :=
  ⟨by decide,
   dsc_iterate_images_callback_parses_selected twin_dsc_env 0 ⟨4096, 0, 0, 0, 0⟩
    "/usr/lib/libfoo.dylib" (sample_callback_info [libfoo_path false]) (by decide) (by decide)
    (by decide)
    (Or.inl ⟨libfoo_path false, by decide, by decide, by decide, by decide⟩)⟩

/-- C9. The loop over the image numbers neither tests nor sets the
already-extracted bit: with the numbers 1 and 1, `parse_dsc_for_main` hands
record 0 to the parser twice and writes its tbd twice; and with the number 1
and the exact path of the same image, the record extracted by the numbers
loop is handed to the parser again by `dsc_iterate_images_callback`. -/
theorem parse_dsc_for_main_parses_image_twice :
    parse_dsc_for_main sample_dsc_env (sample_dsc_args [1, 1] [])
        = dsc_outcome.returned parse_dsc_for_main_result.ok
            [dsc_event.dsc_image_parse 0 ⟨4096, 0, 0, 0, 0⟩ "/usr/lib/libfoo.dylib",
             dsc_event.write_to_path "/out/usr/lib/libfoo.dylib.tbd",
             dsc_event.dsc_image_parse 0 ⟨4096, 0, 0, 0, 0⟩ "/usr/lib/libfoo.dylib",
             dsc_event.write_to_path "/out/usr/lib/libfoo.dylib.tbd"]
            (sample_tbd_for_main [1, 1] [])
      ∧ parse_dsc_for_main sample_dsc_env (sample_dsc_args [1] [libfoo_path false])
        = dsc_outcome.returned parse_dsc_for_main_result.ok
            [dsc_event.dsc_image_parse 0 ⟨4096, 0, 0, 0, 0⟩ "/usr/lib/libfoo.dylib",
             dsc_event.write_to_path "/out/usr/lib/libfoo.dylib.tbd",
             dsc_event.dsc_image_parse 0 ⟨4096, 0, 0, 0, 0⟩ "/usr/lib/libfoo.dylib",
             dsc_event.write_to_path "/out/usr/lib/libfoo.dylib.tbd"]
            (sample_tbd_for_main [1] [libfoo_path true]) := by
  decide

/-- C10, counterexample. With the exact path `/usr/lib/libfoo.dylib` not
found and the header already printed (`did_print_messages_header` set),
`print_dsc_warnings` prints the warning line only, without the messages
header. That state is reached in the run on `failing_dsc_env`, where the
header is printed once, by `print_image_error`, before the warnings. -/
theorem print_dsc_warnings_header_already_printed :
    (print_dsc_warnings
        { sample_callback_info [libfoo_path false] with did_print_messages_header := true }
        [] [libfoo_path false]).trace
        = [dsc_event.stderr "\tNo image was found with path: /usr/lib/libfoo.dylib\n"]
      ∧ parse_dsc_for_main failing_dsc_env (sample_dsc_args [] [libfoo_path false])
        = dsc_outcome.returned parse_dsc_for_main_result.ok
            [dsc_event.dsc_image_parse 0 ⟨4096, 0, 0, 0, 0⟩ "/usr/lib/libfoo.dylib",
             dsc_event.stderr ("Parsing the provided dyld_shared_cache file resulted in the "
               ++ "following warnings and errors:\n"),
             dsc_event.stderr "\t",
             dsc_event.print_dsc_image_parse_error "/usr/lib/libfoo.dylib"
               (dsc_image_parse_result.other 1),
             dsc_event.stderr "\tNo image was found with path: /usr/lib/libfoo.dylib\n"]
            (sample_tbd_for_main [] [libfoo_path false]) := by
  decide

/-- `dsc_iterate_images_callback` returns true on every path through it. -/
theorem dsc_iterate_images_callback_continues (env : dsc_env) (index : Nat)
    (image : dyld_cache_image_info) (image_path : String)
    (a : dsc_iterate_images_callback_info) :
    (dsc_iterate_images_callback env index image image_path a).1 = true := by
  unfold dsc_iterate_images_callback
  split
  · rfl
  · split
    · rfl
    · simp only
      split
      · rfl
      · unfold parse_selected_image
        simp only
        split <;> rfl

/-- The conditions of a `tbd` are its own. -/
theorem same_conditions_refl (a : tbd_for_main) : same_conditions a a := ⟨rfl, rfl⟩

/-- Keeping the conditions twice keeps them. -/
theorem same_conditions_trans {a b c : tbd_for_main} (h1 : same_conditions a b)
    (h2 : same_conditions b c) : same_conditions a c :=
  ⟨h2.1.trans h1.1, h2.2.trans h1.2⟩

/-- Printing leaves the `tbd` alone. -/
theorem only_printed_tbd {a b : dsc_iterate_images_callback_info} (h : only_printed a b) :
    b.tbd = a.tbd := by
  obtain ⟨l, f, rfl, _⟩ := h
  rfl

/-- `path_passes_through_filter` reads the string, the length and the type of the filter only. -/
theorem path_passes_through_filter_key (env : dsc_env) (length : Nat) (path : String)
    (f g : tbd_for_main_dsc_image_filter) (h : filter_key f = filter_key g) :
    path_passes_through_filter env length path f = path_passes_through_filter env length path g := by
  cases f; cases g
  simp only [filter_key, Prod.mk.injEq] at h
  obtain ⟨rfl, rfl, rfl⟩ := h
  rfl

/-- Whether a path matches depends on the strings, lengths and types of the filters and exact paths only. -/
theorem image_path_matches_congr (env : dsc_env) (image_path : String) :
    ∀ (filters filters1 : List tbd_for_main_dsc_image_filter)
      (paths paths1 : List tbd_for_main_dsc_image_path),
      filters1.map filter_key = filters.map filter_key →
      paths1.map path_key = paths.map path_key →
      image_path_matches env filters1 paths1 image_path
        = image_path_matches env filters paths image_path := by
  intro filters filters1 paths paths1 hf hp
  have h1 : ∀ (l : List tbd_for_main_dsc_image_path),
      l.any (fun path => decide (path.length = image_path.length)
        && memcmp_equal path.string image_path image_path.length)
      = (l.map path_key).any (fun k => decide (k.2 = image_path.length)
        && memcmp_equal k.1 image_path image_path.length) := by
    intro l
    induction l with
    | nil => rfl
    | cons p rest ih => simp only [List.any_cons, List.map_cons, ih, path_key]
  have h2 : ∀ (l : List tbd_for_main_dsc_image_filter),
      l.any (fun filter => (path_passes_through_filter env 0 image_path filter).1.isSome)
      = (l.map filter_key).any (fun k => (path_passes_through_filter env 0 image_path
          ⟨k.1, k.2.1, k.2.2, ⟨false, false⟩, 0⟩).1.isSome) := by
    intro l
    induction l with
    | nil => rfl
    | cons f rest ih =>
      simp only [List.any_cons, List.map_cons, ih]
      rw [path_passes_through_filter_key env 0 image_path f
        ⟨(filter_key f).1, (filter_key f).2.1, (filter_key f).2.2, ⟨false, false⟩, 0⟩ rfl]
  unfold image_path_matches
  rw [h1 paths1, h1 paths, h2 filters1, h2 filters, hf, hp]

/-- The loop over the exact paths changes flags only. -/
theorem should_parse_image_paths_keys (path : String) (path_length : Nat) :
    ∀ (paths : List tbd_for_main_dsc_image_path),
      (should_parse_image_paths path path_length paths).1.map path_key = paths.map path_key := by
  intro paths
  induction paths with
  | nil => rfl
  | cons p rest ih =>
    simp only [should_parse_image_paths]
    split
    · simp [ih]
    · split
      · simp [ih]
      · split
        · simp [ih]
        · simp [ih, path_key]

/-- The loop over the filters changes flags and `tmp_ptr` only. -/
theorem should_parse_image_filters_keys (env : dsc_env) (path : String) :
    ∀ (filters : List tbd_for_main_dsc_image_filter) (should_parse : Bool) (length : Nat),
      (should_parse_image_filters env path filters should_parse length).1.map filter_key
        = filters.map filter_key := by
  intro filters
  induction filters with
  | nil => intro _ _; rfl
  | cons f rest ih =>
    intro sp length
    simp only [should_parse_image_filters]
    split
    · simp [ih]
    · split
      · simp [ih, filter_key]
      · simp [ih]


/-- Writing for the filters changes their flags only. -/
theorem write_out_tbd_info_for_filters_loop_keys (env : dsc_env) (image_path : String)
    (length : Nat) :
    ∀ (filters : List tbd_for_main_dsc_image_filter) (a : dsc_iterate_images_callback_info),
      (write_out_tbd_info_for_filters_loop env image_path length filters a).1.map filter_key
        = filters.map filter_key := by
  intro filters
  induction filters with
  | nil => intro a; rfl
  | cons f rest ih =>
    intro a
    simp only [write_out_tbd_info_for_filters_loop]
    split
    · simp [ih]
    · simp [ih, filter_key]

/-- Writing for the exact paths changes their flags only. -/
theorem write_out_tbd_info_for_paths_loop_keys (env : dsc_env) (image_path : String)
    (length : Nat) :
    ∀ (paths : List tbd_for_main_dsc_image_path) (a : dsc_iterate_images_callback_info),
      (write_out_tbd_info_for_paths_loop env image_path length paths a).1.map path_key
        = paths.map path_key := by
  intro paths
  induction paths with
  | nil => intro a; rfl
  | cons p rest ih =>
    intro a
    simp only [write_out_tbd_info_for_paths_loop]
    split
    · simp [ih]
    · simp [ih, path_key]

/-- `mark_found_for_paths` changes flags only. -/
theorem mark_found_for_paths_keys (paths : List tbd_for_main_dsc_image_path) :
    (mark_found_for_paths paths).map path_key = paths.map path_key := by
  unfold mark_found_for_paths
  rw [List.map_map]
  rfl

/-- `write_out_tbd_info` keeps the filters and exact paths, flags apart. -/
theorem write_out_tbd_info_conditions (env : dsc_env) (a : dsc_iterate_images_callback_info)
    (path : String) (path_length : Nat) :
    same_conditions a.tbd (write_out_tbd_info env a path path_length).tbd := by
  unfold write_out_tbd_info
  split
  · exact ⟨rfl, mark_found_for_paths_keys _⟩
  · split
    · exact ⟨rfl, mark_found_for_paths_keys _⟩
    · split
      · exact ⟨rfl, rfl⟩
      · have h1 : same_conditions a.tbd
            (write_out_tbd_info_for_filters env a path path_length).tbd := by
          unfold write_out_tbd_info_for_filters
          have ht := only_printed_tbd (write_out_tbd_info_for_filters_loop_printed env path
            path_length a.tbd.dsc_image_filters a)
          refine ⟨?_, ?_⟩
          · exact write_out_tbd_info_for_filters_loop_keys env path path_length _ a
          · simp only
            rw [ht]
        refine same_conditions_trans h1 ?_
        generalize write_out_tbd_info_for_filters env a path path_length = b
        unfold write_out_tbd_info_for_paths
        have ht := only_printed_tbd (write_out_tbd_info_for_paths_loop_printed env path
          path_length b.tbd.dsc_image_paths b)
        refine ⟨?_, ?_⟩
        · simp only
          rw [ht]
        · exact write_out_tbd_info_for_paths_loop_keys env path path_length _ b

/-- `actually_parse_image` keeps the filters and exact paths, flags apart. -/
theorem actually_parse_image_conditions (env : dsc_env) (image_path_length_in index : Nat)
    (image : dyld_cache_image_info) (image_path : String)
    (a : dsc_iterate_images_callback_info) :
    same_conditions a.tbd
      (actually_parse_image env image_path_length_in index image image_path a).2.2.tbd := by
  unfold actually_parse_image
  simp only
  split
  · have ht := only_printed_tbd (print_image_error_printed
      { a.log [dsc_event.dsc_image_parse index image image_path] with
        tbd := { a.tbd with info := a.tbd.info },
        retained_info := (env.handle_dsc_image_parse_result a.retained_info
          (env.dsc_image_parse a.tbd.info a.dsc_info image
            (env.O_MACHO_FILE_PARSE_IGNORE_INVALID_FIELDS ||| a.tbd.macho_options)
            a.tbd.dsc_options).2 image_path
          (env.dsc_image_parse a.tbd.info a.dsc_info image
            (env.O_MACHO_FILE_PARSE_IGNORE_INVALID_FIELDS ||| a.tbd.macho_options)
            a.tbd.dsc_options).1).2 } image_path
      (env.dsc_image_parse a.tbd.info a.dsc_info image
            (env.O_MACHO_FILE_PARSE_IGNORE_INVALID_FIELDS ||| a.tbd.macho_options)
            a.tbd.dsc_options).1)
    rw [ht]
    exact ⟨rfl, rfl⟩
  · have hw := write_out_tbd_info_conditions env
      { a.log [dsc_event.dsc_image_parse index image image_path] with
        tbd := { a.tbd with info := (env.dsc_image_parse a.tbd.info a.dsc_info image
            (env.O_MACHO_FILE_PARSE_IGNORE_INVALID_FIELDS ||| a.tbd.macho_options)
            a.tbd.dsc_options).2 },
        retained_info := (env.handle_dsc_image_parse_result a.retained_info
          (env.dsc_image_parse a.tbd.info a.dsc_info image
            (env.O_MACHO_FILE_PARSE_IGNORE_INVALID_FIELDS ||| a.tbd.macho_options)
            a.tbd.dsc_options).2 image_path
          (env.dsc_image_parse a.tbd.info a.dsc_info image
            (env.O_MACHO_FILE_PARSE_IGNORE_INVALID_FIELDS ||| a.tbd.macho_options)
            a.tbd.dsc_options).1).2 } image_path
      (if image_path_length_in = 0 then image_path.length else image_path_length_in)
    exact ⟨hw.1, hw.2⟩

/-- `unmark_currently_parsing_conds` changes flags only. -/
theorem unmark_currently_parsing_conds_conditions (tbd : tbd_for_main) :
    same_conditions tbd (unmark_currently_parsing_conds tbd) := by
  unfold unmark_currently_parsing_conds
  refine ⟨?_, ?_⟩
  · simp only [List.map_map]
    apply List.map_congr_left
    intro f _
    simp only [Function.comp]
    split <;> rfl
  · simp only [List.map_map]
    apply List.map_congr_left
    intro p _
    simp only [Function.comp]
    split <;> rfl

/-- The selection step changes flags and `tmp_ptr` only. -/
theorem select_image_keys (env : dsc_env) (a : dsc_iterate_images_callback_info)
    (image_path : String) :
    (select_image env a image_path).filters.map filter_key
        = a.tbd.dsc_image_filters.map filter_key
      ∧ (select_image env a image_path).paths.map path_key
        = a.tbd.dsc_image_paths.map path_key := by
  unfold select_image
  split
  · unfold should_parse_image
    simp only
    refine ⟨should_parse_image_filters_keys env image_path _ _ _, ?_⟩
    split
    · exact should_parse_image_paths_keys _ _ _
    · rfl
  · exact ⟨rfl, rfl⟩

/-- `dsc_iterate_images_callback` keeps the filters and exact paths, flags apart. -/
theorem dsc_iterate_images_callback_conditions (env : dsc_env) (index : Nat)
    (image : dyld_cache_image_info) (image_path : String)
    (a : dsc_iterate_images_callback_info) :
    same_conditions a.tbd (dsc_iterate_images_callback env index image image_path a).2.tbd := by
  obtain ⟨hf, hp⟩ := select_image_keys env a image_path
  unfold dsc_iterate_images_callback
  simp only
  generalize select_image env a image_path = selected at hf hp
  split
  · exact same_conditions_refl _
  · split
    · exact same_conditions_refl _
    · split
      · exact ⟨hf, hp⟩
      · have hsel : same_conditions a.tbd
            ({ a with tbd := { a.tbd with dsc_image_filters := selected.filters,
                                          dsc_image_paths := selected.paths } } :
              dsc_iterate_images_callback_info).tbd := ⟨hf, hp⟩
        have hparse := actually_parse_image_conditions env selected.path_length index image
          image_path
          { a with tbd := { a.tbd with dsc_image_filters := selected.filters,
                                       dsc_image_paths := selected.paths } }
        unfold parse_selected_image
        simp only
        split
        · exact same_conditions_trans hsel
            (same_conditions_trans hparse (unmark_currently_parsing_conds_conditions _))
        · exact same_conditions_trans hsel hparse


/-- The loop over the exact paths sets `should_parse` only when an entry equals the path in length and bytes. -/
theorem should_parse_image_paths_only (path : String) (path_length : Nat) :
    ∀ (paths : List tbd_for_main_dsc_image_path),
      (should_parse_image_paths path path_length paths).2 = true →
      paths.any (fun p => decide (p.length = path_length)
        && memcmp_equal p.string path path_length) = true := by
  intro paths
  induction paths with
  | nil => intro h; simp [should_parse_image_paths] at h
  | cons p rest ih =>
    intro h
    simp only [should_parse_image_paths] at h
    simp only [List.any_cons, Bool.or_eq_true]
    split at h
    · exact Or.inr (ih h)
    · split at h
      · exact Or.inr (ih h)
      · split at h
        · exact Or.inr (ih h)
        · rename_i _ hlen hcmp
          refine Or.inl ?_
          simp only [ne_eq, Decidable.not_not] at hlen
          simp only [Bool.not_eq_true, Bool.not_eq_false'] at hcmp
          simp [hlen, hcmp]

/-- The loop over the filters ends with `should_parse` set only when it was set before or some filter passes. -/
theorem should_parse_image_filters_only (env : dsc_env) (path : String) :
    ∀ (filters : List tbd_for_main_dsc_image_filter) (should_parse : Bool) (length : Nat),
      (length = 0 ∨ length = path.length) →
      (should_parse_image_filters env path filters should_parse length).2.1 = true →
      should_parse = true
        ∨ filters.any (fun f => (path_passes_through_filter env 0 path f).1.isSome) = true := by
  intro filters
  induction filters with
  | nil =>
    intro sp length _ h
    simp only [should_parse_image_filters] at h
    exact Or.inl h
  | cons filter rest ih =>
    intro sp length hlen h
    obtain ⟨hsame, hnext⟩ := path_passes_through_filter_length env length path filter hlen
    simp only [should_parse_image_filters] at h
    simp only [List.any_cons, Bool.or_eq_true]
    split at h
    · rcases ih sp length hlen h with h1 | h1
      · exact Or.inl h1
      · exact Or.inr (Or.inr h1)
    · split at h
      · rename_i offset hsome
        right; left
        rw [← hsame, hsome]
        rfl
      · rcases ih sp _ hnext h with h1 | h1
        · exact Or.inl h1
        · exact Or.inr (Or.inr h1)

/-- `should_parse_image` returns true only for a path that equals an exact path or passes a filter. -/
theorem should_parse_image_matches (env : dsc_env)
    (filters : List tbd_for_main_dsc_image_filter) (paths : List tbd_for_main_dsc_image_path)
    (path : String) (h : (should_parse_image env 0 filters paths path).should_parse = true) :
    image_path_matches env filters paths path = true := by
  unfold should_parse_image at h
  simp only at h
  unfold image_path_matches
  simp only [Bool.or_eq_true]
  by_cases hempty : paths.isEmpty = true
  · simp only [hempty, Bool.not_true, Bool.false_eq_true, if_false] at h
    rcases should_parse_image_filters_only env path filters false 0 (Or.inl rfl) h with h1 | h1
    · cases h1
    · exact Or.inr h1
  · simp only [hempty, Bool.not_false, if_true] at h
    rcases should_parse_image_filters_only env path filters _ path.length (Or.inr rfl) h
      with h1 | h1
    · exact Or.inl (should_parse_image_paths_only path path.length paths h1)
    · exact Or.inr h1

/-- When `should_parse_image` returns false, `dsc_iterate_images_callback` adds no event. -/
theorem dsc_iterate_images_callback_skips (env : dsc_env) (index : Nat)
    (image : dyld_cache_image_info) (image_path : String)
    (a : dsc_iterate_images_callback_info) (hall : a.parse_all_images = false)
    (h : (should_parse_image env 0 a.tbd.dsc_image_filters a.tbd.dsc_image_paths
            image_path).should_parse = false) :
    (dsc_iterate_images_callback env index image image_path a).2.trace = a.trace := by
  have hselect : (select_image env a image_path).should_parse = false := by
    unfold select_image
    rw [hall]
    simp only [Bool.not_false, if_true]
    exact h
  unfold dsc_iterate_images_callback
  split
  · rfl
  · split
    · rfl
    · simp only [hselect, hall, Bool.not_false, Bool.and_self, if_true]

/-- Every parser call `dsc_iterate_images_callback` adds is for the record and the path it was called with. -/
theorem dsc_iterate_images_callback_events (env : dsc_env) (index : Nat)
    (image : dyld_cache_image_info) (image_path : String)
    (a : dsc_iterate_images_callback_info) :
    ∃ later,
      (dsc_iterate_images_callback env index image image_path a).2.trace = a.trace ++ later
      ∧ ∀ idx img path, dsc_event.dsc_image_parse idx img path ∈ later →
          idx = index ∧ img = image ∧ path = image_path := by
  have hparse : ∀ (length : Nat) (a1 : dsc_iterate_images_callback_info),
      a1.trace = a.trace →
      ∃ later,
        (actually_parse_image env length index image image_path a1).2.2.trace
          = a.trace ++ later
        ∧ ∀ idx img path, dsc_event.dsc_image_parse idx img path ∈ later →
            idx = index ∧ img = image ∧ path = image_path := by
    intro length a1 ht
    obtain ⟨_, _, l0, ht0, hq0⟩ :=
      actually_parse_image_trace env length index image image_path a1
    refine ⟨_, by rw [ht0, ht], ?_⟩
    intro idx img path hm
    rcases List.mem_cons.1 hm with hm | hm
    · simp only [dsc_event.dsc_image_parse.injEq] at hm
      exact hm
    · have := hq0 _ hm
      cases this
  unfold dsc_iterate_images_callback
  simp only
  generalize select_image env a image_path = selected
  split
  · exact ⟨[], by simp, by simp⟩
  · split
    · exact ⟨[], by simp, by simp⟩
    · split
      · exact ⟨[], by simp, by simp⟩
      · unfold parse_selected_image
        simp only
        split
        · exact hparse selected.path_length
            { a with tbd := { a.tbd with dsc_image_filters := selected.filters,
                                         dsc_image_paths := selected.paths } } rfl
        · exact hparse selected.path_length
            { a with tbd := { a.tbd with dsc_image_filters := selected.filters,
                                         dsc_image_paths := selected.paths } } rfl

/-- With `parse_all_images` false, every parser call `dsc_iterate_images_callback` adds is for a path that matches. -/
theorem dsc_iterate_images_callback_matched (env : dsc_env) (index : Nat)
    (image : dyld_cache_image_info) (image_path : String)
    (a : dsc_iterate_images_callback_info) (hall : a.parse_all_images = false) :
    ∃ later,
      (dsc_iterate_images_callback env index image image_path a).2.trace = a.trace ++ later
      ∧ ∀ idx img path, dsc_event.dsc_image_parse idx img path ∈ later →
          image_path_matches env a.tbd.dsc_image_filters a.tbd.dsc_image_paths path = true := by
  by_cases hsp : (should_parse_image env 0 a.tbd.dsc_image_filters a.tbd.dsc_image_paths
      image_path).should_parse = true
  · obtain ⟨later, ht, hq⟩ := dsc_iterate_images_callback_events env index image image_path a
    have hmatch := should_parse_image_matches env _ _ _ hsp
    refine ⟨later, ht, ?_⟩
    intro idx img path hm
    rw [(hq idx img path hm).2.2]
    exact hmatch
  · simp only [Bool.not_eq_true] at hsp
    refine ⟨[], ?_, by simp⟩
    rw [dsc_iterate_images_callback_skips env index image image_path a hall hsp]
    simp


/-- With `parse_all_images` false, every parser call of the iteration is for a path that matches. -/
theorem iterate_images_from_matched (env : dsc_env) :
    ∀ (remaining index : Nat) (a : dsc_iterate_images_callback_info),
      a.parse_all_images = false →
      same_conditions a.tbd (iterate_images_from env remaining index a).tbd
      ∧ ∃ later, (iterate_images_from env remaining index a).trace = a.trace ++ later
        ∧ ∀ idx img path, dsc_event.dsc_image_parse idx img path ∈ later →
            image_path_matches env a.tbd.dsc_image_filters a.tbd.dsc_image_paths path = true := by
  intro remaining
  induction remaining with
  | zero =>
    intro index a _
    exact ⟨same_conditions_refl _, [], by simp [iterate_images_from], by simp⟩
  | succ remaining ih =>
    intro index a hall
    simp only [iterate_images_from]
    split
    · exact ⟨same_conditions_refl _, [], by simp, by simp⟩
    · rename_i image himage
      obtain ⟨l1, ht1, hq1⟩ := dsc_iterate_images_callback_matched env index image
        (c_string_at a.dsc_info.map image.pathFileOffset) a hall
      have hc1 := dsc_iterate_images_callback_conditions env index image
        (c_string_at a.dsc_info.map image.pathFileOffset) a
      have hall1 := (dsc_iterate_images_callback_trace env index image
        (c_string_at a.dsc_info.map image.pathFileOffset) a).2.2.1
      split
      · obtain ⟨hc2, l2, ht2, hq2⟩ := ih (index + 1)
          (dsc_iterate_images_callback env index image
            (c_string_at a.dsc_info.map image.pathFileOffset) a).2 (hall1.trans hall)
        refine ⟨same_conditions_trans hc1 hc2, l1 ++ l2,
          by rw [ht2, ht1, List.append_assoc], ?_⟩
        intro idx img path hm
        rcases List.mem_append.1 hm with hm | hm
        · exact hq1 idx img path hm
        · rw [← image_path_matches_congr env path _ _ _ _ hc1.1 hc1.2]
          exact hq2 idx img path hm
      · exact ⟨hc1, l1, ht1, hq1⟩

/-- `dsc_iterate_images_callback` leaves the other records of the images table as they were. -/
theorem dsc_iterate_images_callback_frame (env : dsc_env) (index : Nat)
    (image : dyld_cache_image_info) (image_path : String)
    (a : dsc_iterate_images_callback_info) (j : Nat) (hj : j ≠ index) :
    (dsc_iterate_images_callback env index image image_path a).2.dsc_info.images[j]?
      = a.dsc_info.images[j]? := by
  unfold dsc_iterate_images_callback
  simp only
  generalize select_image env a image_path = selected
  split
  · rfl
  · split
    · rfl
    · split
      · rfl
      · have hd := (actually_parse_image_trace env selected.path_length index image image_path
          { a with tbd := { a.tbd with dsc_image_filters := selected.filters,
                                       dsc_image_paths := selected.paths } }).1
        unfold parse_selected_image
        simp only
        split
        · simp only
          rw [hd]
        · simp only
          rw [List.getElem?_set_ne (Ne.symm hj), hd]

/-- With `parse_all_images` true, an image with a non-empty path and a clear already-extracted bit is handed to the parser. -/
theorem dsc_iterate_images_callback_parses_all (env : dsc_env) (index : Nat)
    (image : dyld_cache_image_info) (image_path : String)
    (a : dsc_iterate_images_callback_info) (hall : a.parse_all_images = true)
    (hpad : image.pad &&& E_DYLD_CACHE_IMAGE_INFO_PAD_ALREADY_EXTRACTED = 0)
    (hpath : image_path.data.headD (Char.ofNat 0) ≠ Char.ofNat 0) :
    ∃ later,
      (dsc_iterate_images_callback env index image image_path a).2.trace
        = a.trace ++ dsc_event.dsc_image_parse index image image_path :: later := by
  unfold dsc_iterate_images_callback
  rw [if_neg (by rw [hpad]; simp), if_neg hpath]
  simp only [hall, Bool.not_true, Bool.false_and, Bool.false_eq_true, if_false]
  generalize select_image env a image_path = selected
  obtain ⟨_, _, later, ht, _⟩ := actually_parse_image_trace env selected.path_length index image
    image_path
    { a with
      tbd := { a.tbd with dsc_image_filters := selected.filters,
                          dsc_image_paths := selected.paths } }
  refine ⟨later, ?_⟩
  unfold parse_selected_image
  simp only
  simp only [hall] at ht
  split
  · simp only
    exact ht
  · simp only
    exact ht

/-- With `parse_all_images` true, the iteration hands to the parser every record still to visit that has a non-empty path and a clear already-extracted bit. -/
theorem iterate_images_from_parses_all (env : dsc_env) :
    ∀ (remaining index : Nat) (a : dsc_iterate_images_callback_info),
      a.parse_all_images = true →
      ∀ (j : Nat) (image : dyld_cache_image_info), index ≤ j → j < index + remaining →
        a.dsc_info.images[j]? = some image →
        image.pad &&& E_DYLD_CACHE_IMAGE_INFO_PAD_ALREADY_EXTRACTED = 0 →
        (c_string_at a.dsc_info.map image.pathFileOffset).data.headD (Char.ofNat 0)
          ≠ Char.ofNat 0 →
        dsc_event.dsc_image_parse j image (c_string_at a.dsc_info.map image.pathFileOffset)
          ∈ (iterate_images_from env remaining index a).trace := by
  intro remaining
  induction remaining with
  | zero => intro index a _ j image h1 h2; omega
  | succ remaining ih =>
    intro index a hall j image h1 h2 himage hpad hpath
    simp only [iterate_images_from]
    cases hrec : a.dsc_info.images[index]? with
    | none =>
      have hlen : a.dsc_info.images.length ≤ index := by
        by_contra hc
        rw [List.getElem?_eq_getElem (by omega)] at hrec
        cases hrec
      have hj : j < a.dsc_info.images.length := (List.getElem?_eq_some_iff.1 himage).1
      omega
    | some image0 =>
      simp only
      rw [dsc_iterate_images_callback_continues]
      simp only [if_true]
      obtain ⟨hm, _, hp, _⟩ := dsc_iterate_images_callback_trace env index image0
        (c_string_at a.dsc_info.map image0.pathFileOffset) a
      obtain ⟨_, _, l2, ht2, _⟩ := iterate_images_from_trace env remaining (index + 1)
        (dsc_iterate_images_callback env index image0
          (c_string_at a.dsc_info.map image0.pathFileOffset) a).2
      by_cases hj : j = index
      · subst hj
        rw [hrec] at himage
        cases himage
        obtain ⟨l1, ht1⟩ := dsc_iterate_images_callback_parses_all env _ _
          _ a hall hpad hpath
        rw [ht2, ht1]
        simp
      · have := ih (index + 1)
          (dsc_iterate_images_callback env index image0
            (c_string_at a.dsc_info.map image0.pathFileOffset) a).2 (hp.trans hall) j image
          (by omega) (by omega)
          (by rw [dsc_iterate_images_callback_frame env index image0 _ a j hj]; exact himage)
          hpad (by rw [hm]; exact hpath)
        rw [hm] at this
        exact this


/-- `verify_write_path` leaves the filters and the exact paths alone. -/
theorem verify_write_path_conditions (env : dsc_env) (tbd checked : tbd_for_main)
    (h : verify_write_path env tbd = some checked) :
    checked.dsc_image_filters = tbd.dsc_image_filters
      ∧ checked.dsc_image_paths = tbd.dsc_image_paths := by
  unfold verify_write_path at h
  split at h
  · split at h
    · cases h; exact ⟨rfl, rfl⟩
    · cases h
  · split at h
    · cases h; exact ⟨rfl, rfl⟩
    · cases h
    · split at h
      · cases h; exact ⟨rfl, rfl⟩
      · cases h
    · cases h; exact ⟨rfl, rfl⟩

/-- Every parser call of the loop over the image numbers is for the record of a number of the list. -/
theorem parse_image_numbers_only (env : dsc_env) (print_paths : Bool)
    (dsc_dir_path dsc_name : String) :
    ∀ (numbers : List Nat) (a b : dsc_iterate_images_callback_info),
      parse_image_numbers env print_paths dsc_dir_path dsc_name numbers a = some b →
      a.dsc_info.images_count < 2 ^ 32 → (∀ n ∈ numbers, n ≠ 0) →
      same_conditions a.tbd b.tbd
        ∧ ∃ later, b.trace = a.trace ++ later
          ∧ ∀ index image path, dsc_event.dsc_image_parse index image path ∈ later →
              ∃ n ∈ numbers, n ≤ a.dsc_info.images_count ∧ index = n - 1 := by
  intro numbers
  induction numbers with
  | nil =>
    intro a b h _ _
    simp only [parse_image_numbers, Option.some.injEq] at h
    subst h
    exact ⟨same_conditions_refl _, [], by simp, by simp⟩
  | cons number rest ih =>
    intro a b h hcount hpos
    have hrest : ∀ n ∈ rest, n ≠ 0 := fun n hn => hpos n (List.mem_cons.2 (Or.inr hn))
    simp only [parse_image_numbers] at h
    split at h
    · obtain ⟨hc, later, ht, hq⟩ := ih _ b h (by simpa using hcount) hrest
      simp only [dsc_iterate_images_callback_info.log] at hc ht hq
      refine ⟨hc, image_number_warning number a.dsc_info.images_count print_paths
        dsc_dir_path dsc_name :: later, by rw [ht]; simp, ?_⟩
      intro index image path hm
      rcases List.mem_cons.1 hm with hm | hm
      · unfold image_number_warning at hm
        split at hm <;> cases hm
      · obtain ⟨n, hn, hle, hidx⟩ := hq index image path hm
        exact ⟨n, List.mem_cons.2 (Or.inr hn), hle, hidx⟩
    · rename_i hsmall
      have h1 : 1 ≤ number := Nat.pos_of_ne_zero (hpos number (List.mem_cons.2 (Or.inl rfl)))
      have h2 : number ≤ a.dsc_info.images_count := Nat.le_of_not_gt hsmall
      split at h
      · cases h
      · rename_i image himage
        obtain ⟨hd0, _, l0, ht0, hq0⟩ := actually_parse_image_trace env 0
          ((number + 2 ^ 32 - 1) % 2 ^ 32) image
          (c_string_at a.dsc_info.map image.pathFileOffset) a
        have hc0 := actually_parse_image_conditions env 0
          ((number + 2 ^ 32 - 1) % 2 ^ 32) image
          (c_string_at a.dsc_info.map image.pathFileOffset) a
        obtain ⟨hc, later, ht, hq⟩ := ih _ b h (by rw [hd0]; exact hcount) hrest
        rw [hd0] at hq
        refine ⟨same_conditions_trans hc0 hc,
          dsc_event.dsc_image_parse ((number + 2 ^ 32 - 1) % 2 ^ 32) image
            (c_string_at a.dsc_info.map image.pathFileOffset) :: (l0 ++ later),
          by rw [ht, ht0]; simp, ?_⟩
        intro index image2 path hm
        rcases List.mem_cons.1 hm with hm | hm
        · simp only [dsc_event.dsc_image_parse.injEq] at hm
          refine ⟨number, List.mem_cons.2 (Or.inl rfl), h2, ?_⟩
          rw [hm.1]
          exact image_index_in_range number _ h1 h2 hcount
        · rcases List.mem_append.1 hm with hm | hm
          · have := hq0 _ hm
            cases this
          · obtain ⟨n, hn, hle, hidx⟩ := hq index image2 path hm
            exact ⟨n, List.mem_cons.2 (Or.inr hn), hle, hidx⟩

/-- What the shared part of both entry points hands to the parser, when no number is 0. -/
theorem parse_dsc_images_selection (env : dsc_env) (args : parse_dsc_for_main_args)
    (a : dsc_iterate_images_callback_info) (htrace : a.trace = [])
    (hall : a.parse_all_images = true)
    (hcount : a.dsc_info.images_count < 2 ^ 32)
    (hpos : ∀ n ∈ a.tbd.dsc_image_numbers, n ≠ 0) :
    ∃ trace tbd,
      parse_dsc_images env args a = dsc_outcome.returned parse_dsc_for_main_result.ok trace tbd
      ∧ (a.tbd.dsc_image_filters = [] → a.tbd.dsc_image_numbers = [] →
          a.tbd.dsc_image_paths = [] →
          ∀ (index : Nat) (image : dyld_cache_image_info),
            a.dsc_info.images[index]? = some image →
            image.pad &&& E_DYLD_CACHE_IMAGE_INFO_PAD_ALREADY_EXTRACTED = 0 →
            (c_string_at a.dsc_info.map image.pathFileOffset).data.headD (Char.ofNat 0)
              ≠ Char.ofNat 0 →
            dsc_event.dsc_image_parse index image
              (c_string_at a.dsc_info.map image.pathFileOffset) ∈ trace)
      ∧ (∀ index image path, dsc_event.dsc_image_parse index image path ∈ trace →
          (a.tbd.dsc_image_filters = [] ∧ a.tbd.dsc_image_numbers = []
            ∧ a.tbd.dsc_image_paths = [])
          ∨ (∃ n ∈ a.tbd.dsc_image_numbers, n ≤ a.dsc_info.images_count ∧ index = n - 1)
          ∨ image_path_matches env a.tbd.dsc_image_filters a.tbd.dsc_image_paths path
              = true) := by
  unfold parse_dsc_images
  by_cases hnum : a.tbd.dsc_image_numbers.isEmpty = true
  · have hnil : a.tbd.dsc_image_numbers = [] := List.isEmpty_iff.1 hnum
    simp only [hnum, Bool.not_true, Bool.false_eq_true, if_false]
    by_cases hany : (!a.tbd.dsc_image_filters.isEmpty || !a.tbd.dsc_image_paths.isEmpty) = true
    · simp only [hany, if_true]
      obtain ⟨l2, tbd, hf, hq2⟩ := finish_dsc_images_spec
        (dyld_shared_cache_iterate_images_with_callback env { a with parse_all_images := false })
      obtain ⟨_, l1, ht1, hq1⟩ := iterate_images_from_matched env a.dsc_info.images_count 0
        { a with parse_all_images := false } rfl
      refine ⟨_, _, hf, ?_, ?_⟩
      · intro hfil _ hpaths
        rw [hfil, hpaths] at hany
        simp at hany
      · intro index image path hm
        right; right
        unfold dyld_shared_cache_iterate_images_with_callback at hm
        simp only at hm ht1 hq1
        rw [ht1] at hm
        rcases List.mem_append.1 hm with hm | hm
        · rcases List.mem_append.1 hm with hm | hm
          · rw [htrace] at hm; cases hm
          · exact hq1 index image path hm
        · have := hq2 _ hm
          cases this
    · simp only [hany, Bool.false_eq_true, if_false]
      simp only [Bool.or_eq_true, Bool.not_eq_true', not_or, Bool.not_eq_false,
        List.isEmpty_iff] at hany
      obtain ⟨l2, tbd, hf, hq2⟩ := finish_dsc_images_spec
        (dyld_shared_cache_iterate_images_with_callback env a)
      refine ⟨_, _, hf, ?_, ?_⟩
      · intro _ _ _ index image himage hpad hpath
        have hlt : index < a.dsc_info.images.length := (List.getElem?_eq_some_iff.1 himage).1
        have := iterate_images_from_parses_all env a.dsc_info.images_count 0 a hall index image
          (Nat.zero_le _) (by unfold dyld_shared_cache_info.images_count; omega) himage hpad hpath
        exact List.mem_append.2 (Or.inl this)
      · intro index image path _
        exact Or.inl ⟨hany.1, hnil, hany.2⟩
  · simp only [hnum, Bool.not_false, if_true]
    have hne : a.tbd.dsc_image_numbers ≠ [] := fun h => hnum (List.isEmpty_iff.2 h)
    obtain ⟨numbered, hnumbered⟩ := parse_image_numbers_returns env args.print_paths
      args.dsc_dir_path args.dsc_name a.tbd.dsc_image_numbers a hpos hcount
    obtain ⟨hc, l1, ht1, hq1⟩ := parse_image_numbers_only env _ _ _ _ a numbered hnumbered
      hcount hpos
    rw [htrace, List.nil_append] at ht1
    simp only [hnumbered]
    split
    · obtain ⟨l2, tbd, hf, hq2⟩ := finish_dsc_images_spec numbered
      refine ⟨_, _, hf, fun _ h => absurd h hne, ?_⟩
      intro index image path hm
      right; left
      rcases List.mem_append.1 hm with hm | hm
      · rw [ht1] at hm
        exact hq1 index image path hm
      · have := hq2 _ hm
        cases this
    · obtain ⟨l3, tbd, hf, hq3⟩ := finish_dsc_images_spec
        (dyld_shared_cache_iterate_images_with_callback env
          { numbered with parse_all_images := false })
      obtain ⟨_, l2, ht2, hq2⟩ := iterate_images_from_matched env numbered.dsc_info.images_count
        0 { numbered with parse_all_images := false } rfl
      refine ⟨_, _, hf, fun _ h => absurd h hne, ?_⟩
      intro index image path hm
      unfold dyld_shared_cache_iterate_images_with_callback at hm
      simp only at hm ht2 hq2
      rw [ht2] at hm
      rcases List.mem_append.1 hm with hm | hm
      · rcases List.mem_append.1 hm with hm | hm
        · rw [ht1] at hm
          exact Or.inr (Or.inl (hq1 index image path hm))
        · right; right
          rw [← image_path_matches_congr env path _ _ _ _ hc.1 hc.2]
          exact hq2 index image path hm
      · have := hq3 _ hm
        cases this


/-- C11. `dsc_iterate_images_callback` returns true for every image and every
callback state, whatever `actually_parse_image` returned (a failed parse or a
failed write included); and so the iteration over the images table, called
for a record of the table, always goes on with the next record. -/
theorem dsc_iterate_images_callback_returns_true (env : dsc_env) (index : Nat)
    (image : dyld_cache_image_info) (image_path : String)
    (callback_info : dsc_iterate_images_callback_info) :
    (dsc_iterate_images_callback env index image image_path callback_info).1 = true
      ∧ (match callback_info.dsc_info.images[index]? with
          | none => True
          | some record =>
            ∀ remaining,
              iterate_images_from env (remaining + 1) index callback_info
                = iterate_images_from env remaining (index + 1)
                    (dsc_iterate_images_callback env index record
                      (c_string_at callback_info.dsc_info.map record.pathFileOffset)
                      callback_info).2) := by
  refine ⟨dsc_iterate_images_callback_continues env index image image_path callback_info, ?_⟩
  cases hrec : callback_info.dsc_info.images[index]? with
  | none => trivial
  | some record =>
    intro remaining
    simp only [iterate_images_from, hrec]
    rw [dsc_iterate_images_callback_continues]
    simp

/-- C12, counterexample. With the number 1 and the exact path
`/usr/lib/libbar.dylib` supplied, `should_parse_image` returns false for
`/usr/lib/libfoo.dylib`, the image of record 0, and yet that image is handed
to the parser, by the loop over the image numbers. -/
theorem parse_dsc_for_main_parses_unmatched_numbered_image :
    (should_parse_image sample_dsc_env 0 [] [libbar_path false]
        "/usr/lib/libfoo.dylib").should_parse = false
      ∧ parse_dsc_for_main sample_dsc_env (sample_dsc_args [1] [libbar_path false])
        = dsc_outcome.returned parse_dsc_for_main_result.ok
            [dsc_event.dsc_image_parse 0 ⟨4096, 0, 0, 0, 0⟩ "/usr/lib/libfoo.dylib",
             dsc_event.write_to_path "/out/usr/lib/libfoo.dylib.tbd",
             dsc_event.dsc_image_parse 1 ⟨8192, 0, 0, 22, 0⟩ "/usr/lib/libbar.dylib",
             dsc_event.write_to_path "/out/usr/lib/libbar.dylib.tbd"]
            (sample_tbd_for_main [1] [libbar_path true]) := by
  decide

/-- C12, amended. In a run of `parse_dsc_for_main` on a cache that was read and
parsed, with no image number 0: if no filters, numbers or exact paths were
supplied, every image of the table with a non-empty path and a clear
already-extracted bit is handed to the parser; if filters or exact paths were
supplied, every image handed to the parser has its number in the supplied
numbers or a path that equals a supplied exact path or passes a supplied
filter (which `should_parse_image` returning true requires); if only numbers
were supplied, only the numbered images are handed to the parser. -/
theorem parse_dsc_for_main_selects_images (env : dsc_env) (args : parse_dsc_for_main_args)
    (hmagic : (read_magic env args.magic_in_size).1 = read_magic_result.ok)
    (hparsed : parsed_cache_result env args = dyld_shared_cache_parse_result.ok)
    (hverify : args.verify_write_path = true → (verify_write_path env args.tbd).isSome = true)
    (hcount : (parsed_cache env args).images_count < 2 ^ 32)
    (hpos : ∀ n ∈ args.tbd.dsc_image_numbers, n ≠ 0) :
    ∃ trace tbd,
      parse_dsc_for_main env args
        = dsc_outcome.returned parse_dsc_for_main_result.ok trace tbd
      ∧ (args.tbd.dsc_image_filters = [] → args.tbd.dsc_image_numbers = [] →
          args.tbd.dsc_image_paths = [] →
          ∀ (index : Nat) (image : dyld_cache_image_info),
            (parsed_cache env args).images[index]? = some image →
            image.pad &&& E_DYLD_CACHE_IMAGE_INFO_PAD_ALREADY_EXTRACTED = 0 →
            (c_string_at (parsed_cache env args).map image.pathFileOffset).data.headD
              (Char.ofNat 0) ≠ Char.ofNat 0 →
            dsc_event.dsc_image_parse index image
              (c_string_at (parsed_cache env args).map image.pathFileOffset) ∈ trace)
      ∧ (¬ (args.tbd.dsc_image_filters = [] ∧ args.tbd.dsc_image_paths = []) →
          ∀ index image path, dsc_event.dsc_image_parse index image path ∈ trace →
            (∃ n ∈ args.tbd.dsc_image_numbers,
              n ≤ (parsed_cache env args).images_count ∧ index = n - 1)
            ∨ image_path_matches env args.tbd.dsc_image_filters args.tbd.dsc_image_paths path
                = true)
      ∧ (args.tbd.dsc_image_filters = [] → args.tbd.dsc_image_paths = [] →
          args.tbd.dsc_image_numbers ≠ [] →
          ∀ index image path, dsc_event.dsc_image_parse index image path ∈ trace →
            ∃ n ∈ args.tbd.dsc_image_numbers,
              n ≤ (parsed_cache env args).images_count ∧ index = n - 1) := by
  have hopen := open_cache_none env args hmagic hparsed
  have key : ∀ (checked : tbd_for_main),
      checked.dsc_image_numbers = args.tbd.dsc_image_numbers →
      checked.dsc_image_filters = args.tbd.dsc_image_filters →
      checked.dsc_image_paths = args.tbd.dsc_image_paths →
      ∃ trace tbd,
        parse_dsc_images env args
            (initial_callback_info env args checked checked.write_path checked.write_path_length)
          = dsc_outcome.returned parse_dsc_for_main_result.ok trace tbd
        ∧ (args.tbd.dsc_image_filters = [] → args.tbd.dsc_image_numbers = [] →
            args.tbd.dsc_image_paths = [] →
            ∀ (index : Nat) (image : dyld_cache_image_info),
              (parsed_cache env args).images[index]? = some image →
              image.pad &&& E_DYLD_CACHE_IMAGE_INFO_PAD_ALREADY_EXTRACTED = 0 →
              (c_string_at (parsed_cache env args).map image.pathFileOffset).data.headD
                (Char.ofNat 0) ≠ Char.ofNat 0 →
              dsc_event.dsc_image_parse index image
                (c_string_at (parsed_cache env args).map image.pathFileOffset) ∈ trace)
        ∧ (∀ index image path, dsc_event.dsc_image_parse index image path ∈ trace →
            (args.tbd.dsc_image_filters = [] ∧ args.tbd.dsc_image_numbers = []
              ∧ args.tbd.dsc_image_paths = [])
            ∨ (∃ n ∈ args.tbd.dsc_image_numbers,
                n ≤ (parsed_cache env args).images_count ∧ index = n - 1)
            ∨ image_path_matches env args.tbd.dsc_image_filters args.tbd.dsc_image_paths path
                = true) := by
    intro checked hnumbers hfilters hpaths
    have h := parse_dsc_images_selection env args
      (initial_callback_info env args checked checked.write_path checked.write_path_length)
      rfl rfl hcount (by
        intro n hn
        exact hpos n (by simpa [initial_callback_info, hnumbers] using hn))
    simpa [initial_callback_info, hnumbers, hfilters, hpaths] using h
  have hrun : ∃ checked : tbd_for_main,
      checked.dsc_image_numbers = args.tbd.dsc_image_numbers
      ∧ checked.dsc_image_filters = args.tbd.dsc_image_filters
      ∧ checked.dsc_image_paths = args.tbd.dsc_image_paths
      ∧ parse_dsc_for_main env args
          = parse_dsc_images env args
              (initial_callback_info env args checked checked.write_path
                checked.write_path_length) := by
    unfold parse_dsc_for_main
    simp only [hopen]
    by_cases hv : args.verify_write_path = true
    · cases hchecked : verify_write_path env args.tbd with
      | none =>
        have := hverify hv
        rw [hchecked] at this
        cases this
      | some checked =>
        simp only [hv, if_true, hchecked]
        exact ⟨checked, verify_write_path_numbers env _ _ hchecked,
          (verify_write_path_conditions env _ _ hchecked).1,
          (verify_write_path_conditions env _ _ hchecked).2, rfl⟩
    · simp only [hv, if_false]
      exact ⟨args.tbd, rfl, rfl, rfl, rfl⟩
  obtain ⟨checked, hn, hf, hp, hrun⟩ := hrun
  obtain ⟨trace, tbd, heq, h1, h2⟩ := key checked hn hf hp
  refine ⟨trace, tbd, hrun.trans heq, h1, ?_, ?_⟩
  · intro hsome index image path hm
    rcases h2 index image path hm with h | h | h
    · exact absurd ⟨h.1, h.2.2⟩ hsome
    · exact Or.inl h
    · exact Or.inr h
  · intro hfil hpaths _ index image path hm
    rcases h2 index image path hm with h | h | h
    · exact absurd h.2.1 ‹_›
    · exact h
    · rw [hfil, hpaths] at h
      simp [image_path_matches] at h

/-- C12, witness: the number 1 and the exact path `/usr/lib/libbar.dylib` on
the sample cache. -/
theorem parse_dsc_for_main_selects_images_witness :
    (∀ n ∈ (sample_dsc_args [1] [libbar_path false]).tbd.dsc_image_numbers, n ≠ 0)
      ∧ ∃ trace tbd,
          parse_dsc_for_main sample_dsc_env (sample_dsc_args [1] [libbar_path false])
            = dsc_outcome.returned parse_dsc_for_main_result.ok trace tbd
          ∧ (¬ ((sample_dsc_args [1] [libbar_path false]).tbd.dsc_image_filters = []
                ∧ (sample_dsc_args [1] [libbar_path false]).tbd.dsc_image_paths = []) →
              ∀ index image path, dsc_event.dsc_image_parse index image path ∈ trace →
                (∃ n ∈ (sample_dsc_args [1] [libbar_path false]).tbd.dsc_image_numbers,
                  n ≤ (parsed_cache sample_dsc_env
                        (sample_dsc_args [1] [libbar_path false])).images_count
                    ∧ index = n - 1)
                ∨ image_path_matches sample_dsc_env
                    (sample_dsc_args [1] [libbar_path false]).tbd.dsc_image_filters
                    (sample_dsc_args [1] [libbar_path false]).tbd.dsc_image_paths path
                    = true) := by
  refine ⟨by decide, ?_⟩
  obtain ⟨trace, tbd, h, _, h2, _⟩ := parse_dsc_for_main_selects_images sample_dsc_env
    (sample_dsc_args [1] [libbar_path false]) (by decide) (by decide) (by decide) (by decide)
    (by decide)
  exact ⟨trace, tbd, h, h2⟩

/-- C18. For the image number 0 the loop over the image numbers does not
report the number as out of range (0 is not greater than `images_count`), and
the index `0 - 1`, computed in 32 bits, is not less than `images_count`: the
record read lies outside the images table. -/
theorem parse_image_numbers_zero_outside (env : dsc_env) (print_paths : Bool)
    (dsc_dir_path dsc_name : String) (rest : List Nat)
    (callback_info : dsc_iterate_images_callback_info)
    (hcount : callback_info.dsc_info.images_count < 2 ^ 32) :
    ¬ (0 > callback_info.dsc_info.images_count)
      ∧ callback_info.dsc_info.images_count ≤ (0 + 2 ^ 32 - 1) % 2 ^ 32
      ∧ callback_info.dsc_info.images[(0 + 2 ^ 32 - 1) % 2 ^ 32]? = none
      ∧ parse_image_numbers env print_paths dsc_dir_path dsc_name (0 :: rest) callback_info
          = none := by
  have hidx : (0 + 2 ^ 32 - 1) % 2 ^ 32 = 2 ^ 32 - 1 := by norm_num
  have hlen : callback_info.dsc_info.images.length ≤ 2 ^ 32 - 1 := by
    unfold dyld_shared_cache_info.images_count at hcount
    omega
  have hnone : callback_info.dsc_info.images[(0 + 2 ^ 32 - 1) % 2 ^ 32]? = none := by
    rw [hidx]
    exact List.getElem?_eq_none hlen
  refine ⟨by omega, ?_, hnone, ?_⟩
  · rw [hidx]
    unfold dyld_shared_cache_info.images_count
    exact hlen
  · simp only [parse_image_numbers]
    rw [if_neg (by omega), hnone]

/-- C18, witness: the numbers 0 and 1 on the sample cache of two images. -/
theorem parse_image_numbers_zero_outside_witness :
    parse_image_numbers sample_dsc_env false "/caches" "dyld_shared_cache_arm64" (0 :: [1])
        (initial_callback_info sample_dsc_env (sample_dsc_args [0, 1] [])
          (sample_tbd_for_main [0, 1] []) (some "/out") 4)
      = none :=
  (parse_image_numbers_zero_outside sample_dsc_env false "/caches" "dyld_shared_cache_arm64" [1]
    (initial_callback_info sample_dsc_env (sample_dsc_args [0, 1] [])
      (sample_tbd_for_main [0, 1] []) (some "/out") 4) (by decide)).2.2.2

/-! ### `src/parse_or_list_fields.c` -/

/-- C14. `parse_platform` returns `TBD_PLATFORM_MACOS`, `IOS`, `WATCHOS`, `TVOS`,
`BRIDGEOS`, `IOSMAC` and `ZIPPERED` for exactly the strings `macosx`, `ios`,
`watchos`, `tvos`, `bridgeos`, `iosmac` and `zippered`, and
`TBD_PLATFORM_NONE` for every other string; these names are the names at the
start of the lines `print_platform_list` prints. -/
theorem parse_platform_names :
    (∀ s, parse_or_list_fields.parse_platform s = parse_or_list_fields.tbd_platform.macos
        ↔ s = "macosx")
      ∧ (∀ s, parse_or_list_fields.parse_platform s = parse_or_list_fields.tbd_platform.ios
        ↔ s = "ios")
      ∧ (∀ s, parse_or_list_fields.parse_platform s = parse_or_list_fields.tbd_platform.watchos
        ↔ s = "watchos")
      ∧ (∀ s, parse_or_list_fields.parse_platform s = parse_or_list_fields.tbd_platform.tvos
        ↔ s = "tvos")
      ∧ (∀ s, parse_or_list_fields.parse_platform s = parse_or_list_fields.tbd_platform.bridgeos
        ↔ s = "bridgeos")
      ∧ (∀ s, parse_or_list_fields.parse_platform s = parse_or_list_fields.tbd_platform.iosmac
        ↔ s = "iosmac")
      ∧ (∀ s, parse_or_list_fields.parse_platform s = parse_or_list_fields.tbd_platform.zippered
        ↔ s = "zippered")
      ∧ (∀ s, parse_or_list_fields.parse_platform s = parse_or_list_fields.tbd_platform.none
        ↔ s ∉ ["macosx", "ios", "watchos", "tvos", "bridgeos", "iosmac", "zippered"])
      ∧ parse_or_list_fields.line_names parse_or_list_fields.print_platform_list
        = ["macosx", "ios", "watchos", "tvos", "bridgeos", "iosmac", "zippered"] := by
  refine ⟨?_, ?_, ?_, ?_, ?_, ?_, ?_, ?_, by decide⟩ <;> intro s <;>
    unfold parse_or_list_fields.parse_platform <;> split_ifs <;> simp_all

/-- C15. `parse_tbd_version` returns `TBD_VERSION_V1`, `TBD_VERSION_V2` and
`TBD_VERSION_V3` for exactly the strings `v1`, `v2` and `v3`, and
`TBD_VERSION_NONE` for every other string, the empty string and differently
cased or padded spellings among them; the three names are the lines
`print_tbd_version_list` prints. -/
theorem parse_tbd_version_names :
    (∀ s, parse_or_list_fields.parse_tbd_version s = parse_or_list_fields.tbd_version.v1
        ↔ s = "v1")
      ∧ (∀ s, parse_or_list_fields.parse_tbd_version s = parse_or_list_fields.tbd_version.v2
        ↔ s = "v2")
      ∧ (∀ s, parse_or_list_fields.parse_tbd_version s = parse_or_list_fields.tbd_version.v3
        ↔ s = "v3")
      ∧ (∀ s, parse_or_list_fields.parse_tbd_version s = parse_or_list_fields.tbd_version.none
        ↔ s ∉ ["v1", "v2", "v3"])
      ∧ parse_or_list_fields.parse_tbd_version "" = parse_or_list_fields.tbd_version.none
      ∧ parse_or_list_fields.parse_tbd_version "V1" = parse_or_list_fields.tbd_version.none
      ∧ parse_or_list_fields.parse_tbd_version " v2" = parse_or_list_fields.tbd_version.none
      ∧ parse_or_list_fields.parse_tbd_version "v3 " = parse_or_list_fields.tbd_version.none
      ∧ parse_or_list_fields.line_names parse_or_list_fields.print_tbd_version_list
        = ["v1", "v2", "v3"] := by
  refine ⟨?_, ?_, ?_, ?_, by decide, by decide, by decide, by decide, by decide⟩ <;> intro s <;>
    unfold parse_or_list_fields.parse_tbd_version <;> split_ifs <;> simp_all


/-- The longest run at the head of a list whose elements pass a test: it lies within the list, its elements pass, and the element after it does not. -/
theorem takeWhile_run {α : Type} (p : α → Bool) :
    ∀ (l : List α),
      (l.takeWhile p).length ≤ l.length
        ∧ (∀ i x, i < (l.takeWhile p).length → l[i]? = some x → p x = true)
        ∧ (∀ x, l[(l.takeWhile p).length]? = some x → p x = false) := by
  intro l
  induction l with
  | nil => simp
  | cons a rest ih =>
    obtain ⟨h1, h2, h3⟩ := ih
    by_cases ha : p a = true
    · rw [List.takeWhile_cons_of_pos ha]
      refine ⟨by simpa using h1, ?_, ?_⟩
      · intro i x hi hx
        cases i with
        | zero => simp at hx; rw [← hx]; exact ha
        | succ i =>
          simp only [List.length_cons, Nat.add_lt_add_iff_right] at hi
          simp only [List.getElem?_cons_succ] at hx
          exact h2 i x hi hx
      · intro x hx
        simp only [List.length_cons, List.getElem?_cons_succ] at hx
        exact h3 x hx
    · rw [List.takeWhile_cons_of_neg ha]
      refine ⟨by simp, by simp, ?_⟩
      intro x hx
      simp at hx
      rw [← hx]
      simpa using ha

/-- The loop of `parse_flags_list`, entered with a flag set or at a flag name, returns the flags of the names in the run it reads. -/
theorem parse_flags_list_loop_spec :
    ∀ (args : List String) (flags : parse_or_list_fields.tbd_flags) (index : Nat)
      (notes : List String),
      (flags.flat_namespace = true ∨ flags.not_app_extension_safe = true
        ∨ args.takeWhile (fun arg => arg = "flat_namespace" || arg = "not_app_extension_safe")
            ≠ []) →
      ∃ notes1,
        parse_or_list_fields.parse_flags_list_loop args flags index notes
          = outcome.value
              ⟨⟨flags.flat_namespace
                  || decide ("flat_namespace" ∈ args.takeWhile
                      (fun arg => arg = "flat_namespace" || arg = "not_app_extension_safe")),
                flags.not_app_extension_safe
                  || decide ("not_app_extension_safe" ∈ args.takeWhile
                      (fun arg => arg = "flat_namespace" || arg = "not_app_extension_safe"))⟩,
               ((index + (args.takeWhile
                  (fun arg => arg = "flat_namespace" || arg = "not_app_extension_safe")).length
                  : Nat) : Int) - 1,
               notes1⟩ := by
  intro args
  induction args with
  | nil =>
    intro flags index notes _
    exact ⟨notes, by simp [parse_or_list_fields.parse_flags_list_loop]⟩
  | cons arg rest ih =>
    intro flags index notes h
    by_cases h1 : arg = "flat_namespace"
    · subst h1
      simp only [parse_or_list_fields.parse_flags_list_loop, if_true]
      split
      · rename_i hflag
        obtain ⟨notes1, hn⟩ := ih flags (index + 1)
          (notes ++ ["Note: tbd-flag flat_namespace was provided twice\n"]) (Or.inl hflag)
        refine ⟨notes1, ?_⟩
        rw [hn]
        simp [hflag, Nat.add_assoc, Nat.add_comm 1]
      · obtain ⟨notes1, hn⟩ := ih { flags with flat_namespace := true } (index + 1) notes
          (Or.inl rfl)
        refine ⟨notes1, ?_⟩
        rw [hn]
        simp [Nat.add_assoc, Nat.add_comm 1]
    · by_cases h2 : arg = "not_app_extension_safe"
      · subst h2
        simp only [parse_or_list_fields.parse_flags_list_loop]
        rw [if_neg (by decide)]
        simp only [if_true]
        split
        · rename_i hflag
          obtain ⟨notes1, hn⟩ := ih flags (index + 1)
            (notes ++ ["Note: tbd-flag not_app_extension_safe was provided twice\n"])
            (Or.inr (Or.inl hflag))
          refine ⟨notes1, ?_⟩
          rw [hn]
          simp [hflag, Nat.add_assoc, Nat.add_comm 1]
        · obtain ⟨notes1, hn⟩ := ih { flags with not_app_extension_safe := true } (index + 1)
            notes (Or.inr (Or.inl rfl))
          refine ⟨notes1, ?_⟩
          rw [hn]
          simp [Nat.add_assoc, Nat.add_comm 1]
      · have hrun : (arg :: rest).takeWhile
            (fun arg => arg = "flat_namespace" || arg = "not_app_extension_safe") = [] := by
          simp [h1, h2]
        rw [hrun] at h ⊢
        simp only [ne_eq, not_true_eq_false, or_false] at h
        simp only [parse_or_list_fields.parse_flags_list_loop, if_neg h1, if_neg h2]
        have hnz : (flags.flat_namespace || flags.not_app_extension_safe) = true := by
          rcases h with h | h <;> simp [h]
        rw [if_pos hnz]
        exact ⟨notes, by simp⟩

/-- `parse_flags_list` in terms of the run of flag names at the start index. -/
theorem parse_flags_list_run (argv : List String) (s : Nat) (hs : s < argv.length) :
    ((argv.drop s).takeWhile
          (fun arg => arg = "flat_namespace" || arg = "not_app_extension_safe") = [] →
        parse_or_list_fields.parse_flags_list argv s = some (outcome.exit 1))
      ∧ ((argv.drop s).takeWhile
          (fun arg => arg = "flat_namespace" || arg = "not_app_extension_safe") ≠ [] →
        ∃ notes,
          parse_or_list_fields.parse_flags_list argv s
            = some (outcome.value
                ⟨⟨decide ("flat_namespace" ∈ (argv.drop s).takeWhile
                      (fun arg => arg = "flat_namespace" || arg = "not_app_extension_safe")),
                  decide ("not_app_extension_safe" ∈ (argv.drop s).takeWhile
                      (fun arg => arg = "flat_namespace" || arg = "not_app_extension_safe"))⟩,
                 ((s + ((argv.drop s).takeWhile
                    (fun arg => arg = "flat_namespace" || arg = "not_app_extension_safe")).length
                    : Nat) : Int) - 1,
                 notes⟩))
      ∧ s + ((argv.drop s).takeWhile
            (fun arg => arg = "flat_namespace" || arg = "not_app_extension_safe")).length
          ≤ argv.length
      ∧ (∀ i arg, s ≤ i →
          i < s + ((argv.drop s).takeWhile
            (fun arg => arg = "flat_namespace" || arg = "not_app_extension_safe")).length →
          argv[i]? = some arg → arg = "flat_namespace" ∨ arg = "not_app_extension_safe")
      ∧ (∀ arg,
          argv[s + ((argv.drop s).takeWhile
            (fun arg => arg = "flat_namespace" || arg = "not_app_extension_safe")).length]?
            = some arg →
          arg ≠ "flat_namespace" ∧ arg ≠ "not_app_extension_safe") := by
  obtain ⟨h1, h2, h3⟩ := takeWhile_run
    (fun arg : String => arg = "flat_namespace" || arg = "not_app_extension_safe") (argv.drop s)
  refine ⟨?_, ?_, ?_, ?_, ?_⟩
  · intro hrun
    unfold parse_or_list_fields.parse_flags_list
    rw [if_pos (Nat.le_of_lt hs)]
    cases hargs : argv.drop s with
    | nil =>
      have := List.drop_eq_nil_iff.1 hargs
      omega
    | cons arg rest =>
      rw [hargs] at hrun
      have hp : ¬ ((arg = "flat_namespace" || arg = "not_app_extension_safe") = true) := by
        intro hp
        simp [List.takeWhile_cons, hp] at hrun
      simp only [Bool.or_eq_true, decide_eq_true_eq, not_or] at hp
      simp [parse_or_list_fields.parse_flags_list_loop, hp.1, hp.2]
  · intro hrun
    unfold parse_or_list_fields.parse_flags_list
    rw [if_pos (Nat.le_of_lt hs)]
    obtain ⟨notes, hn⟩ := parse_flags_list_loop_spec (argv.drop s) ⟨false, false⟩ s []
      (Or.inr (Or.inr hrun))
    exact ⟨notes, by rw [hn]; simp⟩
  · simp only [List.length_drop] at h1
    omega
  · intro i arg hsi hi harg
    have := h2 (i - s) arg (by omega) (by
      rw [List.getElem?_drop]
      rw [show s + (i - s) = i by omega]
      exact harg)
    simpa using this
  · intro arg harg
    have := h3 arg (by rw [List.getElem?_drop]; exact harg)
    simpa using this

/-- C16. For every argument vector and start index `s < argc`,
`parse_flags_list` exits with status 1 if `argv[s]` is neither
`flat_namespace` nor `not_app_extension_safe`; otherwise, with `e` the end of
the run of these two names that starts at `s` (the first index from `s` on
whose argument is neither name, or `argc`), it returns the flags of the names
that occur in `argv[s..e)`, each set once however often its name occurs, and
leaves `e - 1` in `*index_in`. -/
theorem parse_flags_list_spec (argv : List String) (s : Nat) (hs : s < argv.length) :
    (∀ arg, argv[s]? = some arg → arg ≠ "flat_namespace" → arg ≠ "not_app_extension_safe" →
        parse_or_list_fields.parse_flags_list argv s = some (outcome.exit 1))
      ∧ (∀ arg, argv[s]? = some arg → arg = "flat_namespace" ∨ arg = "not_app_extension_safe" →
        ∃ notes,
          parse_or_list_fields.parse_flags_list argv s
            = some (outcome.value
                ⟨⟨decide ("flat_namespace" ∈ (argv.drop s).takeWhile
                      (fun arg => arg = "flat_namespace" || arg = "not_app_extension_safe")),
                  decide ("not_app_extension_safe" ∈ (argv.drop s).takeWhile
                      (fun arg => arg = "flat_namespace" || arg = "not_app_extension_safe"))⟩,
                 ((s + ((argv.drop s).takeWhile
                    (fun arg => arg = "flat_namespace" || arg = "not_app_extension_safe")).length
                    : Nat) : Int) - 1,
                 notes⟩))
      ∧ s + ((argv.drop s).takeWhile
            (fun arg => arg = "flat_namespace" || arg = "not_app_extension_safe")).length
          ≤ argv.length
      ∧ (∀ i arg, s ≤ i →
          i < s + ((argv.drop s).takeWhile
            (fun arg => arg = "flat_namespace" || arg = "not_app_extension_safe")).length →
          argv[i]? = some arg → arg = "flat_namespace" ∨ arg = "not_app_extension_safe")
      ∧ (∀ arg,
          argv[s + ((argv.drop s).takeWhile
            (fun arg => arg = "flat_namespace" || arg = "not_app_extension_safe")).length]?
            = some arg →
          arg ≠ "flat_namespace" ∧ arg ≠ "not_app_extension_safe") := by
  obtain ⟨h1, h2, h3, h4, h5⟩ := parse_flags_list_run argv s hs
  have hd : argv.drop s = argv[s] :: argv.drop (s + 1) := List.drop_eq_getElem_cons hs
  have hget : argv[s]? = some argv[s] := List.getElem?_eq_getElem hs
  refine ⟨?_, ?_, h3, h4, h5⟩
  · intro arg harg hn1 hn2
    rw [hget, Option.some.injEq] at harg
    refine h1 ?_
    rw [hd, harg]
    simp [List.takeWhile_cons, hn1, hn2]
  · intro arg harg hname
    rw [hget, Option.some.injEq] at harg
    refine h2 ?_
    rw [hd, harg]
    rcases hname with h | h <;> simp [List.takeWhile_cons, h]

/-- C16, witness: `flat_namespace flat_namespace not_app_extension_safe` from
index 2, followed by `-p`. -/
theorem parse_flags_list_spec_witness :
    ∃ notes,
      parse_or_list_fields.parse_flags_list
          ["tbd", "--flags", "flat_namespace", "flat_namespace", "not_app_extension_safe", "-p"]
          2
        = some (outcome.value ⟨⟨true, true⟩, 4, notes⟩) :=
  (parse_flags_list_spec
    ["tbd", "--flags", "flat_namespace", "flat_namespace", "not_app_extension_safe", "-p"] 2
    (by decide)).2.1 _ rfl (Or.inl rfl)


/-- A lookup that succeeds gives the position of an entry with the name. -/
theorem arch_info_for_name_some :
    ∀ (arch_info_list : List String) (name : String) (i : Nat),
      parse_or_list_fields.arch_info_for_name arch_info_list name = some i →
      arch_info_list[i]? = some name := by
  intro l
  induction l with
  | nil => intro name i h; simp [parse_or_list_fields.arch_info_for_name] at h
  | cons entry rest ih =>
    intro name i h
    simp only [parse_or_list_fields.arch_info_for_name] at h
    split at h
    · rename_i heq
      simp only [Option.some.injEq] at h
      subst h
      simp [heq]
    · cases hrest : parse_or_list_fields.arch_info_for_name rest name with
      | none => rw [hrest] at h; simp at h
      | some j =>
        rw [hrest] at h
        simp only [Option.map_some', Option.some.injEq] at h
        subst h
        simp only [List.getElem?_cons_succ]
        exact ih name j hrest

/-- In a table without repeated names, the lookup of the name of an entry gives its position. -/
theorem arch_info_for_name_of_nodup :
    ∀ (arch_info_list : List String), arch_info_list.Nodup →
      ∀ (i : Nat) (name : String), arch_info_list[i]? = some name →
        parse_or_list_fields.arch_info_for_name arch_info_list name = some i := by
  intro l
  induction l with
  | nil => intro _ i name h; simp at h
  | cons entry rest ih =>
    intro hnodup i name h
    obtain ⟨hnot, hrest⟩ := List.nodup_cons.1 hnodup
    simp only [parse_or_list_fields.arch_info_for_name]
    cases i with
    | zero =>
      simp only [List.getElem?_cons_zero, Option.some.injEq] at h
      rw [if_pos h]
    | succ j =>
      simp only [List.getElem?_cons_succ] at h
      have hmem : name ∈ rest := by
        obtain ⟨hlt, hget⟩ := List.getElem?_eq_some_iff.1 h
        rw [← hget]
        exact List.getElem_mem hlt
      have hne : ¬ entry = name := fun heq => hnot (heq ▸ hmem)
      rw [if_neg hne, ih hrest j name h]
      rfl

/-- The loop of `parse_architectures_list` in terms of the run of registered names it reads. -/
theorem parse_architectures_list_loop_spec (arch_info_list : List String)
    (hsize : arch_info_list.length ≤ 64) :
    ∀ (args : List String) (archs count index : Nat), archs < 2 ^ 64 →
      (archs = 0 →
        args.takeWhile (fun arch => string_front arch != '-' && string_front arch != '/'
          && (parse_or_list_fields.arch_info_for_name arch_info_list arch).isSome) = [] →
        args ≠ [] →
        parse_or_list_fields.parse_architectures_list_loop arch_info_list args archs count index
          = outcome.exit 1)
      ∧ (archs ≠ 0
          ∨ args.takeWhile (fun arch => string_front arch != '-' && string_front arch != '/'
              && (parse_or_list_fields.arch_info_for_name arch_info_list arch).isSome) ≠ [] →
        ∃ archs1,
          parse_or_list_fields.parse_architectures_list_loop arch_info_list args archs count index
            = outcome.value
                ⟨archs1,
                 count + (args.takeWhile (fun arch =>
                    string_front arch != '-' && string_front arch != '/'
                      && (parse_or_list_fields.arch_info_for_name arch_info_list arch).isSome)).length,
                 ((index + (args.takeWhile (fun arch =>
                    string_front arch != '-' && string_front arch != '/'
                      && (parse_or_list_fields.arch_info_for_name arch_info_list arch).isSome)).length
                    : Nat) : Int) - 1⟩
          ∧ archs1 < 2 ^ 64
          ∧ ∀ i, archs1.testBit i = true ↔
              (archs.testBit i = true
                ∨ ∃ arch ∈ args.takeWhile (fun arch =>
                    string_front arch != '-' && string_front arch != '/'
                      && (parse_or_list_fields.arch_info_for_name arch_info_list arch).isSome),
                    parse_or_list_fields.arch_info_for_name arch_info_list arch = some i)) := by
  intro args
  induction args with
  | nil =>
    intro archs count index hlt
    refine ⟨fun _ _ h => absurd rfl h, fun _ => ⟨archs, ?_, hlt, ?_⟩⟩
    · simp [parse_or_list_fields.parse_architectures_list_loop]
    · intro i; simp
  | cons arch rest ih =>
    intro archs count index hlt
    by_cases hfront : (string_front arch = '-' || string_front arch = '/') = true
    · have hrun : (arch :: rest).takeWhile (fun arch =>
          string_front arch != '-' && string_front arch != '/'
            && (parse_or_list_fields.arch_info_for_name arch_info_list arch).isSome) = [] := by
        simp only [Bool.or_eq_true, decide_eq_true_eq] at hfront
        rcases hfront with hf | hf <;> simp [List.takeWhile_cons, hf]
      rw [hrun]
      simp only [parse_or_list_fields.parse_architectures_list_loop, hfront, if_true]
      refine ⟨fun h0 _ _ => by rw [if_pos h0], fun h => ?_⟩
      simp only [ne_eq, not_true_eq_false, or_false] at h
      rw [if_neg h]
      exact ⟨archs, by simp, hlt, by intro i; simp⟩
    · cases hlook : parse_or_list_fields.arch_info_for_name arch_info_list arch with
      | none =>
        have hrun : (arch :: rest).takeWhile (fun arch =>
            string_front arch != '-' && string_front arch != '/'
              && (parse_or_list_fields.arch_info_for_name arch_info_list arch).isSome) = [] := by
          simp [List.takeWhile_cons, hlook]
        rw [hrun]
        simp only [parse_or_list_fields.parse_architectures_list_loop, hfront,
          Bool.false_eq_true, if_false, hlook]
        refine ⟨fun h0 _ _ => by rw [if_pos h0], fun h => ?_⟩
        simp only [ne_eq, not_true_eq_false, or_false] at h
        rw [if_neg h]
        exact ⟨archs, by simp, hlt, by intro i; simp⟩
      | some k =>
        have hk : k < 64 := by
          have := arch_info_for_name_some arch_info_list arch k hlook
          have := (List.getElem?_eq_some_iff.1 this).1
          omega
        have hmask : (1 <<< k) % 2 ^ 64 = 2 ^ k := by
          rw [Nat.one_shiftLeft]
          exact Nat.mod_eq_of_lt (Nat.pow_lt_pow_right (by norm_num) hk)
        have hrun : (arch :: rest).takeWhile (fun arch =>
            string_front arch != '-' && string_front arch != '/'
              && (parse_or_list_fields.arch_info_for_name arch_info_list arch).isSome)
            = arch :: rest.takeWhile (fun arch =>
              string_front arch != '-' && string_front arch != '/'
                && (parse_or_list_fields.arch_info_for_name arch_info_list arch).isSome) := by
          simp only [Bool.or_eq_true, decide_eq_true_eq, not_or] at hfront
          simp [List.takeWhile_cons, hlook, hfront.1, hfront.2]
        have hlt1 : archs ||| 2 ^ k < 2 ^ 64 :=
          Nat.or_lt_two_pow hlt (Nat.pow_lt_pow_right (by norm_num) hk)
        have hbit : ∀ i, (archs ||| 2 ^ k).testBit i = true ↔ (archs.testBit i = true ∨ k = i) := by
          intro i
          rw [Nat.testBit_or, Nat.testBit_two_pow]
          simp
        have hnz : archs ||| 2 ^ k ≠ 0 := by
          intro h0
          have := (hbit k).2 (Or.inr rfl)
          rw [h0] at this
          simp at this
        rw [hrun]
        refine ⟨fun _ h _ => (by cases h), fun _ => ?_⟩
        simp only [parse_or_list_fields.parse_architectures_list_loop, hfront,
          Bool.false_eq_true, if_false, hlook, hmask]
        obtain ⟨archs1, hres, hlt2, hbits⟩ := (ih (archs ||| 2 ^ k) (count + 1) (index + 1)
          hlt1).2 (Or.inl hnz)
        refine ⟨archs1, ?_, hlt2, ?_⟩
        · rw [hres]
          simp [Nat.add_assoc, Nat.add_comm 1]
        · intro i
          rw [hbits i, hbit i]
          constructor
          · rintro ((h | h) | ⟨a, ha, hl⟩)
            · exact Or.inl h
            · exact Or.inr ⟨arch, List.mem_cons.2 (Or.inl rfl), by rw [hlook, h]⟩
            · exact Or.inr ⟨a, List.mem_cons.2 (Or.inr ha), hl⟩
          · rintro (h | ⟨a, ha, hl⟩)
            · exact Or.inl (Or.inl h)
            · rcases List.mem_cons.1 ha with rfl | ha
              · rw [hlook] at hl
                exact Or.inl (Or.inr (Option.some.inj hl))
              · exact Or.inr ⟨a, ha, hl⟩


/-- A lookup succeeds exactly for the names of the table. -/
theorem arch_info_for_name_isSome :
    ∀ (arch_info_list : List String) (name : String),
      (parse_or_list_fields.arch_info_for_name arch_info_list name).isSome
        = decide (name ∈ arch_info_list) := by
  intro l
  induction l with
  | nil => intro name; simp [parse_or_list_fields.arch_info_for_name]
  | cons entry rest ih =>
    intro name
    simp only [parse_or_list_fields.arch_info_for_name]
    split
    · rename_i heq
      simp [heq]
    · rename_i hne
      rw [Option.isSome_map', ih]
      have : ¬ name = entry := fun h => hne h.symm
      simp [this]

/-- C13. For every argument vector and start index below `argc`, with a table
of at most 64 entries whose names are distinct, `parse_architectures_list`
consumes the longest run of arguments from the start index that do not begin
with `-` or `/` and are names of the table; it exits with status 1 when that
run is empty, and otherwise returns a 64-bit word in which bit `i` is set if
and only if one of the consumed arguments is the name of the entry at
position `i`, with `*count_out` the length of the run and `*index_in` the
index of its last argument. -/
theorem parse_architectures_list_consumes (arch_info_list argv : List String) (s : Nat)
    (hs : s < argv.length) (hsize : arch_info_list.length ≤ 64)
    (hnodup : arch_info_list.Nodup) :
    ((argv.drop s).takeWhile (fun arch =>
          string_front arch != '-' && string_front arch != '/'
            && decide (arch ∈ arch_info_list)) = [] →
        parse_or_list_fields.parse_architectures_list arch_info_list argv s
          = some (outcome.exit 1))
      ∧ ((argv.drop s).takeWhile (fun arch =>
          string_front arch != '-' && string_front arch != '/'
            && decide (arch ∈ arch_info_list)) ≠ [] →
        ∃ archs,
          parse_or_list_fields.parse_architectures_list arch_info_list argv s
            = some (outcome.value
                ⟨archs,
                 ((argv.drop s).takeWhile (fun arch =>
                    string_front arch != '-' && string_front arch != '/'
                      && decide (arch ∈ arch_info_list))).length,
                 ((s + ((argv.drop s).takeWhile (fun arch =>
                    string_front arch != '-' && string_front arch != '/'
                      && decide (arch ∈ arch_info_list))).length : Nat) : Int) - 1⟩)
          ∧ archs < 2 ^ 64
          ∧ ∀ i, archs.testBit i = true ↔
              ∃ arch ∈ (argv.drop s).takeWhile (fun arch =>
                  string_front arch != '-' && string_front arch != '/'
                    && decide (arch ∈ arch_info_list)),
                arch_info_list[i]? = some arch)
      ∧ s + ((argv.drop s).takeWhile (fun arch =>
            string_front arch != '-' && string_front arch != '/'
              && decide (arch ∈ arch_info_list))).length ≤ argv.length
      ∧ (∀ i arch, s ≤ i →
          i < s + ((argv.drop s).takeWhile (fun arch =>
            string_front arch != '-' && string_front arch != '/'
              && decide (arch ∈ arch_info_list))).length →
          argv[i]? = some arch →
          string_front arch ≠ '-' ∧ string_front arch ≠ '/' ∧ arch ∈ arch_info_list)
      ∧ (∀ arch,
          argv[s + ((argv.drop s).takeWhile (fun arch =>
            string_front arch != '-' && string_front arch != '/'
              && decide (arch ∈ arch_info_list))).length]? = some arch →
          ¬ (string_front arch ≠ '-' ∧ string_front arch ≠ '/' ∧ arch ∈ arch_info_list)) := by
  have hpred : (fun arch : String =>
        string_front arch != '-' && string_front arch != '/'
          && (parse_or_list_fields.arch_info_for_name arch_info_list arch).isSome)
      = (fun arch : String =>
        string_front arch != '-' && string_front arch != '/'
          && decide (arch ∈ arch_info_list)) := by
    funext arch
    rw [arch_info_for_name_isSome]
  obtain ⟨hexit, hvalue⟩ := parse_architectures_list_loop_spec arch_info_list hsize
    (argv.drop s) 0 0 s (by norm_num)
  rw [hpred] at hexit hvalue
  obtain ⟨h1, h2, h3⟩ := takeWhile_run (fun arch : String =>
    string_front arch != '-' && string_front arch != '/'
      && decide (arch ∈ arch_info_list)) (argv.drop s)
  refine ⟨?_, ?_, ?_, ?_, ?_⟩
  · intro hrun
    unfold parse_or_list_fields.parse_architectures_list
    rw [if_pos hs, hexit rfl hrun]
    intro hnil
    have := List.drop_eq_nil_iff.1 hnil
    omega
  · intro hrun
    unfold parse_or_list_fields.parse_architectures_list
    rw [if_pos hs]
    obtain ⟨archs, hres, hlt, hbits⟩ := hvalue (Or.inr hrun)
    refine ⟨archs, by rw [hres]; simp, hlt, ?_⟩
    intro i
    rw [hbits i]
    simp only [Nat.zero_testBit, Bool.false_eq_true, false_or]
    constructor
    · rintro ⟨arch, ha, hl⟩
      exact ⟨arch, ha, arch_info_for_name_some arch_info_list arch i hl⟩
    · rintro ⟨arch, ha, hl⟩
      exact ⟨arch, ha, arch_info_for_name_of_nodup arch_info_list hnodup i arch hl⟩
  · simp only [List.length_drop] at h1
    omega
  · intro i arch hsi hi harg
    have := h2 (i - s) arch (by omega) (by
      rw [List.getElem?_drop]
      rw [show s + (i - s) = i by omega]
      exact harg)
    simpa [and_assoc] using this
  · intro arch harg
    have := h3 arch (by rw [List.getElem?_drop]; exact harg)
    intro hc
    simp [hc.1, hc.2.1, hc.2.2] at this

/-- C13, witness: `arm64 i386` from index 2, followed by `-p`, with the table
`i386`, `x86_64`, `arm64`. -/
theorem parse_architectures_list_consumes_witness :
    ∃ archs,
      parse_or_list_fields.parse_architectures_list ["i386", "x86_64", "arm64"]
          ["tbd", "-a", "arm64", "i386", "-p", "/usr/lib/libfoo.dylib"] 2
        = some (outcome.value ⟨archs, 2, 3⟩)
      ∧ archs < 2 ^ 64
      ∧ ∀ i, archs.testBit i = true ↔
          ∃ arch ∈ ["arm64", "i386"], ["i386", "x86_64", "arm64"][i]? = some arch :=
  (parse_architectures_list_consumes ["i386", "x86_64", "arm64"]
    ["tbd", "-a", "arm64", "i386", "-p", "/usr/lib/libfoo.dylib"] 2
    (by decide) (by decide) (by decide)).2.1 (by decide)

/-! ### `src/main.cc`: failed creations and the two loops -/

/-- C17. With `creation_handling_dont_print_warnings` among its options,
`create_tbd_file` returns true whatever `create_from_macho_library` returned:
the switch that returns false for a failure is inside the test for printing
warnings (main.cc 373-515), and the function ends with `return true`. -/
theorem create_tbd_file_true_without_warnings (env : tbd_env) (macho_file_path file : String)
    (tbd_file : output_stream) (options : Nat) (platform : platform) (version : version)
    (architectures architecture_overrides creation_handling_options : Nat)
    (input : List String)
    (hflag : has_flag creation_handling_options creation_handling_dont_print_warnings = true) :
    (∀ made, create_tbd_file env macho_file_path file tbd_file options platform version
          architectures architecture_overrides creation_handling_options input = some made →
        made.returned = true)
      ∧ (is_platform_failure (env.create_from_macho_library file
            ⟨tbd_file, options, platform, version, architectures, architecture_overrides⟩)
          = false →
        create_tbd_file env macho_file_path file tbd_file options platform version
          architectures architecture_overrides creation_handling_options input
          = some ⟨true, input,
              [event.create_from_macho_library file
                ⟨tbd_file, options, platform, version, architectures,
                  architecture_overrides⟩]⟩) := by
  refine ⟨?_, ?_⟩
  · intro made h
    unfold create_tbd_file at h
    simp only [hflag, Bool.not_true, Bool.false_eq_true, if_false] at h
    split at h
    · split at h
      · cases h
      · simp only [Option.some.injEq] at h
        subst h
        rfl
    · simp only [Option.some.injEq] at h
      subst h
      rfl
  · intro hplat
    unfold create_tbd_file
    simp only [hflag, hplat, Bool.not_true, Bool.false_eq_true, if_false]

/-- C17, witness: the creation fails with `invalid_segment`, `create_tbd_file`
returns true, and `main`, run with `-dont-print-warnings` for the input,
closes the output file without removing it. -/
theorem create_tbd_file_true_without_warnings_witness :
    unreadable_main_env.create_from_macho_library "/usr/lib/libfoo.dylib"
        ⟨output_stream.file "/out/libfoo.tbd", 0, platform_none, version_v2, 0, 0⟩
        = creation_result.invalid_segment
      ∧ create_tbd_file unreadable_main_env.totbd_env "/usr/lib/libfoo.dylib"
          "/usr/lib/libfoo.dylib" (output_stream.file "/out/libfoo.tbd") 0 platform_none
          version_v2 0 0 (creation_handling_print_paths ||| creation_handling_dont_print_warnings)
          []
        = some ⟨true, [],
            [event.create_from_macho_library "/usr/lib/libfoo.dylib"
              ⟨output_stream.file "/out/libfoo.tbd", 0, platform_none, version_v2, 0, 0⟩]⟩
      ∧ main unreadable_main_env
          ["tbd", "-p", "-dont-print-warnings", "/usr/lib/libfoo.dylib", "-o",
            "/out/libfoo.tbd"] []
        = some (0,
            [event.open_library "/usr/lib/libfoo.dylib",
             event.create_directories "/out/libfoo.tbd" 0 false,
             event.fopen "/out/libfoo.tbd" true,
             event.create_from_macho_library "/usr/lib/libfoo.dylib"
               ⟨output_stream.file "/out/libfoo.tbd", 0, platform_none, version_v2, 0, 0⟩,
             event.fclose "/out/libfoo.tbd"]) :=
  ⟨by decide,
   (create_tbd_file_true_without_warnings unreadable_main_env.totbd_env "/usr/lib/libfoo.dylib"
      "/usr/lib/libfoo.dylib" (output_stream.file "/out/libfoo.tbd") 0 platform_none version_v2
      0 0 (creation_handling_print_paths ||| creation_handling_dont_print_warnings) []
      (by decide)).2 (by decide),
   by decide⟩

/-- An inner loop that ends within the rounds given leaves what `remove_duplicates_inner` says. -/
theorem remove_duplicates_inner_rounds_sound (env : main_env) (tbd : tbd_file) :
    ∀ (fuel : Nat) (tbds kept : List tbd_file),
      remove_duplicates_inner_rounds env tbd fuel tbds = some kept →
      remove_duplicates_inner env tbd tbds = some kept := by
  intro fuel
  induction fuel with
  | zero => intro tbds kept h; simp [remove_duplicates_inner_rounds] at h
  | succ fuel ih =>
    intro tbds kept h
    cases tbds with
    | nil =>
      simp only [remove_duplicates_inner_rounds] at h
      simpa [remove_duplicates_inner] using h
    | cons tbd_inner rest =>
      simp only [remove_duplicates_inner_rounds] at h
      by_cases hc : env.path_compare tbd.path tbd_inner.path ≠ 0
      · rw [if_pos hc] at h
        exact ih _ _ h
      · rw [if_neg hc] at h
        simp only [remove_duplicates_inner, if_neg hc]
        cases hrest : remove_duplicates_inner_rounds env tbd fuel rest with
        | none => rw [hrest] at h; cases h
        | some later =>
          rw [hrest] at h
          rw [ih _ _ hrest]
          exact h

/-- What `remove_duplicates_inner` says is left, the inner loop leaves within one round more than there are inputs. -/
theorem remove_duplicates_inner_rounds_complete (env : main_env) (tbd : tbd_file) :
    ∀ (tbds kept : List tbd_file),
      remove_duplicates_inner env tbd tbds = some kept →
      remove_duplicates_inner_rounds env tbd (tbds.length + 1) tbds = some kept := by
  intro tbds
  induction tbds with
  | nil =>
    intro kept h
    simpa [remove_duplicates_inner, remove_duplicates_inner_rounds] using h
  | cons tbd_inner rest ih =>
    intro kept h
    simp only [remove_duplicates_inner] at h
    by_cases hc : env.path_compare tbd.path tbd_inner.path ≠ 0
    · rw [if_pos hc] at h
      cases h
    · rw [if_neg hc] at h
      simp only [List.length_cons, remove_duplicates_inner_rounds, if_neg hc]
      cases hrest : remove_duplicates_inner env tbd rest with
      | none => rw [hrest] at h; cases h
      | some later =>
        rw [hrest] at h
        rw [ih later hrest]
        exact h

/-- C19. When the path of the input at `tbd_inner_iter` differs from that of
the outer input, the inner loop of the duplicate removal takes `continue`
without advancing `tbd_inner_iter`: it does not end within any number of
rounds. -/
theorem remove_duplicates_inner_never_ends (env : main_env) (tbd tbd_inner : tbd_file)
    (rest : List tbd_file) (h : env.path_compare tbd.path tbd_inner.path ≠ 0) :
    ∀ fuel, remove_duplicates_inner_rounds env tbd fuel (tbd_inner :: rest) = none := by
  intro fuel
  induction fuel with
  | zero => rfl
  | succ fuel ih =>
    simp only [remove_duplicates_inner_rounds]
    rw [if_pos h]
    exact ih

/-- C19, witness: the inputs `/usr/lib/libfoo.dylib` and
`/usr/lib/libbar.dylib`; `main` run on them never ends. -/
theorem remove_duplicates_inner_never_ends_witness :
    sample_main_env.path_compare "/usr/lib/libfoo.dylib" "/usr/lib/libbar.dylib" ≠ 0
      ∧ (∀ fuel, remove_duplicates_inner_rounds sample_main_env
            ⟨"/usr/lib/libfoo.dylib", "", 0, 0, platform_none, 0, 0⟩ fuel
            [⟨"/usr/lib/libbar.dylib", "", 0, 0, platform_none, 0, 0⟩] = none)
      ∧ main sample_main_env
          ["tbd", "-p", "/usr/lib/libfoo.dylib", "-p", "/usr/lib/libbar.dylib"] [] = none :=
  ⟨by decide,
   remove_duplicates_inner_never_ends sample_main_env
    ⟨"/usr/lib/libfoo.dylib", "", 0, 0, platform_none, 0, 0⟩
    ⟨"/usr/lib/libbar.dylib", "", 0, 0, platform_none, 0, 0⟩ [] (by decide),
   by decide⟩

/-- When the loop ends it has not advanced `path`, and `begin[1]` is no slash. -/
theorem leading_slashes_loop_moved (path : String) (index : Nat) :
    ∀ (fuel moved ended : Nat), leading_slashes_loop path index fuel moved = some ended →
      ended = moved
        ∧ ¬ (character_at path (index + 1) = '/'
              ∨ character_at path (index + 1) = Char.ofNat 92) := by
  intro fuel
  induction fuel with
  | zero => intro moved ended h; simp [leading_slashes_loop] at h
  | succ fuel ih =>
    intro moved ended h
    simp only [leading_slashes_loop] at h
    split at h
    · rename_i hslash
      have := (ih _ _ h).2
      simp only [Bool.or_eq_true, decide_eq_true_eq] at hslash
      exact absurd hslash this
    · rename_i hslash
      simp only [Bool.or_eq_true, decide_eq_true_eq] at hslash
      simp only [Option.some.injEq] at h
      exact ⟨h.symm, hslash⟩

/-- C20. When `path[index]` is a slash and `path[index + 1]` is a forward or
backward slash, the loop at the head of
`recursively_create_directories_from_file_path` does not end within any
number of rounds: it tests `begin[1]` and advances `path`, so its condition
never changes. -/
theorem skip_leading_slashes_never_ends (path : String) (index : Nat)
    (hfirst : character_at path index = '/')
    (hsecond : character_at path (index + 1) = '/'
      ∨ character_at path (index + 1) = Char.ofNat 92) :
    ∀ fuel, skip_leading_slashes path index fuel = none := by
  intro fuel
  unfold skip_leading_slashes
  rw [if_pos hfirst]
  cases hloop : leading_slashes_loop path index fuel 0 with
  | none => rfl
  | some ended => exact absurd hsecond (leading_slashes_loop_moved path index fuel 0 ended hloop).2

/-- C20, witness: the path `//usr/lib/libfoo.tbd` from index 0. -/
theorem skip_leading_slashes_never_ends_witness :
    character_at "//usr/lib/libfoo.tbd" 0 = '/'
      ∧ character_at "//usr/lib/libfoo.tbd" 1 = '/'
      ∧ ∀ fuel, skip_leading_slashes "//usr/lib/libfoo.tbd" 0 fuel = none :=
  ⟨by decide, by decide,
   skip_leading_slashes_never_ends "//usr/lib/libfoo.tbd" 0 (by decide) (Or.inl (by decide))⟩

/-! ### `src/parse_or_list_fields.c`: `parse_swift_version` -/

/-- C21, failing input: `10000000000` is all digits and its value does not fit in 32 bits, yet `parse_swift_version` returns 1410065409 and not 0: at the last digit, ten times 1000000000 wraps to 1410065408, which is not below 1000000000, so the test `new_version < version` lets it through. -/
theorem parse_swift_version_misses_overflow :
    (∀ ch ∈ "10000000000".data, ch.isDigit = true)
      ∧ Nat.ofDigits 10 ("10000000000".data.reverse.map (fun ch => ch.toNat - 48)) = 10000000000
      ∧ ¬ (10000000000 < 2 ^ 32)
      ∧ parse_or_list_fields.parse_swift_version_loop "1000000000".data 0 = some 1000000000
      ∧ (1000000000 * 10 + 0) % 2 ^ 32 = 1410065408
      ∧ parse_or_list_fields.parse_swift_version "10000000000" = 1410065409 := by
  decide


/-- For a digit, `ch & 0xf` is its value, at most 9. -/
theorem digit_value (ch : Char) (h : ch.isDigit = true) :
    ch.toNat &&& 0xf = ch.toNat - 48 ∧ ch.toNat - 48 ≤ 9 := by
  have h1 : 48 ≤ ch.toNat ∧ ch.toNat ≤ 57 := by
    simp only [Char.isDigit, Bool.and_eq_true, decide_eq_true_eq] at h
    have ha := h.1
    have hb := h.2
    simp only [ge_iff_le, UInt32.le_def, Fin.le_def] at ha hb
    exact ⟨ha, hb⟩
  obtain ⟨ha, hb⟩ := h1
  generalize ch.toNat = n at ha hb
  interval_cases n <;> decide

/-- On digits whose value, counted with the version reached so far in front, fits in 32 bits, the loop of `parse_swift_version` ends with that value. -/
theorem parse_swift_version_loop_digits :
    ∀ (digits : List Char) (version : Nat), (∀ ch ∈ digits, ch.isDigit = true) →
      version * 10 ^ digits.length
          + Nat.ofDigits 10 (digits.reverse.map (fun ch => ch.toNat - 48)) < 2 ^ 32 →
      parse_or_list_fields.parse_swift_version_loop digits version
        = some (version * 10 ^ digits.length
            + Nat.ofDigits 10 (digits.reverse.map (fun ch => ch.toNat - 48))) := by
  intro digits
  induction digits with
  | nil => intro version _ _; simp [parse_or_list_fields.parse_swift_version_loop]
  | cons ch rest ih =>
    intro version hdigits hfit
    have hch := hdigits ch (List.mem_cons.2 (Or.inl rfl))
    obtain ⟨hand, hle⟩ := digit_value ch hch
    have hval : Nat.ofDigits 10 ((ch :: rest).reverse.map (fun ch => ch.toNat - 48))
        = Nat.ofDigits 10 (rest.reverse.map (fun ch => ch.toNat - 48))
          + 10 ^ rest.length * (ch.toNat - 48) := by
      rw [List.reverse_cons, List.map_append, Nat.ofDigits_append]
      simp
    rw [hval] at hfit ⊢
    have hpow : 10 ^ (ch :: rest).length = 10 * 10 ^ rest.length := by
      rw [List.length_cons, pow_succ, Nat.mul_comm]
    rw [hpow] at hfit ⊢
    have hpos : 1 ≤ 10 ^ rest.length := Nat.one_le_pow _ _ (by norm_num)
    have hnew : version * 10 + (ch.toNat - 48) < 2 ^ 32 := by
      have : version * 10 + (ch.toNat - 48) ≤ (version * 10 + (ch.toNat - 48)) * 10 ^ rest.length :=
        Nat.le_mul_of_pos_right _ hpos
      have h2 : (version * 10 + (ch.toNat - 48)) * 10 ^ rest.length
          = version * (10 * 10 ^ rest.length) + 10 ^ rest.length * (ch.toNat - 48) := by ring
      omega
    simp only [parse_or_list_fields.parse_swift_version_loop, hch, Bool.not_true,
      Bool.false_eq_true, if_false, hand]
    rw [Nat.mod_eq_of_lt hnew, if_neg (by omega)]
    rw [ih (version * 10 + (ch.toNat - 48))
      (fun c hc => hdigits c (List.mem_cons.2 (Or.inr hc))) (by
        have h2 : (version * 10 + (ch.toNat - 48)) * 10 ^ rest.length
            = version * (10 * 10 ^ rest.length) + 10 ^ rest.length * (ch.toNat - 48) := by ring
        omega)]
    congr 1
    ring

/-- On a text holding a character that is no digit the loop of `parse_swift_version` leaves with `return 0`. -/
theorem parse_swift_version_loop_other :
    ∀ (text : List Char) (version : Nat), (∃ ch ∈ text, ch.isDigit = false) →
      parse_or_list_fields.parse_swift_version_loop text version = none := by
  intro text
  induction text with
  | nil => intro _ h; obtain ⟨ch, hch, _⟩ := h; cases hch
  | cons ch rest ih =>
    intro version h
    simp only [parse_or_list_fields.parse_swift_version_loop]
    by_cases hd : ch.isDigit = true
    · simp only [hd, Bool.not_true, Bool.false_eq_true, if_false]
      split
      · rfl
      · obtain ⟨c, hc, hnot⟩ := h
        rcases List.mem_cons.1 hc with rfl | hc
        · rw [hd] at hnot; cases hnot
        · exact ih _ ⟨c, hc, hnot⟩
    · simp [hd]

/-- C26: `parse_swift_version` returns 2 for `1.2`; for a non-empty all-digit string of decimal value `n` at most `2^32 - 2` it returns 0 when `n = 0`, 1 when `n = 1` and `n + 1` otherwise; it returns 0 for the empty string and for every string other than `1.2` that holds a character that is no digit. -/
theorem parse_swift_version_spec :
    parse_or_list_fields.parse_swift_version "1.2" = 2
      ∧ (∀ s : String, s.data ≠ [] → (∀ ch ∈ s.data, ch.isDigit = true) →
          Nat.ofDigits 10 (s.data.reverse.map (fun ch => ch.toNat - 48)) ≤ 2 ^ 32 - 2 →
          parse_or_list_fields.parse_swift_version s
            = if Nat.ofDigits 10 (s.data.reverse.map (fun ch => ch.toNat - 48)) = 0 then 0
              else if Nat.ofDigits 10 (s.data.reverse.map (fun ch => ch.toNat - 48)) = 1 then 1
              else Nat.ofDigits 10 (s.data.reverse.map (fun ch => ch.toNat - 48)) + 1)
      ∧ parse_or_list_fields.parse_swift_version "" = 0
      ∧ (∀ s : String, s ≠ "1.2" → (∃ ch ∈ s.data, ch.isDigit = false) →
          parse_or_list_fields.parse_swift_version s = 0) := by
  refine ⟨by decide, ?_, by decide, ?_⟩
  · intro s _ hdigits hfit
    have hne : s ≠ "1.2" := by
      intro h
      have := hdigits '.' (by rw [h]; decide)
      revert this
      decide
    have hloop := parse_swift_version_loop_digits s.data 0 hdigits (by
      rw [Nat.zero_mul, Nat.zero_add]
      have : (2 : Nat) ^ 32 - 2 < 2 ^ 32 := by norm_num
      omega)
    rw [Nat.zero_mul, Nat.zero_add] at hloop
    unfold parse_or_list_fields.parse_swift_version
    rw [if_neg hne, hloop]
    generalize Nat.ofDigits 10 (s.data.reverse.map (fun ch => ch.toNat - 48)) = n at hfit
    simp only
    by_cases h0 : n = 0
    · simp [h0]
    · by_cases h1 : n = 1
      · simp [h1]
      · have hgt : n > 1 := by omega
        rw [if_pos hgt, if_neg h0, if_neg h1]
        apply Nat.mod_eq_of_lt
        have : (2 : Nat) ^ 32 - 2 + 1 < 2 ^ 32 := by norm_num
        omega
  · intro s hne hother
    unfold parse_or_list_fields.parse_swift_version
    rw [if_neg hne, parse_swift_version_loop_other s.data 0 hother]

/-- C26 at the string `42`. -/
theorem parse_swift_version_spec_witness :
    (∀ ch ∈ "42".data, ch.isDigit = true)
      ∧ Nat.ofDigits 10 ("42".data.reverse.map (fun ch => ch.toNat - 48)) = 42
      ∧ parse_or_list_fields.parse_swift_version "42" = 43 :=
  ⟨by decide, by decide,
   parse_swift_version_spec.2.1 "42" (by decide) (by decide) (by decide)⟩

/-! ### `src/parse_dsc_for_main.c`: `read_magic`, `actually_parse_image`, `should_parse_image` -/

/-- C22, the defect: when fewer than 16 bytes are held and `read` delivers any number of bytes, also fewer than the `16 - size` asked for, `read_magic` returns `E_READ_MAGIC_OK` with the size set to 16. -/
theorem read_magic_accepts_short_read (env : dsc_env) (magic_in_size count : Nat)
    (hsize : magic_in_size < 16)
    (hread : env.read (16 - magic_in_size) = read_return.delivered count) :
    read_magic env magic_in_size = (read_magic_result.ok, 16) := by
  unfold read_magic
  rw [if_neg (by omega), hread]

/-- C22, failing input: on a cache file of 4 bytes `read` delivers 4 of the 16 bytes asked for and `read_magic` returns `E_READ_MAGIC_OK` with the size set to 16. -/
theorem read_magic_accepts_short_read_witness :
    short_read_dsc_env.read (16 - 0) = read_return.delivered 4
      ∧ 4 < 16 - 0
      ∧ read_magic short_read_dsc_env 0 = (read_magic_result.ok, 16) :=
  ⟨by decide, by decide,
   read_magic_accepts_short_read short_read_dsc_env 0 4 (by decide) (by decide)⟩

/-- C25: `actually_parse_image` returns 0 or 1, and the create-info record of the `tbd` is afterwards the one it was entered with; so it is after `dsc_iterate_images_callback`. -/
theorem actually_parse_image_restores_create_info (env : dsc_env)
    (image_path_length_in index : Nat) (image : dyld_cache_image_info) (image_path : String)
    (callback_info : dsc_iterate_images_callback_info) :
    ((actually_parse_image env image_path_length_in index image image_path callback_info).1 = 0
        ∨ (actually_parse_image env image_path_length_in index image image_path
            callback_info).1 = 1)
      ∧ (actually_parse_image env image_path_length_in index image image_path
          callback_info).2.2.tbd.info = callback_info.tbd.info
      ∧ (dsc_iterate_images_callback env index image image_path callback_info).2.tbd.info
          = callback_info.tbd.info := by
  have hparse : ∀ (length : Nat) (a : dsc_iterate_images_callback_info),
      ((actually_parse_image env length index image image_path a).1 = 0
          ∨ (actually_parse_image env length index image image_path a).1 = 1)
        ∧ (actually_parse_image env length index image image_path a).2.2.tbd.info
            = a.tbd.info := by
    intro length a
    unfold actually_parse_image
    simp only
    split
    · refine ⟨Or.inr rfl, ?_⟩
      have ht := only_printed_tbd (print_image_error_printed
        { a.log [dsc_event.dsc_image_parse index image image_path] with
          tbd := { a.tbd with info := a.tbd.info },
          retained_info := (env.handle_dsc_image_parse_result a.retained_info
            (env.dsc_image_parse a.tbd.info a.dsc_info image
              (env.O_MACHO_FILE_PARSE_IGNORE_INVALID_FIELDS ||| a.tbd.macho_options)
              a.tbd.dsc_options).2 image_path
            (env.dsc_image_parse a.tbd.info a.dsc_info image
              (env.O_MACHO_FILE_PARSE_IGNORE_INVALID_FIELDS ||| a.tbd.macho_options)
              a.tbd.dsc_options).1).2 } image_path
        (env.dsc_image_parse a.tbd.info a.dsc_info image
              (env.O_MACHO_FILE_PARSE_IGNORE_INVALID_FIELDS ||| a.tbd.macho_options)
              a.tbd.dsc_options).1)
      simp only
      rw [ht]
    · exact ⟨Or.inl rfl, rfl⟩
  refine ⟨(hparse _ _).1, (hparse _ _).2, ?_⟩
  unfold dsc_iterate_images_callback
  simp only
  generalize select_image env callback_info image_path = selected
  split
  · rfl
  · split
    · rfl
    · split
      · rfl
      · have h := (hparse selected.path_length
          { callback_info with
            tbd := { callback_info.tbd with dsc_image_filters := selected.filters,
                                            dsc_image_paths := selected.paths } }).2
        unfold parse_selected_image
        simp only
        split
        · simp only [unmark_currently_parsing_conds]
          exact h
        · exact h


/-- The loop over the exact paths marks the entries not yet found that equal the image path, and sets `should_parse` exactly when there is one. -/
theorem should_parse_image_paths_marks (path : String) (path_length : Nat) :
    ∀ (paths : List tbd_for_main_dsc_image_path),
      (should_parse_image_paths path path_length paths).1
          = paths.map (fun p =>
              if p.flags.found_one = false ∧ p.length = path_length
                  ∧ memcmp_equal p.string path path_length = true then
                { p with flags := { p.flags with currently_parsing := true } }
              else p)
        ∧ ((should_parse_image_paths path path_length paths).2 = true ↔
            ∃ p ∈ paths, p.flags.found_one = false ∧ p.length = path_length
              ∧ memcmp_equal p.string path path_length = true) := by
  intro paths
  induction paths with
  | nil => simp [should_parse_image_paths]
  | cons p rest ih =>
    obtain ⟨ih1, ih2⟩ := ih
    simp only [should_parse_image_paths, List.map_cons]
    by_cases hfound : p.flags.found_one = true
    · simp only [hfound, if_true, Bool.true_eq_false, false_and, if_false, ih1, ih2,
        List.mem_cons, exists_eq_or_imp, false_or, true_and]
    · simp only [Bool.not_eq_true] at hfound
      by_cases hlen : p.length = path_length
      · by_cases hcmp : memcmp_equal p.string path path_length = true
        · simp [hfound, hlen, hcmp, ih1]
        · simp only [Bool.not_eq_true] at hcmp
          simp [hfound, hlen, hcmp, ih1, ih2]
      · simp [hfound, hlen, ih1, ih2]

/-- The loop over the filters keeps their number; a filter is left alone when its found flag is set and `should_parse` was set before or an earlier filter passes, and is otherwise marked exactly when it passes. -/
theorem should_parse_image_filters_marks (env : dsc_env) (path : String) :
    ∀ (filters : List tbd_for_main_dsc_image_filter) (should_parse : Bool) (length : Nat),
      (length = 0 ∨ length = path.length) →
      (should_parse_image_filters env path filters should_parse length).1.length
          = filters.length
        ∧ ∀ (before : List tbd_for_main_dsc_image_filter)
            (filter : tbd_for_main_dsc_image_filter)
            (after : List tbd_for_main_dsc_image_filter),
            filters = before ++ filter :: after →
            (should_parse_image_filters env path filters should_parse length).1[before.length]?
              = some
                  (if filter.flags.found_one
                      && (should_parse || before.any (fun f =>
                            (path_passes_through_filter env 0 path f).1.isSome)) then filter
                   else
                    match (path_passes_through_filter env 0 path filter).1 with
                    | some offset =>
                      { filter with tmp_ptr := offset,
                                    flags := { filter.flags with currently_parsing := true } }
                    | none => filter) := by
  intro filters
  induction filters with
  | nil =>
    intro sp length _
    refine ⟨rfl, ?_⟩
    intro before filter after h
    cases before <;> cases h
  | cons head rest ih =>
    intro sp length hlen
    obtain ⟨hsame, hnext⟩ := path_passes_through_filter_length env length path head hlen
    have key : ∀ (marked : tbd_for_main_dsc_image_filter) (sp1 : Bool) (length1 : Nat),
        (length1 = 0 ∨ length1 = path.length) →
        marked = (if head.flags.found_one && sp then head
                   else
                    match (path_passes_through_filter env 0 path head).1 with
                    | some offset =>
                      { head with tmp_ptr := offset,
                                  flags := { head.flags with currently_parsing := true } }
                    | none => head) →
        sp1 = (sp || (path_passes_through_filter env 0 path head).1.isSome) →
        (marked :: (should_parse_image_filters env path rest sp1 length1).1).length
            = (head :: rest).length
          ∧ ∀ (before : List tbd_for_main_dsc_image_filter)
              (filter : tbd_for_main_dsc_image_filter)
              (after : List tbd_for_main_dsc_image_filter),
              head :: rest = before ++ filter :: after →
              (marked :: (should_parse_image_filters env path rest sp1 length1).1)[before.length]?
                = some
                    (if filter.flags.found_one
                        && (sp || before.any (fun f =>
                              (path_passes_through_filter env 0 path f).1.isSome)) then filter
                     else
                      match (path_passes_through_filter env 0 path filter).1 with
                      | some offset =>
                        { filter with tmp_ptr := offset,
                                      flags := { filter.flags with currently_parsing := true } }
                      | none => filter) := by
      intro marked sp1 length1 hlen1 hmarked hsp1
      obtain ⟨ihlen, ihget⟩ := ih sp1 length1 hlen1
      refine ⟨by simp [ihlen], ?_⟩
      intro before filter after h
      cases before with
      | nil =>
        simp only [List.nil_append, List.cons.injEq] at h
        obtain ⟨rfl, _⟩ := h
        simp [hmarked]
      | cons first before1 =>
        simp only [List.cons_append, List.cons.injEq] at h
        obtain ⟨rfl, hrest⟩ := h
        simp only [List.length_cons, List.getElem?_cons_succ, List.any_cons]
        rw [ihget before1 filter after hrest, hsp1, Bool.or_assoc]
    simp only [should_parse_image_filters]
    split
    · rename_i hskip
      simp only [Bool.and_eq_true] at hskip
      exact key head sp length hlen (by simp [hskip.1, hskip.2]) (by simp [hskip.2])
    · rename_i hskip
      split
      · rename_i offset hsome
        rw [hsame] at hsome
        exact key _ true _ hnext (by
          rw [if_neg hskip, hsome]) (by simp [hsome])
      · rename_i hnone
        rw [hsame] at hnone
        exact key head sp _ hnext (by
          rw [if_neg hskip, hnone]) (by simp [hnone])

/-- The loop over the filters ends with `should_parse` set exactly when it was set before or some filter passes. -/
theorem should_parse_image_filters_iff (env : dsc_env) (path : String)
    (filters : List tbd_for_main_dsc_image_filter) (should_parse : Bool) (length : Nat)
    (hlen : length = 0 ∨ length = path.length) :
    (should_parse_image_filters env path filters should_parse length).2.1 = true ↔
      (should_parse = true
        ∨ ∃ f ∈ filters, (path_passes_through_filter env 0 path f).1.isSome = true) := by
  constructor
  · intro h
    rcases should_parse_image_filters_only env path filters should_parse length hlen h
      with h1 | h1
    · exact Or.inl h1
    · exact Or.inr (by simpa [List.any_eq_true] using h1)
  · exact should_parse_image_filters_passes env path filters should_parse length hlen

/-- C29: `should_parse_image` returns true exactly when an exact path not yet found equals the image path (same length and bytes) or a filter passes it; it marks exactly those exact paths as currently parsed; and it marks every passing filter, except that a filter whose found flag is set is left as it is when an exact path or an earlier filter has matched. -/
theorem should_parse_image_spec (env : dsc_env) (path_length_in : Nat)
    (filters : List tbd_for_main_dsc_image_filter) (paths : List tbd_for_main_dsc_image_path)
    (path : String) (hlen : path_length_in = 0 ∨ path_length_in = path.length) :
    ((should_parse_image env path_length_in filters paths path).should_parse = true ↔
        ((∃ p ∈ paths, p.flags.found_one = false ∧ p.length = path.length
            ∧ memcmp_equal p.string path path.length = true)
          ∨ ∃ f ∈ filters, (path_passes_through_filter env 0 path f).1.isSome = true))
      ∧ (should_parse_image env path_length_in filters paths path).paths
          = paths.map (fun p =>
              if p.flags.found_one = false ∧ p.length = path.length
                  ∧ memcmp_equal p.string path path.length = true then
                { p with flags := { p.flags with currently_parsing := true } }
              else p)
      ∧ (should_parse_image env path_length_in filters paths path).filters.length
          = filters.length
      ∧ ∀ (before : List tbd_for_main_dsc_image_filter)
          (filter : tbd_for_main_dsc_image_filter)
          (after : List tbd_for_main_dsc_image_filter),
          filters = before ++ filter :: after →
          (should_parse_image env path_length_in filters paths path).filters[before.length]?
            = some
                (if filter.flags.found_one
                    && (paths.any (fun p => !p.flags.found_one
                            && decide (p.length = path.length)
                            && memcmp_equal p.string path path.length)
                        || before.any (fun f =>
                            (path_passes_through_filter env 0 path f).1.isSome)) then filter
                 else
                  match (path_passes_through_filter env 0 path filter).1 with
                  | some offset =>
                    { filter with tmp_ptr := offset,
                                  flags := { filter.flags with currently_parsing := true } }
                  | none => filter) := by
  obtain ⟨hmarks, hiff⟩ := should_parse_image_paths_marks path path.length paths
  have hany : (should_parse_image_paths path path.length paths).2
      = paths.any (fun p => !p.flags.found_one && decide (p.length = path.length)
          && memcmp_equal p.string path path.length) := by
    rw [Bool.eq_iff_iff, hiff, List.any_eq_true]
    constructor
    · rintro ⟨p, hp, h1, h2, h3⟩
      exact ⟨p, hp, by simp [h1, h2, h3]⟩
    · rintro ⟨p, hp, h⟩
      simp only [Bool.and_eq_true, Bool.not_eq_true', decide_eq_true_eq] at h
      exact ⟨p, hp, h.1.1, h.1.2, h.2⟩
  unfold should_parse_image
  simp only
  by_cases hempty : paths.isEmpty = true
  · have hnil : paths = [] := List.isEmpty_iff.1 hempty
    subst hnil
    simp only [List.isEmpty_nil, Bool.not_true, Bool.false_eq_true, if_false, List.map_nil,
      List.any_nil, Bool.false_or]
    obtain ⟨hl, hget⟩ := should_parse_image_filters_marks env path filters false
      path_length_in hlen
    refine ⟨?_, trivial, hl, ?_⟩
    · rw [should_parse_image_filters_iff env path filters false path_length_in hlen]
      simp
    · intro before filter after h
      rw [hget before filter after h]
      simp
  · have hlength : (if path_length_in = 0 then path.length else path_length_in) = path.length := by
      rcases hlen with h | h
      · simp [h]
      · by_cases hz : path_length_in = 0
        · simp [hz]
        · simp [hz, h]
    simp only [hempty, Bool.not_false, if_true, hlength]
    obtain ⟨hl, hget⟩ := should_parse_image_filters_marks env path filters
      (should_parse_image_paths path path.length paths).2 path.length (Or.inr rfl)
    refine ⟨?_, hmarks, hl, ?_⟩
    · rw [should_parse_image_filters_iff env path filters _ path.length (Or.inr rfl), hiff]
    · intro before filter after h
      rw [hget before filter after h, hany]


/-- C29 at the image path `/usr/lib/libfoo.dylib`, one file filter and two exact paths. -/
theorem should_parse_image_spec_witness :
    (should_parse_image sample_dsc_env 0 [⟨"libfoo.dylib", 12, dsc_image_filter_type.file,
          { currently_parsing := false, found_one := false }, 0⟩]
        [libfoo_path false, libbar_path false] "/usr/lib/libfoo.dylib").should_parse = true
      ∧ (should_parse_image sample_dsc_env 0 [⟨"libfoo.dylib", 12, dsc_image_filter_type.file,
          { currently_parsing := false, found_one := false }, 0⟩]
        [libfoo_path false, libbar_path false] "/usr/lib/libfoo.dylib").paths
        = [{ libfoo_path false with flags := { currently_parsing := true, found_one := false } },
           libbar_path false] :=
  ⟨(should_parse_image_spec sample_dsc_env 0 [⟨"libfoo.dylib", 12, dsc_image_filter_type.file,
          { currently_parsing := false, found_one := false }, 0⟩]
        [libfoo_path false, libbar_path false] "/usr/lib/libfoo.dylib" (Or.inl rfl)).1.2
      (Or.inl ⟨libfoo_path false, by decide, by decide, by decide, by decide⟩),
   (should_parse_image_spec sample_dsc_env 0 [⟨"libfoo.dylib", 12, dsc_image_filter_type.file,
          { currently_parsing := false, found_one := false }, 0⟩]
        [libfoo_path false, libbar_path false] "/usr/lib/libfoo.dylib"
        (Or.inl rfl)).2.1.trans (by decide)⟩

/-! ### `src/path.c` -/

/-- Reading a whole string reads its characters. -/
theorem read_bytes_all (s : String) : read_bytes s 0 s.data.length = some s.data := by
  unfold read_bytes c_string_bytes
  rw [if_pos (by simp only [List.length_append, List.length_singleton]; omega)]
  congr 1
  rw [List.drop_zero, List.take_left']
  rfl

/-- Reading a string from an offset within it to its end reads the characters from that offset on. -/
theorem read_bytes_drop (s : String) (k : Nat) (h : k ≤ s.data.length) :
    read_bytes s k (s.data.length - k) = some (s.data.drop k) := by
  unfold read_bytes c_string_bytes
  rw [if_pos (by simp only [List.length_append, List.length_singleton]; omega)]
  congr 1
  rw [List.drop_append_of_le_length h, List.take_left']
  rw [List.length_drop]

/-- Writing bytes right behind a front, into a run long enough, puts them there and shortens the run. -/
theorem write_bytes_at (front : List Char) (m : Nat) (c : Char) (bytes : List Char)
    (h : bytes.length ≤ m) :
    write_bytes (front ++ List.replicate m c) front.length bytes
      = some (front ++ bytes ++ List.replicate (m - bytes.length) c) := by
  unfold write_bytes
  rw [if_pos (by simp; omega)]
  congr 1
  rw [List.take_left' rfl, List.drop_append_eq_append_drop]
  have h1 : List.drop (front.length + bytes.length) front = [] :=
    List.drop_eq_nil_of_le (by omega)
  have h2 : front.length + bytes.length - front.length = bytes.length := by omega
  rw [h1, h2, List.drop_replicate, List.nil_append]

/-- Writing bytes at the start of a run that a back follows replaces the first of the run. -/
theorem write_bytes_front (n : Nat) (c : Char) (back bytes : List Char)
    (h : bytes.length = n) :
    write_bytes (List.replicate n c ++ back) 0 bytes = some (bytes ++ back) := by
  unfold write_bytes
  rw [if_pos (by simp; omega)]
  congr 1
  simp only [List.take_zero, List.nil_append, Nat.zero_add]
  congr 1
  rw [List.drop_append_eq_append_drop]
  simp [h]

/-- In a zeroed buffer with room for them, the writes of `write_path_and_component` leave the path, the slash when one is needed, and the component from `component_iter` on, followed by the zeros left over. -/
theorem write_path_and_component_spec (path component : String) (needs_back_slash : Bool)
    (component_iter size : Nat) (hiter : component_iter ≤ component.data.length)
    (hsize : path.data.length + (if needs_back_slash then 1 else 0)
      + (component.data.length - component_iter) ≤ size) :
    write_path_and_component (List.replicate (size + 1) (Char.ofNat 0)) path path.data.length
        needs_back_slash component component_iter (component.data.length - component_iter)
      = some (path.data ++ (if needs_back_slash then ['/'] else [])
          ++ component.data.drop component_iter
          ++ List.replicate
              (size + 1 - (path.data.length + (if needs_back_slash then 1 else 0)
                + (component.data.length - component_iter))) (Char.ofNat 0)) := by
  have hdrop : (component.data.drop component_iter).length
      = component.data.length - component_iter := List.length_drop _ _
  generalize hstripped : component.data.drop component_iter = stripped at hdrop
  unfold write_path_and_component
  rw [read_bytes_all, read_bytes_drop component component_iter hiter, hstripped]
  generalize component.data.length - component_iter = n at hsize hdrop ⊢
  generalize hp : path.data = p at hsize ⊢
  cases needs_back_slash with
  | false =>
    simp only [Bool.false_eq_true, if_false, Option.some_bind, Nat.add_zero,
      List.append_nil] at hsize ⊢
    have h1 : List.replicate (size + 1) (Char.ofNat 0)
        = List.replicate p.length (Char.ofNat 0)
          ++ List.replicate (size + 1 - p.length) (Char.ofNat 0) := by
      rw [← List.replicate_add]
      congr 1
      omega
    rw [h1, write_bytes_front _ _ _ _ rfl, Option.some_bind]
    rw [write_bytes_at p (size + 1 - p.length) (Char.ofNat 0) stripped (by omega), hdrop]
    congr 3
    omega
  | true =>
    simp only [if_true, Option.some_bind] at hsize ⊢
    have h1 : List.replicate (size + 1) (Char.ofNat 0)
        = List.replicate p.length (Char.ofNat 0)
          ++ List.replicate (size + 1 - p.length) (Char.ofNat 0) := by
      rw [← List.replicate_add]
      congr 1
      omega
    have h2 := write_bytes_at (List.replicate p.length (Char.ofNat 0))
      (size + 1 - p.length) (Char.ofNat 0) ['/'] (by simp only [List.length_singleton]; omega)
    rw [List.length_replicate] at h2
    rw [h1, h2, Option.some_bind, List.append_assoc,
      write_bytes_front _ _ _ _ rfl, Option.some_bind]
    have h3 := write_bytes_at (p ++ ['/'])
      (size + 1 - p.length - 1) (Char.ofNat 0) stripped (by omega)
    simp only [List.length_append, List.length_singleton] at h3
    simp only [List.length_singleton, ← List.append_assoc]
    rw [h3, hdrop]
    congr 3
    omega

/-- In a buffer with room behind the front, the writes of `write_extension` put the dot when one is needed and the extension behind the front. -/
theorem write_extension_spec (front : List Char) (room : Nat) (needs_extension_dot : Bool)
    (extension : String)
    (hroom : (if needs_extension_dot then 1 else 0) + extension.data.length ≤ room) :
    write_extension (front ++ List.replicate room (Char.ofNat 0)) front.length
        needs_extension_dot (some extension) extension.data.length
      = some (front ++ (if needs_extension_dot then ['.'] else []) ++ extension.data
          ++ List.replicate
              (room - ((if needs_extension_dot then 1 else 0) + extension.data.length))
              (Char.ofNat 0)) := by
  unfold write_extension
  simp only
  rw [read_bytes_all]
  generalize extension.data = e at hroom ⊢
  cases needs_extension_dot with
  | false =>
    simp only [Bool.false_eq_true, if_false, Option.some_bind, Nat.add_zero, Nat.zero_add,
      List.append_nil] at hroom ⊢
    rw [write_bytes_at front room _ e hroom]
  | true =>
    simp only [if_true, Option.some_bind] at hroom ⊢
    rw [write_bytes_at front room _ ['.'] (by simp only [List.length_singleton]; omega),
      Option.some_bind]
    have h := write_bytes_at (front ++ ['.']) (room - 1) (Char.ofNat 0) e (by omega)
    simp only [List.length_append, List.length_singleton] at h
    simp only [List.length_singleton]
    rw [h]
    congr 3
    omega

/-- The loop of `path_get_end_of_row_of_slashes` on a NUL-free text followed by a NUL: nothing when the text is all slashes, otherwise one past the leading slashes. -/
theorem path_get_end_of_row_of_slashes_loop_spec :
    ∀ (rest : List Char) (iter : Nat), Char.ofNat 0 ∉ rest →
      path_get_end_of_row_of_slashes_loop (rest ++ [Char.ofNat 0]) iter
        = if rest.all path_is_slash_ch then none
          else some (iter + 1 + (rest.takeWhile path_is_slash_ch).length) := by
  intro rest
  induction rest with
  | nil => intro iter _; simp [path_get_end_of_row_of_slashes_loop]
  | cons ch rest ih =>
    intro iter hnul
    have hch : ch ≠ Char.ofNat 0 := fun h => hnul (h ▸ List.mem_cons_self _ _)
    have hrest : Char.ofNat 0 ∉ rest := fun h => hnul (List.mem_cons_of_mem _ h)
    rw [List.cons_append]
    simp only [path_get_end_of_row_of_slashes_loop, if_neg hch]
    by_cases hslash : path_is_slash_ch ch = true
    · rw [if_pos hslash, ih (iter + 1) hrest]
      simp only [List.all_cons, hslash, Bool.true_and, List.takeWhile_cons, if_true,
        List.length_cons]
      split
      · rfl
      · congr 1
        omega
    · rw [if_neg hslash]
      simp only [Bool.not_eq_true] at hslash
      simp [List.all_cons, hslash, List.takeWhile_cons]

/-- A NUL-free text followed by at least one NUL reads back as that text. -/
theorem c_string_at_terminated (text : List Char) (k : Nat) (h : Char.ofNat 0 ∉ text) :
    c_string_at (text ++ List.replicate (k + 1) (Char.ofNat 0)) 0 = String.mk text := by
  unfold c_string_at
  congr 1
  rw [List.drop_zero, List.replicate_succ]
  rw [List.takeWhile_append_of_pos]
  · simp
  · intro ch hch
    have : ch ≠ Char.ofNat 0 := fun hc => h (hc ▸ hch)
    simpa using this


/-- The byte at `path_length - 1` of a non-empty path is its last character. -/
theorem c_string_bytes_back (path : String) (h : path.data ≠ []) :
    (c_string_bytes path)[path.data.length - 1]? = some (string_back path) := by
  unfold c_string_bytes string_back
  rcases List.eq_nil_or_concat path.data with hnil | ⟨front, last, hdata⟩
  · exact absurd hnil h
  · rw [hdata]
    simp [List.getElem_append_right]

/-- Dropping as many elements as the longest passing run holds is dropping that run. -/
theorem drop_length_takeWhile {α : Type} (p : α → Bool) :
    ∀ (l : List α), l.drop (l.takeWhile p).length = l.dropWhile p := by
  intro l
  induction l with
  | nil => rfl
  | cons a rest ih =>
    by_cases ha : p a = true
    · simp [List.takeWhile_cons, List.dropWhile_cons, ha, ih]
    · simp [List.takeWhile_cons, List.dropWhile_cons, ha]

/-- Where the copy of the component starts (path.c 147-159): nowhere for a non-empty row of slashes, otherwise behind the leading slashes. -/
theorem component_iter_spec (component : String) (hnul : Char.ofNat 0 ∉ component.data) :
    (if path_is_slash_ch (string_front component) then path_get_end_of_row_of_slashes component
      else some 0)
      = if component.data ≠ [] ∧ component.data.all path_is_slash_ch = true then none
        else some (component.data.takeWhile path_is_slash_ch).length := by
  unfold string_front path_get_end_of_row_of_slashes c_string_bytes
  cases hdata : component.data with
  | nil => simp [path_is_slash_ch]
  | cons ch rest =>
    rw [hdata] at hnul
    have hrest : Char.ofNat 0 ∉ rest := fun h => hnul (List.mem_cons_of_mem _ h)
    simp only [List.headD_cons, List.cons_append, List.drop_succ_cons, List.drop_zero, ne_eq,
      reduceCtorEq, not_false_eq_true, true_and, List.all_cons, List.takeWhile_cons]
    by_cases hslash : path_is_slash_ch ch = true
    · rw [if_pos hslash, path_get_end_of_row_of_slashes_loop_spec rest 0 hrest]
      simp only [hslash, Bool.true_and, if_true, List.length_cons]
      split
      · rfl
      · congr 1
        omega
    · rw [if_neg hslash]
      simp only [Bool.not_eq_true] at hslash
      simp [hslash]

/-- The bytes `path_append_component_with_len` returns for a non-empty path and a component passed with their own lengths. -/
theorem path_append_component_with_len_bytes (path component : String)
    (hpath : path.data ≠ []) (hnul : Char.ofNat 0 ∉ component.data) :
    path_append_component_with_len (some path) path.length (some component) component.length
      = if component.data ≠ [] ∧ component.data.all path_is_slash_ch = true then
          path_result.allocated (c_string_bytes path)
        else
          path_result.allocated
            (path.data ++ (if path_is_slash_ch (string_back path) then [] else ['/'])
              ++ component.data.dropWhile path_is_slash_ch
              ++ List.replicate ((component.data.takeWhile path_is_slash_ch).length + 1)
                  (Char.ofNat 0)) := by
  have hl : path.length = path.data.length := rfl
  have hc : component.length = component.data.length := rfl
  have hpos : path.data.length ≠ 0 := fun h => hpath (List.length_eq_zero.1 h)
  rw [hl, hc]
  unfold path_append_component_with_len
  simp only
  rw [if_neg hpos, c_string_bytes_back path hpath]
  simp only
  rw [component_iter_spec component hnul]
  by_cases hall : component.data ≠ [] ∧ component.data.all path_is_slash_ch = true
  · rw [if_pos hall, if_pos hall]
  · rw [if_neg hall, if_neg hall]
    have hle : (component.data.takeWhile path_is_slash_ch).length ≤ component.data.length :=
      (takeWhile_run path_is_slash_ch component.data).1
    simp only
    rw [if_neg (by omega)]
    have hw := write_path_and_component_spec path component (!path_is_slash_ch (string_back path))
      (component.data.takeWhile path_is_slash_ch).length
      (path.data.length + component.data.length
        + (if (!path_is_slash_ch (string_back path)) = true then 1 else 0)) hle (by omega)
    rw [hw, drop_length_takeWhile]
    simp only
    congr 2
    · congr 2
      cases path_is_slash_ch (string_back path) <;> rfl
    · congr 1
      omega


/-- The bytes `path_append_component_and_extension_with_len` returns for a non-empty path, a component and an extension passed with their own lengths. -/
theorem path_append_component_and_extension_with_len_bytes (path component extension : String)
    (hpath : path.data ≠ []) (hnul : Char.ofNat 0 ∉ component.data) :
    path_append_component_and_extension_with_len (some path) path.length (some component)
        component.length (some extension) extension.length
      = if component.data ≠ [] ∧ component.data.all path_is_slash_ch = true then
          path_result.allocated (c_string_bytes path)
        else
          path_result.allocated
            (path.data ++ (if path_is_slash_ch (string_back path) then [] else ['/'])
              ++ component.data.dropWhile path_is_slash_ch
              ++ (if string_front extension != '.' then ['.'] else [])
              ++ extension.data
              ++ List.replicate ((component.data.takeWhile path_is_slash_ch).length + 1)
                  (Char.ofNat 0)) := by
  have hl : path.length = path.data.length := rfl
  have hc : component.length = component.data.length := rfl
  have he : extension.length = extension.data.length := rfl
  have hpos : path.data.length ≠ 0 := fun h => hpath (List.length_eq_zero.1 h)
  rw [hl, hc, he]
  unfold path_append_component_and_extension_with_len
  simp only
  rw [if_neg hpos, c_string_bytes_back path hpath]
  simp only
  rw [component_iter_spec component hnul]
  by_cases hall : component.data ≠ [] ∧ component.data.all path_is_slash_ch = true
  · rw [if_pos hall, if_pos hall]
  · rw [if_neg hall, if_neg hall]
    have hle : (component.data.takeWhile path_is_slash_ch).length ≤ component.data.length :=
      (takeWhile_run path_is_slash_ch component.data).1
    simp only
    rw [if_neg (by omega)]
    have hw := write_path_and_component_spec path component (!path_is_slash_ch (string_back path))
      (component.data.takeWhile path_is_slash_ch).length
      (path.data.length + component.data.length + extension.data.length
        + (if (!path_is_slash_ch (string_back path)) = true then 1 else 0)
        + (if (string_front extension != '.') = true then 1 else 0)) hle (by omega)
    rw [hw, drop_length_takeWhile, Option.some_bind]
    have hfront : path.data.length
        + (if (!path_is_slash_ch (string_back path)) = true then 1 else 0)
        + (component.data.length - (component.data.takeWhile path_is_slash_ch).length)
        = (path.data ++ (if (!path_is_slash_ch (string_back path)) = true then ['/'] else [])
            ++ component.data.dropWhile path_is_slash_ch).length := by
      rw [← drop_length_takeWhile]
      simp only [List.length_append, List.length_drop]
      cases path_is_slash_ch (string_back path) <;> rfl
    rw [hfront]
    have hx := write_extension_spec
      (path.data ++ (if (!path_is_slash_ch (string_back path)) = true then ['/'] else [])
        ++ component.data.dropWhile path_is_slash_ch)
      (path.data.length + component.data.length + extension.data.length
        + (if (!path_is_slash_ch (string_back path)) = true then 1 else 0)
        + (if (string_front extension != '.') = true then 1 else 0) + 1
        - (path.data ++ (if (!path_is_slash_ch (string_back path)) = true then ['/'] else [])
            ++ component.data.dropWhile path_is_slash_ch).length)
      (string_front extension != '.') extension (by rw [← hfront]; omega)
    rw [hx]
    simp only
    congr 2
    · congr 4
      cases path_is_slash_ch (string_back path) <;> rfl
    · congr 1
      rw [← hfront]
      omega

/-- The bytes `path_append_component_and_extension_with_len` returns for a non-empty path and a component passed with their own lengths, and a NULL extension with any length. -/
theorem path_append_null_extension_with_len_bytes (path component : String)
    (extension_length : Nat) (hpath : path.data ≠ [])
    (hnul : Char.ofNat 0 ∉ component.data) :
    path_append_component_and_extension_with_len (some path) path.length (some component)
        component.length none extension_length
      = if component.data ≠ [] ∧ component.data.all path_is_slash_ch = true then
          path_result.allocated (c_string_bytes path)
        else
          path_result.allocated
            (path.data ++ (if path_is_slash_ch (string_back path) then [] else ['/'])
              ++ component.data.dropWhile path_is_slash_ch
              ++ List.replicate
                  ((component.data.takeWhile path_is_slash_ch).length + extension_length + 1)
                  (Char.ofNat 0)) := by
  have hl : path.length = path.data.length := rfl
  have hc : component.length = component.data.length := rfl
  have hpos : path.data.length ≠ 0 := fun h => hpath (List.length_eq_zero.1 h)
  rw [hl, hc]
  unfold path_append_component_and_extension_with_len
  simp only
  rw [if_neg hpos, c_string_bytes_back path hpath]
  simp only
  rw [component_iter_spec component hnul]
  by_cases hall : component.data ≠ [] ∧ component.data.all path_is_slash_ch = true
  · rw [if_pos hall, if_pos hall]
  · rw [if_neg hall, if_neg hall]
    have hle : (component.data.takeWhile path_is_slash_ch).length ≤ component.data.length :=
      (takeWhile_run path_is_slash_ch component.data).1
    simp only
    rw [if_neg (by omega)]
    simp only [Bool.false_eq_true, if_false, Nat.add_zero]
    have hw := write_path_and_component_spec path component (!path_is_slash_ch (string_back path))
      (component.data.takeWhile path_is_slash_ch).length
      (path.data.length + component.data.length + extension_length
        + (if (!path_is_slash_ch (string_back path)) = true then 1 else 0)) hle (by omega)
    rw [hw, drop_length_takeWhile, Option.some_bind]
    simp only [write_extension]
    congr 2
    · congr 2
      cases path_is_slash_ch (string_back path) <;> rfl
    · congr 1
      omega

/-- A read that stays in bounds delivers as many bytes as were asked for. -/
theorem read_bytes_length (s : String) (offset count : Nat) (bytes : List Char)
    (h : read_bytes s offset count = some bytes) : bytes.length = count := by
  unfold read_bytes at h
  split at h
  · rename_i hle
    simp only [Option.some.injEq] at h
    subst h
    rw [List.length_take, List.length_drop]
    omega
  · cases h

/-- A write that stays within a buffer does the same to the buffer with bytes added behind it. -/
theorem write_bytes_padded (buffer pad : List Char) (offset : Nat) (bytes : List Char)
    (h : offset + bytes.length ≤ buffer.length) :
    ∃ written, write_bytes buffer offset bytes = some written
      ∧ written.length = buffer.length
      ∧ write_bytes (buffer ++ pad) offset bytes = some (written ++ pad) := by
  unfold write_bytes
  rw [if_pos h, if_pos (by rw [List.length_append]; omega)]
  refine ⟨_, rfl, ?_, ?_⟩
  · simp only [List.length_append, List.length_take, List.length_drop]
    omega
  · congr 1
    rw [List.take_append_of_le_length (by omega),
      List.drop_append_of_le_length h]
    simp only [List.append_assoc]

/-- Bytes added behind a buffer that the writes of `write_path_and_component` stay within are left behind what is written. -/
theorem write_path_and_component_padded (buffer pad : List Char) (path : String)
    (path_length : Nat) (needs_back_slash : Bool) (component : String)
    (component_iter component_copy_length : Nat)
    (h : path_length + (if needs_back_slash then 1 else 0) + component_copy_length
      < buffer.length) :
    write_path_and_component (buffer ++ pad) path path_length needs_back_slash component
        component_iter component_copy_length
      = (write_path_and_component buffer path path_length needs_back_slash component
          component_iter component_copy_length).map (fun written => written ++ pad) := by
  unfold write_path_and_component
  have hslash : ∃ slashed,
      (if needs_back_slash = true then write_bytes buffer path_length ['/'] else some buffer)
        = some slashed
      ∧ slashed.length = buffer.length
      ∧ (if needs_back_slash = true then write_bytes (buffer ++ pad) path_length ['/']
          else some (buffer ++ pad)) = some (slashed ++ pad) := by
    cases needs_back_slash with
    | false => exact ⟨buffer, rfl, rfl, rfl⟩
    | true =>
      simp only [if_true] at h ⊢
      exact write_bytes_padded buffer pad path_length ['/']
        (by simp only [List.length_singleton]; omega)
  obtain ⟨slashed, hs1, hs2, hs3⟩ := hslash
  rw [hs1, hs3, Option.some_bind, Option.some_bind]
  cases hpath : read_bytes path 0 path_length with
  | none => rfl
  | some path_bytes =>
    have hpl := read_bytes_length path 0 path_length path_bytes hpath
    obtain ⟨with_path, hw1, hw2, hw3⟩ := write_bytes_padded slashed pad 0 path_bytes
      (by omega)
    rw [Option.some_bind, Option.some_bind, hw1, hw3, Option.some_bind, Option.some_bind]
    cases hcomponent : read_bytes component component_iter component_copy_length with
    | none => rfl
    | some component_bytes =>
      have hcl := read_bytes_length component _ _ component_bytes hcomponent
      obtain ⟨written, hc1, _, hc3⟩ := write_bytes_padded with_path pad
        (path_length + (if needs_back_slash = true then 1 else 0)) component_bytes (by omega)
      rw [Option.some_bind, Option.some_bind, hc1, hc3]
      rfl

/-- NUL bytes added behind a buffer do not change the string at its start. -/
theorem c_string_at_padded (bytes : List Char) (k : Nat) :
    c_string_at (bytes ++ List.replicate k (Char.ofNat 0)) 0 = c_string_at bytes 0 := by
  unfold c_string_at
  congr 1
  rw [List.drop_zero, List.drop_zero]
  induction bytes with
  | nil =>
    cases k with
    | zero => rfl
    | succ k => simp [List.replicate_succ, List.takeWhile_cons]
  | cons ch rest ih =>
    simp only [List.cons_append, List.takeWhile_cons]
    split
    · rw [ih]
    · rfl

/-- With a NULL extension `path_append_component_and_extension_with_len` returns what `path_append_component_with_len` returns, with NUL bytes added behind an allocated result. -/
theorem path_append_null_extension_bytes (path : Option String) (path_length : Nat)
    (component : Option String) (component_length extension_length : Nat) :
    ∃ k, path_append_component_and_extension_with_len path path_length component
        component_length none extension_length
      = match path_append_component_with_len path path_length component component_length with
        | path_result.allocated bytes =>
          path_result.allocated (bytes ++ List.replicate k (Char.ofNat 0))
        | path_result.null => path_result.null
        | path_result.fault => path_result.fault := by
  cases path with
  | none =>
    cases component with
    | none => exact ⟨0, rfl⟩
    | some component =>
      exact ⟨0, by simp [path_append_component_and_extension_with_len,
        path_append_component_with_len]⟩
  | some path =>
    cases component with
    | none =>
      exact ⟨0, by simp [path_append_component_and_extension_with_len,
        path_append_component_with_len]⟩
    | some component =>
      unfold path_append_component_and_extension_with_len path_append_component_with_len
      simp only
      by_cases hzero : path_length = 0
      · rw [if_pos hzero, if_pos hzero]
        exact ⟨0, rfl⟩
      · rw [if_neg hzero, if_neg hzero]
        cases (c_string_bytes path)[path_length - 1]? with
        | none => exact ⟨0, rfl⟩
        | some path_back =>
          simp only
          cases (if path_is_slash_ch (string_front component) = true then
              path_get_end_of_row_of_slashes component else some 0) with
          | none => exact ⟨0, by simp⟩
          | some component_iter =>
            simp only
            by_cases hunder : component_length < component_iter
            · rw [if_pos hunder, if_pos hunder]
              exact ⟨0, rfl⟩
            · rw [if_neg hunder, if_neg hunder]
              simp only [Bool.false_eq_true, if_false, Nat.add_zero, write_extension,
                Option.bind_some]
              have hsplit : List.replicate
                  (path_length + component_length + extension_length
                    + (if (!path_is_slash_ch path_back) = true then 1 else 0) + 1)
                  (Char.ofNat 0)
                  = List.replicate
                      (path_length + component_length
                        + (if (!path_is_slash_ch path_back) = true then 1 else 0) + 1)
                      (Char.ofNat 0)
                    ++ List.replicate extension_length (Char.ofNat 0) := by
                rw [← List.replicate_add]
                congr 1
                omega
              rw [hsplit, write_path_and_component_padded _ _ _ _ _ _ _ _ (by
                rw [List.length_replicate]
                omega)]
              cases write_path_and_component
                  (List.replicate
                    (path_length + component_length
                      + (if (!path_is_slash_ch path_back) = true then 1 else 0) + 1)
                    (Char.ofNat 0))
                  path path_length (!path_is_slash_ch path_back) component component_iter
                  (component_length - component_iter) with
              | none => exact ⟨0, rfl⟩
              | some written => exact ⟨extension_length, rfl⟩

/-- The buffer `path_append_component_with_len` returns is a NUL-free text followed by at least one NUL; the text and, for a buffer allocated here, its size. -/
theorem path_append_component_with_len_text (path component : String)
    (hpath : path.data ≠ []) (hp : Char.ofNat 0 ∉ path.data)
    (hc : Char.ofNat 0 ∉ component.data) :
    ∃ text k,
      path_append_component_with_len (some path) path.length (some component)
          component.length
        = path_result.allocated (text ++ List.replicate (k + 1) (Char.ofNat 0))
      ∧ Char.ofNat 0 ∉ text
      ∧ text = (if component.data ≠ [] ∧ component.data.all path_is_slash_ch = true then
            path.data
          else
            path.data ++ (if path_is_slash_ch (string_back path) then [] else ['/'])
              ++ component.data.dropWhile path_is_slash_ch)
      ∧ (¬ (component.data ≠ [] ∧ component.data.all path_is_slash_ch = true) →
          text.length + k = path.length + component.length
            + (if path_is_slash_ch (string_back path) then 0 else 1)) := by
  rw [path_append_component_with_len_bytes path component hpath hc]
  have hdrop : Char.ofNat 0 ∉ component.data.dropWhile path_is_slash_ch := fun h =>
    hc ((List.dropWhile_suffix path_is_slash_ch).subset h)
  by_cases hall : component.data ≠ [] ∧ component.data.all path_is_slash_ch = true
  · rw [if_pos hall, if_pos hall]
    exact ⟨path.data, 0, rfl, hp, rfl, fun h => absurd hall h⟩
  · rw [if_neg hall, if_neg hall]
    refine ⟨_, (component.data.takeWhile path_is_slash_ch).length, rfl, ?_, rfl, fun _ => ?_⟩
    · intro h
      rcases List.mem_append.1 h with h | h
      · rcases List.mem_append.1 h with h | h
        · exact hp h
        · cases hs : path_is_slash_ch (string_back path) with
          | true => rw [hs] at h; cases h
          | false =>
            rw [hs] at h
            simp only [Bool.false_eq_true, if_false, List.mem_singleton] at h
            exact absurd h (by decide)
      · exact hdrop h
    · have hlen : (component.data.takeWhile path_is_slash_ch).length
          + (component.data.dropWhile path_is_slash_ch).length = component.data.length := by
        rw [← List.length_append, List.takeWhile_append_dropWhile]
      have hl : path.length = path.data.length := rfl
      have hcl : component.length = component.data.length := rfl
      rw [hl, hcl]
      simp only [List.length_append]
      cases path_is_slash_ch (string_back path) <;> simp <;> omega

/-- The buffer `path_append_component_and_extension_with_len` returns is a NUL-free text followed by at least one NUL; the text and, for a buffer allocated here, its size. -/
theorem path_append_component_and_extension_with_len_text (path component extension : String)
    (hpath : path.data ≠ []) (hp : Char.ofNat 0 ∉ path.data)
    (hc : Char.ofNat 0 ∉ component.data) (he : Char.ofNat 0 ∉ extension.data) :
    ∃ text k,
      path_append_component_and_extension_with_len (some path) path.length (some component)
          component.length (some extension) extension.length
        = path_result.allocated (text ++ List.replicate (k + 1) (Char.ofNat 0))
      ∧ Char.ofNat 0 ∉ text
      ∧ text = (if component.data ≠ [] ∧ component.data.all path_is_slash_ch = true then
            path.data
          else
            path.data ++ (if path_is_slash_ch (string_back path) then [] else ['/'])
              ++ component.data.dropWhile path_is_slash_ch
              ++ (if string_front extension != '.' then ['.'] else [])
              ++ extension.data)
      ∧ (¬ (component.data ≠ [] ∧ component.data.all path_is_slash_ch = true) →
          text.length + k = path.length + component.length + extension.length
            + (if path_is_slash_ch (string_back path) then 0 else 1)
            + (if string_front extension != '.' then 1 else 0)) := by
  rw [path_append_component_and_extension_with_len_bytes path component extension hpath hc]
  have hdrop : Char.ofNat 0 ∉ component.data.dropWhile path_is_slash_ch := fun h =>
    hc ((List.dropWhile_suffix path_is_slash_ch).subset h)
  by_cases hall : component.data ≠ [] ∧ component.data.all path_is_slash_ch = true
  · rw [if_pos hall, if_pos hall]
    exact ⟨path.data, 0, rfl, hp, rfl, fun h => absurd hall h⟩
  · rw [if_neg hall, if_neg hall]
    refine ⟨_, (component.data.takeWhile path_is_slash_ch).length, rfl, ?_, rfl, fun _ => ?_⟩
    · intro h
      rcases List.mem_append.1 h with h | h
      · rcases List.mem_append.1 h with h | h
        · rcases List.mem_append.1 h with h | h
          · rcases List.mem_append.1 h with h | h
            · exact hp h
            · cases hs : path_is_slash_ch (string_back path) with
              | true => rw [hs] at h; cases h
              | false =>
                rw [hs] at h
                simp only [Bool.false_eq_true, if_false, List.mem_singleton] at h
                exact absurd h (by decide)
          · exact hdrop h
        · cases hd : (string_front extension != '.') with
          | false => rw [hd] at h; cases h
          | true =>
            rw [hd] at h
            simp only [if_true, List.mem_singleton] at h
            exact absurd h (by decide)
      · exact he h
    · have hlen : (component.data.takeWhile path_is_slash_ch).length
          + (component.data.dropWhile path_is_slash_ch).length = component.data.length := by
        rw [← List.length_append, List.takeWhile_append_dropWhile]
      have hl : path.length = path.data.length := rfl
      have hcl : component.length = component.data.length := rfl
      have hel : extension.length = extension.data.length := rfl
      rw [hl, hcl, hel]
      simp only [List.length_append]
      cases path_is_slash_ch (string_back path) <;>
        cases (string_front extension != '.') <;> simp <;> omega

/-- C23: for a path of length at least one and a component, both passed with
their own lengths, `path_append_component_with_len` returns a copy of `path`
when the component is non-empty and all slashes, and otherwise `path`, then one
`/` exactly when `path` does not end with one, then the component without its
leading slashes. -/
theorem path_append_component_with_len_spec (path component : String)
    (hpath : path.data ≠ []) (hp : Char.ofNat 0 ∉ path.data)
    (hc : Char.ofNat 0 ∉ component.data) :
    (path_append_component_with_len (some path) path.length (some component)
        component.length).string
      = some (if component.data ≠ [] ∧ component.data.all path_is_slash_ch = true then path
          else
            String.mk (path.data ++ (if path_is_slash_ch (string_back path) then [] else ['/'])
              ++ component.data.dropWhile path_is_slash_ch)) := by
  obtain ⟨text, k, hresult, hnul, htext, _⟩ :=
    path_append_component_with_len_text path component hpath hp hc
  rw [hresult]
  simp only [path_result.string]
  rw [c_string_at_terminated text k hnul, htext]
  by_cases hall : component.data ≠ [] ∧ component.data.all path_is_slash_ch = true
  · rw [if_pos hall, if_pos hall]
  · rw [if_neg hall, if_neg hall]

/-- C23 at the path `/out` and the component `//usr/lib/libfoo.dylib`. -/
theorem path_append_component_with_len_spec_witness :
    (path_append_component_with_len (some "/out") ( "/out").length
        (some "//usr/lib/libfoo.dylib") ( "//usr/lib/libfoo.dylib").length).string
      = some "/out/usr/lib/libfoo.dylib" :=
  (path_append_component_with_len_spec "/out" "//usr/lib/libfoo.dylib" (by decide) (by decide)
    (by decide)).trans (by decide)

/-- C24, counterexample: for the path `/out`, the component `/` and the
extension `tbd` the result is `/out`, the same as without an extension, and not
`/out.tbd`. -/
theorem path_append_extension_dropped :
    (path_append_component_with_len (some "/out") 4 (some "/") 1).string = some "/out"
      ∧ (path_append_component_and_extension_with_len (some "/out") 4 (some "/") 1
          (some "tbd") 3).string = some "/out"
      ∧ (path_append_component_and_extension_with_len (some "/out") 4 (some "/") 1
          (some "tbd") 3).string ≠ some ("/out" ++ "." ++ "tbd") := by
  decide

/-- C24, amended: when the component is not a non-empty row of slashes the
result is that of `path_append_component_with_len` followed by the extension,
with a `.` in between exactly when the extension does not begin with one; when
it is, the result is a copy of `path` and the extension is left out. -/
theorem path_append_component_and_extension_with_len_spec (path component extension : String)
    (hpath : path.data ≠ []) (hp : Char.ofNat 0 ∉ path.data)
    (hc : Char.ofNat 0 ∉ component.data) (he : Char.ofNat 0 ∉ extension.data) :
    (path_append_component_and_extension_with_len (some path) path.length (some component)
        component.length (some extension) extension.length).string
      = if component.data ≠ [] ∧ component.data.all path_is_slash_ch = true then some path
        else
          (path_append_component_with_len (some path) path.length (some component)
              component.length).string.map
            (fun appended =>
              appended ++ (if string_front extension != '.' then "." else "") ++ extension) := by
  obtain ⟨text, k, hresult, hnul, htext, _⟩ :=
    path_append_component_and_extension_with_len_text path component extension hpath hp hc he
  obtain ⟨text0, k0, hresult0, hnul0, htext0, _⟩ :=
    path_append_component_with_len_text path component hpath hp hc
  rw [hresult, hresult0]
  simp only [path_result.string]
  rw [c_string_at_terminated text k hnul, c_string_at_terminated text0 k0 hnul0, htext, htext0]
  by_cases hall : component.data ≠ [] ∧ component.data.all path_is_slash_ch = true
  · rw [if_pos hall, if_pos hall]
  · rw [if_neg hall, if_neg hall, if_neg hall]
    simp only [Option.map_some']
    congr 1
    cases (string_front extension != '.') <;> simp [String.ext_iff]

/-- C24 as amended, at the path `/out`, the component `//usr/lib/libfoo.dylib` and the extension `tbd`. -/
theorem path_append_component_and_extension_with_len_spec_witness :
    (path_append_component_and_extension_with_len (some "/out") ( "/out").length
        (some "//usr/lib/libfoo.dylib") ( "//usr/lib/libfoo.dylib").length
        (some "tbd") ( "tbd").length).string
      = some "/out/usr/lib/libfoo.dylib.tbd" :=
  (path_append_component_and_extension_with_len_spec "/out" "//usr/lib/libfoo.dylib" "tbd"
    (by decide) (by decide) (by decide) (by decide)).trans (by decide)

/-- C27: with a NULL extension `path_append_component_and_extension_with_len`
returns the same string as `path_append_component_with_len`, for every path and
component (NULL included) and all length arguments; it returns NULL, or reads
or writes out of bounds, exactly when the other does. -/
theorem path_append_with_null_extension (path : Option String) (path_length : Nat)
    (component : Option String) (component_length extension_length : Nat) :
    (path_append_component_and_extension_with_len path path_length component component_length
        none extension_length).string
        = (path_append_component_with_len path path_length component component_length).string
      ∧ (path_append_component_and_extension_with_len path path_length component
          component_length none extension_length = path_result.null
        ↔ path_append_component_with_len path path_length component component_length
          = path_result.null)
      ∧ (path_append_component_and_extension_with_len path path_length component
          component_length none extension_length = path_result.fault
        ↔ path_append_component_with_len path path_length component component_length
          = path_result.fault) := by
  obtain ⟨k, hk⟩ := path_append_null_extension_bytes path path_length component
    component_length extension_length
  rw [hk]
  cases path_append_component_with_len path path_length component component_length with
  | null => exact ⟨rfl, Iff.rfl, Iff.rfl⟩
  | fault => exact ⟨rfl, Iff.rfl, Iff.rfl⟩
  | allocated bytes =>
    simp only [path_result.string]
    exact ⟨by rw [c_string_at_padded],
      ⟨fun h => (by cases h), fun h => (by cases h)⟩,
      ⟨fun h => (by cases h), fun h => (by cases h)⟩⟩

/-- C28: with length arguments equal to the strings' lengths and a path of
length at least one, neither function reads or writes out of bounds; the buffer
is the text written followed by at least one NUL, the text holds no NUL, and in
a buffer of `combined_length + 1` bytes the text is at most `combined_length`
bytes long. With a NULL extension the same holds for every `extension_length`. -/
theorem path_append_stays_in_buffer (path component extension : String)
    (hpath : path.data ≠ []) (hp : Char.ofNat 0 ∉ path.data)
    (hc : Char.ofNat 0 ∉ component.data) (he : Char.ofNat 0 ∉ extension.data) :
    (∃ text k,
        path_append_component_with_len (some path) path.length (some component)
            component.length
          = path_result.allocated (text ++ List.replicate (k + 1) (Char.ofNat 0))
        ∧ Char.ofNat 0 ∉ text
        ∧ (¬ (component.data ≠ [] ∧ component.data.all path_is_slash_ch = true) →
            text.length + k = path.length + component.length
              + (if path_is_slash_ch (string_back path) then 0 else 1)))
      ∧ (∃ text k,
        path_append_component_and_extension_with_len (some path) path.length (some component)
            component.length (some extension) extension.length
          = path_result.allocated (text ++ List.replicate (k + 1) (Char.ofNat 0))
        ∧ Char.ofNat 0 ∉ text
        ∧ (¬ (component.data ≠ [] ∧ component.data.all path_is_slash_ch = true) →
            text.length + k = path.length + component.length + extension.length
              + (if path_is_slash_ch (string_back path) then 0 else 1)
              + (if string_front extension != '.' then 1 else 0)))
      ∧ (∀ extension_length, ∃ text k,
        path_append_component_and_extension_with_len (some path) path.length (some component)
            component.length none extension_length
          = path_result.allocated (text ++ List.replicate (k + 1) (Char.ofNat 0))
        ∧ Char.ofNat 0 ∉ text
        ∧ (¬ (component.data ≠ [] ∧ component.data.all path_is_slash_ch = true) →
            text.length + k = path.length + component.length + extension_length
              + (if path_is_slash_ch (string_back path) then 0 else 1))) := by
  obtain ⟨text, k, hresult, hnul, htext, hsize⟩ :=
    path_append_component_with_len_text path component hpath hp hc
  obtain ⟨text1, k1, hresult1, hnul1, _, hsize1⟩ :=
    path_append_component_and_extension_with_len_text path component extension hpath hp hc he
  refine ⟨⟨text, k, hresult, hnul, hsize⟩, ⟨text1, k1, hresult1, hnul1, hsize1⟩, ?_⟩
  intro extension_length
  rw [path_append_null_extension_with_len_bytes path component extension_length hpath hc]
  by_cases hall : component.data ≠ [] ∧ component.data.all path_is_slash_ch = true
  · rw [if_pos hall]
    exact ⟨path.data, 0, rfl, hp, fun h => absurd hall h⟩
  · rw [if_neg hall]
    rw [if_neg hall] at htext
    rw [htext] at hnul
    refine ⟨_, (component.data.takeWhile path_is_slash_ch).length + extension_length, rfl,
      hnul, fun _ => ?_⟩
    have hlen : (component.data.takeWhile path_is_slash_ch).length
        + (component.data.dropWhile path_is_slash_ch).length = component.data.length := by
      rw [← List.length_append, List.takeWhile_append_dropWhile]
    have hl : path.length = path.data.length := rfl
    have hcl : component.length = component.data.length := rfl
    rw [hl, hcl]
    simp only [List.length_append]
    cases path_is_slash_ch (string_back path) <;> simp <;> omega

/-- C28 at the path `/out`, the component `//a` and the extension `tbd`. -/
theorem path_append_stays_in_buffer_witness :
    ((String.data "/out") ≠ [] ∧ Char.ofNat 0 ∉ (String.data "/out"))
      ∧ ∃ text k,
        path_append_component_and_extension_with_len (some "/out") ( "/out").length
            (some "//a") ( "//a").length (some "tbd") ( "tbd").length
          = path_result.allocated (text ++ List.replicate (k + 1) (Char.ofNat 0))
        ∧ Char.ofNat 0 ∉ text
        ∧ (¬ ((String.data "//a") ≠ [] ∧ (String.data "//a").all path_is_slash_ch = true) →
            text.length + k = ( "/out").length + ( "//a").length + ( "tbd").length
              + (if path_is_slash_ch (string_back "/out") then 0 else 1)
              + (if string_front "tbd" != '.' then 1 else 0)) :=
  ⟨⟨by decide, by decide⟩,
    (path_append_stays_in_buffer "/out" "//a" "tbd" (by decide) (by decide) (by decide)
      (by decide)).2.1⟩

end Tbd
